import Mathlib

/-!
# Early value propagation (`src/coreclr/jit/earlyprop.cpp`)

A shallow embedding of the SSA-based early value propagation phase of the JIT:
null-check folding and the removal of bounds checks made redundant by a
constant array length.

The IR is a pointer graph.  A `GenTree*`, `Statement*` or `BasicBlock*` is an
index (`NodeId`, `StmtId`, `BlockId`); the method being compiled is a
`Compiler` value that maps indices to records.  A pointer the source tests
against `nullptr` is an `Option`.  Code of the JIT that `earlyprop.cpp` calls
but does not define (node classification, morphing, range-check removal, ...)
is collected in `JitHost` and taken as a parameter.
-/

namespace EarlyProp

/-! ## Data model -/

/-- A `GenTree*`. -/
abbrev NodeId := Nat

/-- A `Statement*`. -/
abbrev StmtId := Nat

/-- A `BasicBlock*`. -/
abbrev BlockId := Nat

/-- The node operators that `earlyprop.cpp` names; every other operator of the
JIT is `GT_OTHER k`. -/
inductive genTreeOps where
  | GT_LCL_VAR
  | GT_STORE_LCL_VAR
  | GT_ADD
  | GT_COMMA
  | GT_NULLCHECK
  | GT_ARR_LENGTH
  | GT_BOUNDS_CHECK
  | GT_OTHER (code : Nat)
  deriving DecidableEq, Repr

/-- The node types that `earlyprop.cpp` names (`TYP_VOID`, in an assertion);
every other type is `TYP_OTHER k`. -/
inductive var_types where
  | TYP_VOID
  | TYP_OTHER (code : Nat)
  deriving DecidableEq, Repr

/-- The bits of `GenTree::gtFlags` that `earlyprop.cpp` reads or writes, one
Boolean per bit: `(t->gtFlags & F) != 0` is the field `F`. -/
structure GenTreeFlags where
  GTF_ASG : Bool
  GTF_CALL : Bool
  GTF_EXCEPT : Bool
  GTF_GLOB_REF : Bool
  GTF_ORDER_SIDEEFF : Bool
  GTF_DONT_CSE : Bool
  GTF_IND_NONFAULTING : Bool
  deriving DecidableEq, Repr

/-- The fields of a `GenTree` node that `earlyprop.cpp` reads or writes.
`gtNext` and `gtPrev` are tested against `nullptr` by the source; the operands
are dereferenced without a test. -/
structure GenTree where
  gtOper : genTreeOps
  gtType : var_types
  gtFlags : GenTreeFlags
  gtNext : Option NodeId
  gtPrev : Option NodeId
  /-- The first operand: `gtGetOp1()`, `AsOp()->gtOp1`, `AsIndir()->Addr()`. -/
  gtOp1 : NodeId
  /-- The second operand: `gtGetOp2()`. -/
  gtOp2 : NodeId
  /-- The local number: `AsLclVarCommon()->GetLclNum()`. -/
  lclNum : Nat
  /-- The SSA number: `AsLclVarCommon()->GetSsaNum()`. -/
  ssaNum : Nat
  /-- The constant: `AsIntCon()->IconValue()`, an `ssize_t`. -/
  iconValue : Int
  deriving DecidableEq, Repr

/-- The fields of a `Statement` that `earlyprop.cpp` reads. -/
structure Statement where
  /-- The root: `GetRootNode()`, tested against `nullptr` by `optEarlyProp`. -/
  rootNode : Option NodeId
  /-- The first node in evaluation order: `GetTreeList()`. -/
  treeList : Option NodeId
  /-- The next statement of the block: `GetNextStmt()`. -/
  nextStmt : Option StmtId
  /-- The previous statement: `GetPrevStmt()`, dereferenced without a test. -/
  prevStmt : StmtId
  deriving DecidableEq, Repr

/-- The per-SSA-definition record `LclSsaVarDsc`. -/
structure LclSsaVarDsc where
  /-- The defining store: `GetDefNode()`, `nullptr` for parameters, live-ins
  and call-induced definitions. -/
  defNode : Option NodeId
  /-- The block of the definition: `GetBlock()`. -/
  block : BlockId

/-- The fields of a local variable descriptor `LclVarDsc` that
`earlyprop.cpp` reads. -/
structure LclVarDsc where
  lvLiveInOutOfHndlr : Bool
  /-- The result of `IsAddressExposed()`. -/
  addressExposed : Bool
  /-- The result of `lvaInSsa(lclNum)`. -/
  lvInSsa : Bool
  /-- The table `GetPerSsaData(ssaNum)`. -/
  perSsaData : Nat → LclSsaVarDsc

/-- The state of the compilation that the phase reads and writes. -/
structure Compiler where
  node : NodeId → GenTree
  stmt : StmtId → Statement
  lvaTable : Nat → LclVarDsc
  /-- The result of `BasicBlock::hasTryIndex()`. -/
  hasTryIndex : BlockId → Bool
  compCurBB : BlockId
  compCurStmt : StmtId

/-- The kind of value tracked: `optPropKind`. -/
inductive optPropKind where
  | OPK_INVALID
  | OPK_ARRAYLEN
  deriving DecidableEq, Repr

/-- The ways an execution of the source can fail to return: dereferencing a
null pointer, and (for the embedding of a loop or a recursion) running out of
the fuel given to it. -/
inductive Fault where
  | nullDeref
  | outOfFuel
  deriving DecidableEq, Repr

/-- The per-block map `LocalNumberToNullCheckTreeMap`, from local numbers to
the latest null check of that local. -/
abbrev LocalNumberToNullCheckTreeMap := Nat → Option NodeId

/-- The map operation `Set(key, value, Overwrite)`. -/
def LocalNumberToNullCheckTreeMap.Set (m : LocalNumberToNullCheckTreeMap) (key : Nat)
    (value : NodeId) : LocalNumberToNullCheckTreeMap :=
  fun k => if k = key then some value else m k

/-- The map operation `Remove(key)`. -/
def LocalNumberToNullCheckTreeMap.Remove (m : LocalNumberToNullCheckTreeMap) (key : Nat) :
    LocalNumberToNullCheckTreeMap :=
  fun k => if k = key then none else m k

/-- The code of the JIT that `earlyprop.cpp` uses and does not define. -/
structure JitHost where
  /-- The constant `SsaConfig::RESERVED_SSA_NUM`. -/
  RESERVED_SSA_NUM : Nat
  /-- The constant `optEarlyPropRecurBound`. -/
  optEarlyPropRecurBound : Int
  /-- The constant `CORINFO_Array_MaxLength`. -/
  CORINFO_Array_MaxLength : Int
  OperIsIndirOrArrMetaData : genTreeOps → Bool
  OperIsScalarLocal : genTreeOps → Bool
  OperIsStore : genTreeOps → Bool
  OperIsLocalStore : genTreeOps → Bool
  OperRequiresAsgFlag : genTreeOps → Bool
  IsCnsIntOrI : genTreeOps → Bool
  OperRequiresCallFlag : Compiler → NodeId → Bool
  OperMayThrow : Compiler → NodeId → Bool
  /-- The address operand of an indirection or array-metadata node. -/
  GetIndirOrArrMetaDataAddr : Compiler → NodeId → NodeId
  /-- The stored value of a store node: `Data()`. -/
  Data : Compiler → NodeId → NodeId
  /-- The length operand of a bounds check: `GetArrayLength()`. -/
  GetArrayLength : Compiler → NodeId → NodeId
  /-- The index operand of a bounds check: `GetIndex()`. -/
  GetIndex : Compiler → NodeId → NodeId
  gtEffectiveVal : Compiler → NodeId → NodeId
  /-- The parent of a node, `gtGetParent(nullptr)`; `none` for a root. -/
  gtGetParent : Compiler → NodeId → Option NodeId
  /-- The test `user->TryGetUse(operand)`: is `operand` an operand of `user`? -/
  TryGetUse : Compiler → NodeId → NodeId → Bool
  fgIsBigOffset : Int → Bool
  getArrayLengthFromAllocation : Compiler → NodeId → Option NodeId
  fgMorphBlockStmt : Compiler → BlockId → StmtId → Compiler
  optRecordSsaUses : Compiler → Option NodeId → BlockId → Compiler
  optRemoveRangeCheck : Compiler → NodeId → Option NodeId → StmtId → Compiler × Option NodeId

/-- Two's-complement wrap-around of a 64-bit `ssize_t`. -/
def ssizeWrap (x : Int) : Int :=
  (x + 2 ^ 63) % 2 ^ 64 - 2 ^ 63

/-- Replace the flags of one node: the effect of an assignment to
`t->gtFlags`. -/
def Compiler.setFlags (c : Compiler) (t : NodeId) (f : GenTreeFlags) : Compiler :=
  { c with node := fun i => if i = t then { c.node t with gtFlags := f } else c.node i }

/-! ## `optCanMoveNullCheckPastTree` -/

/-- The function `Compiler::optCanMoveNullCheckPastTree` (lines 611-661). -/
def optCanMoveNullCheckPastTree (J : JitHost) (c : Compiler) (tree : NodeId)
    (isInsideTry checkSideEffectSummary : Bool) : Bool :=
  let t := c.node tree
  let result := true
  let result :=
    if t.gtFlags.GTF_CALL then !checkSideEffectSummary && !J.OperRequiresCallFlag c tree
    else result
  let result :=
    if result && t.gtFlags.GTF_EXCEPT then !checkSideEffectSummary && !J.OperMayThrow c tree
    else result
  if result && t.gtFlags.GTF_ASG then
    if J.OperIsStore t.gtOper then
      if checkSideEffectSummary && (c.node (J.Data c tree)).gtFlags.GTF_ASG then
        false
      else if isInsideTry then
        -- Inside try we allow only stores to locals not live in handlers.
        t.gtOper == genTreeOps.GT_STORE_LCL_VAR && !(c.lvaTable t.lclNum).lvLiveInOutOfHndlr
      else
        -- We disallow stores to global memory.
        let result := J.OperIsLocalStore t.gtOper && !(c.lvaTable t.lclNum).addressExposed
        if !t.gtFlags.GTF_GLOB_REF then true else result
    else if checkSideEffectSummary then
      !isInsideTry && !t.gtFlags.GTF_GLOB_REF
    else
      !isInsideTry && (!J.OperRequiresAsgFlag t.gtOper || !t.gtFlags.GTF_GLOB_REF)
  else
    result

/-! ## `optPropGetValue` -/

/-- The function `Compiler::optPropGetValueRec` (lines 243-298).  The first
argument bounds the number of nested calls; the source bounds them by
`walkDepth`. -/
def optPropGetValueRec (J : JitHost) (c : Compiler) :
    Nat → Nat → Nat → optPropKind → Int → Except Fault (Option NodeId)
  | 0, _, _, _, _ => Except.error Fault.outOfFuel
  | fuel + 1, lclNum, ssaNum, valueKind, walkDepth =>
    if ssaNum = J.RESERVED_SSA_NUM then
      Except.ok none
    -- Bound the recursion with a hard limit.
    else if walkDepth > J.optEarlyPropRecurBound then
      Except.ok none
    else
      -- Track along the use-def chain to get the array length
      let ssaVarDsc := (c.lvaTable lclNum).perSsaData ssaNum
      match ssaVarDsc.defNode with
      | none => Except.ok none
      | some ssaDefStore =>
        let defValue := J.Data c ssaDefStore
        -- Recursively track the value for "entire" stores.
        if (c.node ssaDefStore).gtOper = genTreeOps.GT_STORE_LCL_VAR
            ∧ (c.node ssaDefStore).lclNum = lclNum
            ∧ (c.node defValue).gtOper = genTreeOps.GT_LCL_VAR then
          optPropGetValueRec J c fuel (c.node defValue).lclNum (c.node defValue).ssaNum
            valueKind (walkDepth + 1)
        else if valueKind = optPropKind.OPK_ARRAYLEN then
          match J.getArrayLengthFromAllocation c defValue with
          | none => Except.ok none
          | some value =>
            -- Leave out non-constant-sized array
            if !J.IsCnsIntOrI (c.node value).gtOper then Except.ok none
            else Except.ok (some value)
        else
          Except.ok none

/-- The function `Compiler::optPropGetValue` (lines 225-228): the recursion
starts at depth 0, with fuel for every depth up to the bound and one more. -/
def optPropGetValue (J : JitHost) (c : Compiler) (lclNum ssaNum : Nat)
    (valueKind : optPropKind) : Except Fault (Option NodeId) :=
  optPropGetValueRec J c ((J.optEarlyPropRecurBound + 1).toNat + 1) lclNum ssaNum valueKind 0

/-! ## `optFindNullCheckToFold` -/

/-- Lines 394-402 of `optFindNullCheckToFold`: the effective address of the
indirection, with one `+ constant` stripped into the offset. -/
def indirBase (J : JitHost) (c : Compiler) (tree : NodeId) : NodeId × Int :=
  let addr := J.gtEffectiveVal c (J.GetIndirOrArrMetaDataAddr c tree)
  let offsetValue : Int := 0
  if (c.node addr).gtOper = genTreeOps.GT_ADD
      ∧ J.IsCnsIntOrI (c.node (c.node addr).gtOp2).gtOper = true then
    ((c.node addr).gtOp1, ssizeWrap (offsetValue + (c.node (c.node addr).gtOp2).iconValue))
  else
    (addr, offsetValue)

/-- Lines 418-429 of `optFindNullCheckToFold`: the null check recorded in the
map for the local, kept only if its address is a `GT_LCL_VAR` with the SSA
number of the indirection's base. -/
def nullCheckFromMap (c : Compiler) (nullCheckMap : LocalNumberToNullCheckTreeMap)
    (lclNum ssaNum : Nat) : Option NodeId :=
  match nullCheckMap lclNum with
  | none => none
  | some nullCheckTree =>
    let nullCheckAddr := (c.node nullCheckTree).gtOp1
    if (c.node nullCheckAddr).gtOper ≠ genTreeOps.GT_LCL_VAR
        ∨ (c.node nullCheckAddr).ssaNum ≠ ssaNum then
      none
    else
      some nullCheckTree

/-- Lines 433-481 of `optFindNullCheckToFold`, run when the map gave no null
check: the pattern `x = comma(nullcheck(y), add(y, const1))`.  The result is
`none` where the source returns `nullptr` at once, and otherwise the value of
`nullCheckTree` and of `offsetValue` at line 481. -/
def nullCheckFromDef (J : JitHost) (c : Compiler) (lclNum ssaNum : Nat) (offsetValue : Int) :
    Option (Option NodeId × Int) :=
  -- Find the definition of the indirected local ('x' in the pattern above).
  let defLoc := (c.lvaTable lclNum).perSsaData ssaNum
  if c.compCurBB ≠ defLoc.block then none
  else
    match defLoc.defNode with
    | none => none
    | some defNode =>
      if (c.node defNode).gtOper ≠ genTreeOps.GT_STORE_LCL_VAR
          ∨ (c.node defNode).lclNum ≠ lclNum then none
      else
        let defValue := J.Data c defNode
        if (c.node defValue).gtOper ≠ genTreeOps.GT_COMMA then none
        else
          let commaOp1EffectiveValue := J.gtEffectiveVal c (c.node defValue).gtOp1
          if (c.node commaOp1EffectiveValue).gtOper ≠ genTreeOps.GT_NULLCHECK then none
          else
            let nullCheckAddress := (c.node commaOp1EffectiveValue).gtOp1
            if (c.node nullCheckAddress).gtOper ≠ genTreeOps.GT_LCL_VAR
                ∨ (c.node (c.node defValue).gtOp2).gtOper ≠ genTreeOps.GT_ADD then none
            else
              -- We found a candidate for 'y' in the pattern above.
              let additionNode := (c.node defValue).gtOp2
              let additionOp1 := (c.node additionNode).gtOp1
              let additionOp2 := (c.node additionNode).gtOp2
              if (c.node additionOp1).gtOper = genTreeOps.GT_LCL_VAR
                  ∧ (c.node additionOp1).lclNum = (c.node nullCheckAddress).lclNum
                  ∧ J.IsCnsIntOrI (c.node additionOp2).gtOper = true then
                some (some commaOp1EffectiveValue,
                  ssizeWrap (offsetValue + (c.node additionOp2).iconValue))
              else
                some (none, offsetValue)

/-- The function `Compiler::optFindNullCheckToFold` (lines 390-491). -/
def optFindNullCheckToFold (J : JitHost) (c : Compiler) (tree : NodeId)
    (nullCheckMap : LocalNumberToNullCheckTreeMap) : Option NodeId :=
  let addr := (indirBase J c tree).1
  let offsetValue := (indirBase J c tree).2
  if (c.node addr).gtOper ≠ genTreeOps.GT_LCL_VAR then none
  else
    let ssaNum := (c.node addr).ssaNum
    if ssaNum = J.RESERVED_SSA_NUM then none
    else
      let lclNum := (c.node addr).lclNum
      -- Check if we saw a nullcheck on this local in this basic block
      match nullCheckFromMap c nullCheckMap lclNum ssaNum with
      | some nullCheckTree =>
        if J.fgIsBigOffset offsetValue then none else some nullCheckTree
      | none =>
        -- Check if we have x = comma(nullcheck(y), add(y, const1)) pattern.
        match nullCheckFromDef J c lclNum ssaNum offsetValue with
        | none => none
        | some (nullCheckTree, offsetValue) =>
          if J.fgIsBigOffset offsetValue then none else nullCheckTree

/-! ## `optIsNullCheckFoldingLegal` -/

/-- The constant `maxNodesWalked` of `optIsNullCheckFoldingLegal`. -/
def maxNodesWalked : Nat := 50

/-- The local variables of `optIsNullCheckFoldingLegal` that its loops read
and write. -/
structure LegalityWalk where
  canRemoveNullCheck : Bool
  nodesWalked : Nat
  previousTree : NodeId
  currentTree : Option NodeId
  nullCheckParent : Option NodeId
  curStmt : StmtId

/-- The first loop of `optIsNullCheckFoldingLegal` (lines 520-537): forward
from the null check, in the statement that holds it, up to the indirection or
the end of the statement. -/
def forwardWalk (J : JitHost) (c : Compiler) (tree nullCheckTree : NodeId) (isInsideTry : Bool) :
    Nat → LegalityWalk → Except Fault LegalityWalk
  | 0, _ => Except.error Fault.outOfFuel
  | fuel + 1, s =>
    match s.currentTree with
    | none => Except.ok s
    | some cur =>
      if s.canRemoveNullCheck = true ∧ cur ≠ tree then
        let parent :=
          if s.nullCheckParent = none ∧ J.TryGetUse c cur nullCheckTree = true then some cur
          else s.nullCheckParent
        if s.nodesWalked > maxNodesWalked
            ∨ optCanMoveNullCheckPastTree J c cur isInsideTry false = false then
          forwardWalk J c tree nullCheckTree isInsideTry fuel
            { s with canRemoveNullCheck := false, nodesWalked := s.nodesWalked + 1,
                     nullCheckParent := parent }
        else
          forwardWalk J c tree nullCheckTree isInsideTry fuel
            { s with nodesWalked := s.nodesWalked + 1, previousTree := cur,
                     currentTree := (c.node cur).gtNext, nullCheckParent := parent }
      else
        Except.ok s

/-- The second loop of `optIsNullCheckFoldingLegal` (lines 552-564): backward
from the predecessor of the indirection to the start of its statement. -/
def backwardWalk (J : JitHost) (c : Compiler) (isInsideTry : Bool) :
    Nat → LegalityWalk → Except Fault LegalityWalk
  | 0, _ => Except.error Fault.outOfFuel
  | fuel + 1, s =>
    match s.currentTree with
    | none => Except.ok s
    | some cur =>
      if s.canRemoveNullCheck = true then
        if s.nodesWalked > maxNodesWalked
            ∨ optCanMoveNullCheckPastTree J c cur isInsideTry false = false then
          backwardWalk J c isInsideTry fuel
            { s with canRemoveNullCheck := false, nodesWalked := s.nodesWalked + 1 }
        else
          backwardWalk J c isInsideTry fuel
            { s with nodesWalked := s.nodesWalked + 1, currentTree := (c.node cur).gtPrev }
      else
        Except.ok s

/-- The third loop of `optIsNullCheckFoldingLegal` (lines 571-584): backward
over the statements before the current one, looking at each root only, until
the root is `nullCheckStatementRoot`.  A root that is `nullptr` is passed to
`optCanMoveNullCheckPastTree`, which dereferences it. -/
def statementWalk (J : JitHost) (c : Compiler) (isInsideTry : Bool)
    (nullCheckStatementRoot : NodeId) : Nat → LegalityWalk → Except Fault LegalityWalk
  | 0, _ => Except.error Fault.outOfFuel
  | fuel + 1, s =>
    if s.canRemoveNullCheck = true ∧ s.currentTree ≠ some nullCheckStatementRoot then
      if s.nodesWalked > maxNodesWalked then
        statementWalk J c isInsideTry nullCheckStatementRoot fuel
          { s with canRemoveNullCheck := false, nodesWalked := s.nodesWalked + 1 }
      else
        match s.currentTree with
        | none => Except.error Fault.nullDeref
        | some cur =>
          if optCanMoveNullCheckPastTree J c cur isInsideTry true = false then
            statementWalk J c isInsideTry nullCheckStatementRoot fuel
              { s with canRemoveNullCheck := false, nodesWalked := s.nodesWalked + 1 }
          else
            statementWalk J c isInsideTry nullCheckStatementRoot fuel
              { s with nodesWalked := s.nodesWalked + 1,
                       curStmt := (c.stmt s.curStmt).prevStmt,
                       currentTree := (c.stmt (c.stmt s.curStmt).prevStmt).rootNode }
    else
      Except.ok s

/-- The fuel given to each loop of `optIsNullCheckFoldingLegal`: a loop
inspects at most `maxNodesWalked + 2` nodes and then tests its condition once
more. -/
def legalityFuel : Nat := maxNodesWalked + 3

/-- The result of `optIsNullCheckFoldingLegal`: the value returned and the two
out-parameters. -/
structure LegalityResult where
  canRemoveNullCheck : Bool
  nullCheckParent : Option NodeId
  nullCheckStmt : StmtId

/-- The function `Compiler::optIsNullCheckFoldingLegal` (lines 503-594).
`nullCheckParent` is the value of `*nullCheckParent` on entry. -/
def optIsNullCheckFoldingLegal (J : JitHost) (c : Compiler) (tree nullCheckTree : NodeId)
    (nullCheckParent : Option NodeId) : Except Fault LegalityResult :=
  let isInsideTry := c.hasTryIndex c.compCurBB
  let s0 : LegalityWalk :=
    { canRemoveNullCheck := true, nodesWalked := 0, previousTree := nullCheckTree,
      currentTree := (c.node nullCheckTree).gtNext, nullCheckParent := nullCheckParent,
      curStmt := c.compCurStmt }
  match forwardWalk J c tree nullCheckTree isInsideTry legalityFuel s0 with
  | Except.error e => Except.error e
  | Except.ok s1 =>
    let finish (s : LegalityWalk) (nullCheckStmt : StmtId) : LegalityResult :=
      { canRemoveNullCheck := s.canRemoveNullCheck,
        nullCheckParent :=
          if s.canRemoveNullCheck = true ∧ s.nullCheckParent = none then
            J.gtGetParent c nullCheckTree
          else s.nullCheckParent,
        nullCheckStmt := nullCheckStmt }
    if s1.currentTree = some tree then
      -- The GT_NULLCHECK and the indirection are in the same statements.
      Except.ok (finish s1 c.compCurStmt)
    else
      -- The GT_NULLCHECK and the indirection are in different statements.
      let nullCheckStatementRoot := s1.previousTree
      match backwardWalk J c isInsideTry legalityFuel
          { s1 with currentTree := (c.node tree).gtPrev } with
      | Except.error e => Except.error e
      | Except.ok s2 =>
        let curStmt := (c.stmt c.compCurStmt).prevStmt
        match statementWalk J c isInsideTry nullCheckStatementRoot legalityFuel
            { s2 with curStmt := curStmt, currentTree := (c.stmt curStmt).rootNode } with
        | Except.error e => Except.error e
        | Except.ok s3 => Except.ok (finish s3 s3.curStmt)

/-! ## `optFoldNullCheck` -/

/-- The flag updates of lines 331-335 on the folded null check: clear
`GTF_EXCEPT` and `GTF_DONT_CSE`, set the ordering side effect
(`SetHasOrderingSideEffect`) and `GTF_IND_NONFAULTING`. -/
def markNullCheckRemoved (f : GenTreeFlags) : GenTreeFlags :=
  { f with GTF_EXCEPT := false, GTF_DONT_CSE := false, GTF_ORDER_SIDEEFF := true,
           GTF_IND_NONFAULTING := true }

/-- The result of `optFoldNullCheck`: the compilation state and the map after
the call, and the value returned. -/
structure FoldResult where
  comp : Compiler
  nullCheckMap : LocalNumberToNullCheckTreeMap
  folded : Bool

/-- Lines 356-362 of `optFoldNullCheck`: record `tree` in the map when it is a
`GT_NULLCHECK` of a `GT_LCL_VAR`, and return `folded`. -/
def recordNullCheck (c : Compiler) (tree : NodeId) (nullCheckMap : LocalNumberToNullCheckTreeMap)
    (folded : Bool) : FoldResult :=
  if (c.node tree).gtOper = genTreeOps.GT_NULLCHECK
      ∧ (c.node (c.node tree).gtOp1).gtOper = genTreeOps.GT_LCL_VAR then
    { comp := c, nullCheckMap := nullCheckMap.Set (c.node (c.node tree).gtOp1).lclNum tree,
      folded := folded }
  else
    { comp := c, nullCheckMap := nullCheckMap, folded := folded }

/-- Lines 331-353 of `optFoldNullCheck`: the fold itself, once a candidate was
found and the walk found it legal. -/
def foldNullCheckInto (J : JitHost) (c : Compiler) (tree nullCheckTree : NodeId)
    (nullCheckParent : Option NodeId) (nullCheckStmt : StmtId)
    (nullCheckMap : LocalNumberToNullCheckTreeMap) : Compiler × LocalNumberToNullCheckTreeMap :=
  -- Remove the null check
  let c1 := c.setFlags nullCheckTree (markNullCheckRemoved (c.node nullCheckTree).gtFlags)
  -- The current indir is no longer non-faulting.
  let c2 := c1.setFlags tree { (c1.node tree).gtFlags with GTF_IND_NONFAULTING := false }
  let c3 :=
    match nullCheckParent with
    | some parent => c2.setFlags parent { (c2.node parent).gtFlags with GTF_DONT_CSE := false }
    | none => c2
  let map1 := nullCheckMap.Remove (c3.node (c3.node nullCheckTree).gtOp1).lclNum
  -- Re-morph the statement.
  let curStmt := c3.compCurStmt
  let c4 := J.fgMorphBlockStmt c3 c3.compCurBB nullCheckStmt
  let c5 := J.optRecordSsaUses c4 (c4.stmt nullCheckStmt).rootNode c4.compCurBB
  ({ c5 with compCurStmt := curStmt }, map1)

/-- The function `Compiler::optFoldNullCheck` (lines 317-363). -/
def optFoldNullCheck (J : JitHost) (c : Compiler) (tree : NodeId)
    (nullCheckMap : LocalNumberToNullCheckTreeMap) : Except Fault FoldResult :=
  match optFindNullCheckToFold J c tree nullCheckMap with
  | none => Except.ok (recordNullCheck c tree nullCheckMap false)
  | some nullCheckTree =>
    match optIsNullCheckFoldingLegal J c tree nullCheckTree none with
    | Except.error e => Except.error e
    | Except.ok r =>
      if r.canRemoveNullCheck = true then
        let cm := foldNullCheckInto J c tree nullCheckTree r.nullCheckParent r.nullCheckStmt
          nullCheckMap
        Except.ok (recordNullCheck cm.1 tree cm.2 true)
      else
        Except.ok (recordNullCheck c tree nullCheckMap false)

/-! ## `optEarlyPropRewriteTree` -/

/-- The way `optEarlyPropRewriteTree` returns: with a node or `nullptr`
(`ret`), or with the result of a call
`optRemoveRangeCheck(check, comma, compCurStmt)` (`removeRangeCheck`). -/
inductive RewriteExit where
  | ret (tree : Option NodeId)
  | removeRangeCheck (check : NodeId) (comma : Option NodeId) (stmt : StmtId)
  deriving DecidableEq, Repr

/-- The guard of lines 193-194 on the shape around a bounds check: it is the
first operand of its parent `GT_COMMA`, or the root of the current statement. -/
def rangeCheckShapeGuard (c : Compiler) (check : NodeId) (comma : Option NodeId) : Bool :=
  (match comma with
    | some p => (c.node p).gtOper == genTreeOps.GT_COMMA && (c.node p).gtOp1 == check
    | none => false)
  || (some check == (c.stmt c.compCurStmt).rootNode)

/-- The assertion of lines 188-190 on the shape around a bounds check: its
parent is a `GT_COMMA` of which it is the first operand or which has type
void, or it is the root of the current statement. -/
def rangeCheckShapeAssert (c : Compiler) (check : NodeId) (comma : Option NodeId) : Bool :=
  (match comma with
    | some p => (c.node p).gtOper == genTreeOps.GT_COMMA
        && ((c.node p).gtOp1 == check || (c.node p).gtType == var_types.TYP_VOID)
    | none => false)
  || (some check == (c.stmt c.compCurStmt).rootNode)

/-- Lines 151-211 of `optEarlyPropRewriteTree`, for a resolved value
`actualVal` of an array-length node `tree`, as a release build runs them. -/
def rewriteArrayLength (J : JitHost) (c : Compiler) (tree actualVal : NodeId) (folded : Bool) :
    RewriteExit :=
  let actualConstVal := (c.node actualVal).iconValue
  if actualConstVal < 0 ∨ actualConstVal > J.CORINFO_Array_MaxLength then
    -- Don't propagate array lengths that are beyond the maximum value of a
    -- GT_ARR_LENGTH or negative.
    RewriteExit.ret none
  else
    let fallThrough := RewriteExit.ret (if folded then some tree else none)
    match (c.node tree).gtNext with
    | none => fallThrough
    | some check =>
      if (c.node check).gtOper = genTreeOps.GT_BOUNDS_CHECK then
        if J.GetArrayLength c check = tree
            ∧ J.IsCnsIntOrI (c.node (J.GetIndex c check)).gtOper = true then
          let checkConstVal := (c.node (J.GetIndex c check)).iconValue
          if checkConstVal ≥ 0 ∧ checkConstVal < actualConstVal then
            let comma := J.gtGetParent c check
            -- Still, we guard here so that release builds do not try to
            -- optimize trees we don't understand.
            if rangeCheckShapeGuard c check comma = true then
              RewriteExit.removeRangeCheck check comma c.compCurStmt
            else fallThrough
          else fallThrough
        else fallThrough
      else fallThrough

/-- The result of the body of `optEarlyPropRewriteTree` up to its return
statement: the state and the map after `optFoldNullCheck`, and the way the
function returns. -/
structure RewriteStep where
  comp : Compiler
  nullCheckMap : LocalNumberToNullCheckTreeMap
  exit : RewriteExit

/-- The body of `Compiler::optEarlyPropRewriteTree` (lines 116-212), with the
final call of `optRemoveRangeCheck` left to `optEarlyPropRewriteTree`. -/
def optEarlyPropRewriteTreeStep (J : JitHost) (c : Compiler) (tree : NodeId)
    (nullCheckMap : LocalNumberToNullCheckTreeMap) : Except Fault RewriteStep :=
  if J.OperIsIndirOrArrMetaData (c.node tree).gtOper = true then
    -- optFoldNullCheck takes care of updating statement info if a null check is removed.
    match optFoldNullCheck J c tree nullCheckMap with
    | Except.error e => Except.error e
    | Except.ok r =>
      let c1 := r.comp
      let fallThrough : RewriteStep :=
        { comp := c1, nullCheckMap := r.nullCheckMap,
          exit := RewriteExit.ret (if r.folded then some tree else none) }
      if (c1.node tree).gtOper = genTreeOps.GT_ARR_LENGTH then
        let objectRefPtr := (c1.node tree).gtOp1
        if J.OperIsScalarLocal (c1.node objectRefPtr).gtOper = false
            ∨ (c1.lvaTable (c1.node objectRefPtr).lclNum).lvInSsa = false then
          Except.ok fallThrough
        else
          let lclNum := (c1.node objectRefPtr).lclNum
          let ssaNum := (c1.node objectRefPtr).ssaNum
          match optPropGetValue J c1 lclNum ssaNum optPropKind.OPK_ARRAYLEN with
          | Except.error e => Except.error e
          | Except.ok none => Except.ok fallThrough
          | Except.ok (some actualVal) =>
            Except.ok { comp := c1, nullCheckMap := r.nullCheckMap,
                        exit := rewriteArrayLength J c1 tree actualVal r.folded }
      else
        Except.ok fallThrough
  else
    Except.ok { comp := c, nullCheckMap := nullCheckMap, exit := RewriteExit.ret none }

/-- The result of `optEarlyPropRewriteTree`: the state and the map after the
call, and the node returned (`none` for `nullptr`). -/
structure RewriteResult where
  comp : Compiler
  nullCheckMap : LocalNumberToNullCheckTreeMap
  tree : Option NodeId

/-- The function `Compiler::optEarlyPropRewriteTree` (lines 116-212). -/
def optEarlyPropRewriteTree (J : JitHost) (c : Compiler) (tree : NodeId)
    (nullCheckMap : LocalNumberToNullCheckTreeMap) : Except Fault RewriteResult :=
  match optEarlyPropRewriteTreeStep J c tree nullCheckMap with
  | Except.error e => Except.error e
  | Except.ok s =>
    match s.exit with
    | RewriteExit.ret t => Except.ok { comp := s.comp, nullCheckMap := s.nullCheckMap, tree := t }
    | RewriteExit.removeRangeCheck check comma stmt =>
      -- Both tree and check have been removed from the statement.
      let r := J.optRemoveRangeCheck s.comp check comma stmt
      Except.ok { comp := r.1, nullCheckMap := s.nullCheckMap, tree := r.2 }

/-! ## Walks along the node and statement links -/

/-- Following the link `nxt` from the pointer `cur` visits the nodes of `l`, in
order, and the pointer after the last of them is `fin`. -/
def linked (nxt : NodeId → Option NodeId) : Option NodeId → List NodeId → Option NodeId → Bool
  | cur, [], fin => cur == fin
  | cur, x :: xs, fin => cur == some x && linked nxt (nxt x) xs fin

/-- Following `GetPrevStmt` from the statement `cur` visits the statements of
`mids`, in order, each paired with its (non-null) root, and then reaches the
statement `last`. -/
def stmtsLinked (c : Compiler) : StmtId → List (StmtId × NodeId) → StmtId → Bool
  | cur, [], last => cur == last
  | cur, (t, r) :: rest, last =>
    cur == t && (c.stmt t).rootNode == some r && stmtsLinked c (c.stmt t).prevStmt rest last

/-- The part of `optCanMoveNullCheckPastTree` before the test of `GTF_ASG`
(lines 613-623): the value of `result` after the call and exception checks. -/
def passesCallAndExceptionChecks (J : JitHost) (c : Compiler) (tree : NodeId)
    (checkSideEffectSummary : Bool) : Bool :=
  let t := c.node tree
  let result := true
  let result :=
    if t.gtFlags.GTF_CALL then !checkSideEffectSummary && !J.OperRequiresCallFlag c tree
    else result
  if result && t.gtFlags.GTF_EXCEPT then !checkSideEffectSummary && !J.OperMayThrow c tree
  else result

/-! ## A concrete host and concrete IR, for the examples -/

/-- The operators of the examples that `earlyprop.cpp` does not name:
`GT_IND`. -/
abbrev GT_IND : genTreeOps := genTreeOps.GT_OTHER 0

/-- The operator `GT_STOREIND` of the examples. -/
abbrev GT_STOREIND : genTreeOps := genTreeOps.GT_OTHER 1

/-- The operator `GT_CNS_INT` of the examples. -/
abbrev GT_CNS_INT : genTreeOps := genTreeOps.GT_OTHER 2

/-- The operator `GT_CALL` of the examples. -/
abbrev GT_CALL : genTreeOps := genTreeOps.GT_OTHER 3

/-- The operator `GT_NOP` of the examples. -/
abbrev GT_NOP : genTreeOps := genTreeOps.GT_OTHER 4

/-- The number of operands of an operator of the examples. -/
def demoArity : genTreeOps → Nat
  | genTreeOps.GT_LCL_VAR => 0
  | genTreeOps.GT_STORE_LCL_VAR => 1
  | genTreeOps.GT_NULLCHECK => 1
  | genTreeOps.GT_ARR_LENGTH => 1
  | genTreeOps.GT_ADD => 2
  | genTreeOps.GT_COMMA => 2
  | genTreeOps.GT_BOUNDS_CHECK => 2
  | genTreeOps.GT_OTHER 0 => 1
  | genTreeOps.GT_OTHER 1 => 2
  | genTreeOps.GT_OTHER 3 => 2
  | genTreeOps.GT_OTHER _ => 0

/-- In the examples: is `operand` an operand of `user`? -/
def demoIsOperand (c : Compiler) (user operand : NodeId) : Bool :=
  match demoArity (c.node user).gtOper with
  | 0 => false
  | 1 => (c.node user).gtOp1 == operand
  | _ => (c.node user).gtOp1 == operand || (c.node user).gtOp2 == operand

/-- The host of the examples: a small JIT with the operators above, whose
morphing steps change nothing. -/
def demoHost : JitHost where
  RESERVED_SSA_NUM := 0
  optEarlyPropRecurBound := 5
  CORINFO_Array_MaxLength := 0x7FFFFFC7
  OperIsIndirOrArrMetaData := fun op =>
    op == GT_IND || op == GT_STOREIND || op == genTreeOps.GT_NULLCHECK
      || op == genTreeOps.GT_ARR_LENGTH
  OperIsScalarLocal := fun op =>
    op == genTreeOps.GT_LCL_VAR || op == genTreeOps.GT_STORE_LCL_VAR
  OperIsStore := fun op => op == genTreeOps.GT_STORE_LCL_VAR || op == GT_STOREIND
  OperIsLocalStore := fun op => op == genTreeOps.GT_STORE_LCL_VAR
  OperRequiresAsgFlag := fun op => op == genTreeOps.GT_STORE_LCL_VAR || op == GT_STOREIND
  IsCnsIntOrI := fun op => op == GT_CNS_INT
  OperRequiresCallFlag := fun c n => (c.node n).gtOper == GT_CALL
  OperMayThrow := fun c n =>
    ((c.node n).gtOper == GT_IND || (c.node n).gtOper == GT_STOREIND
      || (c.node n).gtOper == genTreeOps.GT_NULLCHECK
      || (c.node n).gtOper == genTreeOps.GT_ARR_LENGTH
      || (c.node n).gtOper == genTreeOps.GT_BOUNDS_CHECK
      || (c.node n).gtOper == GT_CALL)
    && !(c.node n).gtFlags.GTF_IND_NONFAULTING
  GetIndirOrArrMetaDataAddr := fun c n => (c.node n).gtOp1
  Data := fun c n =>
    if (c.node n).gtOper == GT_STOREIND then (c.node n).gtOp2 else (c.node n).gtOp1
  GetArrayLength := fun c n => (c.node n).gtOp2
  GetIndex := fun c n => (c.node n).gtOp1
  gtEffectiveVal := fun c n =>
    if (c.node n).gtOper == genTreeOps.GT_COMMA then (c.node n).gtOp2 else n
  gtGetParent := fun c n => (List.range 100).find? (fun p => demoIsOperand c p n)
  TryGetUse := fun c user operand => demoIsOperand c user operand
  fgIsBigOffset := fun offset => decide (offset < 0 ∨ offset > 4096)
  getArrayLengthFromAllocation := fun c n =>
    if (c.node n).gtOper == GT_CALL then some (c.node n).gtOp2 else none
  fgMorphBlockStmt := fun c _ _ => c
  optRecordSsaUses := fun c _ _ => c
  optRemoveRangeCheck := fun c check comma _ =>
    (c, match comma with
        | some p => some p
        | none => some check)

/-- A set of flags with no bit set. -/
def noFlags : GenTreeFlags :=
  { GTF_ASG := false, GTF_CALL := false, GTF_EXCEPT := false, GTF_GLOB_REF := false,
    GTF_ORDER_SIDEEFF := false, GTF_DONT_CSE := false, GTF_IND_NONFAULTING := false }

/-- A node of the examples: operator, flags, operands, local and SSA number,
constant, and the links of the evaluation order. -/
def demoNode (oper : genTreeOps) (flags : GenTreeFlags) (op1 op2 lclNum ssaNum : Nat)
    (icon : Int) (prev next : Option NodeId) : GenTree :=
  { gtOper := oper, gtType := var_types.TYP_OTHER 0, gtFlags := flags, gtNext := next,
    gtPrev := prev, gtOp1 := op1, gtOp2 := op2, lclNum := lclNum, ssaNum := ssaNum,
    iconValue := icon }

/-- A statement of the examples, from its root, its first node and its
neighbours. -/
def demoStmt (root first : NodeId) (prev : StmtId) (next : Option StmtId) : Statement :=
  { rootNode := some root, treeList := some first, nextStmt := next, prevStmt := prev }

/-- A local of the examples: tracked in SSA, not address-exposed, not live
into a handler, with the given definitions. -/
def demoLocal (defs : Nat → Option NodeId) : LclVarDsc :=
  { lvLiveInOutOfHndlr := false, addressExposed := false, lvInSsa := true,
    perSsaData := fun ssa => { defNode := defs ssa, block := 0 } }

/-- A compilation state of the examples, in block 0, outside any try region. -/
def demoCompiler (node : NodeId → GenTree) (stmt : StmtId → Statement)
    (lva : Nat → LclVarDsc) (curStmt : StmtId) : Compiler :=
  { node := node, stmt := stmt, lvaTable := lva, hasTryIndex := fun _ => false,
    compCurBB := 0, compCurStmt := curStmt }

/-- The flags of a node that may throw. -/
def exceptFlags : GenTreeFlags := { noFlags with GTF_EXCEPT := true }

/-- The flags of a store. -/
def asgFlags : GenTreeFlags := { noFlags with GTF_ASG := true }

/-- The flags of a call: it may do anything. -/
def callFlags : GenTreeFlags :=
  { noFlags with GTF_CALL := true, GTF_EXCEPT := true, GTF_ASG := true, GTF_GLOB_REF := true }

/-- The empty null-check map. -/
def emptyMap : LocalNumberToNullCheckTreeMap := fun _ => none

/-- Example IR: `x = new int[5]` (statement 1, nodes 10-12) and then a read of
the length of `x` with no bounds check after it (statement 2, nodes 20-21).
The local `x` is local 0, defined once, as `x@1`. -/
def arrLenNodes : NodeId → GenTree
  | 10 => demoNode GT_CNS_INT noFlags 0 0 0 0 5 none (some 11)
  | 11 => demoNode GT_CALL callFlags 0 10 0 0 0 (some 10) (some 12)
  | 12 => demoNode genTreeOps.GT_STORE_LCL_VAR callFlags 11 0 0 1 0 (some 11) none
  | 20 => demoNode genTreeOps.GT_LCL_VAR noFlags 0 0 0 1 0 none (some 21)
  | 21 => demoNode genTreeOps.GT_ARR_LENGTH exceptFlags 20 0 0 0 0 (some 20) none
  | _ => demoNode GT_NOP noFlags 0 0 0 0 0 none none

/-- The statements of `arrLenIR`. -/
def arrLenStmts : StmtId → Statement
  | 1 => demoStmt 12 10 2 (some 2)
  | _ => demoStmt 21 20 1 none

/-- The example state for `arrLenNodes`, scanning statement 2. -/
def arrLenIR : Compiler :=
  demoCompiler arrLenNodes arrLenStmts
    (fun _ => demoLocal (fun ssa => if ssa = 1 then some 12 else none)) 2

/-- Example IR: `x = new int[N]` (statement 1, nodes 10-12) and then
`comma(boundscheck(3, length(x)), nop)` (statement 2, nodes 30-35, in
evaluation order).  The bounds check 33 is the first operand of the comma 35
and follows the array-length node 32. -/
def boundsNodes (N : Int) : NodeId → GenTree
  | 10 => demoNode GT_CNS_INT noFlags 0 0 0 0 N none (some 11)
  | 11 => demoNode GT_CALL callFlags 0 10 0 0 0 (some 10) (some 12)
  | 12 => demoNode genTreeOps.GT_STORE_LCL_VAR callFlags 11 0 0 1 0 (some 11) none
  | 30 => demoNode GT_CNS_INT noFlags 0 0 0 0 3 none (some 31)
  | 31 => demoNode genTreeOps.GT_LCL_VAR noFlags 0 0 0 1 0 (some 30) (some 32)
  | 32 => demoNode genTreeOps.GT_ARR_LENGTH exceptFlags 31 0 0 0 0 (some 31) (some 33)
  | 33 => demoNode genTreeOps.GT_BOUNDS_CHECK exceptFlags 30 32 0 0 0 (some 32) (some 34)
  | 34 => demoNode GT_NOP noFlags 0 0 0 0 0 (some 33) (some 35)
  | 35 => demoNode genTreeOps.GT_COMMA exceptFlags 33 34 0 0 0 (some 34) none
  | _ => demoNode GT_NOP noFlags 0 0 0 0 0 none none

/-- The statements of `boundsIR` and of `voidCommaIR`. -/
def boundsStmts (first : NodeId) : StmtId → Statement
  | 1 => demoStmt 12 10 2 (some 2)
  | _ => demoStmt 35 first 1 none

/-- The example state for `boundsNodes`, scanning statement 2, with an array
of length `N`. -/
def boundsIR (N : Int) : Compiler :=
  demoCompiler (boundsNodes N) (boundsStmts 30)
    (fun _ => demoLocal (fun ssa => if ssa = 1 then some 12 else none)) 2

/-- Example IR: `x = new int[5]` (statement 1, nodes 10-12) and then
`comma(nop, boundscheck(3, length(x)))` with a comma of type void (statement
2, nodes 34, 30-33, 35 in evaluation order).  The bounds check 33 is the second
operand of the void comma 35. -/
def voidCommaNodes : NodeId → GenTree
  | 10 => demoNode GT_CNS_INT noFlags 0 0 0 0 5 none (some 11)
  | 11 => demoNode GT_CALL callFlags 0 10 0 0 0 (some 10) (some 12)
  | 12 => demoNode genTreeOps.GT_STORE_LCL_VAR callFlags 11 0 0 1 0 (some 11) none
  | 34 => demoNode GT_NOP noFlags 0 0 0 0 0 none (some 30)
  | 30 => demoNode GT_CNS_INT noFlags 0 0 0 0 3 (some 34) (some 31)
  | 31 => demoNode genTreeOps.GT_LCL_VAR noFlags 0 0 0 1 0 (some 30) (some 32)
  | 32 => demoNode genTreeOps.GT_ARR_LENGTH exceptFlags 31 0 0 0 0 (some 31) (some 33)
  | 33 => demoNode genTreeOps.GT_BOUNDS_CHECK exceptFlags 30 32 0 0 0 (some 32) (some 35)
  | 35 => { demoNode genTreeOps.GT_COMMA exceptFlags 34 33 0 0 0 (some 33) none with
            gtType := var_types.TYP_VOID }
  | _ => demoNode GT_NOP noFlags 0 0 0 0 0 none none

/-- The example state for `voidCommaNodes`, scanning statement 2. -/
def voidCommaIR : Compiler :=
  demoCompiler voidCommaNodes (boundsStmts 34)
    (fun _ => demoLocal (fun ssa => if ssa = 1 then some 12 else none)) 2

/-- Example IR: one statement `comma(nullcheck(x), ind(add(x, 8)))`, nodes
40-46 in evaluation order, where node 43 is `mid`.  The local `x` is local 0,
a parameter, read as `x@1`. -/
def sameStmtNodes (mid : GenTree) : NodeId → GenTree
  | 40 => demoNode genTreeOps.GT_LCL_VAR noFlags 0 0 0 1 0 none (some 41)
  | 41 => demoNode genTreeOps.GT_NULLCHECK exceptFlags 40 0 0 0 0 (some 40) (some 42)
  | 42 => demoNode genTreeOps.GT_LCL_VAR noFlags 0 0 0 1 0 (some 41) (some 43)
  | 43 => { mid with gtPrev := some 42, gtNext := some 44 }
  | 44 => demoNode genTreeOps.GT_ADD noFlags 42 43 0 0 0 (some 43) (some 45)
  | 45 => demoNode GT_IND exceptFlags 44 0 0 0 0 (some 44) (some 46)
  | 46 => demoNode genTreeOps.GT_COMMA exceptFlags 41 45 0 0 0 (some 45) none
  | _ => demoNode GT_NOP noFlags 0 0 0 0 0 none none

/-- The example state for `sameStmtNodes`, scanning its only statement. -/
def sameStmtIR (mid : GenTree) : Compiler :=
  demoCompiler (sameStmtNodes mid) (fun _ => demoStmt 46 40 1 none)
    (fun _ => demoLocal (fun _ => none)) 1

/-- The constant 8. -/
def constEight : GenTree := demoNode GT_CNS_INT noFlags 0 0 0 0 8 none none

/-- A call. -/
def someCall : GenTree := demoNode GT_CALL callFlags 0 0 0 0 0 none none

/-- Example IR: `nullcheck(x)` (statement 1, nodes 50-51), then a statement
with root 55, which is `mid` (statement 2, nodes 54-55), then `ind(x)`
(statement 3, nodes 60-61). -/
def crossStmtNodes (mid : GenTree) : NodeId → GenTree
  | 50 => demoNode genTreeOps.GT_LCL_VAR noFlags 0 0 0 1 0 none (some 51)
  | 51 => demoNode genTreeOps.GT_NULLCHECK exceptFlags 50 0 0 0 0 (some 50) none
  | 54 => demoNode GT_CNS_INT noFlags 0 0 0 0 1 none (some 55)
  | 55 => { mid with gtPrev := some 54, gtNext := none }
  | 60 => demoNode genTreeOps.GT_LCL_VAR noFlags 0 0 0 1 0 none (some 61)
  | 61 => demoNode GT_IND exceptFlags 60 0 0 0 0 (some 60) none
  | _ => demoNode GT_NOP noFlags 0 0 0 0 0 none none

/-- The statements of `crossStmtIR`; the list is circular through
`GetPrevStmt`. -/
def crossStmtStmts : StmtId → Statement
  | 1 => demoStmt 51 50 3 (some 2)
  | 2 => demoStmt 55 54 1 (some 3)
  | _ => demoStmt 61 60 2 none

/-- The example state for `crossStmtNodes`, scanning statement 3. -/
def crossStmtIR (mid : GenTree) : Compiler :=
  demoCompiler (crossStmtNodes mid) crossStmtStmts (fun _ => demoLocal (fun _ => none)) 3

/-- A store of the constant node 54 to the local 1. -/
def storeToLocal : GenTree :=
  demoNode genTreeOps.GT_STORE_LCL_VAR asgFlags 54 0 1 1 0 none none

/-- Example IR: `nullcheck(x@1)` (statement 1, nodes 70-71), then `x@2 = y@1`
(statement 2, nodes 73-74), then `ind(x@2)` (statement 3, nodes 75-76). -/
def redefNodes : NodeId → GenTree
  | 70 => demoNode genTreeOps.GT_LCL_VAR noFlags 0 0 0 1 0 none (some 71)
  | 71 => demoNode genTreeOps.GT_NULLCHECK exceptFlags 70 0 0 0 0 (some 70) none
  | 73 => demoNode genTreeOps.GT_LCL_VAR noFlags 0 0 1 1 0 none (some 74)
  | 74 => demoNode genTreeOps.GT_STORE_LCL_VAR asgFlags 73 0 0 2 0 (some 73) none
  | 75 => demoNode genTreeOps.GT_LCL_VAR noFlags 0 0 0 2 0 none (some 76)
  | 76 => demoNode GT_IND exceptFlags 75 0 0 0 0 (some 75) none
  | _ => demoNode GT_NOP noFlags 0 0 0 0 0 none none

/-- The statements of `redefIR`. -/
def redefStmts : StmtId → Statement
  | 1 => demoStmt 71 70 3 (some 2)
  | 2 => demoStmt 74 73 1 (some 3)
  | _ => demoStmt 76 75 2 none

/-- The example state for `redefNodes`, scanning statement 3. -/
def redefIR : Compiler :=
  demoCompiler redefNodes redefStmts
    (fun lcl => demoLocal (fun ssa => if lcl = 0 ∧ ssa = 2 then some 74 else none)) 3

/-- Example IR: `x@1 = comma(nullcheck(y@1), add(y@v, 8))` (statement 1, nodes
80-86) and then `ind(x@1)` (statement 2, nodes 87-88).  The local `x` is local
0 and `y` is local 1; `v` is the SSA number of the second read of `y`. -/
def secondaryNodes (v : Nat) : NodeId → GenTree
  | 80 => demoNode genTreeOps.GT_LCL_VAR noFlags 0 0 1 1 0 none (some 81)
  | 81 => demoNode genTreeOps.GT_NULLCHECK exceptFlags 80 0 0 0 0 (some 80) (some 82)
  | 82 => demoNode genTreeOps.GT_LCL_VAR noFlags 0 0 1 v 0 (some 81) (some 83)
  | 83 => demoNode GT_CNS_INT noFlags 0 0 0 0 8 (some 82) (some 84)
  | 84 => demoNode genTreeOps.GT_ADD noFlags 82 83 0 0 0 (some 83) (some 85)
  | 85 => demoNode genTreeOps.GT_COMMA exceptFlags 81 84 0 0 0 (some 84) (some 86)
  | 86 => demoNode genTreeOps.GT_STORE_LCL_VAR { exceptFlags with GTF_ASG := true }
            85 0 0 1 0 (some 85) none
  | 87 => demoNode genTreeOps.GT_LCL_VAR noFlags 0 0 0 1 0 none (some 88)
  | 88 => demoNode GT_IND exceptFlags 87 0 0 0 0 (some 87) none
  | _ => demoNode GT_NOP noFlags 0 0 0 0 0 none none

/-- The statements of `secondaryIR`. -/
def secondaryStmts : StmtId → Statement
  | 1 => demoStmt 86 80 2 (some 2)
  | _ => demoStmt 88 87 1 none

/-- The example state for `secondaryNodes`, scanning statement 2. -/
def secondaryIR (v : Nat) : Compiler :=
  demoCompiler (secondaryNodes v) secondaryStmts
    (fun lcl => demoLocal (fun ssa => if lcl = 0 ∧ ssa = 1 then some 86 else none)) 2

/-- Example IR: stores.  Node 90 stores to the local 0, node 91 stores through
a pointer, node 92 stores to the address-exposed local 1, node 93 stores to
the local 2, which is live into a handler; all four touch global memory
(`GTF_GLOB_REF`).  Node 94 stores to the local 1 and has no `GTF_GLOB_REF`. -/
def storeNodes : NodeId → GenTree
  | 90 => demoNode genTreeOps.GT_STORE_LCL_VAR { asgFlags with GTF_GLOB_REF := true }
            0 0 0 2 0 none none
  | 91 => demoNode GT_STOREIND { asgFlags with GTF_GLOB_REF := true } 0 0 0 0 0 none none
  | 92 => demoNode genTreeOps.GT_STORE_LCL_VAR { asgFlags with GTF_GLOB_REF := true }
            0 0 1 2 0 none none
  | 93 => demoNode genTreeOps.GT_STORE_LCL_VAR { asgFlags with GTF_GLOB_REF := true }
            0 0 2 2 0 none none
  | 94 => demoNode genTreeOps.GT_STORE_LCL_VAR asgFlags 0 0 1 2 0 none none
  | _ => demoNode GT_NOP noFlags 0 0 0 0 0 none none

/-- The locals of `storeIR`: local 1 is address-exposed, local 2 is live into
a handler. -/
def storeLocals : Nat → LclVarDsc
  | 1 => { demoLocal (fun _ => none) with addressExposed := true }
  | 2 => { demoLocal (fun _ => none) with lvLiveInOutOfHndlr := true }
  | _ => demoLocal (fun _ => none)

/-- The example state for `storeNodes`. -/
def storeIR : Compiler :=
  demoCompiler storeNodes (fun _ => demoStmt 90 90 1 none) storeLocals 1

/-! ## The conditions that the claims name -/

/-- In the state `c`, `tree` is an array-length node whose pointer operand is
a read of a scalar local tracked in SSA, and the def-use chain of that read
resolves to the node `actualVal` (an integer constant: the length of the
allocation at the end of the chain). -/
def arrayLengthResolves (J : JitHost) (c : Compiler) (tree actualVal : NodeId) : Prop :=
  (c.node tree).gtOper = genTreeOps.GT_ARR_LENGTH
  ∧ J.OperIsScalarLocal (c.node (c.node tree).gtOp1).gtOper = true
  ∧ (c.lvaTable (c.node (c.node tree).gtOp1).lclNum).lvInSsa = true
  ∧ optPropGetValue J c (c.node (c.node tree).gtOp1).lclNum (c.node (c.node tree).gtOp1).ssaNum
      optPropKind.OPK_ARRAYLEN = Except.ok (some actualVal)

/-- In the state `c`, the node `check` is a bounds check that the array-length
node `tree` of constant length `N` makes redundant and that has a shape the
driver removes: `check` is the node after `tree` in evaluation order, it is a
bounds check whose length operand is `tree` itself, its index operand is an
integer constant `i` with `0 ≤ i < N`, and it is the first operand of its
parent `GT_COMMA` or the root of the current statement. -/
def removableBoundsCheck (J : JitHost) (c : Compiler) (tree : NodeId) (N : Int)
    (check : NodeId) : Prop :=
  (c.node tree).gtNext = some check
  ∧ (c.node check).gtOper = genTreeOps.GT_BOUNDS_CHECK
  ∧ J.GetArrayLength c check = tree
  ∧ J.IsCnsIntOrI (c.node (J.GetIndex c check)).gtOper = true
  ∧ 0 ≤ (c.node (J.GetIndex c check)).iconValue
  ∧ (c.node (J.GetIndex c check)).iconValue < N
  ∧ ((∃ p, J.gtGetParent c check = some p ∧ (c.node p).gtOper = genTreeOps.GT_COMMA
        ∧ (c.node p).gtOp1 = check)
      ∨ (c.stmt c.compCurStmt).rootNode = some check)

/-- The value `v` has the shape `comma(nullcheck(y), add(y, const))`: a
`GT_COMMA` whose first operand has a `GT_NULLCHECK` of a `GT_LCL_VAR` as its
effective value and whose second operand is a `GT_ADD` of a `GT_LCL_VAR` with
the same local number and an integer constant. -/
def isNullCheckThenAdd (J : JitHost) (c : Compiler) (v : NodeId) : Prop :=
  (c.node v).gtOper = genTreeOps.GT_COMMA
  ∧ (c.node (J.gtEffectiveVal c (c.node v).gtOp1)).gtOper = genTreeOps.GT_NULLCHECK
  ∧ (c.node (c.node (J.gtEffectiveVal c (c.node v).gtOp1)).gtOp1).gtOper
      = genTreeOps.GT_LCL_VAR
  ∧ (c.node (c.node v).gtOp2).gtOper = genTreeOps.GT_ADD
  ∧ (c.node (c.node (c.node v).gtOp2).gtOp1).gtOper = genTreeOps.GT_LCL_VAR
  ∧ (c.node (c.node (c.node v).gtOp2).gtOp1).lclNum
      = (c.node (c.node (J.gtEffectiveVal c (c.node v).gtOp1)).gtOp1).lclNum
  ∧ J.IsCnsIntOrI (c.node (c.node (c.node v).gtOp2).gtOp2).gtOper = true

/-- A node is a call: it has `GTF_CALL` set and its operator requires the
call flag. -/
def isCallNode (J : JitHost) (c : Compiler) (n : NodeId) : Prop :=
  (c.node n).gtFlags.GTF_CALL = true ∧ J.OperRequiresCallFlag c n = true

/-! ## Further examples: stores without `GTF_GLOB_REF`, and side effects that are not stores -/

/-- The operator `GT_XADD` of the examples: an atomic add, which is not a
store and requires the assignment flag. -/
abbrev GT_XADD : genTreeOps := genTreeOps.GT_OTHER 6

/-- The host of the examples, with the atomic operator `GT_XADD` among the
operators that require the assignment flag. -/
def atomicHost : JitHost :=
  { demoHost with
    OperRequiresAsgFlag := fun op =>
      op == genTreeOps.GT_STORE_LCL_VAR || op == GT_STOREIND || op == GT_XADD }

/-- Example IR: side effects.  Node 95 stores to the local 2, which is live
into a handler, and node 96 stores the value 97, itself a store, to the local
0; neither has `GTF_GLOB_REF`.  Node 98 is an atomic add with `GTF_ASG` and
without `GTF_GLOB_REF`; node 99 is a comma with `GTF_ASG` and `GTF_GLOB_REF`
(the summary of its operands). -/
def quirkNodes : NodeId → GenTree
  | 95 => demoNode genTreeOps.GT_STORE_LCL_VAR asgFlags 0 0 2 2 0 none none
  | 96 => demoNode genTreeOps.GT_STORE_LCL_VAR asgFlags 97 0 0 2 0 none none
  | 97 => demoNode genTreeOps.GT_STORE_LCL_VAR asgFlags 0 0 3 2 0 none none
  | 98 => demoNode GT_XADD asgFlags 0 0 0 0 0 none none
  | 99 => demoNode genTreeOps.GT_COMMA { asgFlags with GTF_GLOB_REF := true } 0 0 0 0 0 none none
  | _ => demoNode GT_NOP noFlags 0 0 0 0 0 none none

/-- The example state for `quirkNodes`, with the locals of `storeIR`. -/
def quirkIR : Compiler :=
  demoCompiler quirkNodes (fun _ => demoStmt 95 95 1 none) storeLocals 1

/-- Example IR: one statement with `n` nodes between a null check and an
indirection: `x@1` (node 199), `nullcheck(x)` (node 200), then the `n`
side-effect-free nodes 201 to 200 + n, then `x@1` again (node 198, out of the
evaluation order, as the address) and `ind(x)` (node 201 + n), the root. -/
def longStmtNodes (n : Nat) (i : NodeId) : GenTree :=
  if i = 198 then demoNode genTreeOps.GT_LCL_VAR noFlags 0 0 0 1 0 none none
  else if i = 199 then demoNode genTreeOps.GT_LCL_VAR noFlags 0 0 0 1 0 none (some 200)
  else if i = 200 then
    demoNode genTreeOps.GT_NULLCHECK exceptFlags 199 0 0 0 0 (some 199) (some 201)
  else if 200 < i ∧ i ≤ 200 + n then
    demoNode GT_NOP noFlags 0 0 0 0 0 (some (i - 1)) (some (i + 1))
  else if i = 201 + n then demoNode GT_IND exceptFlags 198 0 0 0 0 (some (200 + n)) none
  else demoNode GT_NOP noFlags 0 0 0 0 0 none none

/-- The example state for `longStmtNodes n`, scanning its only statement. -/
def longStmtIR (n : Nat) : Compiler :=
  demoCompiler (longStmtNodes n) (fun _ => demoStmt (201 + n) 199 1 none)
    (fun _ => demoLocal (fun _ => none)) 1

/-- The state of the loops of `optIsNullCheckFoldingLegal` on entry of the
first loop (lines 510-518). -/
def legalityStart (c : Compiler) (nullCheckTree : NodeId) (nullCheckParent : Option NodeId) :
    LegalityWalk :=
  { canRemoveNullCheck := true, nodesWalked := 0, previousTree := nullCheckTree,
    currentTree := (c.node nullCheckTree).gtNext, nullCheckParent := nullCheckParent,
    curStmt := c.compCurStmt }

/-- Lines 331-343 of `optFoldNullCheck`: the flag updates of a fold, before
the map entry is removed and the statement is re-morphed. -/
def foldFlagUpdates (c : Compiler) (tree nullCheckTree : NodeId)
    (nullCheckParent : Option NodeId) : Compiler :=
  -- Remove the null check
  let c1 := c.setFlags nullCheckTree (markNullCheckRemoved (c.node nullCheckTree).gtFlags)
  -- The current indir is no longer non-faulting.
  let c2 := c1.setFlags tree { (c1.node tree).gtFlags with GTF_IND_NONFAULTING := false }
  match nullCheckParent with
  | some parent => c2.setFlags parent { (c2.node parent).gtFlags with GTF_DONT_CSE := false }
  | none => c2

/-- Lines 347-351 of `optFoldNullCheck`: re-morph the statement of the null
check and record its SSA uses, keeping `compCurStmt`. -/
def remorphNullCheckStmt (J : JitHost) (c : Compiler) (nullCheckStmt : StmtId) : Compiler :=
  let curStmt := c.compCurStmt
  let c4 := J.fgMorphBlockStmt c c.compCurBB nullCheckStmt
  let c5 := J.optRecordSsaUses c4 (c4.stmt nullCheckStmt).rootNode c4.compCurBB
  { c5 with compCurStmt := curStmt }

/-- The node `tree` is, in the state `c`, a `GT_NULLCHECK` of a `GT_LCL_VAR`:
the test of line 356. -/
def isNullCheckOfLocal (c : Compiler) (tree : NodeId) : Prop :=
  (c.node tree).gtOper = genTreeOps.GT_NULLCHECK
  ∧ (c.node (c.node tree).gtOp1).gtOper = genTreeOps.GT_LCL_VAR

/-- A successful fold of the null check `nullCheckTree` into `tree`: the
finder returns `nullCheckTree` and the legality checker returns true, with
the out-parameters of `r`. -/
def foldSucceeds (J : JitHost) (c : Compiler) (tree : NodeId)
    (nullCheckMap : LocalNumberToNullCheckTreeMap) (nullCheckTree : NodeId)
    (r : LegalityResult) : Prop :=
  optFindNullCheckToFold J c tree nullCheckMap = some nullCheckTree
  ∧ optIsNullCheckFoldingLegal J c tree nullCheckTree none = Except.ok r
  ∧ r.canRemoveNullCheck = true

/-- Example IR: `nullcheck(x@1)` twice in one statement, nodes 1-5: the second
null check 4 is itself an indirection-like node, into which the first one, 2,
can be folded. -/
def twoChecksNodes : NodeId → GenTree
  | 1 => demoNode genTreeOps.GT_LCL_VAR noFlags 0 0 0 1 0 none (some 2)
  | 2 => demoNode genTreeOps.GT_NULLCHECK
            { exceptFlags with GTF_DONT_CSE := true } 1 0 0 0 0 (some 1) (some 3)
  | 3 => demoNode genTreeOps.GT_LCL_VAR noFlags 0 0 0 1 0 (some 2) (some 4)
  | 4 => demoNode genTreeOps.GT_NULLCHECK
            { exceptFlags with GTF_IND_NONFAULTING := true } 3 0 0 0 0 (some 3) (some 5)
  | 5 => demoNode genTreeOps.GT_COMMA
            { exceptFlags with GTF_DONT_CSE := true } 2 4 0 0 0 (some 4) none
  | _ => demoNode GT_NOP noFlags 0 0 0 0 0 none none

/-- The example state for `twoChecksNodes`, scanning its only statement. -/
def twoChecksIR : Compiler :=
  demoCompiler twoChecksNodes (fun _ => demoStmt 5 1 1 none)
    (fun _ => demoLocal (fun _ => none)) 1

/-! ## Chains of copies, for the SSA value resolver -/

/-- The occurrence `occ` (a local number and an SSA number) is defined by a
whole-variable store to its local whose value is a bare read of the
occurrence `src`: the test of lines 272-273. -/
def isCopyOf (J : JitHost) (c : Compiler) (occ src : Nat × Nat) : Bool :=
  match ((c.lvaTable occ.1).perSsaData occ.2).defNode with
  | none => false
  | some d =>
    (c.node d).gtOper == genTreeOps.GT_STORE_LCL_VAR && (c.node d).lclNum == occ.1
      && (c.node (J.Data c d)).gtOper == genTreeOps.GT_LCL_VAR
      && (c.node (J.Data c d)).lclNum == src.1 && (c.node (J.Data c d)).ssaNum == src.2

/-- Each occurrence of the list is a copy of the next one: a chain of as many
copy-assignments as the list has occurrences after the first. -/
def copyChain (J : JitHost) (c : Compiler) : List (Nat × Nat) → Bool
  | a :: b :: rest => isCopyOf J c a b && copyChain J c (b :: rest)
  | _ => true

/-- Example IR: a chain of `k` copies `x0 = x1`, ..., `x(k-1) = xk` that ends
in `xk = new int[7]`.  The local `xi` is local `i`, defined once, as `xi@1`,
by the store `300 + i`; the value of a copy is the read `400 + i` of
`x(i+1)@1`, the value of the last store is the allocation 500 of the constant
length 501. -/
def copyChainNodes (k : Nat) (i : NodeId) : GenTree :=
  if 300 ≤ i ∧ i < 300 + k then
    demoNode genTreeOps.GT_STORE_LCL_VAR asgFlags (i + 100) 0 (i - 300) 1 0 none none
  else if i = 300 + k then
    demoNode genTreeOps.GT_STORE_LCL_VAR callFlags 500 0 k 1 0 none none
  else if 400 ≤ i ∧ i < 400 + k then
    demoNode genTreeOps.GT_LCL_VAR noFlags 0 0 (i - 400 + 1) 1 0 none none
  else if i = 500 then demoNode GT_CALL callFlags 0 501 0 0 0 none none
  else if i = 501 then demoNode GT_CNS_INT noFlags 0 0 0 0 7 none none
  else demoNode GT_NOP noFlags 0 0 0 0 0 none none

/-- The example state for `copyChainNodes k`. -/
def copyChainIR (k : Nat) : Compiler :=
  demoCompiler (copyChainNodes k) (fun _ => demoStmt 300 300 1 none)
    (fun lcl => demoLocal (fun ssa => if ssa = 1 ∧ lcl ≤ k then some (300 + lcl) else none)) 1

/-- Example IR: a cycle of copies, `x@1 = y@1` (store 300, value 400) and
`y@1 = x@1` (store 301, value 401), with `x` the local 0 and `y` the local 1. -/
def copyCycleNodes : NodeId → GenTree
  | 300 => demoNode genTreeOps.GT_STORE_LCL_VAR asgFlags 400 0 0 1 0 none none
  | 301 => demoNode genTreeOps.GT_STORE_LCL_VAR asgFlags 401 0 1 1 0 none none
  | 400 => demoNode genTreeOps.GT_LCL_VAR noFlags 0 0 1 1 0 none none
  | 401 => demoNode genTreeOps.GT_LCL_VAR noFlags 0 0 0 1 0 none none
  | _ => demoNode GT_NOP noFlags 0 0 0 0 0 none none

/-- The example state for `copyCycleNodes`. -/
def copyCycleIR : Compiler :=
  demoCompiler copyCycleNodes (fun _ => demoStmt 300 300 1 none)
    (fun lcl => demoLocal (fun ssa => if ssa = 1 ∧ lcl ≤ 1 then some (300 + lcl) else none)) 1

/-! ## The driver `optEarlyProp`: the scan of a basic block -/

/-- The code of the JIT that the driver `optEarlyProp` uses and does not
define, on top of what the rest of `earlyprop.cpp` uses. -/
structure DriverHost extends JitHost where
  /-- The test `(flags & GTF_ALL_EFFECT) != 0`. -/
  GTF_ALL_EFFECT : GenTreeFlags → Bool
  /-- The first statement of a block: `block->firstStmt()`. -/
  firstStmt : Compiler → BlockId → Option StmtId
  gtUpdateSideEffects : Compiler → StmtId → NodeId → Compiler
  gtSetStmtInfo : Compiler → StmtId → Compiler
  fgSetStmtSeq : Compiler → StmtId → Compiler

/-- The result of the loop over the nodes of a statement: the state, the
map, and `isRewritten`. -/
structure TreeScan where
  comp : Compiler
  nullCheckMap : LocalNumberToNullCheckTreeMap
  isRewritten : Bool

/-- The loop over the nodes of a statement in `optEarlyProp` (lines 77-86),
from the node `tree`.  The loop follows `gtNext`, which the source does not
bound: the first argument is the fuel. -/
def scanTrees (D : DriverHost) (stmt : StmtId) :
    Nat → Compiler → LocalNumberToNullCheckTreeMap → Option NodeId → Bool →
      Except Fault TreeScan
  | _, c, m, none, isRewritten =>
    Except.ok { comp := c, nullCheckMap := m, isRewritten := isRewritten }
  | 0, _, _, some _, _ => Except.error Fault.outOfFuel
  | fuel + 1, c, m, some tree, isRewritten =>
    match optEarlyPropRewriteTree D.toJitHost c tree m with
    | Except.error e => Except.error e
    | Except.ok r =>
      match r.tree with
      | some rewrittenTree =>
        let c1 := D.gtUpdateSideEffects r.comp stmt rewrittenTree
        scanTrees D stmt fuel c1 r.nullCheckMap (c1.node rewrittenTree).gtNext true
      | none =>
        scanTrees D stmt fuel r.comp r.nullCheckMap (r.comp.node tree).gtNext isRewritten

/-- The result of the loop over the statements of a block: the state, the
map, and `numChanges`. -/
structure StmtScan where
  comp : Compiler
  nullCheckMap : LocalNumberToNullCheckTreeMap
  numChanges : Nat

/-- The loop over the statements of a block in `optEarlyProp` (lines 61-98),
from the statement `stmt`.  The loop follows `GetNextStmt`, which the source
does not bound: the second argument is the fuel, the first one the fuel of
each inner loop. -/
def scanStmts (D : DriverHost) (treeFuel : Nat) :
    Nat → Compiler → LocalNumberToNullCheckTreeMap → Option StmtId → Nat →
      Except Fault StmtScan
  | _, c, m, none, numChanges =>
    Except.ok { comp := c, nullCheckMap := m, numChanges := numChanges }
  | 0, _, _, some _, _ => Except.error Fault.outOfFuel
  | fuel + 1, c, m, some stmt, numChanges =>
    -- Preserve the next link before the propagation and morph.
    let next := (c.stmt stmt).nextStmt
    match (c.stmt stmt).rootNode with
    | none => scanStmts D treeFuel fuel c m next numChanges
    | some root =>
      if D.GTF_ALL_EFFECT (c.node root).gtFlags = false then
        scanStmts D treeFuel fuel c m next numChanges
      else
        let c1 := { c with compCurStmt := stmt }
        -- Walk the stmt tree in linear order.
        match scanTrees D stmt treeFuel c1 m (c1.stmt stmt).treeList false with
        | Except.error e => Except.error e
        | Except.ok t =>
          -- Update the evaluation order and the statement info if the stmt
          -- has been rewritten.
          if t.isRewritten = true then
            scanStmts D treeFuel fuel (D.fgSetStmtSeq (D.gtSetStmtInfo t.comp stmt) stmt)
              t.nullCheckMap next (numChanges + 1)
          else
            scanStmts D treeFuel fuel t.comp t.nullCheckMap next numChanges

/-- The body of the loop over the blocks in `optEarlyProp` (lines 56-98): the
scan of the block `block`, with a null-check map of its own, empty at the
start. -/
def scanBlock (D : DriverHost) (treeFuel stmtFuel : Nat) (c : Compiler) (block : BlockId)
    (numChanges : Nat) : Except Fault StmtScan :=
  let c1 := { c with compCurBB := block }
  scanStmts D treeFuel stmtFuel c1 (fun _ => none) (D.firstStmt c1 block) numChanges

/-- The states of the scan of the block `B` by `optEarlyProp` (lines 56-98),
as a step relation: `BlockScan D B c m visited` holds when the scan can stand
in the state `c` with the null-check map `m`, having passed the nodes of
`visited` to `optEarlyPropRewriteTree` since the start of the block. -/
inductive BlockScan (D : DriverHost) (B : BlockId) :
    Compiler → LocalNumberToNullCheckTreeMap → List NodeId → Prop where
  /-- Lines 56-59: `compCurBB = block`, and a new, empty map. -/
  | start (c : Compiler) : BlockScan D B { c with compCurBB := B } (fun _ => none) []
  /-- Line 72: `compCurStmt = stmt`. -/
  | setStmt (c : Compiler) (m : LocalNumberToNullCheckTreeMap) (visited : List NodeId)
      (stmt : StmtId) :
      BlockScan D B c m visited → BlockScan D B { c with compCurStmt := stmt } m visited
  /-- Line 79: `optEarlyPropRewriteTree(tree, &nullCheckMap)`. -/
  | rewrite (c : Compiler) (m : LocalNumberToNullCheckTreeMap) (visited : List NodeId)
      (tree : NodeId) (r : RewriteResult) :
      BlockScan D B c m visited →
      optEarlyPropRewriteTree D.toJitHost c tree m = Except.ok r →
      BlockScan D B r.comp r.nullCheckMap (tree :: visited)
  /-- Line 82: `gtUpdateSideEffects(stmt, rewrittenTree)`. -/
  | updateSideEffects (c : Compiler) (m : LocalNumberToNullCheckTreeMap)
      (visited : List NodeId) (stmt : StmtId) (rewrittenTree : NodeId) :
      BlockScan D B c m visited →
      BlockScan D B (D.gtUpdateSideEffects c stmt rewrittenTree) m visited
  /-- Lines 92-93: `gtSetStmtInfo(stmt); fgSetStmtSeq(stmt)`. -/
  | setStmtSeq (c : Compiler) (m : LocalNumberToNullCheckTreeMap) (visited : List NodeId)
      (stmt : StmtId) :
      BlockScan D B c m visited →
      BlockScan D B (D.fgSetStmtSeq (D.gtSetStmtInfo c stmt) stmt) m visited

/-- The code of the JIT that the phase calls leaves `compCurBB` as it is. -/
def hostKeepsBlock (D : DriverHost) : Prop :=
  (∀ c b s, (D.fgMorphBlockStmt c b s).compCurBB = c.compCurBB)
  ∧ (∀ c r b, (D.optRecordSsaUses c r b).compCurBB = c.compCurBB)
  ∧ (∀ c check comma s, (D.optRemoveRangeCheck c check comma s).1.compCurBB = c.compCurBB)
  ∧ (∀ c s t, (D.gtUpdateSideEffects c s t).compCurBB = c.compCurBB)
  ∧ (∀ c s, (D.gtSetStmtInfo c s).compCurBB = c.compCurBB)
  ∧ (∀ c s, (D.fgSetStmtSeq c s).compCurBB = c.compCurBB)

/-- The driver host of the examples: `demoHost`, with every statement worth a
scan and with updates of the statement information that change nothing. -/
def demoDriverHost : DriverHost :=
  { toJitHost := demoHost
    GTF_ALL_EFFECT := fun f =>
      f.GTF_ASG || f.GTF_CALL || f.GTF_EXCEPT || f.GTF_GLOB_REF || f.GTF_ORDER_SIDEEFF
    firstStmt := fun _ _ => some 1
    gtUpdateSideEffects := fun c _ _ => c
    gtSetStmtInfo := fun c _ => c
    fgSetStmtSeq := fun c _ => c }
/-! ## The ends of chains of copies -/

/-- The occurrence `occ` is defined by a whole-variable store to its local
whose value is a bare read of a local: the test of lines 272-273. -/
def definedByCopy (J : JitHost) (c : Compiler) (occ : Nat × Nat) : Bool :=
  match ((c.lvaTable occ.1).perSsaData occ.2).defNode with
  | none => false
  | some d =>
    (c.node d).gtOper == genTreeOps.GT_STORE_LCL_VAR && (c.node d).lclNum == occ.1
      && (c.node (J.Data c d)).gtOper == genTreeOps.GT_LCL_VAR

/-- The last occurrence of the chain `head :: rest`. -/
def chainEnd : Nat × Nat → List (Nat × Nat) → Nat × Nat
  | head, [] => head
  | _, b :: rest => chainEnd b rest

/-- The occurrence `occ` has a definition that is not a copy and whose value
is an array allocation of which `getArrayLengthFromAllocation` gives the
length `value`, an integer constant node. -/
def definedByConstantAllocation (J : JitHost) (c : Compiler) (occ : Nat × Nat)
    (value : NodeId) : Prop :=
  definedByCopy J c occ = false
  ∧ ∃ d, ((c.lvaTable occ.1).perSsaData occ.2).defNode = some d
      ∧ J.getArrayLengthFromAllocation c (J.Data c d) = some value
      ∧ J.IsCnsIntOrI (c.node value).gtOper = true

/-- The occurrence `occ` has a definition that is not a copy and whose value
is not an array allocation, or is an allocation whose length is not an integer
constant. -/
def definedWithoutConstantLength (J : JitHost) (c : Compiler) (occ : Nat × Nat) : Prop :=
  definedByCopy J c occ = false
  ∧ ∃ d, ((c.lvaTable occ.1).perSsaData occ.2).defNode = some d
      ∧ (J.getArrayLengthFromAllocation c (J.Data c d) = none
        ∨ ∃ value, J.getArrayLengthFromAllocation c (J.Data c d) = some value
            ∧ J.IsCnsIntOrI (c.node value).gtOper = false)

/-- Example IR: `x = y` (store 300, value 400) and `y = new int[n]` (store
301, value 500), where the length 501 of the allocation is a read of the local
`n`, not a constant.  The local `x` is local 0 and `y` is local 1. -/
def varLenNodes : NodeId → GenTree
  | 300 => demoNode genTreeOps.GT_STORE_LCL_VAR asgFlags 400 0 0 1 0 none none
  | 301 => demoNode genTreeOps.GT_STORE_LCL_VAR callFlags 500 0 1 1 0 none none
  | 400 => demoNode genTreeOps.GT_LCL_VAR noFlags 0 0 1 1 0 none none
  | 500 => demoNode GT_CALL callFlags 0 501 0 0 0 none none
  | 501 => demoNode genTreeOps.GT_LCL_VAR noFlags 0 0 2 1 0 none none
  | _ => demoNode GT_NOP noFlags 0 0 0 0 0 none none

/-- The example state for `varLenNodes`. -/
def varLenIR : Compiler :=
  demoCompiler varLenNodes (fun _ => demoStmt 300 300 1 none)
    (fun lcl => demoLocal (fun ssa => if ssa = 1 ∧ lcl ≤ 1 then some (300 + lcl) else none)) 1

/-! ## The accumulated offset of `optFindNullCheckToFold` -/

/-- The constant addend of the address of the indirection `tree`: `const2`
when the effective address is `base + const2`, zero otherwise (lines
396-402). -/
def addressAddend (J : JitHost) (c : Compiler) (tree : NodeId) : Int :=
  let addr := J.gtEffectiveVal c (J.GetIndirOrArrMetaDataAddr c tree)
  if (c.node addr).gtOper = genTreeOps.GT_ADD
      ∧ J.IsCnsIntOrI (c.node (c.node addr).gtOp2).gtOper = true then
    (c.node (c.node addr).gtOp2).iconValue
  else 0

/-- The constant addend `const1` of the value
`comma(nullcheck(y), add(y, const1))` that defines the occurrence (line 478);
zero when the occurrence has no definition node. -/
def definitionAddend (J : JitHost) (c : Compiler) (lclNum ssaNum : Nat) : Int :=
  match ((c.lvaTable lclNum).perSsaData ssaNum).defNode with
  | none => 0
  | some defNode => (c.node (c.node (c.node (J.Data c defNode)).gtOp2).gtOp2).iconValue

/-- The value of `offsetValue` when `optFindNullCheckToFold` returns: at line
406 or 414, or at line 483, after the map (lines 422-429) or the definition
(lines 431-481) gave the candidate. -/
def accumulatedOffset (J : JitHost) (c : Compiler) (tree : NodeId)
    (nullCheckMap : LocalNumberToNullCheckTreeMap) : Int :=
  let addr := (indirBase J c tree).1
  let offsetValue := (indirBase J c tree).2
  if (c.node addr).gtOper ≠ genTreeOps.GT_LCL_VAR then offsetValue
  else if (c.node addr).ssaNum = J.RESERVED_SSA_NUM then offsetValue
  else
    match nullCheckFromMap c nullCheckMap (c.node addr).lclNum (c.node addr).ssaNum with
    | some _ => offsetValue
    | none =>
      match nullCheckFromDef J c (c.node addr).lclNum (c.node addr).ssaNum offsetValue with
      | none => offsetValue
      | some (_, offsetValue) => offsetValue

/-- The constant 5000, a big offset for the host of the examples. -/
def constFiveThousand : GenTree := demoNode GT_CNS_INT noFlags 0 0 0 0 5000 none none

/-! ## The invariant of the null-check map -/

/-- Every entry `(n -> t)` of the map was inserted with `t` a `GT_NULLCHECK`
node whose address operand is a `GT_LCL_VAR` of local number `n`: there is a
state of `past`, the state of the insertion, in which `t` is such a node. -/
def insertedAsNullCheck (past : Compiler → Prop) (m : LocalNumberToNullCheckTreeMap) : Prop :=
  ∀ n t, m n = some t →
    ∃ c0, past c0 ∧ isNullCheckOfLocal c0 t ∧ (c0.node (c0.node t).gtOp1).lclNum = n

/-- The states in which the calls of `optFoldNullCheck` made during the scan
of the block `B` returned: the states of lines 356-360. -/
def foldStates (D : DriverHost) (B : BlockId) (c0 : Compiler) : Prop :=
  ∃ c m visited tree res, BlockScan D B c m visited
    ∧ optFoldNullCheck D.toJitHost c tree m = Except.ok res ∧ res.comp = c0

/-- The map invariant as `optFindNullCheckToFold` relies on it: every entry
of the map is, in the state `c`, a `GT_NULLCHECK` node. -/
def mapHoldsNullChecks (c : Compiler) (m : LocalNumberToNullCheckTreeMap) : Prop :=
  ∀ n t, m n = some t → (c.node t).gtOper = genTreeOps.GT_NULLCHECK

/-- The state in which the call of `optFoldNullCheck` made by
`optEarlyPropRewriteTree(tree, &nullCheckMap)` returns (line 125), as a list:
empty when the call is not made, or does not return. -/
def foldLog (J : JitHost) (c : Compiler) (tree : NodeId) (m : LocalNumberToNullCheckTreeMap) :
    List Compiler :=
  if J.OperIsIndirOrArrMetaData (c.node tree).gtOper = true then
    match optFoldNullCheck J c tree m with
    | Except.ok res => [res.comp]
    | Except.error _ => []
  else []

/-- The scan of the block `B` with its past: `BlockScanLog D B c m log` holds
when the scan can stand in the state `c` with the null-check map `m`, and
`log` lists the states in which the calls of `optFoldNullCheck` made since the
start of the block returned, the latest first.  The steps are the steps of
`BlockScan`. -/
inductive BlockScanLog (D : DriverHost) (B : BlockId) :
    Compiler → LocalNumberToNullCheckTreeMap → List Compiler → Prop where
  /-- Lines 56-59: `compCurBB = block`, and a new, empty map. -/
  | start (c : Compiler) : BlockScanLog D B { c with compCurBB := B } (fun _ => none) []
  /-- Line 72: `compCurStmt = stmt`. -/
  | setStmt (c : Compiler) (m : LocalNumberToNullCheckTreeMap) (log : List Compiler)
      (stmt : StmtId) :
      BlockScanLog D B c m log → BlockScanLog D B { c with compCurStmt := stmt } m log
  /-- Line 79: `optEarlyPropRewriteTree(tree, &nullCheckMap)`. -/
  | rewrite (c : Compiler) (m : LocalNumberToNullCheckTreeMap) (log : List Compiler)
      (tree : NodeId) (r : RewriteResult) :
      BlockScanLog D B c m log →
      optEarlyPropRewriteTree D.toJitHost c tree m = Except.ok r →
      BlockScanLog D B r.comp r.nullCheckMap (foldLog D.toJitHost c tree m ++ log)
  /-- Line 82: `gtUpdateSideEffects(stmt, rewrittenTree)`. -/
  | updateSideEffects (c : Compiler) (m : LocalNumberToNullCheckTreeMap)
      (log : List Compiler) (stmt : StmtId) (rewrittenTree : NodeId) :
      BlockScanLog D B c m log →
      BlockScanLog D B (D.gtUpdateSideEffects c stmt rewrittenTree) m log
  /-- Lines 92-93: `gtSetStmtInfo(stmt); fgSetStmtSeq(stmt)`. -/
  | setStmtSeq (c : Compiler) (m : LocalNumberToNullCheckTreeMap) (log : List Compiler)
      (stmt : StmtId) :
      BlockScanLog D B c m log →
      BlockScanLog D B (D.fgSetStmtSeq (D.gtSetStmtInfo c stmt) stmt) m log

/-! ## The phase `optEarlyProp` -/

/-- The bits of `optMethodFlags` that `optDoEarlyPropForFunc` reads. -/
structure OptMethodFlags where
  OMF_HAS_ARRAYREF : Bool
  OMF_HAS_NULLCHECK : Bool
  deriving DecidableEq, Repr

/-- The function `Compiler::optDoEarlyPropForFunc` (lines 17-24). -/
def optDoEarlyPropForFunc (optMethodFlags : OptMethodFlags) : Bool :=
  let propArrayLen := optMethodFlags.OMF_HAS_ARRAYREF
  let propNullCheck := optMethodFlags.OMF_HAS_NULLCHECK
  propArrayLen || propNullCheck

/-- The values of `PhaseStatus` that `optEarlyProp` returns. -/
inductive PhaseStatus where
  | MODIFIED_NOTHING
  | MODIFIED_EVERYTHING
  deriving DecidableEq, Repr

/-- The loop over the blocks in `optEarlyProp` (lines 54-99), over the list
`Blocks()` of the method. -/
def scanBlocks (D : DriverHost) (treeFuel stmtFuel : Nat) :
    List BlockId → Compiler → Nat → Except Fault (Compiler × Nat)
  | [], c, numChanges => Except.ok (c, numChanges)
  | block :: rest, c, numChanges =>
    match scanBlock D treeFuel stmtFuel c block numChanges with
    | Except.error e => Except.error e
    | Except.ok s => scanBlocks D treeFuel stmtFuel rest s.comp s.numChanges

/-- The result of `optEarlyProp`: the state after the phase and the status
returned. -/
structure PhaseResult where
  comp : Compiler
  status : PhaseStatus

/-- The function `Compiler::optEarlyProp` (lines 41-103).  `blocks` is the
list `Blocks()` of the method; the counter `numChanges` counts statements, of
which a method has fewer than `2 ^ 32`. -/
def optEarlyProp (D : DriverHost) (treeFuel stmtFuel : Nat) (optMethodFlags : OptMethodFlags)
    (blocks : List BlockId) (c : Compiler) : Except Fault PhaseResult :=
  if !optDoEarlyPropForFunc optMethodFlags then
    -- We perhaps should verify the OMF are set properly
    Except.ok { comp := c, status := PhaseStatus.MODIFIED_NOTHING }
  else
    let numChanges := 0
    match scanBlocks D treeFuel stmtFuel blocks c numChanges with
    | Except.error e => Except.error e
    | Except.ok (c1, numChanges) =>
      Except.ok { comp := c1,
                  status := if numChanges > 0 then PhaseStatus.MODIFIED_EVERYTHING
                            else PhaseStatus.MODIFIED_NOTHING }

/-! ## The calls that a run of the phase makes -/

/-- The state and the node with which the loop of lines 77-86 goes on, after
the call of `optEarlyPropRewriteTree` for `tree` returned `r`. -/
def afterRewrite (D : DriverHost) (stmt : StmtId) (tree : NodeId) (r : RewriteResult) :
    Compiler × Option NodeId :=
  match r.tree with
  | some rewrittenTree =>
    let c1 := D.gtUpdateSideEffects r.comp stmt rewrittenTree
    (c1, (c1.node rewrittenTree).gtNext)
  | none => (r.comp, (r.comp.node tree).gtNext)

/-- The calls of line 79: `TreeVisit D stmt c m cur cv mv tree` holds when the
loop over the nodes of `stmt` (lines 77-86), standing at the node `cur` in the
state `c` with the map `m`, calls `optEarlyPropRewriteTree(tree, &nullCheckMap)`
in the state `cv` with the map `mv`, now or in a later iteration. -/
inductive TreeVisit (D : DriverHost) (stmt : StmtId) :
    Compiler → LocalNumberToNullCheckTreeMap → Option NodeId →
      Compiler → LocalNumberToNullCheckTreeMap → NodeId → Prop where
  | here (c : Compiler) (m : LocalNumberToNullCheckTreeMap) (tree : NodeId) :
      TreeVisit D stmt c m (some tree) c m tree
  | next (c : Compiler) (m : LocalNumberToNullCheckTreeMap) (tree : NodeId)
      (r : RewriteResult) (cv : Compiler) (mv : LocalNumberToNullCheckTreeMap)
      (visited : NodeId) :
      optEarlyPropRewriteTree D.toJitHost c tree m = Except.ok r →
      TreeVisit D stmt (afterRewrite D stmt tree r).1 r.nullCheckMap
        (afterRewrite D stmt tree r).2 cv mv visited →
      TreeVisit D stmt c m (some tree) cv mv visited

/-- The call `optEarlyPropRewriteTree(tree, &nullCheckMap)` returns a tree,
not `nullptr`. -/
def returnsTree (J : JitHost) (c : Compiler) (m : LocalNumberToNullCheckTreeMap)
    (tree : NodeId) : Prop :=
  ∃ r t, optEarlyPropRewriteTree J c tree m = Except.ok r ∧ r.tree = some t

/-- The test of line 66: the statement has a root with a side effect, so its
nodes are scanned. -/
def stmtScanned (D : DriverHost) (c : Compiler) (stmt : StmtId) : Bool :=
  match (c.stmt stmt).rootNode with
  | none => false
  | some root => D.GTF_ALL_EFFECT (c.node root).gtFlags

/-- The state after the scan of the statement `stmt` (lines 89-95), from the
result `t` of the loop over its nodes. -/
def afterStmt (D : DriverHost) (stmt : StmtId) (t : TreeScan) : Compiler :=
  if t.isRewritten = true then D.fgSetStmtSeq (D.gtSetStmtInfo t.comp stmt) stmt else t.comp

/-- The statements that the loop of lines 61-98 scans:
`StmtVisit D treeFuel c m cur cs ms stmt` holds when the loop, standing at the
statement `cur` in the state `c` with the map `m`, reaches line 72 for the
statement `stmt` in the state `cs` with the map `ms`, now or later. -/
inductive StmtVisit (D : DriverHost) (treeFuel : Nat) :
    Compiler → LocalNumberToNullCheckTreeMap → Option StmtId →
      Compiler → LocalNumberToNullCheckTreeMap → StmtId → Prop where
  | here (c : Compiler) (m : LocalNumberToNullCheckTreeMap) (stmt : StmtId) :
      stmtScanned D c stmt = true → StmtVisit D treeFuel c m (some stmt) c m stmt
  | skip (c : Compiler) (m : LocalNumberToNullCheckTreeMap) (stmt : StmtId)
      (cs : Compiler) (ms : LocalNumberToNullCheckTreeMap) (scanned : StmtId) :
      stmtScanned D c stmt = false →
      StmtVisit D treeFuel c m (c.stmt stmt).nextStmt cs ms scanned →
      StmtVisit D treeFuel c m (some stmt) cs ms scanned
  | next (c : Compiler) (m : LocalNumberToNullCheckTreeMap) (stmt : StmtId) (t : TreeScan)
      (cs : Compiler) (ms : LocalNumberToNullCheckTreeMap) (scanned : StmtId) :
      stmtScanned D c stmt = true →
      scanTrees D stmt treeFuel { c with compCurStmt := stmt } m (c.stmt stmt).treeList false
        = Except.ok t →
      StmtVisit D treeFuel (afterStmt D stmt t) t.nullCheckMap (c.stmt stmt).nextStmt
        cs ms scanned →
      StmtVisit D treeFuel c m (some stmt) cs ms scanned

/-- The blocks that the loop of lines 54-99 scans:
`BlockVisit D treeFuel stmtFuel blocks c n cb block` holds when the loop,
with the blocks `blocks` still to scan, in the state `c` and with
`numChanges = n`, reaches line 56 for `block` in the state `cb`, now or
later. -/
inductive BlockVisit (D : DriverHost) (treeFuel stmtFuel : Nat) :
    List BlockId → Compiler → Nat → Compiler → BlockId → Prop where
  | here (block : BlockId) (rest : List BlockId) (c : Compiler) (n : Nat) :
      BlockVisit D treeFuel stmtFuel (block :: rest) c n c block
  | next (block : BlockId) (rest : List BlockId) (c : Compiler) (n : Nat) (s : StmtScan)
      (cb : Compiler) (scanned : BlockId) :
      scanBlock D treeFuel stmtFuel c block n = Except.ok s →
      BlockVisit D treeFuel stmtFuel rest s.comp s.numChanges cb scanned →
      BlockVisit D treeFuel stmtFuel (block :: rest) c n cb scanned

/-- The calls of `optEarlyPropRewriteTree` that a run of the loops of
`optEarlyProp` makes: the call for `tree` in the state `cv` with the map `mv`
is made for a node of a scanned statement of a block of `blocks`. -/
def PhaseVisit (D : DriverHost) (treeFuel stmtFuel : Nat) (blocks : List BlockId) (c : Compiler)
    (n : Nat) (cv : Compiler) (mv : LocalNumberToNullCheckTreeMap) (tree : NodeId) : Prop :=
  ∃ cb block cs ms stmt,
    BlockVisit D treeFuel stmtFuel blocks c n cb block
    ∧ StmtVisit D treeFuel { cb with compCurBB := block } (fun _ => none)
        (D.firstStmt { cb with compCurBB := block } block) cs ms stmt
    ∧ TreeVisit D stmt { cs with compCurStmt := stmt } ms (cs.stmt stmt).treeList cv mv tree

/-- A call of `optEarlyPropRewriteTree` for a node of the statement `stmt`,
scanned from the state `cs` with the map `ms`, returns a tree. -/
def stmtRewritten (D : DriverHost) (cs : Compiler) (ms : LocalNumberToNullCheckTreeMap)
    (stmt : StmtId) : Prop :=
  ∃ cv mv tree, TreeVisit D stmt { cs with compCurStmt := stmt } ms (cs.stmt stmt).treeList
      cv mv tree
    ∧ returnsTree D.toJitHost cv mv tree

/-- A call of `optEarlyPropRewriteTree` made by the run of the loops of
`optEarlyProp` over `blocks` from the state `c` returns a tree: at least one
statement is rewritten. -/
def phaseRewrites (D : DriverHost) (treeFuel stmtFuel : Nat) (blocks : List BlockId)
    (c : Compiler) (n : Nat) : Prop :=
  ∃ cv mv tree, PhaseVisit D treeFuel stmtFuel blocks c n cv mv tree
    ∧ returnsTree D.toJitHost cv mv tree

/-- Example IR: `x = new int[N]` (statement 1, nodes 10-12) and then
`comma(nullcheck(x), length(x))` (statement 2, nodes 20-24 in evaluation
order).  The local `x` is local 0, defined once, as `x@1`. -/
def checkedLenNodes (N : Int) : NodeId → GenTree
  | 10 => demoNode GT_CNS_INT noFlags 0 0 0 0 N none (some 11)
  | 11 => demoNode GT_CALL callFlags 0 10 0 0 0 (some 10) (some 12)
  | 12 => demoNode genTreeOps.GT_STORE_LCL_VAR callFlags 11 0 0 1 0 (some 11) none
  | 20 => demoNode genTreeOps.GT_LCL_VAR noFlags 0 0 0 1 0 none (some 21)
  | 21 => demoNode genTreeOps.GT_NULLCHECK exceptFlags 20 0 0 0 0 (some 20) (some 22)
  | 22 => demoNode genTreeOps.GT_LCL_VAR noFlags 0 0 0 1 0 (some 21) (some 23)
  | 23 => demoNode genTreeOps.GT_ARR_LENGTH exceptFlags 22 0 0 0 0 (some 22) (some 24)
  | 24 => demoNode genTreeOps.GT_COMMA exceptFlags 21 23 0 0 0 (some 23) none
  | _ => demoNode GT_NOP noFlags 0 0 0 0 0 none none

/-- The statements of `checkedLenIR`. -/
def checkedLenStmts : StmtId → Statement
  | 1 => demoStmt 12 10 2 (some 2)
  | _ => demoStmt 24 20 1 none

/-- The example state for `checkedLenNodes`, before the phase, with an array
of length `N`. -/
def checkedLenIR (N : Int) : Compiler :=
  demoCompiler (checkedLenNodes N) checkedLenStmts
    (fun _ => demoLocal (fun ssa => if ssa = 1 then some 12 else none)) 2

/-- The method flags of a method with null checks and array references. -/
def bothFlags : OptMethodFlags := { OMF_HAS_ARRAYREF := true, OMF_HAS_NULLCHECK := true }

/-- The method flags of a method without null checks and array references. -/
def noMethodFlags : OptMethodFlags := { OMF_HAS_ARRAYREF := false, OMF_HAS_NULLCHECK := false }

/-- The call `optEarlyPropRewriteTree(tree, &nullCheckMap)` rewrites: it calls
`optFoldNullCheck` (line 125), which folds a null check into `tree`, or it
ends with the removal of a bounds check by `optRemoveRangeCheck`. -/
def foldsOrRemoves (J : JitHost) (c : Compiler) (m : LocalNumberToNullCheckTreeMap)
    (tree : NodeId) : Prop :=
  (J.OperIsIndirOrArrMetaData (c.node tree).gtOper = true
    ∧ ∃ nct lr, foldSucceeds J c tree m nct lr)
  ∨ ∃ s check comma stmt, optEarlyPropRewriteTreeStep J c tree m = Except.ok s
      ∧ s.exit = RewriteExit.removeRangeCheck check comma stmt

/-! ## When the loops of `optEarlyProp` terminate -/

/-- An order of the nodes and of the statements that the run of the phase
keeps: `Inv` holds of the states of the run, it is kept by every change that
the phase and the code it calls make to the state, and in a state that
satisfies it every statement has a root, `gtNext` leads to a node of lower
rank and `GetNextStmt` to a statement of lower rank.  The tree that
`optRemoveRangeCheck` returns for a bounds check does not stand before the
bounds check in that order. -/
structure ScanOrder (D : DriverHost) (Inv : Compiler → Prop) (rankN : NodeId → Nat)
    (rankS : StmtId → Nat) : Prop where
  next_lt : ∀ c i j, Inv c → (c.node i).gtNext = some j → rankN j < rankN i
  nextStmt_lt : ∀ c s t, Inv c → (c.stmt s).nextStmt = some t → rankS t < rankS s
  root_some : ∀ c s, Inv c → (c.stmt s).rootNode ≠ none
  keeps_setFlags : ∀ c t f, Inv c → Inv (c.setFlags t f)
  keeps_compCurBB : ∀ c b, Inv c → Inv { c with compCurBB := b }
  keeps_compCurStmt : ∀ c s, Inv c → Inv { c with compCurStmt := s }
  keeps_fgMorphBlockStmt : ∀ c b s, Inv c → Inv (D.fgMorphBlockStmt c b s)
  keeps_optRecordSsaUses : ∀ c r b, Inv c → Inv (D.optRecordSsaUses c r b)
  keeps_optRemoveRangeCheck : ∀ c check comma s, Inv c →
    Inv (D.optRemoveRangeCheck c check comma s).1
  optRemoveRangeCheck_le : ∀ c check comma s t, Inv c →
    (c.node check).gtOper = genTreeOps.GT_BOUNDS_CHECK →
    (D.optRemoveRangeCheck c check comma s).2 = some t → rankN t ≤ rankN check
  keeps_gtUpdateSideEffects : ∀ c s t, Inv c → Inv (D.gtUpdateSideEffects c s t)
  keeps_gtSetStmtInfo : ∀ c s, Inv c → Inv (D.gtSetStmtInfo c s)
  keeps_fgSetStmtSeq : ∀ c s, Inv c → Inv (D.fgSetStmtSeq c s)

/-- The state `c` has the shape of the state `c0`: at every node the same
operator and the same `gtNext`, and the same statements. -/
def keepsShape (c0 c : Compiler) : Prop :=
  (∀ i, (c.node i).gtNext = (c0.node i).gtNext ∧ (c.node i).gtOper = (c0.node i).gtOper)
  ∧ c.stmt = c0.stmt


/-! ## SSA form and the evaluation order of a defining value -/

/-- The node `n` may define a local: it is a store to a local, or a call
(line 263: "Definitions induced by calls"). -/
def mayDefineLocal (J : JitHost) (c : Compiler) (n : NodeId) : Prop :=
  J.OperIsLocalStore (c.node n).gtOper = true ∨ J.OperRequiresCallFlag c n = true

/-- The reads of the locals are in SSA form (the phase runs on SSA form,
line 51): a read carries the SSA number of the definition that reaches it, so
two reads `u` and `u'` of one local carry the same SSA number when `u'` comes
after `u` in evaluation order and no node between them may define a local. -/
def readsInSsaForm (J : JitHost) (c : Compiler) : Prop :=
  ∀ (u u' : NodeId) (between : List NodeId),
    (c.node u).gtOper = genTreeOps.GT_LCL_VAR →
    (c.node u').gtOper = genTreeOps.GT_LCL_VAR →
    (c.node u).lclNum = (c.node u').lclNum →
    linked (fun n => (c.node n).gtNext) (c.node u).gtNext between (some u') = true →
    (∀ n, n ∈ between → ¬ mayDefineLocal J c n) →
    (c.node u).ssaNum = (c.node u').ssaNum

/-- The nodes are threaded in evaluation order (`fgNodeThreading`, line 519)
at the values of the shape `comma(nullcheck(y), add(y', c))`: the first
operand of a `GT_COMMA` is evaluated before the second one and an operand
before its user, so from the read of `y` the link `gtNext` leads to the read
of `y'` through the null check, the nodes of the first operand that have the
null check as their effective value and, when the addition evaluates its
operands in reverse, the constant; none of them is a store to a local or a
call. -/
def nullCheckThenAddInOrder (J : JitHost) (c : Compiler) : Prop :=
  ∀ v, isNullCheckThenAdd J c v →
    ∃ between : List NodeId,
      linked (fun n => (c.node n).gtNext)
          (c.node (c.node (J.gtEffectiveVal c (c.node v).gtOp1)).gtOp1).gtNext between
          (some (c.node (c.node v).gtOp2).gtOp1) = true
      ∧ ∀ n, n ∈ between → ¬ mayDefineLocal J c n

/-! ## The null checks of the map during the scan -/

/-- The code of the JIT that the phase calls turns no `GT_NULLCHECK` node into
a node of another operator: it may change the flags, the operands and the
links of such a node, and take it out of its statement, and the node stays a
`GT_NULLCHECK`. -/
def hostKeepsNullChecks (D : DriverHost) : Prop :=
  (∀ c b s t, (c.node t).gtOper = genTreeOps.GT_NULLCHECK →
      ((D.fgMorphBlockStmt c b s).node t).gtOper = genTreeOps.GT_NULLCHECK)
  ∧ (∀ c r b t, (c.node t).gtOper = genTreeOps.GT_NULLCHECK →
      ((D.optRecordSsaUses c r b).node t).gtOper = genTreeOps.GT_NULLCHECK)
  ∧ (∀ c check comma s t, (c.node t).gtOper = genTreeOps.GT_NULLCHECK →
      ((D.optRemoveRangeCheck c check comma s).1.node t).gtOper = genTreeOps.GT_NULLCHECK)
  ∧ (∀ c s r t, (c.node t).gtOper = genTreeOps.GT_NULLCHECK →
      ((D.gtUpdateSideEffects c s r).node t).gtOper = genTreeOps.GT_NULLCHECK)
  ∧ (∀ c s t, (c.node t).gtOper = genTreeOps.GT_NULLCHECK →
      ((D.gtSetStmtInfo c s).node t).gtOper = genTreeOps.GT_NULLCHECK)
  ∧ (∀ c s t, (c.node t).gtOper = genTreeOps.GT_NULLCHECK →
      ((D.fgSetStmtSeq c s).node t).gtOper = genTreeOps.GT_NULLCHECK)

/-! ## A second run of the phase -/

/-- The states `c` and `c1` hold the same IR: the same nodes, statements,
locals and try regions.  They may differ in `compCurBB` and `compCurStmt`,
which the phase sets before it reads them. -/
def sameIR (c c1 : Compiler) : Prop :=
  c1.node = c.node ∧ c1.stmt = c.stmt ∧ c1.lvaTable = c.lvaTable
    ∧ c1.hasTryIndex = c.hasTryIndex

/-- The first statement of a block, `block->firstStmt()`, is read from the
block: it does not depend on `compCurStmt`. -/
def firstStmtOfBlock (D : DriverHost) : Prop :=
  ∀ c s b, D.firstStmt { c with compCurStmt := s } b = D.firstStmt c b

/-- The run of `optEarlyProp` over `blocks` from the state `c` performs no
rewrite: at no node that it scans a null check is folded or a bounds check
removed (a run for a method without the flags scans no node). -/
def runsWithoutRewrite (D : DriverHost) (treeFuel stmtFuel : Nat)
    (optMethodFlags : OptMethodFlags) (blocks : List BlockId) (c : Compiler) : Prop :=
  optDoEarlyPropForFunc optMethodFlags = true →
  ∀ cv mv tree, PhaseVisit D treeFuel stmtFuel blocks c 0 cv mv tree →
    ¬ foldsOrRemoves D.toJitHost cv mv tree

/-- A null check that a fold marked for removal (lines 331-335): a
`GT_NULLCHECK` that is non-faulting and has no `GTF_EXCEPT`. -/
def markedForRemoval (g : GenTree) : Bool :=
  g.gtOper == genTreeOps.GT_NULLCHECK && g.gtFlags.GTF_IND_NONFAULTING && !g.gtFlags.GTF_EXCEPT

/-- In the examples, the nodes that a re-morph takes out of the evaluation
order: a null check marked for removal, and the read of a local that is its
operand. -/
def droppedByMorph (c : Compiler) (i : NodeId) : Bool :=
  markedForRemoval (c.node i)
  || ((c.node i).gtOper == genTreeOps.GT_LCL_VAR
      && match (c.node i).gtNext with
         | some k => markedForRemoval (c.node k) && (c.node k).gtOp1 == i
         | none => false)

/-- Follow the link `link` from `cur` to the first node that the re-morph
keeps, over at most `fuel` dropped nodes. -/
def skipDropped (c : Compiler) (link : NodeId → Option NodeId) :
    Nat → Option NodeId → Option NodeId
  | _, none => none
  | 0, some i => some i
  | fuel + 1, some i => if droppedByMorph c i then skipDropped c link fuel (link i) else some i

/-- In the examples, a re-morph that removes the null checks marked for
removal: it takes them, with the reads that are their operands, out of the
evaluation order (`gtNext`, `gtPrev` and the first node of a statement), and
changes no node otherwise. -/
def unlinkMarkedNullChecks (c : Compiler) : Compiler :=
  { c with
    node := fun i =>
      { c.node i with
        gtNext := skipDropped c (fun j => (c.node j).gtNext) 16 (c.node i).gtNext
        gtPrev := skipDropped c (fun j => (c.node j).gtPrev) 16 (c.node i).gtPrev }
    stmt := fun s =>
      { c.stmt s with
        treeList := skipDropped c (fun j => (c.node j).gtNext) 16 (c.stmt s).treeList } }

/-- The host of the examples, with a re-morph that removes the null checks
marked for removal. -/
def unlinkingHost : JitHost :=
  { demoHost with fgMorphBlockStmt := fun c _ _ => unlinkMarkedNullChecks c }

/-- The driver host of the examples, over `unlinkingHost`. -/
def unlinkingDriverHost : DriverHost :=
  { demoDriverHost with toJitHost := unlinkingHost }

/-- Example IR: one statement
`comma(nullcheck(x@1), comma(nullcheck(z@1), add(ind(x@1), ind(z@1))))`,
nodes 1-11 in evaluation order.  The indirection 6 of `x` is marked
non-faulting, as an indirection behind an explicit null check is; the
indirection 8 of `z` may fault.  The locals `x` (local 0) and `z` (local 1)
are parameters. -/
def blockedFoldNodes : NodeId → GenTree
  | 1 => demoNode genTreeOps.GT_LCL_VAR noFlags 0 0 0 1 0 none (some 2)
  | 2 => demoNode genTreeOps.GT_NULLCHECK exceptFlags 1 0 0 0 0 (some 1) (some 3)
  | 3 => demoNode genTreeOps.GT_LCL_VAR noFlags 0 0 1 1 0 (some 2) (some 4)
  | 4 => demoNode genTreeOps.GT_NULLCHECK exceptFlags 3 0 0 0 0 (some 3) (some 5)
  | 5 => demoNode genTreeOps.GT_LCL_VAR noFlags 0 0 0 1 0 (some 4) (some 6)
  | 6 => demoNode GT_IND { noFlags with GTF_IND_NONFAULTING := true } 5 0 0 0 0
            (some 5) (some 7)
  | 7 => demoNode genTreeOps.GT_LCL_VAR noFlags 0 0 1 1 0 (some 6) (some 8)
  | 8 => demoNode GT_IND exceptFlags 7 0 0 0 0 (some 7) (some 9)
  | 9 => demoNode genTreeOps.GT_ADD exceptFlags 6 8 0 0 0 (some 8) (some 10)
  | 10 => demoNode genTreeOps.GT_COMMA exceptFlags 4 9 0 0 0 (some 9) (some 11)
  | 11 => demoNode genTreeOps.GT_COMMA exceptFlags 2 10 0 0 0 (some 10) none
  | _ => demoNode GT_NOP noFlags 0 0 0 0 0 none none

/-- The example state for `blockedFoldNodes`, before the phase. -/
def blockedFoldIR : Compiler :=
  demoCompiler blockedFoldNodes (fun _ => demoStmt 11 1 1 none)
    (fun _ => demoLocal (fun _ => none)) 1

/-! ## The legality walk along given links -/

/-- Once `canRemoveNullCheck` is false the first loop stops at its next test. -/
theorem forwardWalk_stopped (J : JitHost) (c : Compiler) (tree nct : NodeId) (ins : Bool)
    (fuel : Nat) (s : LegalityWalk) (h : s.canRemoveNullCheck = false) :
    forwardWalk J c tree nct ins (fuel + 1) s = Except.ok s := by
  unfold forwardWalk
  cases hc : s.currentTree <;> simp [h]

/-- Once `canRemoveNullCheck` is false the second loop stops at its next test. -/
theorem backwardWalk_stopped (J : JitHost) (c : Compiler) (ins : Bool)
    (fuel : Nat) (s : LegalityWalk) (h : s.canRemoveNullCheck = false) :
    backwardWalk J c ins (fuel + 1) s = Except.ok s := by
  unfold backwardWalk
  cases hc : s.currentTree <;> simp [h]

/-- Once `canRemoveNullCheck` is false the third loop stops at its next test. -/
theorem statementWalk_stopped (J : JitHost) (c : Compiler) (ins : Bool) (root : NodeId)
    (fuel : Nat) (s : LegalityWalk) (h : s.canRemoveNullCheck = false) :
    statementWalk J c ins root (fuel + 1) s = Except.ok s := by
  unfold statementWalk
  simp [h]

/-- The first loop along a given chain of `gtNext` links, within the node budget: it
returns, its verdict is the conjunction of the detailed-mode predicate over
the chain, and on success it stands at the end of the chain. -/
theorem forwardWalk_linked (J : JitHost) (c : Compiler) (tree nct : NodeId) (ins : Bool)
    (l : List NodeId) :
    ∀ (fuel : Nat) (s : LegalityWalk) (fin : Option NodeId),
      linked (fun n => (c.node n).gtNext) s.currentTree l fin = true →
      (fin = none ∨ fin = some tree) → tree ∉ l →
      s.canRemoveNullCheck = true →
      s.nodesWalked + l.length ≤ maxNodesWalked + 1 →
      l.length + 1 ≤ fuel →
      ∃ s', forwardWalk J c tree nct ins fuel s = Except.ok s'
        ∧ s'.canRemoveNullCheck = l.all (fun n => optCanMoveNullCheckPastTree J c n ins false)
        ∧ s'.curStmt = s.curStmt
        ∧ (s'.canRemoveNullCheck = true →
            s'.nodesWalked = s.nodesWalked + l.length
            ∧ s'.previousTree = l.getLastD s.previousTree
            ∧ s'.currentTree = fin)
        ∧ (s'.canRemoveNullCheck = false → s'.currentTree ≠ some tree) := by
  induction l with
  | nil =>
    intro fuel s fin hl hfin _ hcan _ hfuel
    obtain ⟨f, rfl⟩ : ∃ f, fuel = f + 1 := ⟨fuel - 1, by omega⟩
    simp only [linked, beq_iff_eq] at hl
    refine ⟨s, ?_, by simp [hcan], rfl, fun _ => ⟨by simp, by simp, hl⟩, fun h => by simp [hcan] at h⟩
    unfold forwardWalk
    rcases hfin with hfin | hfin <;> simp [hl, hfin]
  | cons x xs ih =>
    intro fuel s fin hl hfin hmem hcan hnw hfuel
    obtain ⟨f, rfl⟩ : ∃ f, fuel = f + 1 := ⟨fuel - 1, by omega⟩
    simp only [linked, Bool.and_eq_true, beq_iff_eq] at hl
    obtain ⟨hcur, hrest⟩ := hl
    have hx : x ≠ tree := fun h => hmem (by simp [h])
    have hxs : tree ∉ xs := fun h => hmem (by simp [h])
    simp only [List.length_cons] at hnw hfuel
    have hbud : ¬ s.nodesWalked > maxNodesWalked := by omega
    unfold forwardWalk
    simp only [hcur, hcan, hx, ne_eq, not_false_eq_true, and_self, if_true, hbud, false_or]
    cases hp : optCanMoveNullCheckPastTree J c x ins false
    · obtain ⟨f', rfl⟩ : ∃ f', f = f' + 1 := ⟨f - 1, by omega⟩
      simp only [if_true]
      rw [forwardWalk_stopped _ _ _ _ _ _ _ rfl]
      refine ⟨_, rfl, by simp [hp], rfl, fun h => by simp at h, fun _ => ?_⟩
      simp [hcur, hx]
    · simp only [Bool.true_eq_false, if_false]
      obtain ⟨s', hs', hall, hstmt, hok, hbad⟩ := ih f
        { s with nodesWalked := s.nodesWalked + 1, previousTree := x,
                 currentTree := (c.node x).gtNext,
                 nullCheckParent :=
                   if s.nullCheckParent = none ∧ J.TryGetUse c x nct = true then some x
                   else s.nullCheckParent }
        fin hrest hfin hxs hcan (by simp only; omega) (by omega)
      simp only [hcan] at hs'
      refine ⟨s', hs', by simp [hall, hp], hstmt, fun h => ?_, hbad⟩
      obtain ⟨h1, h2, h3⟩ := hok h
      refine ⟨by simp only [List.length_cons] at h1 ⊢; omega, by simpa only [List.getLastD_cons] using h2, h3⟩

/-- The second loop along a given chain of `gtPrev` links, within the node budget:
it returns and its verdict is the conjunction of the detailed-mode predicate
over the chain. -/
theorem backwardWalk_linked (J : JitHost) (c : Compiler) (ins : Bool) (l : List NodeId) :
    ∀ (fuel : Nat) (s : LegalityWalk),
      linked (fun n => (c.node n).gtPrev) s.currentTree l none = true →
      s.canRemoveNullCheck = true →
      s.nodesWalked + l.length ≤ maxNodesWalked + 1 →
      l.length + 1 ≤ fuel →
      ∃ s', backwardWalk J c ins fuel s = Except.ok s'
        ∧ s'.canRemoveNullCheck = l.all (fun n => optCanMoveNullCheckPastTree J c n ins false)
        ∧ s'.nullCheckParent = s.nullCheckParent
        ∧ (s'.canRemoveNullCheck = true → s'.nodesWalked = s.nodesWalked + l.length) := by
  induction l with
  | nil =>
    intro fuel s hl hcan _ hfuel
    obtain ⟨f, rfl⟩ : ∃ f, fuel = f + 1 := ⟨fuel - 1, by omega⟩
    simp only [linked, beq_iff_eq] at hl
    refine ⟨s, ?_, by simp [hcan], rfl, fun _ => by simp⟩
    unfold backwardWalk
    simp [hl]
  | cons x xs ih =>
    intro fuel s hl hcan hnw hfuel
    obtain ⟨f, rfl⟩ : ∃ f, fuel = f + 1 := ⟨fuel - 1, by omega⟩
    simp only [linked, Bool.and_eq_true, beq_iff_eq] at hl
    obtain ⟨hcur, hrest⟩ := hl
    simp only [List.length_cons] at hnw hfuel
    have hbud : ¬ s.nodesWalked > maxNodesWalked := by omega
    unfold backwardWalk
    simp only [hcur, hcan, if_true, hbud, false_or]
    cases hp : optCanMoveNullCheckPastTree J c x ins false
    · obtain ⟨f', rfl⟩ : ∃ f', f = f' + 1 := ⟨f - 1, by omega⟩
      simp only [if_true]
      rw [backwardWalk_stopped _ _ _ _ _ rfl]
      exact ⟨_, rfl, by simp [hp], rfl, fun h => by simp at h⟩
    · simp only [Bool.true_eq_false, if_false]
      obtain ⟨s', hs', hall, hpar, hok⟩ := ih f
        { s with nodesWalked := s.nodesWalked + 1, currentTree := (c.node x).gtPrev }
        hrest hcan (by simp only; omega) (by omega)
      simp only [hcan] at hs'
      refine ⟨s', hs', by simp [hall, hp], hpar, fun h => ?_⟩
      have h1 := hok h
      simp only [List.length_cons] at h1 ⊢; omega

/-- The third loop along a given chain of statements, within the node budget: it
returns, its verdict is the conjunction of the summary-mode predicate over the
roots, and on success it stands at the statement of the null check. -/
theorem statementWalk_linked (J : JitHost) (c : Compiler) (ins : Bool) (root : NodeId)
    (last : StmtId) (hroot : (c.stmt last).rootNode = some root) (mids : List (StmtId × NodeId)) :
    ∀ (fuel : Nat) (s : LegalityWalk),
      stmtsLinked c s.curStmt mids last = true →
      s.currentTree = (c.stmt s.curStmt).rootNode →
      (∀ p ∈ mids, p.2 ≠ root) →
      s.canRemoveNullCheck = true →
      s.nodesWalked + mids.length ≤ maxNodesWalked + 1 →
      mids.length + 1 ≤ fuel →
      ∃ s', statementWalk J c ins root fuel s = Except.ok s'
        ∧ s'.canRemoveNullCheck
            = mids.all (fun p => optCanMoveNullCheckPastTree J c p.2 ins true)
        ∧ s'.nullCheckParent = s.nullCheckParent
        ∧ (s'.canRemoveNullCheck = true → s'.curStmt = last) := by
  induction mids with
  | nil =>
    intro fuel s hl hcur _ hcan _ hfuel
    obtain ⟨f, rfl⟩ : ∃ f, fuel = f + 1 := ⟨fuel - 1, by omega⟩
    simp only [stmtsLinked, beq_iff_eq] at hl
    refine ⟨s, ?_, by simp [hcan], rfl, fun _ => hl⟩
    unfold statementWalk
    simp [hcur, hl, hroot]
  | cons p rest ih =>
    intro fuel s hl hcur hdist hcan hnw hfuel
    obtain ⟨t, r⟩ := p
    obtain ⟨f, rfl⟩ : ∃ f, fuel = f + 1 := ⟨fuel - 1, by omega⟩
    simp only [stmtsLinked, Bool.and_eq_true, beq_iff_eq] at hl
    obtain ⟨⟨hst, hr⟩, hrest⟩ := hl
    simp only [List.length_cons] at hnw hfuel
    have hbud : ¬ s.nodesWalked > maxNodesWalked := by omega
    have hne : r ≠ root := hdist (t, r) (by simp)
    have hcur' : s.currentTree = some r := by rw [hcur, hst, hr]
    unfold statementWalk
    simp only [hcur', hcan, ne_eq, Option.some.injEq, hne, not_false_eq_true, and_self, if_true,
      hbud, if_false]
    cases hp : optCanMoveNullCheckPastTree J c r ins true
    · obtain ⟨f', rfl⟩ : ∃ f', f = f' + 1 := ⟨f - 1, by omega⟩
      simp only [if_true]
      rw [statementWalk_stopped _ _ _ _ _ _ rfl]
      exact ⟨_, rfl, by simp [hp], rfl, fun h => by simp at h⟩
    · simp only [Bool.true_eq_false, if_false]
      obtain ⟨s', hs', hall, hpar, hok⟩ := ih f
        { s with nodesWalked := s.nodesWalked + 1,
                 curStmt := (c.stmt s.curStmt).prevStmt,
                 currentTree := (c.stmt (c.stmt s.curStmt).prevStmt).rootNode }
        (by simpa only [hst] using hrest) rfl
        (fun q hq => hdist q (by simp [hq])) hcan (by simp only; omega) (by omega)
      simp only [hcan] at hs'
      exact ⟨s', hs', by simp [hall, hp], hpar, hok⟩

/-- The legality checker when the indirection follows the null check in one
statement, within the node budget. -/
theorem legal_same_statement (J : JitHost) (c : Compiler) (tree nct : NodeId)
    (parent : Option NodeId) (between : List NodeId)
    (hl : linked (fun n => (c.node n).gtNext) (c.node nct).gtNext between (some tree) = true)
    (hmem : tree ∉ between)
    (hlen : between.length ≤ maxNodesWalked + 1) :
    ∃ r, optIsNullCheckFoldingLegal J c tree nct parent = Except.ok r
      ∧ r.canRemoveNullCheck
          = between.all (fun n =>
              optCanMoveNullCheckPastTree J c n (c.hasTryIndex c.compCurBB) false)
      ∧ (r.canRemoveNullCheck = true → r.nullCheckStmt = c.compCurStmt) := by
  obtain ⟨s1, hs1, hall, _, hok, hbad⟩ := forwardWalk_linked J c tree nct
    (c.hasTryIndex c.compCurBB) between legalityFuel
    { canRemoveNullCheck := true, nodesWalked := 0, previousTree := nct,
      currentTree := (c.node nct).gtNext, nullCheckParent := parent,
      curStmt := c.compCurStmt }
    (some tree) hl (Or.inr rfl) hmem rfl (by simpa using hlen)
    (by simp only [legalityFuel]; omega)
  unfold optIsNullCheckFoldingLegal
  simp only [hs1]
  cases hc : s1.canRemoveNullCheck
  · have hne := hbad hc
    simp only [hne, if_false]
    rw [show legalityFuel = (maxNodesWalked + 2) + 1 from rfl]
    rw [backwardWalk_stopped _ _ _ _ _ rfl]
    simp only
    rw [statementWalk_stopped _ _ _ _ _ _ rfl]
    exact ⟨_, rfl, by rw [← hall, hc], fun h => by simp [hc] at h⟩
  · obtain ⟨_, _, hcur⟩ := hok hc
    simp only [hcur, if_true]
    exact ⟨_, rfl, by rw [← hall, hc], fun _ => rfl⟩

/-- The legality checker when the indirection is in a later statement than the
null check, within the node budget. -/
theorem legal_cross_statement (J : JitHost) (c : Compiler) (tree nct : NodeId)
    (parent : Option NodeId) (afterNc beforeInd : List NodeId)
    (mids : List (StmtId × NodeId)) (first : StmtId)
    (h1 : linked (fun n => (c.node n).gtNext) (c.node nct).gtNext afterNc none = true)
    (hmem : tree ∉ afterNc)
    (h2 : linked (fun n => (c.node n).gtPrev) (c.node tree).gtPrev beforeInd none = true)
    (h3 : stmtsLinked c (c.stmt c.compCurStmt).prevStmt mids first = true)
    (hroot : (c.stmt first).rootNode = some (afterNc.getLastD nct))
    (hdist : ∀ p ∈ mids, p.2 ≠ afterNc.getLastD nct)
    (hbud : afterNc.length + beforeInd.length + mids.length ≤ maxNodesWalked + 1) :
    ∃ r, optIsNullCheckFoldingLegal J c tree nct parent = Except.ok r
      ∧ r.canRemoveNullCheck
          = (afterNc.all (fun n =>
                optCanMoveNullCheckPastTree J c n (c.hasTryIndex c.compCurBB) false)
            && beforeInd.all (fun n =>
                optCanMoveNullCheckPastTree J c n (c.hasTryIndex c.compCurBB) false)
            && mids.all (fun p =>
                optCanMoveNullCheckPastTree J c p.2 (c.hasTryIndex c.compCurBB) true))
      ∧ (r.canRemoveNullCheck = true → r.nullCheckStmt = first) := by
  obtain ⟨s1, hs1, hall1, _, hok1, hbad1⟩ := forwardWalk_linked J c tree nct
    (c.hasTryIndex c.compCurBB) afterNc legalityFuel
    { canRemoveNullCheck := true, nodesWalked := 0, previousTree := nct,
      currentTree := (c.node nct).gtNext, nullCheckParent := parent,
      curStmt := c.compCurStmt }
    none h1 (Or.inl rfl) hmem rfl (by simp only; omega)
    (by simp only [legalityFuel]; omega)
  unfold optIsNullCheckFoldingLegal
  simp only [hs1]
  cases hc1 : s1.canRemoveNullCheck
  · have hne := hbad1 hc1
    simp only [hne, if_false]
    rw [show legalityFuel = (maxNodesWalked + 2) + 1 from rfl]
    rw [backwardWalk_stopped _ _ _ _ _ rfl]
    simp only
    rw [statementWalk_stopped _ _ _ _ _ _ rfl]
    exact ⟨_, rfl, by rw [← hall1, hc1]; simp, fun h => by simp [hc1] at h⟩
  · obtain ⟨hnw1, hprev1, hcur1⟩ := hok1 hc1
    have hne : s1.currentTree ≠ some tree := by rw [hcur1]; simp
    simp only [hne, if_false]
    obtain ⟨s2, hs2, hall2, _, hok2⟩ := backwardWalk_linked J c (c.hasTryIndex c.compCurBB)
      beforeInd legalityFuel { s1 with currentTree := (c.node tree).gtPrev }
      h2 hc1 (by simp only at hnw1 ⊢; omega) (by simp only [legalityFuel]; omega)
    simp only [hc1] at hs2
    simp only [hs2]
    cases hc2 : s2.canRemoveNullCheck
    · rw [show legalityFuel = (maxNodesWalked + 2) + 1 from rfl]
      rw [statementWalk_stopped _ _ _ _ _ _ rfl]
      exact ⟨_, rfl, by rw [← hall1, ← hall2, hc2]; simp, fun h => by simp [hc2] at h⟩
    · have hnw2 := hok2 hc2
      rw [hprev1]
      obtain ⟨s3, hs3, hall3, _, hok3⟩ := statementWalk_linked J c (c.hasTryIndex c.compCurBB)
        (afterNc.getLastD nct) first hroot mids legalityFuel
        { s2 with curStmt := (c.stmt c.compCurStmt).prevStmt,
                  currentTree := (c.stmt (c.stmt c.compCurStmt).prevStmt).rootNode }
        h3 rfl hdist hc2 (by simp only at hnw1 hnw2 ⊢; omega)
        (by simp only [legalityFuel]; omega)
      simp only [hc2] at hs3
      simp only [hs3]
      refine ⟨_, rfl, ?_, fun h => hok3 h⟩
      simp only
      rw [hall3, ← hall1, ← hall2, hc1, hc2]; simp

/-- The first loop returns: the budget stops it before the fuel runs out. -/
theorem forwardWalk_total (J : JitHost) (c : Compiler) (tree nct : NodeId) (ins : Bool) :
    ∀ (fuel : Nat) (s : LegalityWalk), 2 ≤ fuel → maxNodesWalked + 3 ≤ fuel + s.nodesWalked →
      ∃ s', forwardWalk J c tree nct ins fuel s = Except.ok s' := by
  intro fuel
  induction fuel with
  | zero => intro s h; omega
  | succ f ih =>
    intro s h2 hb
    unfold forwardWalk
    split
    · exact ⟨s, rfl⟩
    · rename_i cur hcur
      by_cases hc : s.canRemoveNullCheck = true ∧ cur ≠ tree
      · simp only [hc, ne_eq, not_false_eq_true, and_self, if_true]
        by_cases hpass : s.nodesWalked > maxNodesWalked
            ∨ optCanMoveNullCheckPastTree J c cur ins false = false
        · simp only [hpass, if_true]
          obtain ⟨f', rfl⟩ : ∃ f', f = f' + 1 := ⟨f - 1, by omega⟩
          rw [forwardWalk_stopped _ _ _ _ _ _ _ rfl]
          exact ⟨_, rfl⟩
        · simp only [hpass, if_false]
          simp only [gt_iff_lt, not_or, not_lt] at hpass
          exact ih _ (by simp only [maxNodesWalked] at hb hpass ⊢; omega) (by simp only; omega)
      · simp only [hc, if_false]
        exact ⟨s, rfl⟩

/-- The second loop returns: the budget stops it before the fuel runs out. -/
theorem backwardWalk_total (J : JitHost) (c : Compiler) (ins : Bool) :
    ∀ (fuel : Nat) (s : LegalityWalk), 2 ≤ fuel → maxNodesWalked + 3 ≤ fuel + s.nodesWalked →
      ∃ s', backwardWalk J c ins fuel s = Except.ok s' := by
  intro fuel
  induction fuel with
  | zero => intro s h; omega
  | succ f ih =>
    intro s h2 hb
    unfold backwardWalk
    split
    · exact ⟨s, rfl⟩
    · rename_i cur hcur
      split
      · split
        · obtain ⟨f', rfl⟩ : ∃ f', f = f' + 1 := ⟨f - 1, by omega⟩
          rw [backwardWalk_stopped _ _ _ _ _ rfl]
          exact ⟨_, rfl⟩
        · rename_i hpass
          simp only [gt_iff_lt, not_or, not_lt] at hpass
          exact ih _ (by simp only [maxNodesWalked] at hb hpass ⊢; omega) (by simp only; omega)
      · exact ⟨s, rfl⟩

/-- When the first loop ends with `canRemoveNullCheck` still true, it walked the
whole chain and every node of the chain passed the detailed-mode predicate. -/
theorem forwardWalk_passed (J : JitHost) (c : Compiler) (tree nct : NodeId) (ins : Bool)
    (l : List NodeId) :
    ∀ (fuel : Nat) (s s' : LegalityWalk) (fin : Option NodeId),
      linked (fun n => (c.node n).gtNext) s.currentTree l fin = true →
      (fin = none ∨ fin = some tree) → tree ∉ l →
      forwardWalk J c tree nct ins fuel s = Except.ok s' →
      s'.canRemoveNullCheck = true →
      (∀ n ∈ l, optCanMoveNullCheckPastTree J c n ins false = true)
        ∧ s'.currentTree = fin
        ∧ s'.previousTree = l.getLastD s.previousTree
        ∧ s'.nodesWalked = s.nodesWalked + l.length := by
  induction l with
  | nil =>
    intro fuel s s' fin hl hfin _ hrun _
    simp only [linked, beq_iff_eq] at hl
    cases fuel with
    | zero => simp [forwardWalk] at hrun
    | succ f =>
      unfold forwardWalk at hrun
      have hs : s' = s := by
        rcases hfin with hfin | hfin
        · simp only [hl, hfin] at hrun
          exact (Except.ok.inj hrun).symm
        · simp only [hl, hfin, ne_eq, not_true_eq_false, and_false, if_false] at hrun
          exact (Except.ok.inj hrun).symm
      subst hs
      exact ⟨by simp, hl, rfl, by simp⟩
  | cons x xs ih =>
    intro fuel s s' fin hl hfin hmem hrun hok
    simp only [linked, Bool.and_eq_true, beq_iff_eq] at hl
    obtain ⟨hcur, hrest⟩ := hl
    have hx : x ≠ tree := fun h => hmem (by simp [h])
    have hxs : tree ∉ xs := fun h => hmem (by simp [h])
    cases fuel with
    | zero => simp [forwardWalk] at hrun
    | succ f =>
      unfold forwardWalk at hrun
      simp only [hcur, hx, ne_eq, not_false_eq_true, and_true] at hrun
      by_cases hcan : s.canRemoveNullCheck = true
      · simp only [hcan, if_true] at hrun
        by_cases hpass : s.nodesWalked > maxNodesWalked
            ∨ optCanMoveNullCheckPastTree J c x ins false = false
        · simp only [hpass, if_true] at hrun
          cases f with
          | zero => simp [forwardWalk] at hrun
          | succ f' =>
            rw [forwardWalk_stopped _ _ _ _ _ _ _ rfl] at hrun
            have := Except.ok.inj hrun
            subst this
            simp at hok
        · simp only [hpass, if_false] at hrun
          simp only [gt_iff_lt, not_or, not_lt, Bool.not_eq_false] at hpass
          obtain ⟨h1, h2, h3, h4⟩ := ih f _ s' fin hrest hfin hxs hrun hok
          refine ⟨?_, h2, by simpa only [List.getLastD_cons] using h3, ?_⟩
          · intro n hn
            rcases List.mem_cons.1 hn with rfl | hn
            · exact hpass.2
            · exact h1 n hn
          · simp only [List.length_cons] at h4 ⊢; omega
      · simp only [hcan, if_false] at hrun
        have := Except.ok.inj hrun
        subst this
        exact absurd hok hcan

/-- When the second loop ends with `canRemoveNullCheck` still true, every node of
the chain passed the detailed-mode predicate. -/
theorem backwardWalk_passed (J : JitHost) (c : Compiler) (ins : Bool) (l : List NodeId) :
    ∀ (fuel : Nat) (s s' : LegalityWalk),
      linked (fun n => (c.node n).gtPrev) s.currentTree l none = true →
      backwardWalk J c ins fuel s = Except.ok s' →
      s'.canRemoveNullCheck = true →
      (∀ n ∈ l, optCanMoveNullCheckPastTree J c n ins false = true) := by
  induction l with
  | nil => intro _ _ _ _ _ _; simp
  | cons x xs ih =>
    intro fuel s s' hl hrun hok
    simp only [linked, Bool.and_eq_true, beq_iff_eq] at hl
    obtain ⟨hcur, hrest⟩ := hl
    cases fuel with
    | zero => simp [backwardWalk] at hrun
    | succ f =>
      unfold backwardWalk at hrun
      simp only [hcur] at hrun
      split at hrun
      · split at hrun
        · cases f with
          | zero => simp [backwardWalk] at hrun
          | succ f' =>
            rw [backwardWalk_stopped _ _ _ _ _ rfl] at hrun
            have := Except.ok.inj hrun
            subst this
            simp at hok
        · rename_i hpass
          simp only [gt_iff_lt, not_or, not_lt, Bool.not_eq_false] at hpass
          have h1 := ih f _ s' hrest hrun hok
          intro n hn
          rcases List.mem_cons.1 hn with rfl | hn
          · exact hpass.2
          · exact h1 n hn
      · have := Except.ok.inj hrun
        subst this
        rename_i hcan
        exact absurd hok hcan

/-- The third loop along a chain of statements of which one root fails the
summary-mode predicate returns with `canRemoveNullCheck` false, whatever the
length of the chain. -/
theorem statementWalk_blocked (J : JitHost) (c : Compiler) (ins : Bool) (root : NodeId)
    (last : StmtId) (mids : List (StmtId × NodeId)) :
    ∀ (fuel : Nat) (s : LegalityWalk),
      stmtsLinked c s.curStmt mids last = true →
      s.currentTree = (c.stmt s.curStmt).rootNode →
      (∀ p ∈ mids, p.2 ≠ root) →
      (∃ p ∈ mids, optCanMoveNullCheckPastTree J c p.2 ins true = false) →
      2 ≤ fuel → maxNodesWalked + 3 ≤ fuel + s.nodesWalked →
      ∃ s', statementWalk J c ins root fuel s = Except.ok s'
        ∧ s'.canRemoveNullCheck = false := by
  induction mids with
  | nil => intro _ _ _ _ _ ⟨p, hp, _⟩; simp at hp
  | cons q rest ih =>
    intro fuel s hl hcur hdist hbad h2 hb
    obtain ⟨t, r⟩ := q
    obtain ⟨f, rfl⟩ : ∃ f, fuel = f + 1 := ⟨fuel - 1, by omega⟩
    obtain ⟨f', rfl⟩ : ∃ f', f = f' + 1 := ⟨f - 1, by omega⟩
    simp only [stmtsLinked, Bool.and_eq_true, beq_iff_eq] at hl
    obtain ⟨⟨hst, hr⟩, hrest⟩ := hl
    have hne : r ≠ root := hdist (t, r) (by simp)
    have hcur' : s.currentTree = some r := by rw [hcur, hst, hr]
    cases hcan : s.canRemoveNullCheck
    · rw [statementWalk_stopped _ _ _ _ _ _ hcan]
      exact ⟨s, rfl, hcan⟩
    · unfold statementWalk
      simp only [hcur', hcan, ne_eq, Option.some.injEq, hne, not_false_eq_true, and_self,
        if_true]
      split
      · rw [statementWalk_stopped _ _ _ _ _ _ rfl]
        exact ⟨_, rfl, rfl⟩
      · rename_i hbud
        split
        · rw [statementWalk_stopped _ _ _ _ _ _ rfl]
          exact ⟨_, rfl, rfl⟩
        · rename_i hpass
          obtain ⟨p, hp, hpbad⟩ := hbad
          have hp' : p ∈ rest := by
            rcases List.mem_cons.1 hp with rfl | hp
            · exact absurd hpbad hpass
            · exact hp
          exact ih (f' + 1) _ (by simpa only [hst] using hrest) rfl
            (fun q hq => hdist q (by simp [hq])) ⟨p, hp', hpbad⟩
            (by simp only [gt_iff_lt, not_lt, maxNodesWalked] at hbud hb ⊢; omega)
            (by simp only; omega)

/-- When the first loop ends with `canRemoveNullCheck` false, the legality checker
returns false. -/
theorem legal_of_forward_stopped (J : JitHost) (c : Compiler) (tree nct : NodeId)
    (parent : Option NodeId) (s1 : LegalityWalk)
    (hrun : forwardWalk J c tree nct (c.hasTryIndex c.compCurBB) legalityFuel
        { canRemoveNullCheck := true, nodesWalked := 0, previousTree := nct,
          currentTree := (c.node nct).gtNext, nullCheckParent := parent,
          curStmt := c.compCurStmt } = Except.ok s1)
    (hstop : s1.canRemoveNullCheck = false) :
    ∃ r, optIsNullCheckFoldingLegal J c tree nct parent = Except.ok r
      ∧ r.canRemoveNullCheck = false := by
  unfold optIsNullCheckFoldingLegal
  simp only [hrun]
  split
  · exact ⟨_, rfl, hstop⟩
  · rw [show legalityFuel = (maxNodesWalked + 2) + 1 from rfl]
    simp only [hstop]
    rw [backwardWalk_stopped _ _ _ _ _ rfl]
    simp only
    rw [statementWalk_stopped _ _ _ _ _ _ rfl]
    exact ⟨_, rfl, rfl⟩

/-- In one statement, a node between the null check and the indirection that
fails the detailed-mode predicate makes the legality checker return false,
whatever the number of nodes. -/
theorem legal_same_statement_blocked (J : JitHost) (c : Compiler) (tree nct : NodeId)
    (parent : Option NodeId) (between : List NodeId)
    (hl : linked (fun n => (c.node n).gtNext) (c.node nct).gtNext between (some tree) = true)
    (hmem : tree ∉ between)
    (hbad : ∃ n ∈ between,
      optCanMoveNullCheckPastTree J c n (c.hasTryIndex c.compCurBB) false = false) :
    ∃ r, optIsNullCheckFoldingLegal J c tree nct parent = Except.ok r
      ∧ r.canRemoveNullCheck = false := by
  obtain ⟨s1, hs1⟩ := forwardWalk_total J c tree nct (c.hasTryIndex c.compCurBB) legalityFuel
    { canRemoveNullCheck := true, nodesWalked := 0, previousTree := nct,
      currentTree := (c.node nct).gtNext, nullCheckParent := parent,
      curStmt := c.compCurStmt }
    (by simp [legalityFuel]) (by simp [legalityFuel])
  cases hc : s1.canRemoveNullCheck
  · exact legal_of_forward_stopped J c tree nct parent s1 hs1 hc
  · obtain ⟨hall, _⟩ := forwardWalk_passed J c tree nct _ between _ _ s1 (some tree) hl
      (Or.inr rfl) hmem hs1 hc
    obtain ⟨n, hn, hnbad⟩ := hbad
    rw [hall n hn] at hnbad
    exact absurd hnbad (by simp)

/-- Across statements, a walked node that fails the detailed-mode predicate or a
root that fails the summary-mode predicate makes the legality checker return
false, whatever the number of nodes. -/
theorem legal_cross_statement_blocked (J : JitHost) (c : Compiler) (tree nct : NodeId)
    (parent : Option NodeId) (afterNc beforeInd : List NodeId)
    (mids : List (StmtId × NodeId)) (first : StmtId)
    (h1 : linked (fun n => (c.node n).gtNext) (c.node nct).gtNext afterNc none = true)
    (hmem : tree ∉ afterNc)
    (h2 : linked (fun n => (c.node n).gtPrev) (c.node tree).gtPrev beforeInd none = true)
    (h3 : stmtsLinked c (c.stmt c.compCurStmt).prevStmt mids first = true)
    (hdist : ∀ p ∈ mids, p.2 ≠ afterNc.getLastD nct)
    (hbad : (∃ n ∈ afterNc,
        optCanMoveNullCheckPastTree J c n (c.hasTryIndex c.compCurBB) false = false)
      ∨ (∃ n ∈ beforeInd,
        optCanMoveNullCheckPastTree J c n (c.hasTryIndex c.compCurBB) false = false)
      ∨ (∃ p ∈ mids,
        optCanMoveNullCheckPastTree J c p.2 (c.hasTryIndex c.compCurBB) true = false)) :
    ∃ r, optIsNullCheckFoldingLegal J c tree nct parent = Except.ok r
      ∧ r.canRemoveNullCheck = false := by
  obtain ⟨s1, hs1⟩ := forwardWalk_total J c tree nct (c.hasTryIndex c.compCurBB) legalityFuel
    { canRemoveNullCheck := true, nodesWalked := 0, previousTree := nct,
      currentTree := (c.node nct).gtNext, nullCheckParent := parent,
      curStmt := c.compCurStmt }
    (by simp [legalityFuel]) (by simp [legalityFuel])
  cases hc1 : s1.canRemoveNullCheck
  · exact legal_of_forward_stopped J c tree nct parent s1 hs1 hc1
  · obtain ⟨hall1, hcur1, hprev1, _⟩ := forwardWalk_passed J c tree nct _ afterNc _ _ s1 none h1
      (Or.inl rfl) hmem hs1 hc1
    simp only at hprev1
    have hne : s1.currentTree ≠ some tree := by rw [hcur1]; simp
    obtain ⟨s2, hs2⟩ := backwardWalk_total J c (c.hasTryIndex c.compCurBB) legalityFuel
      { s1 with currentTree := (c.node tree).gtPrev }
      (by simp [legalityFuel]) (by simp [legalityFuel])
    unfold optIsNullCheckFoldingLegal
    simp only [hs1, hne, if_false, hs2]
    cases hc2 : s2.canRemoveNullCheck
    · rw [show legalityFuel = (maxNodesWalked + 2) + 1 from rfl]
      rw [statementWalk_stopped _ _ _ _ _ _ rfl]
      exact ⟨_, rfl, rfl⟩
    · have hall2 := backwardWalk_passed J c _ beforeInd _ _ s2 h2 hs2 hc2
      have hmid : ∃ p ∈ mids,
          optCanMoveNullCheckPastTree J c p.2 (c.hasTryIndex c.compCurBB) true = false := by
        rcases hbad with ⟨n, hn, hb⟩ | ⟨n, hn, hb⟩ | h
        · rw [hall1 n hn] at hb; exact absurd hb (by simp)
        · rw [hall2 n hn] at hb; exact absurd hb (by simp)
        · exact h
      rw [hprev1]
      obtain ⟨s3, hs3, hc3⟩ := statementWalk_blocked J c (c.hasTryIndex c.compCurBB)
        (afterNc.getLastD nct) first mids legalityFuel
        { s2 with curStmt := (c.stmt c.compCurStmt).prevStmt,
                  currentTree := (c.stmt (c.stmt c.compCurStmt).prevStmt).rootNode }
        h3 rfl hdist hmid (by simp [legalityFuel]) (by simp [legalityFuel])
      simp only [hc2] at hs3
      simp only [hs3]
      exact ⟨_, rfl, hc3⟩

/-! ## Array lengths and bounds checks -/

/-- The guard of lines 193-194, as a proposition. -/
theorem rangeCheckShapeGuard_iff (c : Compiler) (check : NodeId) (comma : Option NodeId) :
    rangeCheckShapeGuard c check comma = true ↔
      ((∃ p, comma = some p ∧ (c.node p).gtOper = genTreeOps.GT_COMMA
          ∧ (c.node p).gtOp1 = check)
        ∨ (c.stmt c.compCurStmt).rootNode = some check) := by
  unfold rangeCheckShapeGuard
  have hroot : (some check == (c.stmt c.compCurStmt).rootNode) = true
      ↔ (c.stmt c.compCurStmt).rootNode = some check := by
    rw [beq_iff_eq]; exact eq_comm
  cases comma with
  | none => simp [hroot]
  | some p => simp [hroot]

/-- The only path of lines 151-211 that ends in `optRemoveRangeCheck` passes
every test on the way. -/
theorem rewriteArrayLength_remove (J : JitHost) (c : Compiler) (tree actualVal : NodeId)
    (folded : Bool) (check : NodeId) (comma : Option NodeId) (stmt : StmtId)
    (h : rewriteArrayLength J c tree actualVal folded
          = RewriteExit.removeRangeCheck check comma stmt) :
    0 ≤ (c.node actualVal).iconValue
    ∧ (c.node actualVal).iconValue ≤ J.CORINFO_Array_MaxLength
    ∧ removableBoundsCheck J c tree (c.node actualVal).iconValue check
    ∧ comma = J.gtGetParent c check ∧ stmt = c.compCurStmt := by
  unfold rewriteArrayLength at h
  simp only at h
  split at h
  · exact absurd h (by simp)
  · rename_i hrange
    have hrange' : 0 ≤ (c.node actualVal).iconValue
        ∧ (c.node actualVal).iconValue ≤ J.CORINFO_Array_MaxLength := by
      constructor <;> omega
    split at h
    · exact absurd h (by simp)
    · rename_i chk hnext
      split at h
      · rename_i hoper
        split at h
        · rename_i harg
          split at h
          · rename_i hidx
            split at h
            · rename_i hguard
              simp only [RewriteExit.removeRangeCheck.injEq] at h
              obtain ⟨rfl, rfl, rfl⟩ := h
              refine ⟨hrange'.1, hrange'.2, ⟨hnext, hoper, harg.1, harg.2, hidx.1, hidx.2, ?_⟩,
                rfl, rfl⟩
              exact (rangeCheckShapeGuard_iff c chk _).1 hguard |>.imp
                (fun ⟨p, hp, h1, h2⟩ => ⟨p, hp, h1, h2⟩) id
            · exact absurd h (by simp)
          · exact absurd h (by simp)
        · exact absurd h (by simp)
      · exact absurd h (by simp)

/-- With a constant in range and a removable bounds check, lines 151-211 end in
`optRemoveRangeCheck`. -/
theorem rewriteArrayLength_removable (J : JitHost) (c : Compiler) (tree actualVal : NodeId)
    (folded : Bool) (check : NodeId)
    (hlo : 0 ≤ (c.node actualVal).iconValue)
    (hhi : (c.node actualVal).iconValue ≤ J.CORINFO_Array_MaxLength)
    (h : removableBoundsCheck J c tree (c.node actualVal).iconValue check) :
    rewriteArrayLength J c tree actualVal folded
      = RewriteExit.removeRangeCheck check (J.gtGetParent c check) c.compCurStmt := by
  obtain ⟨hnext, hoper, hlen, hcns, hi0, hiN, hshape⟩ := h
  have hguard : rangeCheckShapeGuard c check (J.gtGetParent c check) = true :=
    (rangeCheckShapeGuard_iff c check _).2
      (hshape.imp (fun ⟨p, hp, h1, h2⟩ => ⟨p, hp, h1, h2⟩) id)
  have hrange : ¬ ((c.node actualVal).iconValue < 0
      ∨ (c.node actualVal).iconValue > J.CORINFO_Array_MaxLength) := by omega
  unfold rewriteArrayLength
  simp only [hrange, if_false, hnext, hoper, hlen, hcns, and_self, if_true, ge_iff_le, hi0,
    hiN, hguard]

/-- With a constant in range and no removable bounds check, lines 151-211 fall
through to the final return statement. -/
theorem rewriteArrayLength_not_removable (J : JitHost) (c : Compiler) (tree actualVal : NodeId)
    (folded : Bool)
    (hlo : 0 ≤ (c.node actualVal).iconValue)
    (hhi : (c.node actualVal).iconValue ≤ J.CORINFO_Array_MaxLength)
    (h : ¬ ∃ check, removableBoundsCheck J c tree (c.node actualVal).iconValue check) :
    rewriteArrayLength J c tree actualVal folded
      = RewriteExit.ret (if folded then some tree else none) := by
  cases hr : rewriteArrayLength J c tree actualVal folded with
  | removeRangeCheck check comma stmt =>
    exact absurd ⟨check, (rewriteArrayLength_remove J c tree actualVal folded check comma stmt
      hr).2.2.1⟩ h
  | ret t =>
    have hrange : ¬ ((c.node actualVal).iconValue < 0
        ∨ (c.node actualVal).iconValue > J.CORINFO_Array_MaxLength) := by omega
    unfold rewriteArrayLength at hr
    simp only [hrange, if_false] at hr
    rw [← hr]
    repeat' split
    all_goals first | rfl | (exfalso; simp_all)

/-- The body of `optEarlyPropRewriteTree` for an array-length node that resolves
to a constant reaches lines 151-211. -/
theorem rewriteTreeStep_resolved (J : JitHost) (c : Compiler) (tree : NodeId)
    (nullCheckMap : LocalNumberToNullCheckTreeMap) (r : FoldResult) (actualVal : NodeId)
    (hind : J.OperIsIndirOrArrMetaData (c.node tree).gtOper = true)
    (hfold : optFoldNullCheck J c tree nullCheckMap = Except.ok r)
    (hres : arrayLengthResolves J r.comp tree actualVal) :
    optEarlyPropRewriteTreeStep J c tree nullCheckMap
      = Except.ok { comp := r.comp, nullCheckMap := r.nullCheckMap,
                    exit := rewriteArrayLength J r.comp tree actualVal r.folded } := by
  obtain ⟨harr, hlcl, hssa, hval⟩ := hres
  unfold optEarlyPropRewriteTreeStep
  simp only [hind, if_true, hfold, harr, hlcl, hssa, Bool.true_eq_false, or_self, if_false, hval]

/-- C1 (counterexample).  In `arrLenIR` the node 21 reads the length of `x@1`,
an SSA-tracked local whose definition is the allocation of an array of the
constant length 5 (node 10), and 5 is in range.  The claim has
`optEarlyPropRewriteTree` hand back a constant 5 in place of the read; the
function returns `nullptr` and node 21 is still a `GT_ARR_LENGTH`. -/
theorem arrLen_read_kept_counterexample :
    arrayLengthResolves demoHost arrLenIR 21 10
    ∧ demoHost.IsCnsIntOrI (arrLenIR.node 10).gtOper = true
    ∧ (arrLenIR.node 10).iconValue = 5
    ∧ (0 : Int) ≤ 5 ∧ (5 : Int) ≤ demoHost.CORINFO_Array_MaxLength
    ∧ ∃ r, optEarlyPropRewriteTree demoHost arrLenIR 21 emptyMap = Except.ok r
        ∧ r.tree = none
        ∧ (r.comp.node 21).gtOper = genTreeOps.GT_ARR_LENGTH :=
  ⟨⟨rfl, rfl, rfl, rfl⟩, rfl, rfl, by decide, by decide, _, rfl, rfl, rfl⟩

/-- C1 (amended).  Let `tree` be an indirection-like node for which
`optFoldNullCheck` returns `r`, and let it be, in the state `r.comp` left by
that call, an array-length node whose pointer operand is an SSA-tracked local
resolving to a constant `N` with `0 ≤ N ≤ CORINFO_Array_MaxLength`.  Then
`optEarlyPropRewriteTree` uses `N` only to remove a bounds check: when a
removable bounds check follows, it returns what `optRemoveRangeCheck` returns;
when none does, it leaves the state as `optFoldNullCheck` left it (the
array-length node is not replaced) and returns the node itself if a null
check was folded and `nullptr` otherwise. -/
theorem arrLen_constant_only_removes_check (J : JitHost) (c : Compiler) (tree : NodeId)
    (nullCheckMap : LocalNumberToNullCheckTreeMap) (r : FoldResult) (actualVal : NodeId)
    (hind : J.OperIsIndirOrArrMetaData (c.node tree).gtOper = true)
    (hfold : optFoldNullCheck J c tree nullCheckMap = Except.ok r)
    (hres : arrayLengthResolves J r.comp tree actualVal)
    (hlo : 0 ≤ (r.comp.node actualVal).iconValue)
    (hhi : (r.comp.node actualVal).iconValue ≤ J.CORINFO_Array_MaxLength) :
    (∀ check, removableBoundsCheck J r.comp tree (r.comp.node actualVal).iconValue check →
      optEarlyPropRewriteTree J c tree nullCheckMap
        = Except.ok
            { comp := (J.optRemoveRangeCheck r.comp check (J.gtGetParent r.comp check)
                        r.comp.compCurStmt).1,
              nullCheckMap := r.nullCheckMap,
              tree := (J.optRemoveRangeCheck r.comp check (J.gtGetParent r.comp check)
                        r.comp.compCurStmt).2 })
    ∧ ((¬ ∃ check, removableBoundsCheck J r.comp tree (r.comp.node actualVal).iconValue check) →
      optEarlyPropRewriteTree J c tree nullCheckMap
        = Except.ok
            { comp := r.comp, nullCheckMap := r.nullCheckMap,
              tree := if r.folded then some tree else none }) := by
  have hstep := rewriteTreeStep_resolved J c tree nullCheckMap r actualVal hind hfold hres
  constructor
  · intro check hrem
    unfold optEarlyPropRewriteTree
    rw [hstep]
    simp only [rewriteArrayLength_removable J r.comp tree actualVal r.folded check hlo hhi hrem]
  · intro hnone
    unfold optEarlyPropRewriteTree
    rw [hstep]
    simp only [rewriteArrayLength_not_removable J r.comp tree actualVal r.folded hlo hhi hnone]

/-- C1 (witness): the amended statement at node 21 of `arrLenIR`, where no
bounds check follows and no null check is folded. -/
theorem arrLen_constant_only_removes_check_witness :
    optEarlyPropRewriteTree demoHost arrLenIR 21 emptyMap
      = Except.ok { comp := arrLenIR, nullCheckMap := emptyMap, tree := none } :=
  (arrLen_constant_only_removes_check demoHost arrLenIR 21 emptyMap
    { comp := arrLenIR, nullCheckMap := emptyMap, folded := false } 10
    rfl rfl ⟨rfl, rfl, rfl, rfl⟩ (by decide) (by decide)).2
    (by
      rintro ⟨check, hnext, -⟩
      have hnone : (none : Option NodeId) = some check := hnext
      simp at hnone)

/-- C2.  `optEarlyPropRewriteTree` calls `optRemoveRangeCheck(check, comma,
stmt)` (its body ends in `RewriteExit.removeRangeCheck check comma stmt`) only
if, in the state left by `optFoldNullCheck`, the node is an array-length node
resolving to a constant `N` with `0 ≤ N ≤ CORINFO_Array_MaxLength`, the next
node `check` is a bounds check whose length operand is this node and whose
index is an integer constant `i` with `0 ≤ i < N`, and `check` is the first
operand of its parent `GT_COMMA` or the root of the current statement; `comma`
is the parent of `check` and `stmt` the current statement. -/
theorem removeRangeCheck_called_only_if (J : JitHost) (c : Compiler) (tree : NodeId)
    (nullCheckMap : LocalNumberToNullCheckTreeMap) (s : RewriteStep)
    (check : NodeId) (comma : Option NodeId) (stmt : StmtId)
    (hstep : optEarlyPropRewriteTreeStep J c tree nullCheckMap = Except.ok s)
    (hexit : s.exit = RewriteExit.removeRangeCheck check comma stmt) :
    ∃ actualVal, arrayLengthResolves J s.comp tree actualVal
      ∧ 0 ≤ (s.comp.node actualVal).iconValue
      ∧ (s.comp.node actualVal).iconValue ≤ J.CORINFO_Array_MaxLength
      ∧ removableBoundsCheck J s.comp tree (s.comp.node actualVal).iconValue check
      ∧ comma = J.gtGetParent s.comp check
      ∧ stmt = s.comp.compCurStmt := by
  unfold optEarlyPropRewriteTreeStep at hstep
  split at hstep
  · split at hstep
    · exact absurd hstep (by simp)
    · rename_i r hfold
      simp only at hstep
      split at hstep
      · rename_i harr
        split at hstep
        · simp only [Except.ok.injEq] at hstep
          subst hstep
          exact absurd hexit (by simp)
        · rename_i hlcl
          simp only [not_or, Bool.not_eq_false] at hlcl
          split at hstep
          · exact absurd hstep (by simp)
          · simp only [Except.ok.injEq] at hstep
            subst hstep
            exact absurd hexit (by simp)
          · rename_i actualVal hval
            simp only [Except.ok.injEq] at hstep
            subst hstep
            simp only at hexit
            obtain ⟨h1, h2, h3, h4, h5⟩ :=
              rewriteArrayLength_remove J r.comp tree actualVal r.folded check comma stmt hexit
            exact ⟨actualVal, ⟨harr, hlcl.1, hlcl.2, hval⟩, h1, h2, h3, h4, h5⟩
      · simp only [Except.ok.injEq] at hstep
        subst hstep
        exact absurd hexit (by simp)
  · simp only [Except.ok.injEq] at hstep
    subst hstep
    exact absurd hexit (by simp)

/-- C2 (witness): in `boundsIR N` with `N = CORINFO_Array_MaxLength`, the
greatest length in range, the bounds check 33 with index 3 after the
array-length node 32 is handed to `optRemoveRangeCheck`; with
`N = CORINFO_Array_MaxLength + 1`, with `N = -1` and with `N = 3` (index out
of bounds) the function returns `nullptr` and calls nothing. -/
theorem removeRangeCheck_called_only_if_witness :
    (∃ actualVal, arrayLengthResolves demoHost (boundsIR 0x7FFFFFC7) 32 actualVal
      ∧ 0 ≤ ((boundsIR 0x7FFFFFC7).node actualVal).iconValue
      ∧ ((boundsIR 0x7FFFFFC7).node actualVal).iconValue ≤ demoHost.CORINFO_Array_MaxLength
      ∧ removableBoundsCheck demoHost (boundsIR 0x7FFFFFC7) 32
          ((boundsIR 0x7FFFFFC7).node actualVal).iconValue 33
      ∧ some 35 = demoHost.gtGetParent (boundsIR 0x7FFFFFC7) 33
      ∧ 2 = (boundsIR 0x7FFFFFC7).compCurStmt)
    ∧ optEarlyPropRewriteTreeStep demoHost (boundsIR 0x7FFFFFC8) 32 emptyMap
        = Except.ok { comp := boundsIR 0x7FFFFFC8, nullCheckMap := emptyMap,
                      exit := RewriteExit.ret none }
    ∧ optEarlyPropRewriteTreeStep demoHost (boundsIR (-1)) 32 emptyMap
        = Except.ok { comp := boundsIR (-1), nullCheckMap := emptyMap,
                      exit := RewriteExit.ret none }
    ∧ optEarlyPropRewriteTreeStep demoHost (boundsIR 3) 32 emptyMap
        = Except.ok { comp := boundsIR 3, nullCheckMap := emptyMap,
                      exit := RewriteExit.ret none } :=
  ⟨removeRangeCheck_called_only_if demoHost (boundsIR 0x7FFFFFC7) 32 emptyMap
    { comp := boundsIR 0x7FFFFFC7, nullCheckMap := emptyMap,
      exit := RewriteExit.removeRangeCheck 33 (some 35) 2 } 33 (some 35) 2 rfl rfl,
   rfl, rfl, rfl⟩

/-- C3 (counterexample).  In `voidCommaIR` the array-length node 32 resolves
to the constant 5, the next node 33 is a bounds check on node 32 with the
constant index 3, and the parent of the check is the comma 35 of type void,
with the check as second operand: a shape the claim (and the assertion of the
source) expects.  The bounds check is not removed: the body of
`optEarlyPropRewriteTree` does not end in a call of `optRemoveRangeCheck`, and
the function returns `nullptr`. -/
theorem void_comma_check_kept_counterexample :
    arrayLengthResolves demoHost voidCommaIR 32 10
    ∧ (voidCommaIR.node 10).iconValue = 5
    ∧ (voidCommaIR.node 32).gtNext = some 33
    ∧ (voidCommaIR.node 33).gtOper = genTreeOps.GT_BOUNDS_CHECK
    ∧ demoHost.GetArrayLength voidCommaIR 33 = 32
    ∧ demoHost.IsCnsIntOrI (voidCommaIR.node (demoHost.GetIndex voidCommaIR 33)).gtOper = true
    ∧ (voidCommaIR.node (demoHost.GetIndex voidCommaIR 33)).iconValue = 3
    ∧ demoHost.gtGetParent voidCommaIR 33 = some 35
    ∧ (voidCommaIR.node 35).gtOper = genTreeOps.GT_COMMA
    ∧ (voidCommaIR.node 35).gtType = var_types.TYP_VOID
    ∧ rangeCheckShapeAssert voidCommaIR 33 (some 35) = true
    ∧ ∃ s r, optEarlyPropRewriteTreeStep demoHost voidCommaIR 32 emptyMap = Except.ok s
        ∧ s.exit = RewriteExit.ret none
        ∧ optEarlyPropRewriteTree demoHost voidCommaIR 32 emptyMap = Except.ok r
        ∧ r.tree = none
        ∧ (r.comp.node 33).gtOper = genTreeOps.GT_BOUNDS_CHECK :=
  ⟨⟨rfl, rfl, rfl, rfl⟩, rfl, rfl, rfl, rfl, rfl, rfl, rfl, rfl, rfl, rfl,
    _, _, rfl, rfl, rfl, rfl, rfl⟩

/-- C3 (amended).  Let `tree` be an indirection-like node for which
`optFoldNullCheck` returns `r`, and let it be, in the state `r.comp`, an
array-length node resolving to a constant `N` with
`0 ≤ N ≤ CORINFO_Array_MaxLength`.  If the next node `check` is a bounds check
that uses `tree` as its length operand and has a constant index `i`,
`0 ≤ i < N`, and `check` is the first operand of its parent `GT_COMMA` or the
root of the current statement, then the bounds check is removed:
`optEarlyPropRewriteTree` returns the tree produced by
`optRemoveRangeCheck(check, parent, compCurStmt)`. -/
theorem removable_check_removed (J : JitHost) (c : Compiler) (tree : NodeId)
    (nullCheckMap : LocalNumberToNullCheckTreeMap) (r : FoldResult) (actualVal check : NodeId)
    (hind : J.OperIsIndirOrArrMetaData (c.node tree).gtOper = true)
    (hfold : optFoldNullCheck J c tree nullCheckMap = Except.ok r)
    (hres : arrayLengthResolves J r.comp tree actualVal)
    (hlo : 0 ≤ (r.comp.node actualVal).iconValue)
    (hhi : (r.comp.node actualVal).iconValue ≤ J.CORINFO_Array_MaxLength)
    (hrem : removableBoundsCheck J r.comp tree (r.comp.node actualVal).iconValue check) :
    optEarlyPropRewriteTreeStep J c tree nullCheckMap
      = Except.ok
          { comp := r.comp, nullCheckMap := r.nullCheckMap,
            exit := RewriteExit.removeRangeCheck check (J.gtGetParent r.comp check)
                      r.comp.compCurStmt }
    ∧ optEarlyPropRewriteTree J c tree nullCheckMap
      = Except.ok
          { comp := (J.optRemoveRangeCheck r.comp check (J.gtGetParent r.comp check)
                      r.comp.compCurStmt).1,
            nullCheckMap := r.nullCheckMap,
            tree := (J.optRemoveRangeCheck r.comp check (J.gtGetParent r.comp check)
                      r.comp.compCurStmt).2 } := by
  have hstep := rewriteTreeStep_resolved J c tree nullCheckMap r actualVal hind hfold hres
  rw [rewriteArrayLength_removable J r.comp tree actualVal r.folded check hlo hhi hrem] at hstep
  refine ⟨hstep, ?_⟩
  unfold optEarlyPropRewriteTree
  rw [hstep]

/-- C3 (witness): the bounds check 33 of `boundsIR 5`, first operand of the
comma 35, is removed. -/
theorem removable_check_removed_witness :
    optEarlyPropRewriteTreeStep demoHost (boundsIR 5) 32 emptyMap
      = Except.ok
          { comp := boundsIR 5, nullCheckMap := emptyMap,
            exit := RewriteExit.removeRangeCheck 33 (some 35) 2 }
    ∧ optEarlyPropRewriteTree demoHost (boundsIR 5) 32 emptyMap
      = Except.ok { comp := boundsIR 5, nullCheckMap := emptyMap, tree := some 35 } :=
  removable_check_removed demoHost (boundsIR 5) 32 emptyMap
    { comp := boundsIR 5, nullCheckMap := emptyMap, folded := false } 10 33
    rfl rfl ⟨rfl, rfl, rfl, rfl⟩ (by decide) (by decide)
    ⟨rfl, rfl, rfl, rfl, by decide, by decide, Or.inl ⟨35, rfl, rfl, rfl⟩⟩

/-! ## The null-check finder -/

/-- Recording the scanned node in the map leaves the state and the returned
value as they are. -/
theorem recordNullCheck_comp (c : Compiler) (tree : NodeId)
    (nullCheckMap : LocalNumberToNullCheckTreeMap) (folded : Bool) :
    (recordNullCheck c tree nullCheckMap folded).comp = c
    ∧ (recordNullCheck c tree nullCheckMap folded).folded = folded := by
  unfold recordNullCheck
  split <;> exact ⟨rfl, rfl⟩

/-- A null check kept by the map lookup is the map entry and reads a
`GT_LCL_VAR` with the SSA number asked for. -/
theorem nullCheckFromMap_some (c : Compiler) (nullCheckMap : LocalNumberToNullCheckTreeMap)
    (lclNum ssaNum : Nat) (nc : NodeId)
    (h : nullCheckFromMap c nullCheckMap lclNum ssaNum = some nc) :
    nullCheckMap lclNum = some nc
    ∧ (c.node (c.node nc).gtOp1).gtOper = genTreeOps.GT_LCL_VAR
    ∧ (c.node (c.node nc).gtOp1).ssaNum = ssaNum := by
  unfold nullCheckFromMap at h
  split at h
  · exact absurd h (by simp)
  · rename_i t ht
    simp only at h
    split at h
    · exact absurd h (by simp)
    · rename_i hcond
      simp only [Option.some.injEq] at h
      subst h
      simp only [ne_eq, not_or, not_not] at hcond
      exact ⟨ht, hcond.1, hcond.2⟩

/-- A null check found through the definition comes from a store, in the current
block, of a value of the shape `comma(nullcheck(y), add(y, const))`. -/
theorem nullCheckFromDef_some (J : JitHost) (c : Compiler) (lclNum ssaNum : Nat)
    (offsetValue : Int) (nc : NodeId) (off : Int)
    (h : nullCheckFromDef J c lclNum ssaNum offsetValue = some (some nc, off)) :
    ∃ d, ((c.lvaTable lclNum).perSsaData ssaNum).defNode = some d
      ∧ ((c.lvaTable lclNum).perSsaData ssaNum).block = c.compCurBB
      ∧ (c.node d).gtOper = genTreeOps.GT_STORE_LCL_VAR
      ∧ (c.node d).lclNum = lclNum
      ∧ isNullCheckThenAdd J c (J.Data c d)
      ∧ nc = J.gtEffectiveVal c (c.node (J.Data c d)).gtOp1
      ∧ off = ssizeWrap (offsetValue
                + (c.node (c.node (c.node (J.Data c d)).gtOp2).gtOp2).iconValue) := by
  unfold nullCheckFromDef at h
  simp only at h
  split at h
  · exact absurd h (by simp)
  · rename_i hblock
    split at h
    · exact absurd h (by simp)
    · rename_i d hd
      split at h
      · exact absurd h (by simp)
      · rename_i hstore
        split at h
        · exact absurd h (by simp)
        · rename_i hcomma
          split at h
          · exact absurd h (by simp)
          · rename_i hnc
            split at h
            · exact absurd h (by simp)
            · rename_i hadd
              split at h
              · rename_i hop
                simp only [Option.some.injEq, Prod.mk.injEq] at h
                obtain ⟨h1, h2⟩ := h
                simp only [ne_eq, not_or, not_not] at hblock hstore hcomma hnc hadd
                exact ⟨d, hd, hblock.symm, hstore.1, hstore.2,
                  ⟨hcomma, hnc, hadd.1, hadd.2, hop.1, hop.2.1, hop.2.2⟩, h1.symm, h2.symm⟩
              · simp at h

/-- A definition whose value does not have the shape yields no null check. -/
theorem nullCheckFromDef_not_shape (J : JitHost) (c : Compiler) (lclNum ssaNum : Nat)
    (offsetValue : Int) (d : NodeId)
    (hd : ((c.lvaTable lclNum).perSsaData ssaNum).defNode = some d)
    (hshape : ¬ isNullCheckThenAdd J c (J.Data c d)) :
    ∀ r, nullCheckFromDef J c lclNum ssaNum offsetValue = some r → r.1 = none := by
  intro r hr
  obtain ⟨cand, off⟩ := r
  cases cand with
  | none => rfl
  | some nc =>
    obtain ⟨d', hd', _, _, _, hsh, _⟩ := nullCheckFromDef_some J c lclNum ssaNum offsetValue nc off hr
    rw [hd] at hd'
    simp only [Option.some.injEq] at hd'
    subst hd'
    exact absurd hsh hshape

/-- C4.  A null check that `optFindNullCheckToFold` returns from the
null-check map (the lookup of lines 420-429 kept it) has a base (the address
of the indirection after stripping one `+ integer constant`) that is a
`GT_LCL_VAR` with a non-reserved SSA number, it is the map entry of the
base's local, and its address operand is a `GT_LCL_VAR` with the SSA number
of the base.  Consequently, when the map holds for the base's local a null
check of another SSA number, and the base's definition is a store whose value
is not of the shape `comma(nullcheck(y), add(y, c))`, the finder returns no
candidate and `optFoldNullCheck` folds nothing: it returns false and leaves
the compilation state unchanged. -/
theorem map_candidate_same_ssa (J : JitHost) (c : Compiler) (tree : NodeId)
    (nullCheckMap : LocalNumberToNullCheckTreeMap) :
    (∀ nc, optFindNullCheckToFold J c tree nullCheckMap = some nc →
      nullCheckFromMap c nullCheckMap (c.node (indirBase J c tree).1).lclNum
          (c.node (indirBase J c tree).1).ssaNum = some nc →
      (c.node (indirBase J c tree).1).gtOper = genTreeOps.GT_LCL_VAR
      ∧ (c.node (indirBase J c tree).1).ssaNum ≠ J.RESERVED_SSA_NUM
      ∧ nullCheckMap (c.node (indirBase J c tree).1).lclNum = some nc
      ∧ (c.node (c.node nc).gtOp1).gtOper = genTreeOps.GT_LCL_VAR
      ∧ (c.node (c.node nc).gtOp1).ssaNum = (c.node (indirBase J c tree).1).ssaNum)
    ∧ (∀ nc d, nullCheckMap (c.node (indirBase J c tree).1).lclNum = some nc →
      (c.node (c.node nc).gtOp1).ssaNum ≠ (c.node (indirBase J c tree).1).ssaNum →
      ((c.lvaTable (c.node (indirBase J c tree).1).lclNum).perSsaData
          (c.node (indirBase J c tree).1).ssaNum).defNode = some d →
      ¬ isNullCheckThenAdd J c (J.Data c d) →
      optFindNullCheckToFold J c tree nullCheckMap = none
      ∧ ∃ r, optFoldNullCheck J c tree nullCheckMap = Except.ok r
          ∧ r.folded = false ∧ r.comp = c) := by
  constructor
  · intro nc hfind hmap
    obtain ⟨h1, h2, h3⟩ := nullCheckFromMap_some c nullCheckMap _ _ nc hmap
    unfold optFindNullCheckToFold at hfind
    simp only at hfind
    split at hfind
    · exact absurd hfind (by simp)
    · rename_i hlcl
      split at hfind
      · exact absurd hfind (by simp)
      · rename_i hssa
        simp only [ne_eq, not_not] at hlcl
        exact ⟨hlcl, hssa, h1, h2, h3⟩
  · intro nc d hmap hne hd hshape
    have hprim : nullCheckFromMap c nullCheckMap (c.node (indirBase J c tree).1).lclNum
        (c.node (indirBase J c tree).1).ssaNum = none := by
      unfold nullCheckFromMap
      simp only [hmap, ne_eq, hne, not_false_eq_true, or_true, if_true]
    have hfind : optFindNullCheckToFold J c tree nullCheckMap = none := by
      unfold optFindNullCheckToFold
      simp only [hprim]
      split
      · rfl
      · split
        · rfl
        · split
          · rfl
          · rename_i cand off hdef
            have := nullCheckFromDef_not_shape J c _ _ _ d hd hshape _ hdef
            simp only at this
            subst this
            split <;> rfl
    refine ⟨hfind, ?_⟩
    unfold optFoldNullCheck
    rw [hfind]
    exact ⟨_, rfl, (recordNullCheck_comp c tree nullCheckMap false).2,
      (recordNullCheck_comp c tree nullCheckMap false).1⟩

/-- C4 (witness): in `sameStmtIR` the map holds the null check 41 of `x@1` and
the indirection 45 reads `x@1 + 8`; in `redefIR` the map holds the null check
71 of `x@1`, `x` is redefined as `x@2 = y@1` and the indirection 76 reads
`x@2`. -/
theorem map_candidate_same_ssa_witness :
    ((sameStmtIR constEight).node 42).gtOper = genTreeOps.GT_LCL_VAR
    ∧ ((sameStmtIR constEight).node 42).ssaNum ≠ demoHost.RESERVED_SSA_NUM
    ∧ (emptyMap.Set 0 41) 0 = some 41
    ∧ ((sameStmtIR constEight).node 40).gtOper = genTreeOps.GT_LCL_VAR
    ∧ ((sameStmtIR constEight).node 40).ssaNum = ((sameStmtIR constEight).node 42).ssaNum
    ∧ optFindNullCheckToFold demoHost redefIR 76 (emptyMap.Set 0 71) = none
    ∧ ∃ r, optFoldNullCheck demoHost redefIR 76 (emptyMap.Set 0 71) = Except.ok r
        ∧ r.folded = false ∧ r.comp = redefIR :=
  ⟨((map_candidate_same_ssa demoHost (sameStmtIR constEight) 45 (emptyMap.Set 0 41)).1 41
      rfl rfl).1,
   ((map_candidate_same_ssa demoHost (sameStmtIR constEight) 45 (emptyMap.Set 0 41)).1 41
      rfl rfl).2.1,
   ((map_candidate_same_ssa demoHost (sameStmtIR constEight) 45 (emptyMap.Set 0 41)).1 41
      rfl rfl).2.2.1,
   ((map_candidate_same_ssa demoHost (sameStmtIR constEight) 45 (emptyMap.Set 0 41)).1 41
      rfl rfl).2.2.2.1,
   ((map_candidate_same_ssa demoHost (sameStmtIR constEight) 45 (emptyMap.Set 0 41)).1 41
      rfl rfl).2.2.2.2,
   (map_candidate_same_ssa demoHost redefIR 76 (emptyMap.Set 0 71)).2 71 74 rfl (by decide) rfl
      (by rintro ⟨h, -⟩; exact absurd h (by decide))⟩

/-- A candidate that `optFindNullCheckToFold` does not take from the map comes
from the definition of the base `x@v`: that definition is a whole-variable
store (`GT_STORE_LCL_VAR`) to `x` located in the current basic block, whose
value is a `GT_COMMA` with a first operand whose effective value is a
`GT_NULLCHECK` of a `GT_LCL_VAR` `y` and with second operand `add(y', c)`,
where `c` is an integer constant and `y'` is a `GT_LCL_VAR` with the local
number of `y`; the returned candidate is that null check. -/
theorem secondary_candidate_shape (J : JitHost) (c : Compiler) (tree : NodeId)
    (nullCheckMap : LocalNumberToNullCheckTreeMap) (nc : NodeId)
    (hfind : optFindNullCheckToFold J c tree nullCheckMap = some nc)
    (hmap : nullCheckFromMap c nullCheckMap (c.node (indirBase J c tree).1).lclNum
              (c.node (indirBase J c tree).1).ssaNum = none) :
    ∃ d, ((c.lvaTable (c.node (indirBase J c tree).1).lclNum).perSsaData
            (c.node (indirBase J c tree).1).ssaNum).defNode = some d
      ∧ ((c.lvaTable (c.node (indirBase J c tree).1).lclNum).perSsaData
            (c.node (indirBase J c tree).1).ssaNum).block = c.compCurBB
      ∧ (c.node d).gtOper = genTreeOps.GT_STORE_LCL_VAR
      ∧ (c.node d).lclNum = (c.node (indirBase J c tree).1).lclNum
      ∧ isNullCheckThenAdd J c (J.Data c d)
      ∧ nc = J.gtEffectiveVal c (c.node (J.Data c d)).gtOp1 := by
  unfold optFindNullCheckToFold at hfind
  simp only [hmap] at hfind
  split at hfind
  · exact absurd hfind (by simp)
  · split at hfind
    · exact absurd hfind (by simp)
    · split at hfind
      · exact absurd hfind (by simp)
      · rename_i cand off hdef
        split at hfind
        · exact absurd hfind (by simp)
        · subst hfind
          obtain ⟨d, h1, h2, h3, h4, h5, h6, _⟩ := nullCheckFromDef_some J c _ _ _ nc off hdef
          exact ⟨d, h1, h2, h3, h4, h5, h6⟩

/-! ## The legality checker -/

/-- C6.  Same-statement legality: when following `gtNext` from the candidate
null check reaches the indirection `tree` after the nodes of `between` (at
most 50 of them, none of them `tree`), `optIsNullCheckFoldingLegal` returns,
and it returns true if every node of `between` satisfies
`optCanMoveNullCheckPastTree` in detailed mode and false if one of them does
not; when it returns true, the reported statement of the null check is the
current statement. -/
theorem same_statement_legality (J : JitHost) (c : Compiler) (tree nullCheckTree : NodeId)
    (nullCheckParent : Option NodeId) (between : List NodeId)
    (hlinks : linked (fun n => (c.node n).gtNext) (c.node nullCheckTree).gtNext between
                (some tree) = true)
    (hfirst : tree ∉ between)
    (hlen : between.length ≤ 50) :
    ∃ r, optIsNullCheckFoldingLegal J c tree nullCheckTree nullCheckParent = Except.ok r
      ∧ r.canRemoveNullCheck
          = between.all (fun n =>
              optCanMoveNullCheckPastTree J c n (c.hasTryIndex c.compCurBB) false)
      ∧ (r.canRemoveNullCheck = true → r.nullCheckStmt = c.compCurStmt) :=
  legal_same_statement J c tree nullCheckTree nullCheckParent between hlinks hfirst
    (by simp only [maxNodesWalked]; omega)

/-- C6 (witness): the statement `comma(nullcheck(x), ind(add(x, 8)))` of
`sameStmtIR`, with the three nodes 42, 43, 44 between the null check 41 and
the indirection 45. -/
theorem same_statement_legality_witness :
    ∃ r, optIsNullCheckFoldingLegal demoHost (sameStmtIR constEight) 45 41 none = Except.ok r
      ∧ r.canRemoveNullCheck
          = [42, 43, 44].all (fun n =>
              optCanMoveNullCheckPastTree demoHost (sameStmtIR constEight) n
                ((sameStmtIR constEight).hasTryIndex (sameStmtIR constEight).compCurBB) false)
      ∧ (r.canRemoveNullCheck = true → r.nullCheckStmt = (sameStmtIR constEight).compCurStmt) :=
  same_statement_legality demoHost (sameStmtIR constEight) 45 41 none [42, 43, 44]
    (by decide) (by decide) (by decide)

/-- C7.  Cross-statement legality: let the null check be in the statement
`first`, followed there by the nodes `afterNc` up to the end of the statement
(so that the root of `first` is the last of them, or the null check itself),
let the indirection `tree` be in the current statement, preceded there by the
nodes `beforeInd` back to the start of the statement, and let `mids` be the
statements strictly between the two, with their roots, the whole within the
node budget.  Then `optIsNullCheckFoldingLegal` returns, and it returns true
exactly when every node of `afterNc` and of `beforeInd` satisfies the
detailed-mode predicate and every root of `mids` the summary-mode predicate;
when it returns true the reported statement is `first`.  In particular a
statement of `mids` whose root has `GTF_EXCEPT` set makes the result false. -/
theorem cross_statement_legality (J : JitHost) (c : Compiler) (tree nullCheckTree : NodeId)
    (nullCheckParent : Option NodeId) (afterNc beforeInd : List NodeId)
    (mids : List (StmtId × NodeId)) (first : StmtId)
    (hafter : linked (fun n => (c.node n).gtNext) (c.node nullCheckTree).gtNext afterNc none
                = true)
    (hother : tree ∉ afterNc)
    (hbefore : linked (fun n => (c.node n).gtPrev) (c.node tree).gtPrev beforeInd none = true)
    (hstmts : stmtsLinked c (c.stmt c.compCurStmt).prevStmt mids first = true)
    (hroot : (c.stmt first).rootNode = some (afterNc.getLastD nullCheckTree))
    (hdist : ∀ p ∈ mids, p.2 ≠ afterNc.getLastD nullCheckTree)
    (hbudget : afterNc.length + beforeInd.length + mids.length ≤ maxNodesWalked + 1) :
    ∃ r, optIsNullCheckFoldingLegal J c tree nullCheckTree nullCheckParent = Except.ok r
      ∧ (r.canRemoveNullCheck = true ↔
          ((∀ n ∈ afterNc,
              optCanMoveNullCheckPastTree J c n (c.hasTryIndex c.compCurBB) false = true)
            ∧ (∀ n ∈ beforeInd,
              optCanMoveNullCheckPastTree J c n (c.hasTryIndex c.compCurBB) false = true)
            ∧ (∀ p ∈ mids,
              optCanMoveNullCheckPastTree J c p.2 (c.hasTryIndex c.compCurBB) true = true)))
      ∧ (r.canRemoveNullCheck = true → r.nullCheckStmt = first)
      ∧ ((∃ p ∈ mids, (c.node p.2).gtFlags.GTF_EXCEPT = true) →
          r.canRemoveNullCheck = false) := by
  obtain ⟨r, hr, hall, hstmt⟩ := legal_cross_statement J c tree nullCheckTree nullCheckParent
    afterNc beforeInd mids first hafter hother hbefore hstmts hroot hdist hbudget
  have hiff : r.canRemoveNullCheck = true ↔
      ((∀ n ∈ afterNc,
          optCanMoveNullCheckPastTree J c n (c.hasTryIndex c.compCurBB) false = true)
        ∧ (∀ n ∈ beforeInd,
          optCanMoveNullCheckPastTree J c n (c.hasTryIndex c.compCurBB) false = true)
        ∧ (∀ p ∈ mids,
          optCanMoveNullCheckPastTree J c p.2 (c.hasTryIndex c.compCurBB) true = true)) := by
    rw [hall]
    simp only [Bool.and_eq_true, List.all_eq_true, and_assoc]
  refine ⟨r, hr, hiff, hstmt, ?_⟩
  rintro ⟨p, hp, hex⟩
  cases hc : r.canRemoveNullCheck
  · rfl
  · have h := (hiff.1 hc).2.2 p hp
    have hfalse : optCanMoveNullCheckPastTree J c p.2 (c.hasTryIndex c.compCurBB) true
        = false := by
      unfold optCanMoveNullCheckPastTree
      simp [hex]
    rw [hfalse] at h
    exact absurd h (by simp)

/-- C7 (witness): `crossStmtIR`, with `nullcheck(x)` in statement 1, a store
to a local in statement 2 and `ind(x)` in statement 3. -/
theorem cross_statement_legality_witness :
    ∃ r, optIsNullCheckFoldingLegal demoHost (crossStmtIR storeToLocal) 61 51 none = Except.ok r
      ∧ (r.canRemoveNullCheck = true ↔
          ((∀ n ∈ ([] : List NodeId),
              optCanMoveNullCheckPastTree demoHost (crossStmtIR storeToLocal) n
                ((crossStmtIR storeToLocal).hasTryIndex (crossStmtIR storeToLocal).compCurBB)
                false = true)
            ∧ (∀ n ∈ [60],
              optCanMoveNullCheckPastTree demoHost (crossStmtIR storeToLocal) n
                ((crossStmtIR storeToLocal).hasTryIndex (crossStmtIR storeToLocal).compCurBB)
                false = true)
            ∧ (∀ p ∈ [((2 : StmtId), (55 : NodeId))],
              optCanMoveNullCheckPastTree demoHost (crossStmtIR storeToLocal) p.2
                ((crossStmtIR storeToLocal).hasTryIndex (crossStmtIR storeToLocal).compCurBB)
                true = true)))
      ∧ (r.canRemoveNullCheck = true → r.nullCheckStmt = 1)
      ∧ ((∃ p ∈ [((2 : StmtId), (55 : NodeId))],
            ((crossStmtIR storeToLocal).node p.2).gtFlags.GTF_EXCEPT = true) →
          r.canRemoveNullCheck = false) :=
  cross_statement_legality demoHost (crossStmtIR storeToLocal) 61 51 none [] [60] [(2, 55)] 1
    (by decide) (by decide) (by decide) (by decide) (by decide) (by decide) (by decide)

/-! ## The safety predicate -/

/-- A call is unsafe in both modes, inside and outside a try region. -/
theorem call_node_blocks (J : JitHost) (c : Compiler) (tree : NodeId) (ins summary : Bool)
    (h : isCallNode J c tree) :
    optCanMoveNullCheckPastTree J c tree ins summary = false := by
  unfold optCanMoveNullCheckPastTree
  simp [h.1, h.2]

/-- In summary mode a node with `GTF_CALL` or `GTF_EXCEPT` is unsafe. -/
theorem summary_flag_blocks (J : JitHost) (c : Compiler) (tree : NodeId) (ins : Bool)
    (h : (c.node tree).gtFlags.GTF_CALL = true ∨ (c.node tree).gtFlags.GTF_EXCEPT = true) :
    optCanMoveNullCheckPastTree J c tree ins true = false := by
  unfold optCanMoveNullCheckPastTree
  rcases h with h | h <;> simp [h]

/-- C8.  `optCanMoveNullCheckPastTree` returns false, for both values of
`isInsideTry` and in both modes, for every node that is a call (`GTF_CALL` set
and the operator requires the call flag), and in summary mode it returns false
for every node that has `GTF_CALL` or `GTF_EXCEPT` set.  Hence a call between
the null check and the indirection prevents the fold, whatever the number of
nodes: in the same-statement walk a call among the nodes between the two, and
in the cross-statement walk a call after the null check in its statement or
before the indirection in its statement, or an intervening statement whose
root has `GTF_CALL` set, make `optIsNullCheckFoldingLegal` return false. -/
theorem call_prevents_fold (J : JitHost) (c : Compiler) :
    (∀ tree isInsideTry checkSideEffectSummary, isCallNode J c tree →
      optCanMoveNullCheckPastTree J c tree isInsideTry checkSideEffectSummary = false)
    ∧ (∀ tree isInsideTry,
        ((c.node tree).gtFlags.GTF_CALL = true ∨ (c.node tree).gtFlags.GTF_EXCEPT = true) →
        optCanMoveNullCheckPastTree J c tree isInsideTry true = false)
    ∧ (∀ tree nullCheckTree nullCheckParent between,
        linked (fun n => (c.node n).gtNext) (c.node nullCheckTree).gtNext between (some tree)
          = true →
        tree ∉ between →
        (∃ n ∈ between, isCallNode J c n) →
        ∃ r, optIsNullCheckFoldingLegal J c tree nullCheckTree nullCheckParent = Except.ok r
          ∧ r.canRemoveNullCheck = false)
    ∧ (∀ tree nullCheckTree nullCheckParent afterNc beforeInd mids first,
        linked (fun n => (c.node n).gtNext) (c.node nullCheckTree).gtNext afterNc none = true →
        tree ∉ afterNc →
        linked (fun n => (c.node n).gtPrev) (c.node tree).gtPrev beforeInd none = true →
        stmtsLinked c (c.stmt c.compCurStmt).prevStmt mids first = true →
        (∀ p ∈ mids, p.2 ≠ afterNc.getLastD nullCheckTree) →
        ((∃ n ∈ afterNc, isCallNode J c n) ∨ (∃ n ∈ beforeInd, isCallNode J c n)
          ∨ (∃ p ∈ mids, (c.node p.2).gtFlags.GTF_CALL = true)) →
        ∃ r, optIsNullCheckFoldingLegal J c tree nullCheckTree nullCheckParent = Except.ok r
          ∧ r.canRemoveNullCheck = false) := by
  refine ⟨fun tree ins summary h => call_node_blocks J c tree ins summary h,
    fun tree ins h => summary_flag_blocks J c tree ins h, ?_, ?_⟩
  · intro tree nct parent between hl hmem ⟨n, hn, hcall⟩
    exact legal_same_statement_blocked J c tree nct parent between hl hmem
      ⟨n, hn, call_node_blocks J c n _ false hcall⟩
  · intro tree nct parent afterNc beforeInd mids first h1 hmem h2 h3 hdist hcall
    refine legal_cross_statement_blocked J c tree nct parent afterNc beforeInd mids first
      h1 hmem h2 h3 hdist ?_
    rcases hcall with ⟨n, hn, hc⟩ | ⟨n, hn, hc⟩ | ⟨p, hp, hc⟩
    · exact Or.inl ⟨n, hn, call_node_blocks J c n _ false hc⟩
    · exact Or.inr (Or.inl ⟨n, hn, call_node_blocks J c n _ false hc⟩)
    · exact Or.inr (Or.inr ⟨p, hp, summary_flag_blocks J c p.2 _ (Or.inl hc)⟩)

/-- C8 (witness): the call node 43 of `sameStmtIR someCall`, between the null
check 41 and the indirection 45, and the call that is the root 55 of the
statement between `nullcheck(x)` and `ind(x)` in `crossStmtIR someCall`. -/
theorem call_prevents_fold_witness :
    optCanMoveNullCheckPastTree demoHost (sameStmtIR someCall) 43 true false = false
    ∧ optCanMoveNullCheckPastTree demoHost (sameStmtIR someCall) 43 false true = false
    ∧ (∃ r, optIsNullCheckFoldingLegal demoHost (sameStmtIR someCall) 45 41 none = Except.ok r
        ∧ r.canRemoveNullCheck = false)
    ∧ (∃ r, optIsNullCheckFoldingLegal demoHost (crossStmtIR someCall) 61 51 none = Except.ok r
        ∧ r.canRemoveNullCheck = false) :=
  ⟨(call_prevents_fold demoHost (sameStmtIR someCall)).1 43 true false ⟨rfl, rfl⟩,
   (call_prevents_fold demoHost (sameStmtIR someCall)).2.1 43 false (Or.inl rfl),
   (call_prevents_fold demoHost (sameStmtIR someCall)).2.2.1 45 41 none [42, 43, 44]
      (by decide) (by decide) ⟨43, by decide, rfl, rfl⟩,
   (call_prevents_fold demoHost (crossStmtIR someCall)).2.2.2 61 51 none [] [60] [(2, 55)] 1
      (by decide) (by decide) (by decide) (by decide) (by decide)
      (Or.inr (Or.inr ⟨(2, 55), by decide, rfl⟩))⟩

/-- C9.  Outside a protected region, for a store node (an operator that
`OperIsStore` accepts, with `GTF_ASG` set) that passes the call and exception
checks and, in summary mode, whose stored value has no `GTF_ASG`: if the node
has `GTF_GLOB_REF` set, `optCanMoveNullCheckPastTree` returns true iff the
node is a local store to a local that is not address-exposed; if the node
lacks `GTF_GLOB_REF`, it returns true. -/
theorem store_outside_try (J : JitHost) (c : Compiler) (tree : NodeId)
    (checkSideEffectSummary : Bool)
    (hstore : J.OperIsStore (c.node tree).gtOper = true)
    (hasg : (c.node tree).gtFlags.GTF_ASG = true)
    (hpass : passesCallAndExceptionChecks J c tree checkSideEffectSummary = true)
    (hdata : checkSideEffectSummary = true → (c.node (J.Data c tree)).gtFlags.GTF_ASG = false) :
    ((c.node tree).gtFlags.GTF_GLOB_REF = true →
      (optCanMoveNullCheckPastTree J c tree false checkSideEffectSummary = true ↔
        (J.OperIsLocalStore (c.node tree).gtOper = true
          ∧ (c.lvaTable (c.node tree).lclNum).addressExposed = false)))
    ∧ ((c.node tree).gtFlags.GTF_GLOB_REF = false →
      optCanMoveNullCheckPastTree J c tree false checkSideEffectSummary = true) := by
  unfold passesCallAndExceptionChecks at hpass
  unfold optCanMoveNullCheckPastTree
  cases checkSideEffectSummary <;> cases hc : (c.node tree).gtFlags.GTF_CALL <;>
    cases he : (c.node tree).gtFlags.GTF_EXCEPT <;> simp_all

/-- C9 (witness): the stores of `storeIR`: to a local (safe), through a
pointer (unsafe), to an address-exposed local (unsafe), and one without
`GTF_GLOB_REF` (safe). -/
theorem store_outside_try_witness :
    optCanMoveNullCheckPastTree demoHost storeIR 90 false false = true
    ∧ ¬ optCanMoveNullCheckPastTree demoHost storeIR 91 false false = true
    ∧ ¬ optCanMoveNullCheckPastTree demoHost storeIR 92 false true = true
    ∧ optCanMoveNullCheckPastTree demoHost storeIR 94 false true = true :=
  ⟨((store_outside_try demoHost storeIR 90 false rfl rfl rfl (by decide)).1 rfl).2 ⟨rfl, rfl⟩,
   fun h => absurd
     (((store_outside_try demoHost storeIR 91 false rfl rfl rfl (by decide)).1 rfl).1 h).1
     (by decide),
   fun h => absurd
     (((store_outside_try demoHost storeIR 92 true rfl rfl rfl (fun _ => rfl)).1 rfl).1 h).2
     (by decide),
   (store_outside_try demoHost storeIR 94 true rfl rfl rfl (fun _ => rfl)).2 rfl⟩

/-- C10.  Inside a protected region, for a store node (an operator that
`OperIsStore` accepts, with `GTF_ASG` set) that passes the call and exception
checks in detailed mode, `optCanMoveNullCheckPastTree` returns true iff the
node is a `GT_STORE_LCL_VAR` to a local whose `lvLiveInOutOfHndlr` is false. -/
theorem store_inside_try (J : JitHost) (c : Compiler) (tree : NodeId)
    (hstore : J.OperIsStore (c.node tree).gtOper = true)
    (hasg : (c.node tree).gtFlags.GTF_ASG = true)
    (hpass : passesCallAndExceptionChecks J c tree false = true) :
    optCanMoveNullCheckPastTree J c tree true false = true ↔
      ((c.node tree).gtOper = genTreeOps.GT_STORE_LCL_VAR
        ∧ (c.lvaTable (c.node tree).lclNum).lvLiveInOutOfHndlr = false) := by
  unfold passesCallAndExceptionChecks at hpass
  unfold optCanMoveNullCheckPastTree
  simp_all

/-- C10 (witness): inside a try region the store 93 of `storeIR`, to a local
that is live into a handler, is unsafe, and the store 90, to a local that no
handler observes, is safe. -/
theorem store_inside_try_witness :
    ¬ optCanMoveNullCheckPastTree demoHost storeIR 93 true false = true
    ∧ optCanMoveNullCheckPastTree demoHost storeIR 90 true false = true :=
  ⟨fun h => absurd ((store_inside_try demoHost storeIR 93 rfl rfl rfl).1 h).2 (by decide),
   (store_inside_try demoHost storeIR 90 rfl rfl rfl).2 ⟨rfl, rfl⟩⟩


/-! ## The safety predicate: stores without `GTF_GLOB_REF`, other side effects, the two modes -/

/-- C11 (counterexample).  Node 95 of `quirkIR` is a store without
`GTF_GLOB_REF` that passes the call and exception checks; inside a try region
`optCanMoveNullCheckPastTree` returns false for it, because its local is live
into a handler.  Node 96 is such a store whose stored value has `GTF_ASG`; in
summary mode the function returns false for it, also outside a try region. -/
theorem store_without_glob_ref_counterexample :
    demoHost.OperIsStore (quirkIR.node 95).gtOper = true
    ∧ (quirkIR.node 95).gtFlags.GTF_ASG = true
    ∧ (quirkIR.node 95).gtFlags.GTF_GLOB_REF = false
    ∧ passesCallAndExceptionChecks demoHost quirkIR 95 false = true
    ∧ optCanMoveNullCheckPastTree demoHost quirkIR 95 true false = false
    ∧ demoHost.OperIsStore (quirkIR.node 96).gtOper = true
    ∧ (quirkIR.node 96).gtFlags.GTF_ASG = true
    ∧ (quirkIR.node 96).gtFlags.GTF_GLOB_REF = false
    ∧ passesCallAndExceptionChecks demoHost quirkIR 96 true = true
    ∧ optCanMoveNullCheckPastTree demoHost quirkIR 96 false true = false :=
  ⟨rfl, rfl, rfl, rfl, rfl, rfl, rfl, rfl, rfl, rfl⟩

/-- C11 (amended).  For every store node (an operator that `OperIsStore`
accepts, with `GTF_ASG` set) that lacks `GTF_GLOB_REF`, passes the call and
exception checks and, in summary mode, has a stored value without `GTF_ASG`:
outside a protected region `optCanMoveNullCheckPastTree` returns true,
whether or not the target is a local and whether or not it is
address-exposed; inside a protected region the missing flag changes nothing,
and the function returns true iff the node is a `GT_STORE_LCL_VAR` to a local
that is not live into a handler. -/
theorem store_without_glob_ref (J : JitHost) (c : Compiler) (tree : NodeId)
    (checkSideEffectSummary : Bool)
    (hstore : J.OperIsStore (c.node tree).gtOper = true)
    (hasg : (c.node tree).gtFlags.GTF_ASG = true)
    (hglob : (c.node tree).gtFlags.GTF_GLOB_REF = false)
    (hpass : passesCallAndExceptionChecks J c tree checkSideEffectSummary = true)
    (hdata : checkSideEffectSummary = true → (c.node (J.Data c tree)).gtFlags.GTF_ASG = false) :
    optCanMoveNullCheckPastTree J c tree false checkSideEffectSummary = true
    ∧ (optCanMoveNullCheckPastTree J c tree true checkSideEffectSummary = true ↔
        ((c.node tree).gtOper = genTreeOps.GT_STORE_LCL_VAR
          ∧ (c.lvaTable (c.node tree).lclNum).lvLiveInOutOfHndlr = false)) := by
  unfold passesCallAndExceptionChecks at hpass
  unfold optCanMoveNullCheckPastTree
  cases checkSideEffectSummary <;> cases hc : (c.node tree).gtFlags.GTF_CALL <;>
    cases he : (c.node tree).gtFlags.GTF_EXCEPT <;> simp_all

/-- C11 (witness): the store 94 of `storeIR`, to the address-exposed local 1
and without `GTF_GLOB_REF`, is safe outside a try region, and the store 95 of
`quirkIR` is unsafe inside one. -/
theorem store_without_glob_ref_witness :
    optCanMoveNullCheckPastTree demoHost storeIR 94 false false = true
    ∧ ¬ optCanMoveNullCheckPastTree demoHost quirkIR 95 true true = true :=
  ⟨(store_without_glob_ref demoHost storeIR 94 false rfl rfl rfl rfl (by decide)).1,
   fun h => absurd
     ((store_without_glob_ref demoHost quirkIR 95 true rfl rfl rfl rfl (fun _ => rfl)).2.1 h).2
     (by decide)⟩

/-- C12 (counterexample).  In detailed mode and outside a try region, a
non-store node with `GTF_ASG` whose operator requires the assignment flag is
safe when it has no `GTF_GLOB_REF` (the atomic add 98 of `quirkIR`), and one
that has `GTF_GLOB_REF` is safe when its operator does not require the
assignment flag (the comma 99): neither condition alone makes the node
unsafe. -/
theorem side_effect_alone_counterexample :
    atomicHost.OperIsStore (quirkIR.node 98).gtOper = false
    ∧ (quirkIR.node 98).gtFlags.GTF_ASG = true
    ∧ passesCallAndExceptionChecks atomicHost quirkIR 98 false = true
    ∧ atomicHost.OperRequiresAsgFlag (quirkIR.node 98).gtOper = true
    ∧ optCanMoveNullCheckPastTree atomicHost quirkIR 98 false false = true
    ∧ atomicHost.OperIsStore (quirkIR.node 99).gtOper = false
    ∧ (quirkIR.node 99).gtFlags.GTF_ASG = true
    ∧ passesCallAndExceptionChecks atomicHost quirkIR 99 false = true
    ∧ (quirkIR.node 99).gtFlags.GTF_GLOB_REF = true
    ∧ optCanMoveNullCheckPastTree atomicHost quirkIR 99 false false = true :=
  ⟨rfl, rfl, rfl, rfl, rfl, rfl, rfl, rfl, rfl, rfl⟩

/-- C12 (amended).  For every non-store node that has `GTF_ASG` set and passes
the call and exception checks, `optCanMoveNullCheckPastTree` returns false if
the node is inside a protected region; outside one it returns false, in
summary mode, exactly when the node has `GTF_GLOB_REF` set and, in detailed
mode, exactly when its operator requires the assignment flag and the node has
`GTF_GLOB_REF` set. -/
theorem side_effect_not_store (J : JitHost) (c : Compiler) (tree : NodeId)
    (checkSideEffectSummary : Bool)
    (hstore : J.OperIsStore (c.node tree).gtOper = false)
    (hasg : (c.node tree).gtFlags.GTF_ASG = true)
    (hpass : passesCallAndExceptionChecks J c tree checkSideEffectSummary = true) :
    optCanMoveNullCheckPastTree J c tree true checkSideEffectSummary = false
    ∧ (checkSideEffectSummary = true →
        (optCanMoveNullCheckPastTree J c tree false true = false ↔
          (c.node tree).gtFlags.GTF_GLOB_REF = true))
    ∧ (checkSideEffectSummary = false →
        (optCanMoveNullCheckPastTree J c tree false false = false ↔
          (J.OperRequiresAsgFlag (c.node tree).gtOper = true
            ∧ (c.node tree).gtFlags.GTF_GLOB_REF = true))) := by
  unfold passesCallAndExceptionChecks at hpass
  unfold optCanMoveNullCheckPastTree
  cases checkSideEffectSummary <;> cases hc : (c.node tree).gtFlags.GTF_CALL <;>
    cases he : (c.node tree).gtFlags.GTF_EXCEPT <;> simp_all

/-- C12 (witness): the comma 99 of `quirkIR`, with `GTF_ASG` and
`GTF_GLOB_REF`, is unsafe inside a try region and, in summary mode, outside
one; the atomic add 98 is safe outside a try region in detailed mode. -/
theorem side_effect_not_store_witness :
    optCanMoveNullCheckPastTree atomicHost quirkIR 99 true false = false
    ∧ optCanMoveNullCheckPastTree atomicHost quirkIR 99 false true = false
    ∧ ¬ optCanMoveNullCheckPastTree atomicHost quirkIR 98 false false = false :=
  ⟨(side_effect_not_store atomicHost quirkIR 99 false rfl rfl rfl).1,
   ((side_effect_not_store atomicHost quirkIR 99 true rfl rfl rfl).2.1 rfl).2 rfl,
   fun h => absurd
     (((side_effect_not_store atomicHost quirkIR 98 false rfl rfl rfl).2.2 rfl).1 h).2
     (by decide)⟩

/-- C13.  Summary mode is never more permissive than detailed mode: for every
node and every value of `isInsideTry`, if `optCanMoveNullCheckPastTree`
returns true with `checkSideEffectSummary` true, it returns true with
`checkSideEffectSummary` false. -/
theorem summary_implies_detailed (J : JitHost) (c : Compiler) (tree : NodeId)
    (isInsideTry : Bool)
    (h : optCanMoveNullCheckPastTree J c tree isInsideTry true = true) :
    optCanMoveNullCheckPastTree J c tree isInsideTry false = true := by
  unfold optCanMoveNullCheckPastTree at h ⊢
  cases isInsideTry <;> cases hc : (c.node tree).gtFlags.GTF_CALL <;>
    cases he : (c.node tree).gtFlags.GTF_EXCEPT <;>
    cases ha : (c.node tree).gtFlags.GTF_ASG <;>
    cases hs : J.OperIsStore (c.node tree).gtOper <;>
    cases hg : (c.node tree).gtFlags.GTF_GLOB_REF <;> simp_all

/-- C13 (witness): the store 94 of `storeIR`, safe in summary mode, is safe
in detailed mode. -/
theorem summary_implies_detailed_witness :
    optCanMoveNullCheckPastTree demoHost storeIR 94 false false = true :=
  summary_implies_detailed demoHost storeIR 94 false rfl


/-! ## The node budget of the legality walk -/

/-- The third loop does not run out of fuel: the budget stops it first.  It
returns, or it dereferences the null root of a statement. -/
theorem statementWalk_total (J : JitHost) (c : Compiler) (ins : Bool) (root : NodeId) :
    ∀ (fuel : Nat) (s : LegalityWalk), 2 ≤ fuel → maxNodesWalked + 3 ≤ fuel + s.nodesWalked →
      (∃ s', statementWalk J c ins root fuel s = Except.ok s')
        ∨ statementWalk J c ins root fuel s = Except.error Fault.nullDeref := by
  intro fuel
  induction fuel with
  | zero => intro s h; omega
  | succ f ih =>
    intro s h2 hb
    unfold statementWalk
    by_cases hc : s.canRemoveNullCheck = true ∧ s.currentTree ≠ some root
    · simp only [hc, ne_eq, not_false_eq_true, and_self, if_true]
      by_cases hbud : s.nodesWalked > maxNodesWalked
      · simp only [hbud, if_true]
        obtain ⟨f', rfl⟩ : ∃ f', f = f' + 1 := ⟨f - 1, by omega⟩
        rw [statementWalk_stopped _ _ _ _ _ _ rfl]
        exact Or.inl ⟨_, rfl⟩
      · simp only [hbud, if_false]
        cases hcur : s.currentTree with
        | none => simp
        | some cur =>
          simp only
          by_cases hp : optCanMoveNullCheckPastTree J c cur ins true = false
          · simp only [hp, if_true]
            obtain ⟨f', rfl⟩ : ∃ f', f = f' + 1 := ⟨f - 1, by omega⟩
            rw [statementWalk_stopped _ _ _ _ _ _ rfl]
            exact Or.inl ⟨_, rfl⟩
          · simp only [hp, if_false]
            exact ih _ (by simp only [gt_iff_lt, not_lt, maxNodesWalked] at hbud hb ⊢; omega)
              (by simp only; omega)
    · simp only [hc, if_false]
      exact Or.inl ⟨s, rfl⟩

/-- The legality checker terminates on every input: no loop runs out of the
fuel given to it, whatever the links between nodes and between statements.
It returns, or it dereferences the null root of a statement. -/
theorem optIsNullCheckFoldingLegal_terminates (J : JitHost) (c : Compiler)
    (tree nullCheckTree : NodeId) (nullCheckParent : Option NodeId) :
    (∃ r, optIsNullCheckFoldingLegal J c tree nullCheckTree nullCheckParent = Except.ok r)
      ∨ optIsNullCheckFoldingLegal J c tree nullCheckTree nullCheckParent
          = Except.error Fault.nullDeref := by
  obtain ⟨s1, hs1⟩ := forwardWalk_total J c tree nullCheckTree (c.hasTryIndex c.compCurBB)
    legalityFuel
    { canRemoveNullCheck := true, nodesWalked := 0, previousTree := nullCheckTree,
      currentTree := (c.node nullCheckTree).gtNext, nullCheckParent := nullCheckParent,
      curStmt := c.compCurStmt }
    (by simp [legalityFuel]) (by simp [legalityFuel])
  unfold optIsNullCheckFoldingLegal
  simp only [hs1]
  split
  · exact Or.inl ⟨_, rfl⟩
  · obtain ⟨s2, hs2⟩ := backwardWalk_total J c (c.hasTryIndex c.compCurBB) legalityFuel
      { s1 with currentTree := (c.node tree).gtPrev }
      (by simp [legalityFuel]) (by simp [legalityFuel])
    simp only [hs2]
    rcases statementWalk_total J c (c.hasTryIndex c.compCurBB) s1.previousTree legalityFuel
      { s2 with curStmt := (c.stmt c.compCurStmt).prevStmt,
                currentTree := (c.stmt (c.stmt c.compCurStmt).prevStmt).rootNode }
      (by simp [legalityFuel]) (by simp [legalityFuel]) with ⟨s3, hs3⟩ | hs3
    · simp only [hs3]
      exact Or.inl ⟨_, rfl⟩
    · simp [hs3]

set_option maxRecDepth 100000 in
/-- C14 (the code at the failing input).  In `longStmtIR 51` the 51 nodes 201
to 251 stand between the null check 200 and the indirection 252.  The first
loop of `optIsNullCheckFoldingLegal` inspects all 51 of them
(`nodesWalked = 51`) and the function returns true; with 52 nodes between, in
`longStmtIR 52`, it returns false. -/
theorem budget_passes_51_nodes :
    linked (fun n => ((longStmtIR 51).node n).gtNext) ((longStmtIR 51).node 200).gtNext
        (List.range' 201 51) (some 252) = true
    ∧ (List.range' 201 51).length = 51
    ∧ (∀ n ∈ List.range' 201 51,
        optCanMoveNullCheckPastTree demoHost (longStmtIR 51) n false false = true)
    ∧ (∃ s, forwardWalk demoHost (longStmtIR 51) 252 200 false legalityFuel
          (legalityStart (longStmtIR 51) 200 none) = Except.ok s
        ∧ s.canRemoveNullCheck = true ∧ s.nodesWalked = 51 ∧ s.currentTree = some 252)
    ∧ (∃ r, optIsNullCheckFoldingLegal demoHost (longStmtIR 51) 252 200 none = Except.ok r
        ∧ r.canRemoveNullCheck = true ∧ r.nullCheckStmt = 1)
    ∧ (∃ r, optIsNullCheckFoldingLegal demoHost (longStmtIR 52) 253 200 none = Except.ok r
        ∧ r.canRemoveNullCheck = false) :=
  ⟨by decide, by decide, by decide, ⟨_, rfl, rfl, rfl, rfl⟩, ⟨_, rfl, rfl, rfl⟩, ⟨_, rfl, rfl⟩⟩


/-! ## `optFoldNullCheck`: the fold and the null-check map -/

/-- An assignment to the flags of a node changes no operator, operand or
local number. -/
theorem setFlags_keeps (c : Compiler) (t : NodeId) (f : GenTreeFlags) (i : NodeId) :
    ((c.setFlags t f).node i).gtOper = (c.node i).gtOper
    ∧ ((c.setFlags t f).node i).gtOp1 = (c.node i).gtOp1
    ∧ ((c.setFlags t f).node i).lclNum = (c.node i).lclNum := by
  unfold Compiler.setFlags
  by_cases h : i = t
  · subst h; simp
  · simp [h]

/-- The flag updates of a fold change no operator, operand or local number. -/
theorem foldFlagUpdates_keeps (c : Compiler) (tree nct : NodeId) (parent : Option NodeId)
    (i : NodeId) :
    ((foldFlagUpdates c tree nct parent).node i).gtOper = (c.node i).gtOper
    ∧ ((foldFlagUpdates c tree nct parent).node i).gtOp1 = (c.node i).gtOp1
    ∧ ((foldFlagUpdates c tree nct parent).node i).lclNum = (c.node i).lclNum := by
  unfold foldFlagUpdates
  cases parent with
  | none =>
    simp only
    refine ⟨?_, ?_, ?_⟩
    · rw [(setFlags_keeps _ _ _ i).1, (setFlags_keeps _ _ _ i).1]
    · rw [(setFlags_keeps _ _ _ i).2.1, (setFlags_keeps _ _ _ i).2.1]
    · rw [(setFlags_keeps _ _ _ i).2.2, (setFlags_keeps _ _ _ i).2.2]
  | some p =>
    simp only
    refine ⟨?_, ?_, ?_⟩
    · rw [(setFlags_keeps _ _ _ i).1, (setFlags_keeps _ _ _ i).1, (setFlags_keeps _ _ _ i).1]
    · rw [(setFlags_keeps _ _ _ i).2.1, (setFlags_keeps _ _ _ i).2.1,
        (setFlags_keeps _ _ _ i).2.1]
    · rw [(setFlags_keeps _ _ _ i).2.2, (setFlags_keeps _ _ _ i).2.2,
        (setFlags_keeps _ _ _ i).2.2]

/-- The flags of a node after an assignment to the flags of a node. -/
theorem setFlags_flags (c : Compiler) (t : NodeId) (f : GenTreeFlags) (i : NodeId) :
    ((c.setFlags t f).node i).gtFlags = if i = t then f else (c.node i).gtFlags := by
  unfold Compiler.setFlags
  by_cases h : i = t
  · subst h; simp
  · simp [h]

/-- The flags after the flag updates of a fold: those of the null check
(when it is not the indirection itself), the non-faulting flag of the
indirection, and the don't-CSE flag of the parent. -/
theorem foldFlagUpdates_flags (c : Compiler) (tree nct : NodeId) (parent : Option NodeId) :
    (tree ≠ nct →
      ((foldFlagUpdates c tree nct parent).node nct).gtFlags
        = markNullCheckRemoved (c.node nct).gtFlags)
    ∧ ((foldFlagUpdates c tree nct parent).node tree).gtFlags.GTF_IND_NONFAULTING = false
    ∧ (∀ p, parent = some p →
        ((foldFlagUpdates c tree nct parent).node p).gtFlags.GTF_DONT_CSE = false) := by
  refine ⟨fun hne => ?_, ?_, ?_⟩
  · have hne' : ¬ nct = tree := fun h => hne h.symm
    unfold foldFlagUpdates
    cases parent with
    | none =>
      simp only
      rw [setFlags_flags, if_neg hne', setFlags_flags, if_pos rfl]
    | some p =>
      simp only
      rw [setFlags_flags]
      by_cases hp : nct = p
      · rw [if_pos hp, ← hp, setFlags_flags, if_neg hne', setFlags_flags, if_pos rfl]
        rfl
      · rw [if_neg hp, setFlags_flags, if_neg hne', setFlags_flags, if_pos rfl]
  · unfold foldFlagUpdates
    cases parent with
    | none =>
      simp only
      rw [setFlags_flags, if_pos rfl]
    | some p =>
      simp only
      rw [setFlags_flags]
      by_cases hp : tree = p
      · rw [if_pos hp, ← hp, setFlags_flags, if_pos rfl]
      · rw [if_neg hp, setFlags_flags, if_pos rfl]
  · intro p hp
    subst hp
    unfold foldFlagUpdates
    simp only
    rw [setFlags_flags, if_pos rfl]

/-- The fold of lines 331-353 is the flag updates, the removal of the map
entry of the local that the null check reads, and the re-morph. -/
theorem foldNullCheckInto_eq (J : JitHost) (c : Compiler) (tree nct : NodeId)
    (parent : Option NodeId) (stmt : StmtId) (m : LocalNumberToNullCheckTreeMap) :
    foldNullCheckInto J c tree nct parent stmt m
      = (remorphNullCheckStmt J (foldFlagUpdates c tree nct parent) stmt,
         m.Remove (c.node (c.node nct).gtOp1).lclNum) := by
  have h1 := (foldFlagUpdates_keeps c tree nct parent nct).2.1
  have h2 := (foldFlagUpdates_keeps c tree nct parent (c.node nct).gtOp1).2.2
  have h3 : ((foldFlagUpdates c tree nct parent).node
      ((foldFlagUpdates c tree nct parent).node nct).gtOp1).lclNum
      = (c.node (c.node nct).gtOp1).lclNum := by rw [h1, h2]
  rw [← h3]
  rfl

/-- The two ways in which `optFoldNullCheck` returns: without a fold, having
at most recorded `tree` in the map, or after a successful fold. -/
theorem optFoldNullCheck_cases (J : JitHost) (c : Compiler) (tree : NodeId)
    (m : LocalNumberToNullCheckTreeMap) (res : FoldResult)
    (h : optFoldNullCheck J c tree m = Except.ok res) :
    res = recordNullCheck c tree m false
    ∨ ∃ nct r, foldSucceeds J c tree m nct r
        ∧ res = recordNullCheck
            (remorphNullCheckStmt J (foldFlagUpdates c tree nct r.nullCheckParent)
              r.nullCheckStmt)
            tree (m.Remove (c.node (c.node nct).gtOp1).lclNum) true := by
  unfold optFoldNullCheck at h
  split at h
  · exact Or.inl (Except.ok.inj h).symm
  · rename_i nct hfind
    split at h
    · exact absurd h (by simp)
    · rename_i r hlegal
      split at h
      · rename_i hcan
        rw [foldNullCheckInto_eq] at h
        exact Or.inr ⟨nct, r, ⟨hfind, hlegal, hcan⟩, (Except.ok.inj h).symm⟩
      · exact Or.inl (Except.ok.inj h).symm

/-- After a successful fold `optFoldNullCheck` returns the re-morphed state,
the map without the entry of the folded null check, with `tree` recorded if
it is a null check of a local, and true. -/
theorem optFoldNullCheck_of_fold (J : JitHost) (c : Compiler) (tree : NodeId)
    (m : LocalNumberToNullCheckTreeMap) (nct : NodeId) (r : LegalityResult)
    (h : foldSucceeds J c tree m nct r) :
    optFoldNullCheck J c tree m
      = Except.ok (recordNullCheck
          (remorphNullCheckStmt J (foldFlagUpdates c tree nct r.nullCheckParent)
            r.nullCheckStmt)
          tree (m.Remove (c.node (c.node nct).gtOp1).lclNum) true) := by
  obtain ⟨hfind, hlegal, hcan⟩ := h
  unfold optFoldNullCheck
  simp only [hfind, hlegal, hcan, if_true]
  rw [foldNullCheckInto_eq]

/-- The map that `recordNullCheck` returns. -/
theorem recordNullCheck_map (c : Compiler) (tree : NodeId) (m : LocalNumberToNullCheckTreeMap)
    (folded : Bool) :
    (isNullCheckOfLocal c tree →
      (recordNullCheck c tree m folded).nullCheckMap
        = m.Set (c.node (c.node tree).gtOp1).lclNum tree)
    ∧ (¬ isNullCheckOfLocal c tree → (recordNullCheck c tree m folded).nullCheckMap = m) := by
  unfold recordNullCheck isNullCheckOfLocal
  constructor
  · intro h; simp only [h, and_self, if_true]
  · intro h; simp only [h, if_false]

/-- C15.  No mutation without a completed legality walk: if
`optFindNullCheckToFold` returns no candidate, or `optIsNullCheckFoldingLegal`
returns false for the candidate, then `optFoldNullCheck` returns false and
leaves the compilation state as it was (no flag is changed, no statement is
re-morphed); the map is unchanged, except that `tree` is recorded for its
local when `tree` is itself a `GT_NULLCHECK` of a `GT_LCL_VAR`. -/
theorem no_fold_no_mutation (J : JitHost) (c : Compiler) (tree : NodeId)
    (nullCheckMap : LocalNumberToNullCheckTreeMap)
    (h : optFindNullCheckToFold J c tree nullCheckMap = none
      ∨ ∃ nct r, optFindNullCheckToFold J c tree nullCheckMap = some nct
          ∧ optIsNullCheckFoldingLegal J c tree nct none = Except.ok r
          ∧ r.canRemoveNullCheck = false) :
    ∃ res, optFoldNullCheck J c tree nullCheckMap = Except.ok res
      ∧ res.folded = false
      ∧ res.comp = c
      ∧ ((isNullCheckOfLocal c tree
            ∧ res.nullCheckMap = nullCheckMap.Set (c.node (c.node tree).gtOp1).lclNum tree)
          ∨ (¬ isNullCheckOfLocal c tree ∧ res.nullCheckMap = nullCheckMap)) := by
  have hres : optFoldNullCheck J c tree nullCheckMap
      = Except.ok (recordNullCheck c tree nullCheckMap false) := by
    unfold optFoldNullCheck
    rcases h with h | ⟨nct, r, hfind, hlegal, hcan⟩
    · simp only [h]
    · simp only [hfind, hlegal, hcan, Bool.false_eq_true, if_false]
  refine ⟨_, hres, (recordNullCheck_comp c tree nullCheckMap false).2,
    (recordNullCheck_comp c tree nullCheckMap false).1, ?_⟩
  by_cases hn : isNullCheckOfLocal c tree
  · exact Or.inl ⟨hn, (recordNullCheck_map c tree nullCheckMap false).1 hn⟩
  · exact Or.inr ⟨hn, (recordNullCheck_map c tree nullCheckMap false).2 hn⟩

/-- C15 (witness): in `redefIR` the finder has no candidate for the
indirection 76; in `crossStmtIR someCall` it has the candidate 51 for the
indirection 61, and the call in the statement between the two makes the fold
illegal. -/
theorem no_fold_no_mutation_witness :
    (∃ res, optFoldNullCheck demoHost redefIR 76 (emptyMap.Set 0 71) = Except.ok res
      ∧ res.folded = false
      ∧ res.comp = redefIR
      ∧ ((isNullCheckOfLocal redefIR 76
            ∧ res.nullCheckMap
                = (emptyMap.Set 0 71).Set (redefIR.node (redefIR.node 76).gtOp1).lclNum 76)
          ∨ (¬ isNullCheckOfLocal redefIR 76 ∧ res.nullCheckMap = emptyMap.Set 0 71)))
    ∧ (∃ res, optFoldNullCheck demoHost (crossStmtIR someCall) 61 (emptyMap.Set 0 51)
          = Except.ok res
      ∧ res.folded = false
      ∧ res.comp = crossStmtIR someCall
      ∧ ((isNullCheckOfLocal (crossStmtIR someCall) 61
            ∧ res.nullCheckMap
                = (emptyMap.Set 0 51).Set
                    ((crossStmtIR someCall).node ((crossStmtIR someCall).node 61).gtOp1).lclNum
                    61)
          ∨ (¬ isNullCheckOfLocal (crossStmtIR someCall) 61
              ∧ res.nullCheckMap = emptyMap.Set 0 51))) :=
  ⟨no_fold_no_mutation demoHost redefIR 76 (emptyMap.Set 0 71) (Or.inl rfl),
   no_fold_no_mutation demoHost (crossStmtIR someCall) 61 (emptyMap.Set 0 51)
     (Or.inr ⟨51, { canRemoveNullCheck := false, nullCheckParent := none, nullCheckStmt := 2 },
       rfl, rfl, rfl⟩)⟩

/-- C16.  After a successful fold of the null check `nullCheckTree` into the
indirection `tree` (two nodes), in the state before the re-morph: the null
check has `GTF_EXCEPT` and `GTF_DONT_CSE` cleared and `GTF_ORDER_SIDEEFF` and
`GTF_IND_NONFAULTING` set; the indirection has `GTF_IND_NONFAULTING` cleared;
the parent found for the null check, if any, has `GTF_DONT_CSE` cleared; and
`optFoldNullCheck` returns true, with the state that the re-morph makes of
this one. -/
theorem fold_flag_updates (J : JitHost) (c : Compiler) (tree : NodeId)
    (nullCheckMap : LocalNumberToNullCheckTreeMap) (nullCheckTree : NodeId)
    (r : LegalityResult)
    (hfold : foldSucceeds J c tree nullCheckMap nullCheckTree r)
    (hne : tree ≠ nullCheckTree) :
    ((foldFlagUpdates c tree nullCheckTree r.nullCheckParent).node nullCheckTree).gtFlags.GTF_EXCEPT
        = false
    ∧ ((foldFlagUpdates c tree nullCheckTree r.nullCheckParent).node
          nullCheckTree).gtFlags.GTF_DONT_CSE = false
    ∧ ((foldFlagUpdates c tree nullCheckTree r.nullCheckParent).node
          nullCheckTree).gtFlags.GTF_ORDER_SIDEEFF = true
    ∧ ((foldFlagUpdates c tree nullCheckTree r.nullCheckParent).node
          nullCheckTree).gtFlags.GTF_IND_NONFAULTING = true
    ∧ ((foldFlagUpdates c tree nullCheckTree r.nullCheckParent).node
          tree).gtFlags.GTF_IND_NONFAULTING = false
    ∧ (∀ p, r.nullCheckParent = some p →
        ((foldFlagUpdates c tree nullCheckTree r.nullCheckParent).node p).gtFlags.GTF_DONT_CSE
          = false)
    ∧ ∃ res, optFoldNullCheck J c tree nullCheckMap = Except.ok res
        ∧ res.folded = true
        ∧ res.comp = remorphNullCheckStmt J
            (foldFlagUpdates c tree nullCheckTree r.nullCheckParent) r.nullCheckStmt := by
  obtain ⟨h1, h2, h3⟩ := foldFlagUpdates_flags c tree nullCheckTree r.nullCheckParent
  have hnc := h1 hne
  refine ⟨?_, ?_, ?_, ?_, h2, h3, ?_⟩
  · rw [hnc]; rfl
  · rw [hnc]; rfl
  · rw [hnc]; rfl
  · rw [hnc]; rfl
  · rw [optFoldNullCheck_of_fold J c tree nullCheckMap nullCheckTree r hfold]
    exact ⟨_, rfl, (recordNullCheck_comp _ _ _ _).2, (recordNullCheck_comp _ _ _ _).1⟩

/-- C16 (witness): in `twoChecksIR` the null check 2 is folded into the null
check 4; its parent is the comma 5. -/
theorem fold_flag_updates_witness :
    ((foldFlagUpdates twoChecksIR 4 2 (some 5)).node 2).gtFlags.GTF_EXCEPT = false
    ∧ ((foldFlagUpdates twoChecksIR 4 2 (some 5)).node 2).gtFlags.GTF_DONT_CSE = false
    ∧ ((foldFlagUpdates twoChecksIR 4 2 (some 5)).node 2).gtFlags.GTF_ORDER_SIDEEFF = true
    ∧ ((foldFlagUpdates twoChecksIR 4 2 (some 5)).node 2).gtFlags.GTF_IND_NONFAULTING = true
    ∧ ((foldFlagUpdates twoChecksIR 4 2 (some 5)).node 4).gtFlags.GTF_IND_NONFAULTING = false
    ∧ (∀ p, some 5 = some p →
        ((foldFlagUpdates twoChecksIR 4 2 (some 5)).node p).gtFlags.GTF_DONT_CSE = false)
    ∧ ∃ res, optFoldNullCheck demoHost twoChecksIR 4 (emptyMap.Set 0 2) = Except.ok res
        ∧ res.folded = true
        ∧ res.comp = remorphNullCheckStmt demoHost (foldFlagUpdates twoChecksIR 4 2 (some 5)) 1 :=
  fold_flag_updates demoHost twoChecksIR 4 (emptyMap.Set 0 2) 2
    { canRemoveNullCheck := true, nullCheckParent := some 5, nullCheckStmt := 1 }
    ⟨rfl, rfl, rfl⟩ (by decide)

/-- C17.  After a successful fold by `optFoldNullCheck` for a node `tree`
that is not itself a `GT_NULLCHECK` of a `GT_LCL_VAR` (as line 356 reads it,
in the state after the re-morph), the null-check map has no entry for the
local that the folded null check reads, and the entries of all other locals
are unchanged. -/
theorem fold_removes_map_entry (J : JitHost) (c : Compiler) (tree : NodeId)
    (nullCheckMap : LocalNumberToNullCheckTreeMap) (nullCheckTree : NodeId)
    (r : LegalityResult)
    (hfold : foldSucceeds J c tree nullCheckMap nullCheckTree r)
    (hother : ¬ isNullCheckOfLocal
      (remorphNullCheckStmt J (foldFlagUpdates c tree nullCheckTree r.nullCheckParent)
        r.nullCheckStmt) tree) :
    ∃ res, optFoldNullCheck J c tree nullCheckMap = Except.ok res
      ∧ res.folded = true
      ∧ res.nullCheckMap (c.node (c.node nullCheckTree).gtOp1).lclNum = none
      ∧ ∀ k, k ≠ (c.node (c.node nullCheckTree).gtOp1).lclNum →
          res.nullCheckMap k = nullCheckMap k := by
  rw [optFoldNullCheck_of_fold J c tree nullCheckMap nullCheckTree r hfold]
  refine ⟨_, rfl, (recordNullCheck_comp _ _ _ _).2, ?_, ?_⟩
  · rw [(recordNullCheck_map _ _ _ _).2 hother]
    simp [LocalNumberToNullCheckTreeMap.Remove]
  · intro k hk
    rw [(recordNullCheck_map _ _ _ _).2 hother]
    simp [LocalNumberToNullCheckTreeMap.Remove, hk]

/-- C17 (witness): in `sameStmtIR` the null check 41 of the local 0 is folded
into the indirection 45; the map loses its entry for the local 0 and keeps
the one for the local 7. -/
theorem fold_removes_map_entry_witness :
    ∃ res, optFoldNullCheck demoHost (sameStmtIR constEight) 45 ((emptyMap.Set 0 41).Set 7 3)
        = Except.ok res
      ∧ res.folded = true
      ∧ res.nullCheckMap 0 = none
      ∧ ∀ k, k ≠ 0 → res.nullCheckMap k = ((emptyMap.Set 0 41).Set 7 3) k :=
  fold_removes_map_entry demoHost (sameStmtIR constEight) 45 ((emptyMap.Set 0 41).Set 7 3) 41
    { canRemoveNullCheck := true, nullCheckParent := some 46, nullCheckStmt := 1 }
    ⟨rfl, rfl, rfl⟩ (by rintro ⟨h, -⟩; exact absurd h (by decide))

/-- C18.  After `optFoldNullCheck(tree, map)` returns: if `tree` is a
`GT_NULLCHECK` whose operand is a `GT_LCL_VAR` of the local `n` (as line 356
reads it, in the state that the call leaves), the map maps `n` to `tree`,
whether or not a fold occurred; if `tree` is any other node, no entry is
added or overwritten: every entry of the map after the call was an entry
before it. -/
theorem scanned_null_check_recorded (J : JitHost) (c : Compiler) (tree : NodeId)
    (nullCheckMap : LocalNumberToNullCheckTreeMap) (res : FoldResult)
    (h : optFoldNullCheck J c tree nullCheckMap = Except.ok res) :
    (isNullCheckOfLocal res.comp tree →
      res.nullCheckMap (res.comp.node (res.comp.node tree).gtOp1).lclNum = some tree)
    ∧ (¬ isNullCheckOfLocal res.comp tree →
      ∀ k v, res.nullCheckMap k = some v → nullCheckMap k = some v) := by
  rcases optFoldNullCheck_cases J c tree nullCheckMap res h with hres | ⟨nct, r, _, hres⟩
  · subst hres
    rw [(recordNullCheck_comp c tree nullCheckMap false).1]
    constructor
    · intro hn
      rw [(recordNullCheck_map c tree nullCheckMap false).1 hn]
      simp [LocalNumberToNullCheckTreeMap.Set]
    · intro hn k v hk
      rw [(recordNullCheck_map c tree nullCheckMap false).2 hn] at hk
      exact hk
  · subst hres
    rw [(recordNullCheck_comp _ tree _ true).1]
    constructor
    · intro hn
      rw [(recordNullCheck_map _ tree _ true).1 hn]
      simp [LocalNumberToNullCheckTreeMap.Set]
    · intro hn k v hk
      rw [(recordNullCheck_map _ tree _ true).2 hn] at hk
      unfold LocalNumberToNullCheckTreeMap.Remove at hk
      split at hk
      · exact absurd hk (by simp)
      · exact hk

/-- C18 (witness): in `twoChecksIR` the scan of the null check 4 folds the
earlier null check 2 of the same local 0 and then records 4 for the local 0;
in `sameStmtIR` the scan of the indirection 45 adds no entry. -/
theorem scanned_null_check_recorded_witness :
    (∃ res, optFoldNullCheck demoHost twoChecksIR 4 (emptyMap.Set 0 2) = Except.ok res
      ∧ res.folded = true ∧ res.nullCheckMap 0 = some 4)
    ∧ (∃ res, optFoldNullCheck demoHost (sameStmtIR constEight) 45 (emptyMap.Set 0 41)
          = Except.ok res
      ∧ ∀ k v, res.nullCheckMap k = some v → (emptyMap.Set 0 41) k = some v) :=
  ⟨⟨recordNullCheck
      (remorphNullCheckStmt demoHost (foldFlagUpdates twoChecksIR 4 2 (some 5)) 1) 4
      ((emptyMap.Set 0 2).Remove 0) true, rfl, rfl,
    (scanned_null_check_recorded demoHost twoChecksIR 4 (emptyMap.Set 0 2) _ rfl).1
      ⟨rfl, rfl⟩⟩,
   ⟨recordNullCheck
      (remorphNullCheckStmt demoHost (foldFlagUpdates (sameStmtIR constEight) 45 41 (some 46)) 1)
      45 ((emptyMap.Set 0 41).Remove 0) true, rfl,
    (scanned_null_check_recorded demoHost (sameStmtIR constEight) 45 (emptyMap.Set 0 41) _
      rfl).2 (by rintro ⟨h, -⟩; exact absurd h (by decide))⟩⟩


/-! ## The SSA value resolver: termination -/

/-- The resolver returns when it is given fuel for every depth up to the bound
and one more: the depth test stops the recursion before the fuel runs out. -/
theorem optPropGetValueRec_total (J : JitHost) (c : Compiler) (valueKind : optPropKind) :
    ∀ (fuel lclNum ssaNum : Nat) (walkDepth : Int),
      (J.optEarlyPropRecurBound + 1 - walkDepth).toNat + 1 ≤ fuel →
      ∃ v, optPropGetValueRec J c fuel lclNum ssaNum valueKind walkDepth = Except.ok v := by
  intro fuel
  induction fuel with
  | zero => intro _ _ _ h; omega
  | succ f ih =>
    intro lclNum ssaNum walkDepth hfuel
    unfold optPropGetValueRec
    split
    · exact ⟨_, rfl⟩
    · split
      · exact ⟨_, rfl⟩
      · rename_i hdepth
        simp only
        split
        · exact ⟨_, rfl⟩
        · split
          · exact ih _ _ _ (by omega)
          · split
            · split
              · exact ⟨_, rfl⟩
              · split <;> exact ⟨_, rfl⟩
            · exact ⟨_, rfl⟩

/-- Along a chain of copies that is longer than the bound leaves room for,
the resolver finds no value. -/
theorem optPropGetValueRec_chain (J : JitHost) (c : Compiler) (valueKind : optPropKind)
    (rest : List (Nat × Nat)) :
    ∀ (head : Nat × Nat) (fuel : Nat) (walkDepth : Int) (v : Option NodeId),
      copyChain J c (head :: rest) = true →
      walkDepth + rest.length > J.optEarlyPropRecurBound →
      optPropGetValueRec J c fuel head.1 head.2 valueKind walkDepth = Except.ok v →
      v = none := by
  induction rest with
  | nil =>
    intro head fuel walkDepth v _ hlen hrun
    simp only [List.length_nil, Nat.cast_zero, add_zero] at hlen
    cases fuel with
    | zero => simp [optPropGetValueRec] at hrun
    | succ f =>
      unfold optPropGetValueRec at hrun
      split at hrun
      · exact (Except.ok.inj hrun).symm
      · exact (Except.ok.inj hrun).symm
  | cons b rest ih =>
    intro head fuel walkDepth v hchain hlen hrun
    simp only [copyChain, Bool.and_eq_true] at hchain
    obtain ⟨hcopy, hrest⟩ := hchain
    cases fuel with
    | zero => simp [optPropGetValueRec] at hrun
    | succ f =>
      unfold optPropGetValueRec at hrun
      split at hrun
      · exact (Except.ok.inj hrun).symm
      · split at hrun
        · exact (Except.ok.inj hrun).symm
        · unfold isCopyOf at hcopy
          simp only at hrun
          split at hrun
          · rename_i hdef
            simp [hdef] at hcopy
          · rename_i d hdef
            simp only [hdef, Bool.and_eq_true, beq_iff_eq] at hcopy
            obtain ⟨⟨⟨⟨h1, h2⟩, h3⟩, h4⟩, h5⟩ := hcopy
            simp only [h1, h2, h3, and_self, if_true, h4, h5] at hrun
            exact ih b f (walkDepth + 1) v hrest
              (by simp only [List.length_cons, Nat.cast_add, Nat.cast_one] at hlen; omega) hrun

/-- C20.  The SSA value resolver always terminates: `optPropGetValue` returns,
for every state, also one whose copy definitions form a cycle.  For a chain of
`k` whole-variable copy-assignments with `k > optEarlyPropRecurBound`,
`optPropGetValue` started at the head of the chain returns no value. -/
theorem resolver_terminates (J : JitHost) (c : Compiler) :
    (∀ lclNum ssaNum valueKind,
      ∃ v, optPropGetValue J c lclNum ssaNum valueKind = Except.ok v)
    ∧ (∀ (head : Nat × Nat) (rest : List (Nat × Nat)) (valueKind : optPropKind),
      copyChain J c (head :: rest) = true →
      (rest.length : Int) > J.optEarlyPropRecurBound →
      optPropGetValue J c head.1 head.2 valueKind = Except.ok none) := by
  constructor
  · intro lclNum ssaNum valueKind
    exact optPropGetValueRec_total J c valueKind _ lclNum ssaNum 0 (by omega)
  · intro head rest valueKind hchain hlen
    obtain ⟨v, hv⟩ := optPropGetValueRec_total J c valueKind
      ((J.optEarlyPropRecurBound + 1).toNat + 1) head.1 head.2 0 (by omega)
    have hnone := optPropGetValueRec_chain J c valueKind rest head _ 0 v hchain (by omega) hv
    unfold optPropGetValue
    rw [hv, hnone]

/-- C20 (witness): the resolver returns on the cycle of copies of
`copyCycleIR`, and it finds no value at the head of the chain of 6 copies of
`copyChainIR 6`, the bound being 5, although the chain ends in an allocation
of constant length. -/
theorem resolver_terminates_witness :
    (∃ v, optPropGetValue demoHost copyCycleIR 0 1 optPropKind.OPK_ARRAYLEN = Except.ok v)
    ∧ optPropGetValue demoHost (copyChainIR 6) 0 1 optPropKind.OPK_ARRAYLEN = Except.ok none :=
  ⟨(resolver_terminates demoHost copyCycleIR).1 0 1 optPropKind.OPK_ARRAYLEN,
   (resolver_terminates demoHost (copyChainIR 6)).2 (0, 1)
     [(1, 1), (2, 1), (3, 1), (4, 1), (5, 1), (6, 1)] optPropKind.OPK_ARRAYLEN
     (by decide) (by decide)⟩


/-! ## The scan of a basic block and the null-check map -/

/-- Every entry of the map after `optFoldNullCheck` was an entry before the
call, or is the scanned node. -/
theorem optFoldNullCheck_map_entries (J : JitHost) (c : Compiler) (tree : NodeId)
    (m : LocalNumberToNullCheckTreeMap) (res : FoldResult)
    (h : optFoldNullCheck J c tree m = Except.ok res) :
    ∀ k v, res.nullCheckMap k = some v → m k = some v ∨ v = tree := by
  have hset : ∀ (c' : Compiler) (m' : LocalNumberToNullCheckTreeMap) (f : Bool) k v,
      (recordNullCheck c' tree m' f).nullCheckMap k = some v → m' k = some v ∨ v = tree := by
    intro c' m' f k v hk
    by_cases hn : isNullCheckOfLocal c' tree
    · rw [(recordNullCheck_map c' tree m' f).1 hn] at hk
      unfold LocalNumberToNullCheckTreeMap.Set at hk
      split at hk
      · exact Or.inr (Option.some.inj hk).symm
      · exact Or.inl hk
    · rw [(recordNullCheck_map c' tree m' f).2 hn] at hk
      exact Or.inl hk
  intro k v hk
  rcases optFoldNullCheck_cases J c tree m res h with hres | ⟨nct, r, _, hres⟩
  · subst hres
    exact hset _ _ _ k v hk
  · subst hres
    rcases hset _ _ _ k v hk with hk' | hk'
    · unfold LocalNumberToNullCheckTreeMap.Remove at hk'
      split at hk'
      · exact absurd hk' (by simp)
      · exact Or.inl hk'
    · exact Or.inr hk'

/-- The state and the map at the return statement of `optEarlyPropRewriteTree`
are those on entry, or those that `optFoldNullCheck` left. -/
theorem rewriteTreeStep_state (J : JitHost) (c : Compiler) (tree : NodeId)
    (m : LocalNumberToNullCheckTreeMap) (s : RewriteStep)
    (h : optEarlyPropRewriteTreeStep J c tree m = Except.ok s) :
    (s.comp = c ∧ s.nullCheckMap = m)
    ∨ ∃ res, optFoldNullCheck J c tree m = Except.ok res
        ∧ s.comp = res.comp ∧ s.nullCheckMap = res.nullCheckMap := by
  unfold optEarlyPropRewriteTreeStep at h
  split at h
  · split at h
    · exact absurd h (by simp)
    · rename_i res hfold
      refine Or.inr ⟨res, hfold, ?_⟩
      simp only at h
      split at h
      · split at h
        · have := Except.ok.inj h
          subst this
          exact ⟨rfl, rfl⟩
        · split at h
          · exact absurd h (by simp)
          · have := Except.ok.inj h
            subst this
            exact ⟨rfl, rfl⟩
          · have := Except.ok.inj h
            subst this
            exact ⟨rfl, rfl⟩
      · have := Except.ok.inj h
        subst this
        exact ⟨rfl, rfl⟩
  · have := Except.ok.inj h
    subst this
    exact Or.inl ⟨rfl, rfl⟩

/-- The map that `optEarlyPropRewriteTree` returns is the one at its return
statement; the state is that one too, or the one that `optRemoveRangeCheck`
made of it. -/
theorem rewriteTree_state (J : JitHost) (c : Compiler) (tree : NodeId)
    (m : LocalNumberToNullCheckTreeMap) (r : RewriteResult)
    (h : optEarlyPropRewriteTree J c tree m = Except.ok r) :
    ∃ s, optEarlyPropRewriteTreeStep J c tree m = Except.ok s
      ∧ r.nullCheckMap = s.nullCheckMap
      ∧ (r.comp = s.comp
          ∨ ∃ check comma stmt, r.comp = (J.optRemoveRangeCheck s.comp check comma stmt).1) := by
  unfold optEarlyPropRewriteTree at h
  split at h
  · exact absurd h (by simp)
  · rename_i s hs
    refine ⟨s, hs, ?_⟩
    split at h
    · have := Except.ok.inj h
      subst this
      exact ⟨rfl, Or.inl rfl⟩
    · rename_i check comma stmt _
      have := Except.ok.inj h
      subst this
      exact ⟨rfl, Or.inr ⟨check, comma, stmt, rfl⟩⟩

/-- Every entry of the map after `optEarlyPropRewriteTree` was an entry before
the call, or is the scanned node. -/
theorem rewriteTree_map_entries (J : JitHost) (c : Compiler) (tree : NodeId)
    (m : LocalNumberToNullCheckTreeMap) (r : RewriteResult)
    (h : optEarlyPropRewriteTree J c tree m = Except.ok r) :
    ∀ k v, r.nullCheckMap k = some v → m k = some v ∨ v = tree := by
  obtain ⟨s, hs, hmap, _⟩ := rewriteTree_state J c tree m r h
  intro k v hk
  rw [hmap] at hk
  rcases rewriteTreeStep_state J c tree m s hs with ⟨_, hm⟩ | ⟨res, hres, _, hm⟩
  · rw [hm] at hk
    exact Or.inl hk
  · rw [hm] at hk
    exact optFoldNullCheck_map_entries J c tree m res hres k v hk

/-- During the scan of a block every entry of the null-check map is a node
scanned since the start of the block. -/
theorem blockScan_map_visited (D : DriverHost) (B : BlockId) (c : Compiler)
    (m : LocalNumberToNullCheckTreeMap) (visited : List NodeId)
    (h : BlockScan D B c m visited) :
    ∀ k v, m k = some v → v ∈ visited := by
  induction h with
  | start c => intro k v hk; simp at hk
  | setStmt c m visited stmt _ ih => exact ih
  | rewrite c m visited tree r _ hr ih =>
    intro k v hk
    rcases rewriteTree_map_entries D.toJitHost c tree m r hr k v hk with h1 | h1
    · exact List.mem_cons_of_mem _ (ih k v h1)
    · rw [h1]; exact List.mem_cons_self _ _
  | updateSideEffects c m visited stmt t _ ih => exact ih
  | setStmtSeq c m visited stmt _ ih => exact ih

/-- When the code that the phase calls leaves `compCurBB` alone, so does
`optEarlyPropRewriteTree`. -/
theorem rewriteTree_keeps_block (D : DriverHost) (hkeep : hostKeepsBlock D) (c : Compiler)
    (tree : NodeId) (m : LocalNumberToNullCheckTreeMap) (r : RewriteResult)
    (h : optEarlyPropRewriteTree D.toJitHost c tree m = Except.ok r) :
    r.comp.compCurBB = c.compCurBB := by
  obtain ⟨hmorph, hssa, hrange, _, _, _⟩ := hkeep
  have hflags : ∀ (c' : Compiler) t f, (c'.setFlags t f).compCurBB = c'.compCurBB :=
    fun _ _ _ => rfl
  have hfold : ∀ res, optFoldNullCheck D.toJitHost c tree m = Except.ok res →
      res.comp.compCurBB = c.compCurBB := by
    intro res hres
    rcases optFoldNullCheck_cases D.toJitHost c tree m res hres with h1 | ⟨nct, lr, _, h1⟩
    · subst h1
      rw [(recordNullCheck_comp _ _ _ _).1]
    · subst h1
      rw [(recordNullCheck_comp _ _ _ _).1]
      unfold remorphNullCheckStmt
      simp only
      rw [hssa, hmorph]
      unfold foldFlagUpdates
      cases lr.nullCheckParent <;> rfl
  obtain ⟨s, hs, _, hcomp⟩ := rewriteTree_state D.toJitHost c tree m r h
  have hstep : s.comp.compCurBB = c.compCurBB := by
    rcases rewriteTreeStep_state D.toJitHost c tree m s hs with ⟨h1, _⟩ | ⟨res, hres, h1, _⟩
    · rw [h1]
    · rw [h1]; exact hfold res hres
  rcases hcomp with h1 | ⟨check, comma, stmt, h1⟩
  · rw [h1]; exact hstep
  · rw [h1, hrange]; exact hstep

/-- When the code that the phase calls leaves `compCurBB` alone, the current
block stays the scanned block during the scan. -/
theorem blockScan_block (D : DriverHost) (hkeep : hostKeepsBlock D) (B : BlockId)
    (c : Compiler) (m : LocalNumberToNullCheckTreeMap) (visited : List NodeId)
    (h : BlockScan D B c m visited) : c.compCurBB = B := by
  induction h with
  | start c => rfl
  | setStmt c m visited stmt _ ih => exact ih
  | rewrite c m visited tree r _ hr ih =>
    rw [rewriteTree_keeps_block D hkeep c tree m r hr]; exact ih
  | updateSideEffects c m visited stmt t _ ih =>
    rw [hkeep.2.2.2.1]; exact ih
  | setStmtSeq c m visited stmt _ ih =>
    rw [hkeep.2.2.2.2.2, hkeep.2.2.2.2.1]; exact ih

/-- The loop over the nodes of a statement stays within the scan of the
block. -/
theorem scanTrees_in_scan (D : DriverHost) (B : BlockId) (stmt : StmtId) :
    ∀ (fuel : Nat) (c : Compiler) (m : LocalNumberToNullCheckTreeMap)
      (cur : Option NodeId) (isRewritten : Bool) (visited : List NodeId) (t : TreeScan),
      BlockScan D B c m visited →
      scanTrees D stmt fuel c m cur isRewritten = Except.ok t →
      ∃ visited', BlockScan D B t.comp t.nullCheckMap visited' := by
  intro fuel
  induction fuel with
  | zero =>
    intro c m cur isRewritten visited t hscan hrun
    cases cur with
    | none =>
      simp only [scanTrees] at hrun
      have := Except.ok.inj hrun
      subst this
      exact ⟨visited, hscan⟩
    | some tree => simp [scanTrees] at hrun
  | succ f ih =>
    intro c m cur isRewritten visited t hscan hrun
    cases cur with
    | none =>
      simp only [scanTrees] at hrun
      have := Except.ok.inj hrun
      subst this
      exact ⟨visited, hscan⟩
    | some tree =>
      simp only [scanTrees] at hrun
      split at hrun
      · exact absurd hrun (by simp)
      · rename_i r hr
        have hstep := BlockScan.rewrite c m visited tree r hscan hr
        split at hrun
        · rename_i rewrittenTree _
          exact ih _ _ _ _ _ t
            (BlockScan.updateSideEffects _ _ _ stmt rewrittenTree hstep) hrun
        · exact ih _ _ _ _ _ t hstep hrun

/-- The loop over the statements of a block stays within the scan of the
block. -/
theorem scanStmts_in_scan (D : DriverHost) (B : BlockId) (treeFuel : Nat) :
    ∀ (fuel : Nat) (c : Compiler) (m : LocalNumberToNullCheckTreeMap)
      (cur : Option StmtId) (numChanges : Nat) (visited : List NodeId) (t : StmtScan),
      BlockScan D B c m visited →
      scanStmts D treeFuel fuel c m cur numChanges = Except.ok t →
      ∃ visited', BlockScan D B t.comp t.nullCheckMap visited' := by
  intro fuel
  induction fuel with
  | zero =>
    intro c m cur numChanges visited t hscan hrun
    cases cur with
    | none =>
      simp only [scanStmts] at hrun
      have := Except.ok.inj hrun
      subst this
      exact ⟨visited, hscan⟩
    | some stmt => simp [scanStmts] at hrun
  | succ f ih =>
    intro c m cur numChanges visited t hscan hrun
    cases cur with
    | none =>
      simp only [scanStmts] at hrun
      have := Except.ok.inj hrun
      subst this
      exact ⟨visited, hscan⟩
    | some stmt =>
      simp only [scanStmts] at hrun
      split at hrun
      · exact ih _ _ _ _ _ t hscan hrun
      · split at hrun
        · exact ih _ _ _ _ _ t hscan hrun
        · split at hrun
          · exact absurd hrun (by simp)
          · rename_i ts hts
            obtain ⟨vis1, h1⟩ := scanTrees_in_scan D B stmt treeFuel _ _ _ _ visited ts
              (BlockScan.setStmt c m visited stmt hscan) hts
            split at hrun
            · exact ih _ _ _ _ _ t (BlockScan.setStmtSeq _ _ _ stmt h1) hrun
            · exact ih _ _ _ _ _ t h1 hrun

/-- The scan of a block by the driver ends in a state of the step relation. -/
theorem scanBlock_in_scan (D : DriverHost) (treeFuel stmtFuel : Nat) (c : Compiler)
    (block : BlockId) (numChanges : Nat) (t : StmtScan)
    (h : scanBlock D treeFuel stmtFuel c block numChanges = Except.ok t) :
    ∃ visited, BlockScan D block t.comp t.nullCheckMap visited :=
  scanStmts_in_scan D block treeFuel stmtFuel _ _ _ _ [] t (BlockScan.start c) h

/-- A candidate of the finder is the map entry of the base's local, or the
effective value of the first operand of the value that a store of the current
block gives to the base. -/
theorem find_candidate_origin (J : JitHost) (c : Compiler) (tree : NodeId)
    (m : LocalNumberToNullCheckTreeMap) (nc : NodeId)
    (h : optFindNullCheckToFold J c tree m = some nc) :
    m (c.node (indirBase J c tree).1).lclNum = some nc
    ∨ ∃ d, ((c.lvaTable (c.node (indirBase J c tree).1).lclNum).perSsaData
              (c.node (indirBase J c tree).1).ssaNum).defNode = some d
        ∧ ((c.lvaTable (c.node (indirBase J c tree).1).lclNum).perSsaData
              (c.node (indirBase J c tree).1).ssaNum).block = c.compCurBB
        ∧ nc = J.gtEffectiveVal c (c.node (J.Data c d)).gtOp1 := by
  unfold optFindNullCheckToFold at h
  simp only at h
  split at h
  · exact absurd h (by simp)
  · split at h
    · exact absurd h (by simp)
    · split at h
      · rename_i nct hmap
        split at h
        · exact absurd h (by simp)
        · have := Option.some.inj h
          subst this
          exact Or.inl (nullCheckFromMap_some c m _ _ _ hmap).1
      · split at h
        · exact absurd h (by simp)
        · rename_i cand off hdef
          split at h
          · exact absurd h (by simp)
          · subst h
            obtain ⟨d, h1, h2, _, _, _, h6, _⟩ := nullCheckFromDef_some J c _ _ _ nc off hdef
            exact Or.inr ⟨d, h1, h2, h6⟩

/-- C19.  Null-check folding never crosses a basic-block boundary.  During the
scan of the block `B`, whose null-check map is created empty at the start of
the scan and receives only nodes scanned since, every candidate that
`optFindNullCheckToFold` returns is an entry of the map, hence a node scanned
in `B`, or comes from the definition of the base, and then the block of that
definition is the current block; the current block is `B` when the code that
the phase calls does not assign `compCurBB`. -/
theorem candidate_in_scanned_block (D : DriverHost) (B : BlockId) (c : Compiler)
    (m : LocalNumberToNullCheckTreeMap) (visited : List NodeId) (tree nc : NodeId)
    (hscan : BlockScan D B c m visited)
    (hfind : optFindNullCheckToFold D.toJitHost c tree m = some nc) :
    ((m (c.node (indirBase D.toJitHost c tree).1).lclNum = some nc ∧ nc ∈ visited)
      ∨ ∃ d, ((c.lvaTable (c.node (indirBase D.toJitHost c tree).1).lclNum).perSsaData
                (c.node (indirBase D.toJitHost c tree).1).ssaNum).defNode = some d
          ∧ ((c.lvaTable (c.node (indirBase D.toJitHost c tree).1).lclNum).perSsaData
                (c.node (indirBase D.toJitHost c tree).1).ssaNum).block = c.compCurBB
          ∧ nc = D.gtEffectiveVal c (c.node (D.Data c d)).gtOp1)
    ∧ (hostKeepsBlock D → c.compCurBB = B) := by
  refine ⟨?_, fun hkeep => blockScan_block D hkeep B c m visited hscan⟩
  rcases find_candidate_origin D.toJitHost c tree m nc hfind with h | h
  · exact Or.inl ⟨h, blockScan_map_visited D B c m visited hscan _ _ h⟩
  · exact Or.inr h

/-- The driver host of the examples does not assign `compCurBB`. -/
theorem demoDriverHost_keeps_block : hostKeepsBlock demoDriverHost :=
  ⟨fun _ _ _ => rfl, fun _ _ _ => rfl, fun _ _ _ _ => rfl, fun _ _ _ => rfl, fun _ _ => rfl,
    fun _ _ => rfl⟩

/-- C19 (witness): in the scan of block 0 of `sameStmtIR`, after the null
check 41 was scanned, the candidate for the indirection 45 is the scanned node
41; in the scan of block 0 of `secondaryIR 1`, with nothing scanned yet, the
candidate for the indirection 88 comes from the definition of `x@1`, a store
of block 0. -/
theorem candidate_in_scanned_block_witness :
    (((emptyMap.Set 0 41) 0 = some 41 ∧ 41 ∈ [41])
      ∨ ∃ d, (((sameStmtIR constEight).lvaTable 0).perSsaData 1).defNode = some d
          ∧ (((sameStmtIR constEight).lvaTable 0).perSsaData 1).block = 0
          ∧ 41 = demoHost.gtEffectiveVal (sameStmtIR constEight)
              ((sameStmtIR constEight).node (demoHost.Data (sameStmtIR constEight) d)).gtOp1)
    ∧ (sameStmtIR constEight).compCurBB = 0
    ∧ ((emptyMap 0 = some 81 ∧ 81 ∈ ([] : List NodeId))
      ∨ ∃ d, (((secondaryIR 1).lvaTable 0).perSsaData 1).defNode = some d
          ∧ (((secondaryIR 1).lvaTable 0).perSsaData 1).block = 0
          ∧ 81 = demoHost.gtEffectiveVal (secondaryIR 1)
              ((secondaryIR 1).node (demoHost.Data (secondaryIR 1) d)).gtOp1) :=
  ⟨(candidate_in_scanned_block demoDriverHost 0 (sameStmtIR constEight) (emptyMap.Set 0 41)
      [41] 45 41
      (BlockScan.rewrite (sameStmtIR constEight) emptyMap [] 41
        { comp := sameStmtIR constEight, nullCheckMap := emptyMap.Set 0 41, tree := none }
        (BlockScan.start (sameStmtIR constEight)) rfl)
      rfl).1,
   (candidate_in_scanned_block demoDriverHost 0 (sameStmtIR constEight) (emptyMap.Set 0 41)
      [41] 45 41
      (BlockScan.rewrite (sameStmtIR constEight) emptyMap [] 41
        { comp := sameStmtIR constEight, nullCheckMap := emptyMap.Set 0 41, tree := none }
        (BlockScan.start (sameStmtIR constEight)) rfl)
      rfl).2 demoDriverHost_keeps_block,
   (candidate_in_scanned_block demoDriverHost 0 (secondaryIR 1) emptyMap [] 88 81
      (BlockScan.start (secondaryIR 1)) rfl).1⟩


/-! ## The SSA value resolver: what it returns -/

/-- With the reserved SSA number, or without a definition node, the resolver
finds no value. -/
theorem optPropGetValueRec_no_def (J : JitHost) (c : Compiler) (fuel lclNum ssaNum : Nat)
    (valueKind : optPropKind) (walkDepth : Int)
    (h : ssaNum = J.RESERVED_SSA_NUM
      ∨ ((c.lvaTable lclNum).perSsaData ssaNum).defNode = none) :
    optPropGetValueRec J c (fuel + 1) lclNum ssaNum valueKind walkDepth = Except.ok none := by
  unfold optPropGetValueRec
  rcases h with h | h
  · simp only [h, if_true]
  · split
    · rfl
    · split
      · rfl
      · simp only [h]

/-- C21.  `optPropGetValueRec` returns no value, for every local, value kind
and walk depth, whenever the SSA number is the reserved SSA number, and then
whatever the definition table holds, or the occurrence has no definition node;
so does `optPropGetValue`. -/
theorem no_definition_no_value (J : JitHost) (c : Compiler) (lclNum ssaNum : Nat)
    (valueKind : optPropKind) (walkDepth : Int) (fuel : Nat)
    (h : ssaNum = J.RESERVED_SSA_NUM
      ∨ ((c.lvaTable lclNum).perSsaData ssaNum).defNode = none) :
    optPropGetValueRec J c (fuel + 1) lclNum ssaNum valueKind walkDepth = Except.ok none
    ∧ optPropGetValue J c lclNum ssaNum valueKind = Except.ok none
    ∧ (ssaNum = J.RESERVED_SSA_NUM → ∀ lva : Nat → LclVarDsc,
        optPropGetValueRec J { c with lvaTable := lva } (fuel + 1) lclNum ssaNum valueKind
          walkDepth = Except.ok none) :=
  ⟨optPropGetValueRec_no_def J c fuel lclNum ssaNum valueKind walkDepth h,
   optPropGetValueRec_no_def J c _ lclNum ssaNum valueKind 0 h,
   fun hr lva => optPropGetValueRec_no_def J { c with lvaTable := lva } fuel lclNum ssaNum valueKind
     walkDepth (Or.inl hr)⟩

/-- C21 (witness): in `arrLenIR` the occurrence `x@2` has no definition node,
and `x@0` has the reserved SSA number of the example host. -/
theorem no_definition_no_value_witness :
    optPropGetValue demoHost arrLenIR 0 2 optPropKind.OPK_ARRAYLEN = Except.ok none
    ∧ optPropGetValueRec demoHost arrLenIR 1 0 0 optPropKind.OPK_ARRAYLEN 3 = Except.ok none :=
  ⟨(no_definition_no_value demoHost arrLenIR 0 2 optPropKind.OPK_ARRAYLEN 0 0 (Or.inr rfl)).2.1,
   (no_definition_no_value demoHost arrLenIR 0 0 optPropKind.OPK_ARRAYLEN 3 0 (Or.inl rfl)).1⟩

/-- The result of the resolver does not depend on the fuel, once there is
fuel for every depth from `walkDepth` up to the bound and one more. -/
theorem optPropGetValueRec_fuel (J : JitHost) (c : Compiler) (valueKind : optPropKind) :
    ∀ (f1 f2 lclNum ssaNum : Nat) (walkDepth : Int),
      (J.optEarlyPropRecurBound + 1 - walkDepth).toNat + 1 ≤ f1 →
      (J.optEarlyPropRecurBound + 1 - walkDepth).toNat + 1 ≤ f2 →
      optPropGetValueRec J c f1 lclNum ssaNum valueKind walkDepth
        = optPropGetValueRec J c f2 lclNum ssaNum valueKind walkDepth := by
  intro f1
  induction f1 with
  | zero => intro _ _ _ _ h; omega
  | succ n1 ih =>
    intro f2 lclNum ssaNum walkDepth h1 h2
    obtain ⟨n2, rfl⟩ : ∃ n2, f2 = n2 + 1 := ⟨f2 - 1, by omega⟩
    unfold optPropGetValueRec
    split
    · rfl
    · split
      · rfl
      · rename_i hdepth
        simp only
        split
        · rfl
        · split
          · exact ih n2 _ _ _ (by omega) (by omega)
          · rfl

/-- One copy: the resolver goes on with the occurrence that the copy reads, one
level deeper. -/
theorem optPropGetValueRec_copy (J : JitHost) (c : Compiler) (valueKind : optPropKind)
    (occ src : Nat × Nat) (walkDepth : Int) (fuel : Nat)
    (hcopy : isCopyOf J c occ src = true) (htracked : occ.2 ≠ J.RESERVED_SSA_NUM)
    (hdepth : walkDepth ≤ J.optEarlyPropRecurBound) :
    optPropGetValueRec J c (fuel + 1) occ.1 occ.2 valueKind walkDepth
      = optPropGetValueRec J c fuel src.1 src.2 valueKind (walkDepth + 1) := by
  unfold isCopyOf at hcopy
  conv_lhs => unfold optPropGetValueRec
  rw [if_neg htracked, if_neg (by omega)]
  simp only
  split
  · rename_i hdef
    simp [hdef] at hcopy
  · rename_i d hdef
    simp only [hdef, Bool.and_eq_true, beq_iff_eq] at hcopy
    obtain ⟨⟨⟨⟨h1, h2⟩, h3⟩, h4⟩, h5⟩ := hcopy
    simp only [h1, h2, h3, and_self, if_true, h4, h5]

/-- Along a chain of copies that the bound leaves room for, the resolver
reaches the last occurrence of the chain, as many levels deeper as the chain
has copies. -/
theorem optPropGetValueRec_along_chain (J : JitHost) (c : Compiler) (valueKind : optPropKind)
    (rest : List (Nat × Nat)) :
    ∀ (head : Nat × Nat) (fuel : Nat) (walkDepth : Int),
      copyChain J c (head :: rest) = true →
      (∀ o ∈ head :: rest, o.2 ≠ J.RESERVED_SSA_NUM) →
      walkDepth + rest.length ≤ J.optEarlyPropRecurBound →
      optPropGetValueRec J c (fuel + rest.length) head.1 head.2 valueKind walkDepth
        = optPropGetValueRec J c fuel (chainEnd head rest).1 (chainEnd head rest).2 valueKind
            (walkDepth + rest.length) := by
  induction rest with
  | nil =>
    intro head fuel walkDepth _ _ _
    simp [chainEnd]
  | cons b rest ih =>
    intro head fuel walkDepth hchain htracked hlen
    simp only [copyChain, Bool.and_eq_true] at hchain
    simp only [List.length_cons, Nat.cast_add, Nat.cast_one] at hlen
    have hstep := optPropGetValueRec_copy J c valueKind head b walkDepth (fuel + rest.length)
      hchain.1 (htracked head (List.mem_cons_self _ _)) (by omega)
    have hrest := ih b fuel (walkDepth + 1) hchain.2
      (fun o ho => htracked o (List.mem_cons_of_mem _ ho)) (by omega)
    simp only [List.length_cons, chainEnd, Nat.cast_add, Nat.cast_one]
    rw [show fuel + (rest.length + 1) = fuel + rest.length + 1 by omega, hstep, hrest]
    congr 1
    omega

/-- At an occurrence defined by an array allocation of constant length, within
the bound, the resolver returns the length. -/
theorem optPropGetValueRec_allocation (J : JitHost) (c : Compiler) (occ : Nat × Nat)
    (value : NodeId) (walkDepth : Int) (fuel : Nat)
    (halloc : definedByConstantAllocation J c occ value)
    (htracked : occ.2 ≠ J.RESERVED_SSA_NUM) (hdepth : walkDepth ≤ J.optEarlyPropRecurBound) :
    optPropGetValueRec J c (fuel + 1) occ.1 occ.2 optPropKind.OPK_ARRAYLEN walkDepth
      = Except.ok (some value) := by
  obtain ⟨hcopy, d, hdef, hlen, hcns⟩ := halloc
  unfold definedByCopy at hcopy
  simp only [hdef, Bool.and_eq_false_imp, Bool.and_eq_true, beq_iff_eq, beq_eq_false_iff_ne,
    ne_eq, and_imp] at hcopy
  unfold optPropGetValueRec
  rw [if_neg htracked, if_neg (by omega)]
  simp only [hdef]
  rw [if_neg (fun h => hcopy h.1 h.2.1 h.2.2)]
  simp [hlen, hcns]

/-- C22.  Values are forwarded through copies.  If the definition of the
tracked occurrence `x@v` is a whole-variable store to `x` whose value is a
bare read of `y@w`, then at every depth `d` within the bound
`optPropGetValueRec(x, v, kind, d)` is `optPropGetValueRec(y, w, kind, d + 1)`.
Hence for a chain of `k ≤ optEarlyPropRecurBound` copies that ends in a
definition whose value is an array allocation of integer-constant length,
`optPropGetValue` at the head of the chain returns that length. -/
theorem copies_forward_values (J : JitHost) (c : Compiler) :
    (∀ (occ src : Nat × Nat) (valueKind : optPropKind) (d : Int) (f1 f2 : Nat),
      isCopyOf J c occ src = true → occ.2 ≠ J.RESERVED_SSA_NUM →
      d ≤ J.optEarlyPropRecurBound →
      (J.optEarlyPropRecurBound + 1 - d).toNat + 1 ≤ f1 →
      (J.optEarlyPropRecurBound + 1 - (d + 1)).toNat + 1 ≤ f2 →
      optPropGetValueRec J c f1 occ.1 occ.2 valueKind d
        = optPropGetValueRec J c f2 src.1 src.2 valueKind (d + 1))
    ∧ (∀ (head : Nat × Nat) (rest : List (Nat × Nat)) (value : NodeId),
      copyChain J c (head :: rest) = true →
      (∀ o ∈ head :: rest, o.2 ≠ J.RESERVED_SSA_NUM) →
      (rest.length : Int) ≤ J.optEarlyPropRecurBound →
      definedByConstantAllocation J c (chainEnd head rest) value →
      optPropGetValue J c head.1 head.2 optPropKind.OPK_ARRAYLEN = Except.ok (some value)) := by
  constructor
  · intro occ src valueKind d f1 f2 hcopy htracked hdepth h1 h2
    obtain ⟨n1, rfl⟩ : ∃ n1, f1 = n1 + 1 := ⟨f1 - 1, by omega⟩
    rw [optPropGetValueRec_copy J c valueKind occ src d n1 hcopy htracked hdepth]
    exact optPropGetValueRec_fuel J c valueKind n1 f2 _ _ _ (by omega) h2
  · intro head rest value hchain htracked hlen halloc
    have hend : chainEnd head rest ∈ head :: rest := by
      clear hchain htracked hlen halloc
      induction rest generalizing head with
      | nil => simp [chainEnd]
      | cons b rest ih =>
        simp only [chainEnd]
        exact List.mem_cons_of_mem _ (ih b)
    unfold optPropGetValue
    obtain ⟨f, hf⟩ : ∃ f, (J.optEarlyPropRecurBound + 1).toNat + 1 = f + 1 + rest.length :=
      ⟨(J.optEarlyPropRecurBound + 1).toNat - rest.length, by omega⟩
    rw [hf, optPropGetValueRec_along_chain J c _ rest head (f + 1) 0 hchain htracked (by omega)]
    exact optPropGetValueRec_allocation J c _ value _ f halloc (htracked _ hend) (by omega)

/-- C22 (witness): in `copyChainIR 5` the occurrence `x0@1` is a copy of
`x1@1`, and the chain of 5 copies from `x0@1`, the bound being 5, ends in the
allocation of the constant length 501, which the resolver returns. -/
theorem copies_forward_values_witness :
    optPropGetValueRec demoHost (copyChainIR 5) 7 0 1 optPropKind.OPK_ARRAYLEN 0
        = optPropGetValueRec demoHost (copyChainIR 5) 6 1 1 optPropKind.OPK_ARRAYLEN (0 + 1)
    ∧ optPropGetValue demoHost (copyChainIR 5) 0 1 optPropKind.OPK_ARRAYLEN
        = Except.ok (some 501) :=
  ⟨(copies_forward_values demoHost (copyChainIR 5)).1 (0, 1) (1, 1) optPropKind.OPK_ARRAYLEN 0 7 6
      (by decide) (by decide) (by decide) (by decide) (by decide),
   (copies_forward_values demoHost (copyChainIR 5)).2 (0, 1)
      [(1, 1), (2, 1), (3, 1), (4, 1), (5, 1)] 501 (by decide) (by decide) (by decide)
      ⟨by decide, 305, rfl, rfl, rfl⟩⟩

/-- Whatever the resolver returns is an integer constant node, and the value
kind was the array length. -/
theorem optPropGetValueRec_constant (J : JitHost) (c : Compiler) (valueKind : optPropKind) :
    ∀ (fuel lclNum ssaNum : Nat) (walkDepth : Int) (v : NodeId),
      optPropGetValueRec J c fuel lclNum ssaNum valueKind walkDepth = Except.ok (some v) →
      J.IsCnsIntOrI (c.node v).gtOper = true ∧ valueKind = optPropKind.OPK_ARRAYLEN := by
  intro fuel
  induction fuel with
  | zero => intro _ _ _ _ h; simp [optPropGetValueRec] at h
  | succ f ih =>
    intro lclNum ssaNum walkDepth v h
    unfold optPropGetValueRec at h
    split at h
    · simp at h
    · split at h
      · simp at h
      · simp only at h
        split at h
        · simp at h
        · split at h
          · exact ih _ _ _ _ h
          · split at h
            · rename_i hkind
              split at h
              · simp at h
              · rename_i value _
                split at h
                · simp at h
                · rename_i hcns
                  simp only [Except.ok.injEq, Option.some.injEq] at h
                  subst h
                  exact ⟨by simpa using hcns, hkind⟩
            · simp at h

/-- At an occurrence whose definition is not a copy and gives no constant
length, the resolver finds no value. -/
theorem optPropGetValueRec_no_constant (J : JitHost) (c : Compiler) (valueKind : optPropKind)
    (occ : Nat × Nat) (hend : definedWithoutConstantLength J c occ) :
    ∀ (fuel : Nat) (walkDepth : Int) (r : Option NodeId),
      optPropGetValueRec J c fuel occ.1 occ.2 valueKind walkDepth = Except.ok r → r = none := by
  obtain ⟨hcopy, d, hdef, hlen⟩ := hend
  unfold definedByCopy at hcopy
  simp only [hdef, Bool.and_eq_false_imp, Bool.and_eq_true, beq_iff_eq, beq_eq_false_iff_ne,
    ne_eq, and_imp] at hcopy
  intro fuel walkDepth r h
  cases fuel with
  | zero => simp [optPropGetValueRec] at h
  | succ f =>
    unfold optPropGetValueRec at h
    split at h
    · exact (Except.ok.inj h).symm
    · split at h
      · exact (Except.ok.inj h).symm
      · simp only [hdef] at h
        rw [if_neg (fun hc => hcopy hc.1 hc.2.1 hc.2.2)] at h
        split at h
        · rcases hlen with hnone | ⟨value, hsome, hcns⟩
          · simp only [hnone] at h
            exact (Except.ok.inj h).symm
          · simp only [hsome, hcns, Bool.not_false, if_true] at h
            exact (Except.ok.inj h).symm
        · exact (Except.ok.inj h).symm

/-- A chain of copies forwards "no value" from its last occurrence to its
head. -/
theorem optPropGetValueRec_chain_none (J : JitHost) (c : Compiler) (valueKind : optPropKind)
    (rest : List (Nat × Nat)) :
    ∀ (head : Nat × Nat), copyChain J c (head :: rest) = true →
      (∀ (fuel : Nat) (walkDepth : Int) (r : Option NodeId),
        optPropGetValueRec J c fuel (chainEnd head rest).1 (chainEnd head rest).2 valueKind
          walkDepth = Except.ok r → r = none) →
      ∀ (fuel : Nat) (walkDepth : Int) (r : Option NodeId),
        optPropGetValueRec J c fuel head.1 head.2 valueKind walkDepth = Except.ok r →
        r = none := by
  induction rest with
  | nil => intro head _ hend; exact hend
  | cons b rest ih =>
    intro head hchain hend fuel walkDepth r hrun
    simp only [copyChain, Bool.and_eq_true] at hchain
    obtain ⟨hcopy, hrest⟩ := hchain
    cases fuel with
    | zero => simp [optPropGetValueRec] at hrun
    | succ f =>
      unfold optPropGetValueRec at hrun
      split at hrun
      · exact (Except.ok.inj hrun).symm
      · split at hrun
        · exact (Except.ok.inj hrun).symm
        · unfold isCopyOf at hcopy
          simp only at hrun
          split at hrun
          · rename_i hdef
            simp [hdef] at hcopy
          · rename_i d hdef
            simp only [hdef, Bool.and_eq_true, beq_iff_eq] at hcopy
            obtain ⟨⟨⟨⟨h1, h2⟩, h3⟩, h4⟩, h5⟩ := hcopy
            simp only [h1, h2, h3, and_self, if_true, h4, h5] at hrun
            exact ih b hrest hend f (walkDepth + 1) r hrun

/-- C23.  Every value returned by `optPropGetValue` is an integer constant
node: for every local, SSA number and value kind the function returns, and
its result is `nullptr` or a node that satisfies `IsCnsIntOrI`.  An occurrence
whose chain of copies ends in a definition that is an allocation of
non-constant length, or not an array allocation, resolves to no value, and a
value kind other than the array length always resolves to no value. -/
theorem resolved_value_is_constant (J : JitHost) (c : Compiler) :
    (∀ (lclNum ssaNum : Nat) (valueKind : optPropKind),
      ∃ r, optPropGetValue J c lclNum ssaNum valueKind = Except.ok r
        ∧ (r = none ∨ ∃ v, r = some v ∧ J.IsCnsIntOrI (c.node v).gtOper = true))
    ∧ (∀ (head : Nat × Nat) (rest : List (Nat × Nat)) (valueKind : optPropKind),
      copyChain J c (head :: rest) = true →
      definedWithoutConstantLength J c (chainEnd head rest) →
      optPropGetValue J c head.1 head.2 valueKind = Except.ok none)
    ∧ (∀ (lclNum ssaNum : Nat) (valueKind : optPropKind),
      valueKind ≠ optPropKind.OPK_ARRAYLEN →
      optPropGetValue J c lclNum ssaNum valueKind = Except.ok none) := by
  have htotal : ∀ (lclNum ssaNum : Nat) (valueKind : optPropKind),
      ∃ r, optPropGetValue J c lclNum ssaNum valueKind = Except.ok r := fun l s k =>
    optPropGetValueRec_total J c k _ l s 0 (by omega)
  refine ⟨?_, ?_, ?_⟩
  · intro lclNum ssaNum valueKind
    obtain ⟨r, hr⟩ := htotal lclNum ssaNum valueKind
    refine ⟨r, hr, ?_⟩
    cases r with
    | none => exact Or.inl rfl
    | some v => exact Or.inr ⟨v, rfl, (optPropGetValueRec_constant J c valueKind _ _ _ _ v hr).1⟩
  · intro head rest valueKind hchain hend
    obtain ⟨r, hr⟩ := htotal head.1 head.2 valueKind
    have hnone := optPropGetValueRec_chain_none J c valueKind rest head hchain
      (optPropGetValueRec_no_constant J c valueKind _ hend) _ 0 r hr
    rw [hr, hnone]
  · intro lclNum ssaNum valueKind hkind
    obtain ⟨r, hr⟩ := htotal lclNum ssaNum valueKind
    cases r with
    | none => exact hr
    | some v => exact absurd (optPropGetValueRec_constant J c valueKind _ _ _ _ v hr).2 hkind

/-- C23 (witness): in `varLenIR` the chain from `x@1` ends in an allocation
whose length is a read of a local, and in `copyChainIR 2` the value kind
`OPK_INVALID` finds nothing at the head of a chain that ends in an allocation
of constant length. -/
theorem resolved_value_is_constant_witness :
    optPropGetValue demoHost varLenIR 0 1 optPropKind.OPK_ARRAYLEN = Except.ok none
    ∧ optPropGetValue demoHost (copyChainIR 2) 0 1 optPropKind.OPK_INVALID = Except.ok none :=
  ⟨(resolved_value_is_constant demoHost varLenIR).2.1 (0, 1) [(1, 1)] optPropKind.OPK_ARRAYLEN
      (by decide) ⟨by decide, 301, rfl, Or.inr ⟨501, rfl, rfl⟩⟩,
   (resolved_value_is_constant demoHost (copyChainIR 2)).2.2 0 1 optPropKind.OPK_INVALID
      (by decide)⟩


/-! ## The accumulated offset -/

/-- An `ssize_t` value is its own wrap-around. -/
theorem ssizeWrap_of_range (x : Int) (h1 : -2 ^ 63 ≤ x) (h2 : x < 2 ^ 63) : ssizeWrap x = x := by
  unfold ssizeWrap
  rw [Int.emod_eq_of_lt (by omega) (by omega)]
  omega

/-- The offset that lines 396-402 give is the constant addend of the address,
as an `ssize_t`. -/
theorem indirBase_offset (J : JitHost) (c : Compiler) (tree : NodeId) :
    (indirBase J c tree).2 = ssizeWrap (addressAddend J c tree) := by
  unfold indirBase addressAddend
  simp only
  split
  · simp
  · simp [ssizeWrap]

/-- The offset that the secondary pattern gives with its candidate is the
offset so far plus the constant addend of the definition, as an `ssize_t`. -/
theorem nullCheckFromDef_offset (J : JitHost) (c : Compiler) (lclNum ssaNum : Nat)
    (offsetValue : Int) (nc : NodeId) (off : Int)
    (h : nullCheckFromDef J c lclNum ssaNum offsetValue = some (some nc, off)) :
    off = ssizeWrap (offsetValue + definitionAddend J c lclNum ssaNum) := by
  unfold nullCheckFromDef at h
  simp only at h
  split at h
  · simp at h
  · split at h
    · simp at h
    · rename_i defNode hdef
      split at h
      · simp at h
      · split at h
        · simp at h
        · split at h
          · simp at h
          · split at h
            · simp at h
            · split at h
              · simp only [Option.some.injEq, Prod.mk.injEq] at h
                rw [← h.2]
                simp only [definitionAddend, hdef]
              · simp at h

/-- C24.  `optFindNullCheckToFold` returns no candidate whenever the
accumulated offset is a big offset (`fgIsBigOffset`), and every candidate it
returns has an accumulated offset that is not big.  With a candidate from the
map the accumulated offset is the constant addend of the indirection's address
(zero when the address is not `base + constant`); with a candidate from the
secondary pattern it is that addend plus the constant addend of the defining
`y + constant`.  The sums are `ssize_t` sums: they are the sums of the
integers when the addend of the address and the sum are `ssize_t` values. -/
theorem big_offset_no_candidate (J : JitHost) (c : Compiler) (tree : NodeId)
    (nullCheckMap : LocalNumberToNullCheckTreeMap) :
    (J.fgIsBigOffset (accumulatedOffset J c tree nullCheckMap) = true →
      optFindNullCheckToFold J c tree nullCheckMap = none)
    ∧ (∀ nc, optFindNullCheckToFold J c tree nullCheckMap = some nc →
        J.fgIsBigOffset (accumulatedOffset J c tree nullCheckMap) = false
        ∧ ((nullCheckFromMap c nullCheckMap (c.node (indirBase J c tree).1).lclNum
                (c.node (indirBase J c tree).1).ssaNum = some nc
              ∧ accumulatedOffset J c tree nullCheckMap = ssizeWrap (addressAddend J c tree))
            ∨ (nullCheckFromMap c nullCheckMap (c.node (indirBase J c tree).1).lclNum
                  (c.node (indirBase J c tree).1).ssaNum = none
              ∧ accumulatedOffset J c tree nullCheckMap
                  = ssizeWrap (ssizeWrap (addressAddend J c tree)
                      + definitionAddend J c (c.node (indirBase J c tree).1).lclNum
                          (c.node (indirBase J c tree).1).ssaNum))))
    ∧ (∀ a b : Int, -2 ^ 63 ≤ a → a < 2 ^ 63 → -2 ^ 63 ≤ a + b → a + b < 2 ^ 63 →
        ssizeWrap a = a ∧ ssizeWrap (ssizeWrap a + b) = a + b) := by
  refine ⟨?_, ?_, ?_⟩
  · intro hbig
    unfold accumulatedOffset at hbig
    unfold optFindNullCheckToFold
    simp only at hbig ⊢
    split
    · rfl
    · rename_i hop
      rw [if_neg hop] at hbig
      split
      · rfl
      · rename_i hssa
        rw [if_neg hssa] at hbig
        split
        · rename_i nct hmap
          simp only [hmap] at hbig
          simp only [hbig, if_true]
        · rename_i hmap
          simp only [hmap] at hbig
          split
          · rfl
          · rename_i nct off hdef
            simp only [hdef] at hbig
            simp only [hbig, if_true]
  · intro nc hfind
    unfold accumulatedOffset
    unfold optFindNullCheckToFold at hfind
    simp only at hfind ⊢
    split at hfind
    · simp at hfind
    · rename_i hop
      rw [if_neg hop]
      split at hfind
      · simp at hfind
      · rename_i hssa
        rw [if_neg hssa]
        split at hfind
        · rename_i nct hmap
          try simp only [hmap]
          split at hfind
          · simp at hfind
          · rename_i hbig
            simp only [Option.some.injEq] at hfind
            subst hfind
            exact ⟨by simpa using hbig, Or.inl ⟨rfl, indirBase_offset J c tree⟩⟩
        · rename_i hmap
          try simp only [hmap]
          split at hfind
          · simp at hfind
          · rename_i nct off hdef
            try simp only [hdef]
            split at hfind
            · simp at hfind
            · rename_i hbig
              subst hfind
              refine ⟨by simpa using hbig, Or.inr ⟨?_, ?_⟩⟩
              · first | rfl | trivial
              · rw [nullCheckFromDef_offset J c _ _ _ nc off hdef, indirBase_offset]
  · intro a b h1 h2 h3 h4
    rw [ssizeWrap_of_range a h1 h2, ssizeWrap_of_range (a + b) h3 h4]
    exact ⟨rfl, rfl⟩

/-- C24 (witness): in `sameStmtIR` with the constant 5000 as the addend of the
address the accumulated offset is 5000, which is big, and there is no
candidate; in `secondaryIR 1` the candidate 81 comes from the definition and
the accumulated offset is `0 + 8`, which is not big. -/
theorem big_offset_no_candidate_witness :
    accumulatedOffset demoHost (sameStmtIR constFiveThousand) 45 (emptyMap.Set 0 41) = 5000
    ∧ optFindNullCheckToFold demoHost (sameStmtIR constFiveThousand) 45 (emptyMap.Set 0 41) = none
    ∧ demoHost.fgIsBigOffset (accumulatedOffset demoHost (secondaryIR 1) 88 emptyMap) = false
    ∧ accumulatedOffset demoHost (secondaryIR 1) 88 emptyMap = 0 + 8 :=
  ⟨by decide,
   (big_offset_no_candidate demoHost (sameStmtIR constFiveThousand) 45 (emptyMap.Set 0 41)).1
     (by decide),
   ((big_offset_no_candidate demoHost (secondaryIR 1) 88 emptyMap).2.1 81 (by decide)).1,
   ((big_offset_no_candidate demoHost (secondaryIR 1) 88 emptyMap).2.2 0 8
     (by decide) (by decide) (by decide) (by decide)).2.symm ▸ by decide⟩


/-! ## The invariant of the null-check map -/

/-- The invariant passes from the map to the map that `recordNullCheck`
returns, with the state of the call as the state of the insertion. -/
theorem recordNullCheck_inserted (past : Compiler → Prop) (c : Compiler) (tree : NodeId)
    (m : LocalNumberToNullCheckTreeMap) (folded : Bool)
    (h : insertedAsNullCheck past m) :
    insertedAsNullCheck (fun c0 => past c0 ∨ c0 = c) (recordNullCheck c tree m folded).nullCheckMap := by
  intro n t hn
  by_cases hshape : isNullCheckOfLocal c tree
  · rw [(recordNullCheck_map c tree m folded).1 hshape] at hn
    unfold LocalNumberToNullCheckTreeMap.Set at hn
    split at hn
    · rename_i hkey
      have ht := Option.some.inj hn
      subst ht
      exact ⟨c, Or.inr rfl, hshape, hkey.symm⟩
    · obtain ⟨c0, hc0, h1, h2⟩ := h n t hn
      exact ⟨c0, Or.inl hc0, h1, h2⟩
  · rw [(recordNullCheck_map c tree m folded).2 hshape] at hn
    obtain ⟨c0, hc0, h1, h2⟩ := h n t hn
    exact ⟨c0, Or.inl hc0, h1, h2⟩

/-- The invariant passes from a map to the map without one of its entries. -/
theorem remove_inserted (past : Compiler → Prop) (m : LocalNumberToNullCheckTreeMap) (key : Nat)
    (h : insertedAsNullCheck past m) : insertedAsNullCheck past (m.Remove key) := by
  intro n t hn
  unfold LocalNumberToNullCheckTreeMap.Remove at hn
  split at hn
  · exact absurd hn (by simp)
  · exact h n t hn

/-- A call of `optFoldNullCheck` preserves the invariant, with the state it
leaves as one more state of insertion. -/
theorem optFoldNullCheck_inserted (J : JitHost) (past : Compiler → Prop) (c : Compiler)
    (tree : NodeId) (m : LocalNumberToNullCheckTreeMap) (res : FoldResult)
    (hres : optFoldNullCheck J c tree m = Except.ok res)
    (h : insertedAsNullCheck past m) :
    insertedAsNullCheck (fun c0 => past c0 ∨ c0 = res.comp) res.nullCheckMap := by
  rcases optFoldNullCheck_cases J c tree m res hres with hcase | ⟨nct, r, _, hcase⟩
  · subst hcase
    rw [(recordNullCheck_comp c tree m false).1]
    exact recordNullCheck_inserted past c tree m false h
  · subst hcase
    rw [(recordNullCheck_comp _ tree _ true).1]
    exact recordNullCheck_inserted past _ tree _ true (remove_inserted past m _ h)

/-- The map that `optEarlyPropRewriteTree` returns is the map on entry or the
map that its call of `optFoldNullCheck` returned. -/
theorem rewriteTree_map (J : JitHost) (c : Compiler) (tree : NodeId)
    (m : LocalNumberToNullCheckTreeMap) (r : RewriteResult)
    (h : optEarlyPropRewriteTree J c tree m = Except.ok r) :
    r.nullCheckMap = m
    ∨ ∃ res, optFoldNullCheck J c tree m = Except.ok res ∧ r.nullCheckMap = res.nullCheckMap := by
  obtain ⟨s, hs, hmap, _⟩ := rewriteTree_state J c tree m r h
  rcases rewriteTreeStep_state J c tree m s hs with ⟨_, hm⟩ | ⟨res, hres, _, hm⟩
  · exact Or.inl (hmap.trans hm)
  · exact Or.inr ⟨res, hres, hmap.trans hm⟩

/-- At every point of the scan of a block the map satisfies the invariant. -/
theorem blockScan_inserted (D : DriverHost) (B : BlockId) (c : Compiler)
    (m : LocalNumberToNullCheckTreeMap) (visited : List NodeId)
    (h : BlockScan D B c m visited) : insertedAsNullCheck (foldStates D B) m := by
  induction h with
  | start c => intro n t hn; exact absurd hn (by simp)
  | setStmt c m visited stmt _ ih => exact ih
  | rewrite c m visited tree r hscan hr ih =>
    rcases rewriteTree_map D.toJitHost c tree m r hr with hm | ⟨res, hres, hm⟩
    · rw [hm]; exact ih
    · rw [hm]
      intro n t hn
      obtain ⟨c0, hc0, h1, h2⟩ :=
        optFoldNullCheck_inserted D.toJitHost (foldStates D B) c tree m res hres ih n t hn
      refine ⟨c0, ?_, h1, h2⟩
      rcases hc0 with hc0 | hc0
      · exact hc0
      · exact ⟨c, m, visited, tree, res, hscan, hres, hc0.symm⟩
  | updateSideEffects c m visited stmt rewrittenTree _ ih => exact ih
  | setStmtSeq c m visited stmt _ ih => exact ih

/-- The map that `optEarlyPropRewriteTree` returns for an indirection or an
array-metadata node is the map that its call of `optFoldNullCheck` returned;
for another node it is the map on entry. -/
theorem rewriteTree_map_of_call (J : JitHost) (c : Compiler) (tree : NodeId)
    (m : LocalNumberToNullCheckTreeMap) (r : RewriteResult)
    (h : optEarlyPropRewriteTree J c tree m = Except.ok r) :
    (J.OperIsIndirOrArrMetaData (c.node tree).gtOper = true
      ∧ ∃ res, optFoldNullCheck J c tree m = Except.ok res ∧ r.nullCheckMap = res.nullCheckMap)
    ∨ (¬ J.OperIsIndirOrArrMetaData (c.node tree).gtOper = true ∧ r.nullCheckMap = m) := by
  obtain ⟨s, hs, hmap, _⟩ := rewriteTree_state J c tree m r h
  by_cases hind : J.OperIsIndirOrArrMetaData (c.node tree).gtOper = true
  · left
    refine ⟨hind, ?_⟩
    unfold optEarlyPropRewriteTreeStep at hs
    rw [if_pos hind] at hs
    cases hres : optFoldNullCheck J c tree m with
    | error e => simp [hres] at hs
    | ok res =>
      refine ⟨res, rfl, ?_⟩
      rw [hmap]
      simp only [hres] at hs
      split at hs
      · split at hs
        · cases Except.ok.inj hs; rfl
        · split at hs
          · exact absurd hs (by simp)
          · cases Except.ok.inj hs; rfl
          · cases Except.ok.inj hs; rfl
      · cases Except.ok.inj hs; rfl
  · right
    refine ⟨hind, ?_⟩
    unfold optEarlyPropRewriteTreeStep at hs
    rw [if_neg hind] at hs
    cases Except.ok.inj hs
    exact hmap

/-- At every point of the scan of a block every entry of the map was inserted
in one of the states in which the calls of `optFoldNullCheck` made so far in
that scan returned. -/
theorem blockScanLog_inserted (D : DriverHost) (B : BlockId) (c : Compiler)
    (m : LocalNumberToNullCheckTreeMap) (log : List Compiler)
    (h : BlockScanLog D B c m log) : insertedAsNullCheck (fun c0 => c0 ∈ log) m := by
  induction h with
  | start c => intro n t hn; exact absurd hn (by simp)
  | setStmt c m log stmt _ ih => exact ih
  | rewrite c m log tree r _ hr ih =>
    rcases rewriteTree_map_of_call D.toJitHost c tree m r hr with
      ⟨hind, res, hres, hm⟩ | ⟨hind, hm⟩
    · rw [hm]
      intro n t hn
      obtain ⟨c0, hc0, h1, h2⟩ :=
        optFoldNullCheck_inserted D.toJitHost (fun c0 => c0 ∈ log) c tree m res hres ih n t hn
      refine ⟨c0, ?_, h1, h2⟩
      unfold foldLog
      rw [if_pos hind, hres]
      rcases hc0 with hc0 | hc0
      · exact List.mem_append_right _ hc0
      · exact List.mem_append_left _ (by rw [hc0]; exact List.mem_singleton.2 rfl)
    · rw [hm]
      intro n t hn
      obtain ⟨c0, hc0, h1, h2⟩ := ih n t hn
      exact ⟨c0, List.mem_append_right _ hc0, h1, h2⟩
  | updateSideEffects c m log stmt rewrittenTree _ ih => exact ih
  | setStmtSeq c m log stmt _ ih => exact ih

/-- Every point of the scan of a block is a point of the scan with its
past. -/
theorem blockScan_has_log (D : DriverHost) (B : BlockId) (c : Compiler)
    (m : LocalNumberToNullCheckTreeMap) (visited : List NodeId)
    (h : BlockScan D B c m visited) : ∃ log, BlockScanLog D B c m log := by
  induction h with
  | start c => exact ⟨[], BlockScanLog.start c⟩
  | setStmt c m visited stmt _ ih =>
    obtain ⟨log, hl⟩ := ih
    exact ⟨log, BlockScanLog.setStmt c m log stmt hl⟩
  | rewrite c m visited tree r _ hr ih =>
    obtain ⟨log, hl⟩ := ih
    exact ⟨_, BlockScanLog.rewrite c m log tree r hl hr⟩
  | updateSideEffects c m visited stmt rewrittenTree _ ih =>
    obtain ⟨log, hl⟩ := ih
    exact ⟨log, BlockScanLog.updateSideEffects c m log stmt rewrittenTree hl⟩
  | setStmtSeq c m visited stmt _ ih =>
    obtain ⟨log, hl⟩ := ih
    exact ⟨log, BlockScanLog.setStmtSeq c m log stmt hl⟩

/-- The states of the past of a scan are states in which calls of
`optFoldNullCheck` made during the scan of the block returned. -/
theorem blockScanLog_fold_states (D : DriverHost) (B : BlockId) (c : Compiler)
    (m : LocalNumberToNullCheckTreeMap) (log : List Compiler)
    (h : BlockScanLog D B c m log) :
    (∃ visited, BlockScan D B c m visited) ∧ ∀ c0, c0 ∈ log → foldStates D B c0 := by
  induction h with
  | start c => exact ⟨⟨[], BlockScan.start c⟩, fun c0 h0 => absurd h0 (by simp)⟩
  | setStmt c m log stmt _ ih =>
    obtain ⟨⟨visited, hv⟩, hl⟩ := ih
    exact ⟨⟨visited, BlockScan.setStmt c m visited stmt hv⟩, hl⟩
  | rewrite c m log tree r _ hr ih =>
    obtain ⟨⟨visited, hv⟩, hl⟩ := ih
    refine ⟨⟨tree :: visited, BlockScan.rewrite c m visited tree r hv hr⟩, ?_⟩
    intro c0 h0
    rcases List.mem_append.1 h0 with h1 | h1
    · unfold foldLog at h1
      split at h1
      · split at h1
        · rename_i res hres
          exact ⟨c, m, visited, tree, res, hv, hres, (List.mem_singleton.1 h1).symm⟩
        · exact absurd h1 (by simp)
      · exact absurd h1 (by simp)
    · exact hl c0 h1
  | updateSideEffects c m log stmt rewrittenTree _ ih =>
    obtain ⟨⟨visited, hv⟩, hl⟩ := ih
    exact ⟨⟨visited, BlockScan.updateSideEffects c m visited stmt rewrittenTree hv⟩, hl⟩
  | setStmtSeq c m log stmt _ ih =>
    obtain ⟨⟨visited, hv⟩, hl⟩ := ih
    exact ⟨⟨visited, BlockScan.setStmtSeq c m visited stmt hv⟩, hl⟩

/-- C29.  The null-check map invariant: every entry `(n -> t)` of the map was
inserted with `t` a `GT_NULLCHECK` node whose address operand is a
`GT_LCL_VAR` of local number `n`.  The invariant holds for the empty map, it
is preserved by every call of `optFoldNullCheck` (by its `Remove` and by its
`Set`, in the state that the call leaves), and so it holds at every point of
the scan of a block: every entry was inserted in one of the states in which
the calls of `optFoldNullCheck` made so far in that scan returned (the past of
the scan, `BlockScanLog`), and every point of the scan has such a past. -/
theorem null_check_map_invariant (D : DriverHost) (B : BlockId) :
    (∀ past : Compiler → Prop, insertedAsNullCheck past (fun _ => none))
    ∧ (∀ (past : Compiler → Prop) (c : Compiler) (tree : NodeId)
        (m : LocalNumberToNullCheckTreeMap) (res : FoldResult),
        optFoldNullCheck D.toJitHost c tree m = Except.ok res →
        insertedAsNullCheck past m →
        insertedAsNullCheck (fun c0 => past c0 ∨ c0 = res.comp) res.nullCheckMap)
    ∧ (∀ (c : Compiler) (m : LocalNumberToNullCheckTreeMap) (visited : List NodeId),
        BlockScan D B c m visited → insertedAsNullCheck (foldStates D B) m)
    ∧ (∀ (c : Compiler) (m : LocalNumberToNullCheckTreeMap) (log : List Compiler),
        BlockScanLog D B c m log → insertedAsNullCheck (fun c0 => c0 ∈ log) m)
    ∧ (∀ (c : Compiler) (m : LocalNumberToNullCheckTreeMap) (visited : List NodeId),
        BlockScan D B c m visited → ∃ log, BlockScanLog D B c m log) :=
  ⟨fun _ n t hn => absurd hn (by simp),
   fun past c tree m res hres h => optFoldNullCheck_inserted D.toJitHost past c tree m res hres h,
   fun c m visited h => blockScan_inserted D B c m visited h,
   fun c m log h => blockScanLog_inserted D B c m log h,
   fun c m visited h => blockScan_has_log D B c m visited h⟩

/-- C29 (witness): the map that holds the null check 2 of `twoChecksIR` for
the local 0 satisfies the invariant, and so does the map after the call of
`optFoldNullCheck` for the null check 4, which removes that entry and sets the
entry of the local 0 to 4; the map of the scan of block 0 of `sameStmtIR`
after the null check 41 satisfies it too, with the state in which the call of
`optFoldNullCheck` for the null check 41 returned as the past of the scan. -/
theorem null_check_map_invariant_witness :
    insertedAsNullCheck
      (fun c0 => c0 = twoChecksIR
        ∨ c0 = (recordNullCheck
            (remorphNullCheckStmt demoHost (foldFlagUpdates twoChecksIR 4 2 (some 5)) 1) 4
            ((emptyMap.Set 0 2).Remove 0) true).comp)
      (recordNullCheck
        (remorphNullCheckStmt demoHost (foldFlagUpdates twoChecksIR 4 2 (some 5)) 1) 4
        ((emptyMap.Set 0 2).Remove 0) true).nullCheckMap
    ∧ insertedAsNullCheck (foldStates demoDriverHost 0) (emptyMap.Set 0 41)
    ∧ BlockScanLog demoDriverHost 0 (sameStmtIR constEight) (emptyMap.Set 0 41)
        [sameStmtIR constEight]
    ∧ insertedAsNullCheck (fun c0 => c0 ∈ [sameStmtIR constEight]) (emptyMap.Set 0 41)
    ∧ ∃ log, BlockScanLog demoDriverHost 0 (sameStmtIR constEight) (emptyMap.Set 0 41) log :=
  ⟨(null_check_map_invariant demoDriverHost 0).2.1 (fun c0 => c0 = twoChecksIR) twoChecksIR 4
      (emptyMap.Set 0 2)
      (recordNullCheck
        (remorphNullCheckStmt demoHost (foldFlagUpdates twoChecksIR 4 2 (some 5)) 1) 4
        ((emptyMap.Set 0 2).Remove 0) true)
      rfl
      (fun n t hn => by
        unfold LocalNumberToNullCheckTreeMap.Set emptyMap at hn
        split at hn
        · rename_i hk
          cases Option.some.inj hn
          exact ⟨twoChecksIR, rfl, ⟨rfl, rfl⟩, hk.symm⟩
        · exact absurd hn (by simp)),
   (null_check_map_invariant demoDriverHost 0).2.2.1 (sameStmtIR constEight) (emptyMap.Set 0 41)
      [41]
      (BlockScan.rewrite (sameStmtIR constEight) emptyMap [] 41
        { comp := sameStmtIR constEight, nullCheckMap := emptyMap.Set 0 41, tree := none }
        (BlockScan.start (sameStmtIR constEight)) rfl),
   BlockScanLog.rewrite (sameStmtIR constEight) emptyMap [] 41
      { comp := sameStmtIR constEight, nullCheckMap := emptyMap.Set 0 41, tree := none }
      (BlockScanLog.start (sameStmtIR constEight)) rfl,
   (null_check_map_invariant demoDriverHost 0).2.2.2.1 (sameStmtIR constEight)
      (emptyMap.Set 0 41) [sameStmtIR constEight]
      (BlockScanLog.rewrite (sameStmtIR constEight) emptyMap [] 41
        { comp := sameStmtIR constEight, nullCheckMap := emptyMap.Set 0 41, tree := none }
        (BlockScanLog.start (sameStmtIR constEight)) rfl),
   (null_check_map_invariant demoDriverHost 0).2.2.2.2 (sameStmtIR constEight)
      (emptyMap.Set 0 41) [41]
      (BlockScan.rewrite (sameStmtIR constEight) emptyMap [] 41
        { comp := sameStmtIR constEight, nullCheckMap := emptyMap.Set 0 41, tree := none }
        (BlockScan.start (sameStmtIR constEight)) rfl)⟩

/-- A candidate of the finder comes from the map or from the definition of the
base. -/
theorem find_candidate_source (J : JitHost) (c : Compiler) (tree : NodeId)
    (m : LocalNumberToNullCheckTreeMap) (nc : NodeId)
    (h : optFindNullCheckToFold J c tree m = some nc) :
    nullCheckFromMap c m (c.node (indirBase J c tree).1).lclNum
        (c.node (indirBase J c tree).1).ssaNum = some nc
    ∨ ∃ off, nullCheckFromDef J c (c.node (indirBase J c tree).1).lclNum
        (c.node (indirBase J c tree).1).ssaNum (indirBase J c tree).2 = some (some nc, off) := by
  unfold optFindNullCheckToFold at h
  simp only at h
  split at h
  · exact absurd h (by simp)
  · split at h
    · exact absurd h (by simp)
    · split at h
      · rename_i nct hmap
        split at h
        · exact absurd h (by simp)
        · have := Option.some.inj h
          subst this
          exact Or.inl hmap
      · split at h
        · exact absurd h (by simp)
        · rename_i cand off hdef
          split at h
          · exact absurd h (by simp)
          · subst h
            exact Or.inr ⟨off, hdef⟩

/-- When every entry of the map is a `GT_NULLCHECK` node in the state `c`,
every candidate that `optFindNullCheckToFold` returns, by either pattern, is a
`GT_NULLCHECK` node whose operand is a `GT_LCL_VAR`; it still is one after the
flag updates of a fold. -/
theorem candidate_of_map_holding_null_checks (J : JitHost) (c : Compiler) (tree : NodeId)
    (nullCheckMap : LocalNumberToNullCheckTreeMap) (nc : NodeId)
    (hinv : mapHoldsNullChecks c nullCheckMap)
    (hfind : optFindNullCheckToFold J c tree nullCheckMap = some nc) :
    isNullCheckOfLocal c nc
    ∧ ∀ nullCheckParent : Option NodeId,
        isNullCheckOfLocal (foldFlagUpdates c tree nc nullCheckParent) nc := by
  have hshape : isNullCheckOfLocal c nc := by
    rcases find_candidate_source J c tree nullCheckMap nc hfind with hmap | ⟨off, hdef⟩
    · obtain ⟨hentry, hop, _⟩ := nullCheckFromMap_some c nullCheckMap _ _ nc hmap
      exact ⟨hinv _ nc hentry, hop⟩
    · obtain ⟨d, _, _, _, _, hpat, hnc, _⟩ := nullCheckFromDef_some J c _ _ _ nc off hdef
      subst hnc
      exact ⟨hpat.2.1, hpat.2.2.1⟩
  refine ⟨hshape, fun parent => ?_⟩
  unfold isNullCheckOfLocal
  rw [(foldFlagUpdates_keeps c tree nc parent nc).1, (foldFlagUpdates_keeps c tree nc parent nc).2.1,
    (foldFlagUpdates_keeps c tree nc parent _).1]
  exact hshape

/-! ## The status that `optEarlyProp` returns -/

/-- One iteration of the loop over the nodes of a statement. -/
theorem scanTrees_step (D : DriverHost) (stmt : StmtId) (fuel : Nat) (c : Compiler)
    (m : LocalNumberToNullCheckTreeMap) (tree : NodeId) (b : Bool) (r : RewriteResult)
    (hr : optEarlyPropRewriteTree D.toJitHost c tree m = Except.ok r) :
    scanTrees D stmt (fuel + 1) c m (some tree) b
      = scanTrees D stmt fuel (afterRewrite D stmt tree r).1 r.nullCheckMap
          (afterRewrite D stmt tree r).2 (b || r.tree.isSome) := by
  conv_lhs => unfold scanTrees
  simp only [hr]
  unfold afterRewrite
  cases r.tree with
  | none => simp
  | some t => simp

/-- Once `isRewritten` is true it stays true. -/
theorem scanTrees_rewritten_stays (D : DriverHost) (stmt : StmtId) :
    ∀ (fuel : Nat) (c : Compiler) (m : LocalNumberToNullCheckTreeMap) (cur : Option NodeId)
      (t : TreeScan),
      scanTrees D stmt fuel c m cur true = Except.ok t → t.isRewritten = true := by
  intro fuel
  induction fuel with
  | zero =>
    intro c m cur t h
    cases cur with
    | none =>
      unfold scanTrees at h
      cases Except.ok.inj h
      rfl
    | some tree => simp [scanTrees] at h
  | succ f ih =>
    intro c m cur t h
    cases cur with
    | none =>
      unfold scanTrees at h
      cases Except.ok.inj h
      rfl
    | some tree =>
      cases hr : optEarlyPropRewriteTree D.toJitHost c tree m with
      | error e =>
        unfold scanTrees at h
        simp [hr] at h
      | ok r =>
        rw [scanTrees_step D stmt f c m tree true r hr] at h
        exact ih _ _ _ t h

/-- The loop over the nodes of a statement sets `isRewritten` exactly when one
of its calls of `optEarlyPropRewriteTree` returns a tree. -/
theorem scanTrees_rewritten (D : DriverHost) (stmt : StmtId) :
    ∀ (fuel : Nat) (c : Compiler) (m : LocalNumberToNullCheckTreeMap) (cur : Option NodeId)
      (b : Bool) (t : TreeScan),
      scanTrees D stmt fuel c m cur b = Except.ok t →
      (t.isRewritten = true ↔
        (b = true ∨ ∃ cv mv tree, TreeVisit D stmt c m cur cv mv tree
          ∧ returnsTree D.toJitHost cv mv tree)) := by
  intro fuel
  induction fuel with
  | zero =>
    intro c m cur b t h
    cases cur with
    | none =>
      unfold scanTrees at h
      cases Except.ok.inj h
      constructor
      · intro hb; exact Or.inl hb
      · rintro (hb | ⟨cv, mv, tree, hv, _⟩)
        · exact hb
        · cases hv
    | some tree => simp [scanTrees] at h
  | succ f ih =>
    intro c m cur b t h
    cases cur with
    | none =>
      unfold scanTrees at h
      cases Except.ok.inj h
      constructor
      · intro hb; exact Or.inl hb
      · rintro (hb | ⟨cv, mv, tree, hv, _⟩)
        · exact hb
        · cases hv
    | some tree =>
      cases hr : optEarlyPropRewriteTree D.toJitHost c tree m with
      | error e =>
        unfold scanTrees at h
        simp [hr] at h
      | ok r =>
        rw [scanTrees_step D stmt f c m tree b r hr] at h
        rw [ih _ _ _ _ t h]
        constructor
        · rintro (hb | ⟨cv, mv, visited, hv, hret⟩)
          · rw [Bool.or_eq_true] at hb
            rcases hb with hb | hb
            · exact Or.inl hb
            · obtain ⟨t', ht'⟩ := Option.isSome_iff_exists.1 hb
              exact Or.inr ⟨c, m, tree, TreeVisit.here c m tree, r, t', hr, ht'⟩
          · exact Or.inr ⟨cv, mv, visited, TreeVisit.next c m tree r cv mv visited hr hv, hret⟩
        · rintro (hb | ⟨cv, mv, visited, hv, hret⟩)
          · exact Or.inl (by rw [hb]; rfl)
          · cases hv with
            | here =>
              obtain ⟨r', t', hr', ht'⟩ := hret
              rw [hr] at hr'
              cases Except.ok.inj hr'
              exact Or.inl (by rw [ht']; simp)
            | next _ _ _ r' _ _ _ hr' hv' =>
              rw [hr] at hr'
              cases Except.ok.inj hr'
              exact Or.inr ⟨cv, mv, visited, hv', hret⟩

/-- A statement without a root or without a side effect at its root is
skipped. -/
theorem scanStmts_skip (D : DriverHost) (treeFuel fuel : Nat) (c : Compiler)
    (m : LocalNumberToNullCheckTreeMap) (stmt : StmtId) (n : Nat)
    (h : stmtScanned D c stmt = false) :
    scanStmts D treeFuel (fuel + 1) c m (some stmt) n
      = scanStmts D treeFuel fuel c m (c.stmt stmt).nextStmt n := by
  unfold stmtScanned at h
  conv_lhs => unfold scanStmts
  cases hroot : (c.stmt stmt).rootNode with
  | none => simp
  | some root =>
    rw [hroot] at h
    simp only at h
    simp [h]

/-- The scan of a statement whose nodes are scanned. -/
theorem scanStmts_scan (D : DriverHost) (treeFuel fuel : Nat) (c : Compiler)
    (m : LocalNumberToNullCheckTreeMap) (stmt : StmtId) (n : Nat) (t : TreeScan)
    (h : stmtScanned D c stmt = true)
    (ht : scanTrees D stmt treeFuel { c with compCurStmt := stmt } m (c.stmt stmt).treeList false
      = Except.ok t) :
    scanStmts D treeFuel (fuel + 1) c m (some stmt) n
      = scanStmts D treeFuel fuel (afterStmt D stmt t) t.nullCheckMap (c.stmt stmt).nextStmt
          (if t.isRewritten = true then n + 1 else n) := by
  unfold stmtScanned at h
  conv_lhs => unfold scanStmts
  cases hroot : (c.stmt stmt).rootNode with
  | none => rw [hroot] at h; simp at h
  | some root =>
    rw [hroot] at h
    simp only at h
    simp only [h, Bool.true_eq_false, if_false, ht]
    unfold afterStmt
    by_cases hb : t.isRewritten = true
    · simp [hb]
    · simp [hb]

/-- A failure of the loop over the nodes is a failure of the loop over the
statements. -/
theorem scanStmts_scan_error (D : DriverHost) (treeFuel fuel : Nat) (c : Compiler)
    (m : LocalNumberToNullCheckTreeMap) (stmt : StmtId) (n : Nat) (e : Fault)
    (h : stmtScanned D c stmt = true)
    (ht : scanTrees D stmt treeFuel { c with compCurStmt := stmt } m (c.stmt stmt).treeList false
      = Except.error e) :
    scanStmts D treeFuel (fuel + 1) c m (some stmt) n = Except.error e := by
  unfold stmtScanned at h
  conv_lhs => unfold scanStmts
  cases hroot : (c.stmt stmt).rootNode with
  | none => rw [hroot] at h; simp at h
  | some root =>
    rw [hroot] at h
    simp only at h
    simp only [h, Bool.true_eq_false, if_false, ht]

/-- The loop over the statements of a block never decreases `numChanges`, and
increases it exactly when a call of `optEarlyPropRewriteTree` for a node of a
scanned statement returns a tree. -/
theorem scanStmts_changes (D : DriverHost) (treeFuel : Nat) :
    ∀ (fuel : Nat) (c : Compiler) (m : LocalNumberToNullCheckTreeMap) (cur : Option StmtId)
      (n : Nat) (s : StmtScan),
      scanStmts D treeFuel fuel c m cur n = Except.ok s →
      n ≤ s.numChanges
      ∧ (n < s.numChanges ↔
          ∃ cs ms stmt, StmtVisit D treeFuel c m cur cs ms stmt ∧ stmtRewritten D cs ms stmt) := by
  intro fuel
  induction fuel with
  | zero =>
    intro c m cur n s h
    cases cur with
    | none =>
      unfold scanStmts at h
      cases Except.ok.inj h
      refine ⟨le_refl _, ?_⟩
      constructor
      · intro hlt; exact absurd hlt (lt_irrefl _)
      · rintro ⟨cs, ms, stmt, hv, _⟩
        cases hv
    | some stmt => simp [scanStmts] at h
  | succ f ih =>
    intro c m cur n s h
    cases cur with
    | none =>
      unfold scanStmts at h
      cases Except.ok.inj h
      refine ⟨le_refl _, ?_⟩
      constructor
      · intro hlt; exact absurd hlt (lt_irrefl _)
      · rintro ⟨cs, ms, stmt, hv, _⟩
        cases hv
    | some stmt =>
      cases hscanned : stmtScanned D c stmt with
      | false =>
        rw [scanStmts_skip D treeFuel f c m stmt n hscanned] at h
        obtain ⟨hle, hiff⟩ := ih _ _ _ _ s h
        refine ⟨hle, hiff.trans ?_⟩
        constructor
        · rintro ⟨cs, ms, scanned, hv, hrw⟩
          exact ⟨cs, ms, scanned, StmtVisit.skip c m stmt cs ms scanned hscanned hv, hrw⟩
        · rintro ⟨cs, ms, scanned, hv, hrw⟩
          cases hv with
          | here _ _ _ hs => rw [hscanned] at hs; exact absurd hs (by simp)
          | skip _ _ _ _ _ _ _ hv' => exact ⟨cs, ms, scanned, hv', hrw⟩
          | next _ _ _ _ _ _ _ hs _ _ => rw [hscanned] at hs; exact absurd hs (by simp)
      | true =>
        cases ht : scanTrees D stmt treeFuel { c with compCurStmt := stmt } m
            (c.stmt stmt).treeList false with
        | error e =>
          rw [scanStmts_scan_error D treeFuel f c m stmt n e hscanned ht] at h
          exact absurd h (by simp)
        | ok t =>
          rw [scanStmts_scan D treeFuel f c m stmt n t hscanned ht] at h
          obtain ⟨hle, hiff⟩ := ih _ _ _ _ s h
          have hrew := scanTrees_rewritten D stmt treeFuel _ _ _ false t ht
          by_cases hb : t.isRewritten = true
          · rw [if_pos hb] at hle
            refine ⟨by omega, ?_⟩
            constructor
            · intro _
              rcases hrew.1 hb with hfalse | hvisit
              · exact absurd hfalse (by simp)
              · exact ⟨c, m, stmt, StmtVisit.here c m stmt hscanned, hvisit⟩
            · intro _; omega
          · rw [if_neg hb] at hle hiff
            refine ⟨hle, hiff.trans ?_⟩
            constructor
            · rintro ⟨cs, ms, scanned, hv, hrw⟩
              exact ⟨cs, ms, scanned, StmtVisit.next c m stmt t cs ms scanned hscanned ht hv, hrw⟩
            · rintro ⟨cs, ms, scanned, hv, hrw⟩
              cases hv with
              | here _ _ _ _ => exact absurd (hrew.2 (Or.inr hrw)) hb
              | skip _ _ _ _ _ _ hs _ => rw [hscanned] at hs; exact absurd hs (by simp)
              | next _ _ _ t' _ _ _ _ ht' hv' =>
                rw [ht] at ht'
                cases Except.ok.inj ht'
                exact ⟨cs, ms, scanned, hv', hrw⟩

/-- The loop over the blocks never decreases `numChanges`, and increases it
exactly when a call of `optEarlyPropRewriteTree` returns a tree. -/
theorem scanBlocks_changes (D : DriverHost) (treeFuel stmtFuel : Nat) :
    ∀ (blocks : List BlockId) (c : Compiler) (n : Nat) (c1 : Compiler) (n1 : Nat),
      scanBlocks D treeFuel stmtFuel blocks c n = Except.ok (c1, n1) →
      n ≤ n1 ∧ (n < n1 ↔ phaseRewrites D treeFuel stmtFuel blocks c n) := by
  intro blocks
  induction blocks with
  | nil =>
    intro c n c1 n1 h
    unfold scanBlocks at h
    cases Except.ok.inj h
    refine ⟨le_refl _, ?_⟩
    constructor
    · intro hlt; exact absurd hlt (lt_irrefl _)
    · rintro ⟨cv, mv, tree, ⟨cb, block, cs, ms, stmt, hb, _, _⟩, _⟩
      cases hb
  | cons block rest ih =>
    intro c n c1 n1 h
    unfold scanBlocks at h
    cases hs : scanBlock D treeFuel stmtFuel c block n with
    | error e => simp [hs] at h
    | ok s =>
      simp only [hs] at h
      obtain ⟨hle2, hiff2⟩ := ih _ _ _ _ h
      have hs' := hs
      unfold scanBlock at hs'
      obtain ⟨hle1, hiff1⟩ := scanStmts_changes D treeFuel stmtFuel _ _ _ _ s hs'
      refine ⟨le_trans hle1 hle2, ?_⟩
      constructor
      · intro hlt
        by_cases h1 : n < s.numChanges
        · obtain ⟨cs, ms, stmt, hv, cv, mv, tree, htv, hret⟩ := hiff1.1 h1
          exact ⟨cv, mv, tree,
            ⟨c, block, cs, ms, stmt, BlockVisit.here block rest c n, hv, htv⟩, hret⟩
        · obtain ⟨cv, mv, tree, ⟨cb, scanned, cs, ms, stmt, hb, hv, htv⟩, hret⟩ :=
            hiff2.1 (by omega)
          exact ⟨cv, mv, tree,
            ⟨cb, scanned, cs, ms, stmt, BlockVisit.next block rest c n s cb scanned hs hb, hv, htv⟩,
            hret⟩
      · rintro ⟨cv, mv, tree, ⟨cb, scanned, cs, ms, stmt, hb, hv, htv⟩, hret⟩
        cases hb with
        | here =>
          have := hiff1.2 ⟨cs, ms, stmt, hv, cv, mv, tree, htv, hret⟩
          omega
        | next _ _ _ _ s' _ _ hs'' hb' =>
          rw [hs] at hs''
          cases Except.ok.inj hs''
          have := hiff2.2 ⟨cv, mv, tree, ⟨cb, scanned, cs, ms, stmt, hb', hv, htv⟩, hret⟩
          omega


/-! ## The report of a fold to the driver -/

/-- After a fold, lines 151-211 return the node, or call `optRemoveRangeCheck`,
or return `nullptr` at line 166 for a length out of range. -/
theorem rewriteArrayLength_folded (J : JitHost) (c : Compiler) (tree actualVal : NodeId) :
    rewriteArrayLength J c tree actualVal true = RewriteExit.ret (some tree)
    ∨ (∃ check comma stmt,
        rewriteArrayLength J c tree actualVal true = RewriteExit.removeRangeCheck check comma stmt)
    ∨ (rewriteArrayLength J c tree actualVal true = RewriteExit.ret none
        ∧ ((c.node actualVal).iconValue < 0
          ∨ (c.node actualVal).iconValue > J.CORINFO_Array_MaxLength)) := by
  unfold rewriteArrayLength
  simp only
  split
  · rename_i hrange
    exact Or.inr (Or.inr ⟨rfl, hrange⟩)
  · split
    · exact Or.inl rfl
    · split
      · split
        · split
          · split
            · exact Or.inr (Or.inl ⟨_, _, _, rfl⟩)
            · exact Or.inl rfl
          · exact Or.inl rfl
        · exact Or.inl rfl
      · exact Or.inl rfl

/-- The only return of `optEarlyPropRewriteTree` that does not report a fold
is line 166: after a fold the function returns the node, or the result of
`optRemoveRangeCheck`, unless the node is an array-length node whose resolved
length is negative or beyond `CORINFO_Array_MaxLength`. -/
theorem rewriteTreeStep_fold_reported (J : JitHost) (c : Compiler) (tree : NodeId)
    (m : LocalNumberToNullCheckTreeMap) (s : RewriteStep) (res : FoldResult)
    (hind : J.OperIsIndirOrArrMetaData (c.node tree).gtOper = true)
    (hres : optFoldNullCheck J c tree m = Except.ok res) (hfolded : res.folded = true)
    (h : optEarlyPropRewriteTreeStep J c tree m = Except.ok s) :
    s.exit = RewriteExit.ret (some tree)
    ∨ (∃ check comma stmt, s.exit = RewriteExit.removeRangeCheck check comma stmt)
    ∨ (s.exit = RewriteExit.ret none
        ∧ ∃ actualVal, arrayLengthResolves J res.comp tree actualVal
            ∧ ((res.comp.node actualVal).iconValue < 0
              ∨ (res.comp.node actualVal).iconValue > J.CORINFO_Array_MaxLength)) := by
  unfold optEarlyPropRewriteTreeStep at h
  simp only [hind, if_true, hres, hfolded] at h
  split at h
  · rename_i hlen
    split at h
    · cases Except.ok.inj h
      exact Or.inl rfl
    · rename_i hlocal
      simp only [not_or, Bool.not_eq_false] at hlocal
      split at h
      · exact absurd h (by simp)
      · cases Except.ok.inj h
        exact Or.inl rfl
      · rename_i actualVal hval
        cases Except.ok.inj h
        rcases rewriteArrayLength_folded J res.comp tree actualVal with h1 | h2 | ⟨h3, hrange⟩
        · exact Or.inl h1
        · exact Or.inr (Or.inl h2)
        · exact Or.inr (Or.inr ⟨h3, actualVal, ⟨hlen, hlocal.1, hlocal.2, hval⟩, hrange⟩)
  · cases Except.ok.inj h
    exact Or.inl rfl

set_option maxRecDepth 100000 in
/-- C26 (the code at the failing input).  In `checkedLenIR (-1)`, with the
null check 21 of `x` in the map, `optFoldNullCheck` folds the null check into
the array-length node 23 and clears its `GTF_EXCEPT`; the length of `x`
resolves to the constant node 10, of value -1; `optEarlyPropRewriteTree`
returns `nullptr` for the node 23 (line 166), in a state where the null check
is folded, and `optEarlyProp` returns `MODIFIED_NOTHING` for the method.  With
the length 5 the same call returns the node 23. -/
theorem fold_not_reported_out_of_range :
    (∃ res, optFoldNullCheck demoHost (checkedLenIR (-1)) 23 (emptyMap.Set 0 21) = Except.ok res
      ∧ res.folded = true
      ∧ ((checkedLenIR (-1)).node 21).gtFlags.GTF_EXCEPT = true
      ∧ (res.comp.node 21).gtFlags.GTF_EXCEPT = false)
    ∧ optPropGetValue demoHost (checkedLenIR (-1)) 0 1 optPropKind.OPK_ARRAYLEN
        = Except.ok (some 10)
    ∧ ((checkedLenIR (-1)).node 10).iconValue = -1
    ∧ (∃ r, optEarlyPropRewriteTree demoHost (checkedLenIR (-1)) 23 (emptyMap.Set 0 21)
          = Except.ok r
      ∧ r.tree = none
      ∧ (r.comp.node 21).gtFlags.GTF_EXCEPT = false)
    ∧ (∃ res, optEarlyProp demoDriverHost 8 4 bothFlags [0] (checkedLenIR (-1)) = Except.ok res
      ∧ res.status = PhaseStatus.MODIFIED_NOTHING
      ∧ (res.comp.node 21).gtFlags.GTF_EXCEPT = false)
    ∧ (∃ r, optEarlyPropRewriteTree demoHost (checkedLenIR 5) 23 (emptyMap.Set 0 21)
          = Except.ok r
      ∧ r.tree = some 23) :=
  ⟨⟨_, rfl, rfl, rfl, rfl⟩, rfl, rfl, ⟨_, rfl, rfl, rfl⟩, ⟨_, rfl, rfl, rfl⟩, ⟨_, rfl, rfl⟩⟩


/-! ## The calls of `optEarlyPropRewriteTree` that return a tree -/

/-- Lines 151-211 return a node only after a fold. -/
theorem rewriteArrayLength_ret_some (J : JitHost) (c : Compiler) (tree actualVal : NodeId)
    (folded : Bool) (t : NodeId)
    (h : rewriteArrayLength J c tree actualVal folded = RewriteExit.ret (some t)) :
    folded = true := by
  unfold rewriteArrayLength at h
  simp only at h
  have hft : ∀ t, RewriteExit.ret (if folded = true then some tree else none)
      = RewriteExit.ret (some t) → folded = true := by
    intro t ht
    cases folded with
    | true => rfl
    | false => simp at ht
  split at h
  · simp at h
  · split at h
    · exact hft t h
    · split at h
      · split at h
        · split at h
          · split at h
            · simp at h
            · exact hft t h
          · exact hft t h
        · exact hft t h
      · exact hft t h

/-- A call of `optEarlyPropRewriteTree` returns a tree only if its call of
`optFoldNullCheck` folded a null check or it removed a bounds check. -/
theorem returnsTree_fold_or_removal (J : JitHost) (c : Compiler)
    (m : LocalNumberToNullCheckTreeMap) (tree : NodeId) (h : returnsTree J c m tree) :
    foldsOrRemoves J c m tree := by
  obtain ⟨r, t, hr, ht⟩ := h
  unfold optEarlyPropRewriteTree at hr
  cases hs : optEarlyPropRewriteTreeStep J c tree m with
  | error e => simp [hs] at hr
  | ok s =>
    simp only [hs] at hr
    cases hexit : s.exit with
    | removeRangeCheck check comma stmt => exact Or.inr ⟨s, check, comma, stmt, hs, hexit⟩
    | ret t' =>
      simp only [hexit] at hr
      cases Except.ok.inj hr
      simp only at ht
      subst ht
      left
      have hfolded : J.OperIsIndirOrArrMetaData (c.node tree).gtOper = true
          ∧ ∃ res, optFoldNullCheck J c tree m = Except.ok res ∧ res.folded = true := by
        have hret : ∀ (res : FoldResult) (t : NodeId),
            (if res.folded = true then some tree else none) = some t → res.folded = true := by
          intro res t ht
          cases hf : res.folded with
          | true => rfl
          | false => simp [hf] at ht
        unfold optEarlyPropRewriteTreeStep at hs
        split at hs
        · rename_i hind
          refine ⟨hind, ?_⟩
          split at hs
          · exact absurd hs (by simp)
          · rename_i res hres
            refine ⟨res, hres, ?_⟩
            simp only at hs
            split at hs
            · split at hs
              · cases Except.ok.inj hs
                simp only [RewriteExit.ret.injEq] at hexit
                exact hret res t hexit
              · split at hs
                · exact absurd hs (by simp)
                · cases Except.ok.inj hs
                  simp only [RewriteExit.ret.injEq] at hexit
                  exact hret res t hexit
                · cases Except.ok.inj hs
                  exact rewriteArrayLength_ret_some J _ _ _ _ t hexit
            · cases Except.ok.inj hs
              simp only [RewriteExit.ret.injEq] at hexit
              exact hret res t hexit
        · cases Except.ok.inj hs
          simp at hexit
      obtain ⟨hind, res, hres, hf⟩ := hfolded
      rcases optFoldNullCheck_cases J c tree m res hres with hcase | ⟨nct, lr, hfold, _⟩
      · rw [hcase, (recordNullCheck_comp c tree m false).2] at hf
        exact absurd hf (by simp)
      · exact ⟨hind, nct, lr, hfold⟩


/-! ## Termination of the loops of `optEarlyProp` -/

/-- When every statement has a root, the third loop of the legality checker
dereferences no null pointer. -/
theorem statementWalk_no_fault (J : JitHost) (c : Compiler) (ins : Bool) (root : NodeId)
    (hroots : ∀ st, (c.stmt st).rootNode ≠ none) :
    ∀ (fuel : Nat) (s : LegalityWalk), s.currentTree ≠ none →
      statementWalk J c ins root fuel s ≠ Except.error Fault.nullDeref := by
  intro fuel
  induction fuel with
  | zero => intro s _; simp [statementWalk]
  | succ f ih =>
    intro s hcur
    unfold statementWalk
    split
    · split
      · exact ih _ hcur
      · split
        · rename_i hnone
          exact absurd hnone hcur
        · split
          · exact ih _ hcur
          · exact ih _ (hroots _)
    · simp

/-- When every statement has a root, the legality checker returns. -/
theorem optIsNullCheckFoldingLegal_returns (J : JitHost) (c : Compiler)
    (tree nullCheckTree : NodeId) (nullCheckParent : Option NodeId)
    (hroots : ∀ st, (c.stmt st).rootNode ≠ none) :
    ∃ r, optIsNullCheckFoldingLegal J c tree nullCheckTree nullCheckParent = Except.ok r := by
  obtain ⟨s1, hs1⟩ := forwardWalk_total J c tree nullCheckTree (c.hasTryIndex c.compCurBB)
    legalityFuel
    { canRemoveNullCheck := true, nodesWalked := 0, previousTree := nullCheckTree,
      currentTree := (c.node nullCheckTree).gtNext, nullCheckParent := nullCheckParent,
      curStmt := c.compCurStmt }
    (by simp [legalityFuel]) (by simp [legalityFuel])
  unfold optIsNullCheckFoldingLegal
  simp only [hs1]
  split
  · exact ⟨_, rfl⟩
  · obtain ⟨s2, hs2⟩ := backwardWalk_total J c (c.hasTryIndex c.compCurBB) legalityFuel
      { s1 with currentTree := (c.node tree).gtPrev }
      (by simp [legalityFuel]) (by simp [legalityFuel])
    simp only [hs2]
    rcases statementWalk_total J c (c.hasTryIndex c.compCurBB) s1.previousTree legalityFuel
      { s2 with curStmt := (c.stmt c.compCurStmt).prevStmt,
                currentTree := (c.stmt (c.stmt c.compCurStmt).prevStmt).rootNode }
      (by simp [legalityFuel]) (by simp [legalityFuel]) with ⟨s3, hs3⟩ | hs3
    · simp only [hs3]
      exact ⟨_, rfl⟩
    · exact absurd hs3 (statementWalk_no_fault J c _ _ hroots _ _ (hroots _))

/-- The flag updates of a fold keep the invariant of a scan order. -/
theorem foldFlagUpdates_keeps_order (D : DriverHost) (Inv : Compiler → Prop)
    (rankN : NodeId → Nat) (rankS : StmtId → Nat) (ho : ScanOrder D Inv rankN rankS)
    (c : Compiler) (tree nct : NodeId) (parent : Option NodeId) (hinv : Inv c) :
    Inv (foldFlagUpdates c tree nct parent) := by
  unfold foldFlagUpdates
  cases parent with
  | none => exact ho.keeps_setFlags _ _ _ (ho.keeps_setFlags _ _ _ hinv)
  | some p =>
    exact ho.keeps_setFlags _ _ _ (ho.keeps_setFlags _ _ _ (ho.keeps_setFlags _ _ _ hinv))

/-- The re-morph of a fold keeps the invariant of a scan order. -/
theorem remorphNullCheckStmt_keeps_order (D : DriverHost) (Inv : Compiler → Prop)
    (rankN : NodeId → Nat) (rankS : StmtId → Nat) (ho : ScanOrder D Inv rankN rankS)
    (c : Compiler) (stmt : StmtId) (hinv : Inv c) :
    Inv (remorphNullCheckStmt D.toJitHost c stmt) := by
  unfold remorphNullCheckStmt
  exact ho.keeps_compCurStmt _ _
    (ho.keeps_optRecordSsaUses _ _ _ (ho.keeps_fgMorphBlockStmt _ _ _ hinv))

/-- In a state of a scan order `optFoldNullCheck` returns, in such a state. -/
theorem optFoldNullCheck_returns (D : DriverHost) (Inv : Compiler → Prop)
    (rankN : NodeId → Nat) (rankS : StmtId → Nat) (ho : ScanOrder D Inv rankN rankS)
    (c : Compiler) (tree : NodeId) (m : LocalNumberToNullCheckTreeMap) (hinv : Inv c) :
    ∃ res, optFoldNullCheck D.toJitHost c tree m = Except.ok res ∧ Inv res.comp := by
  have hrec : ∀ (c' : Compiler) (m' : LocalNumberToNullCheckTreeMap) (f : Bool), Inv c' →
      Inv (recordNullCheck c' tree m' f).comp := by
    intro c' m' f h
    rw [(recordNullCheck_comp c' tree m' f).1]
    exact h
  unfold optFoldNullCheck
  split
  · exact ⟨_, rfl, hrec _ _ _ hinv⟩
  · rename_i nct _
    obtain ⟨r, hr⟩ := optIsNullCheckFoldingLegal_returns D.toJitHost c tree nct none
      (fun st => ho.root_some c st hinv)
    simp only [hr]
    split
    · refine ⟨_, rfl, hrec _ _ _ ?_⟩
      rw [foldNullCheckInto_eq]
      exact remorphNullCheckStmt_keeps_order D Inv rankN rankS ho _ _
        (foldFlagUpdates_keeps_order D Inv rankN rankS ho c tree nct _ hinv)
    · exact ⟨_, rfl, hrec _ _ _ hinv⟩

/-- In a state of a scan order the body of `optEarlyPropRewriteTree` returns,
in such a state. -/
theorem rewriteTreeStep_returns (D : DriverHost) (Inv : Compiler → Prop)
    (rankN : NodeId → Nat) (rankS : StmtId → Nat) (ho : ScanOrder D Inv rankN rankS)
    (c : Compiler) (tree : NodeId) (m : LocalNumberToNullCheckTreeMap) (hinv : Inv c) :
    ∃ s, optEarlyPropRewriteTreeStep D.toJitHost c tree m = Except.ok s ∧ Inv s.comp
      ∧ (∀ t, s.exit = RewriteExit.ret (some t) → t = tree)
      ∧ (∀ check comma stmt, s.exit = RewriteExit.removeRangeCheck check comma stmt →
          (s.comp.node tree).gtNext = some check
          ∧ (s.comp.node check).gtOper = genTreeOps.GT_BOUNDS_CHECK) := by
  have hret : ∀ (b : Bool) (t : NodeId),
      RewriteExit.ret (if b = true then some tree else none) = RewriteExit.ret (some t) →
      t = tree := by
    intro b t h
    cases b with
    | true => simpa using h.symm
    | false => simp at h
  unfold optEarlyPropRewriteTreeStep
  split
  · obtain ⟨res, hres, hinv'⟩ := optFoldNullCheck_returns D Inv rankN rankS ho c tree m hinv
    simp only [hres]
    split
    · split
      · exact ⟨_, rfl, hinv', fun t h => hret _ t h, fun _ _ _ h => absurd h (by simp)⟩
      · obtain ⟨v, hv⟩ := optPropGetValueRec_total D.toJitHost res.comp optPropKind.OPK_ARRAYLEN
          ((D.optEarlyPropRecurBound + 1).toNat + 1)
          (res.comp.node (res.comp.node tree).gtOp1).lclNum
          (res.comp.node (res.comp.node tree).gtOp1).ssaNum 0 (by omega)
        have hv' : optPropGetValue D.toJitHost res.comp
            (res.comp.node (res.comp.node tree).gtOp1).lclNum
            (res.comp.node (res.comp.node tree).gtOp1).ssaNum optPropKind.OPK_ARRAYLEN
            = Except.ok v := hv
        rw [hv']
        cases v with
        | none =>
          exact ⟨_, rfl, hinv', fun t h => hret _ t h, fun _ _ _ h => absurd h (by simp)⟩
        | some actualVal =>
          refine ⟨_, rfl, hinv', ?_, ?_⟩
          · intro t h
            simp only at h
            unfold rewriteArrayLength at h
            simp only at h
            split at h
            · simp at h
            · split at h
              · exact hret _ t h
              · split at h
                · split at h
                  · split at h
                    · split at h
                      · simp at h
                      · exact hret _ t h
                    · exact hret _ t h
                  · exact hret _ t h
                · exact hret _ t h
          · intro check comma stmt h
            have hrem := (rewriteArrayLength_remove D.toJitHost res.comp tree actualVal res.folded
              check comma stmt h).2.2.1
            exact ⟨hrem.1, hrem.2.1⟩
    · exact ⟨_, rfl, hinv', fun t h => hret _ t h, fun _ _ _ h => absurd h (by simp)⟩
  · exact ⟨_, rfl, hinv, fun t h => absurd h (by simp), fun _ _ _ h => absurd h (by simp)⟩

/-- In a state of a scan order `optEarlyPropRewriteTree` returns, in such a
state, and the tree it returns does not stand before `tree`. -/
theorem rewriteTree_returns (D : DriverHost) (Inv : Compiler → Prop)
    (rankN : NodeId → Nat) (rankS : StmtId → Nat) (ho : ScanOrder D Inv rankN rankS)
    (c : Compiler) (tree : NodeId) (m : LocalNumberToNullCheckTreeMap) (hinv : Inv c) :
    ∃ r, optEarlyPropRewriteTree D.toJitHost c tree m = Except.ok r ∧ Inv r.comp
      ∧ ∀ t, r.tree = some t → rankN t ≤ rankN tree := by
  obtain ⟨s, hs, hinv', hret, hrem⟩ := rewriteTreeStep_returns D Inv rankN rankS ho c tree m hinv
  unfold optEarlyPropRewriteTree
  simp only [hs]
  cases hexit : s.exit with
  | ret t' =>
    refine ⟨_, rfl, hinv', ?_⟩
    intro t ht
    simp only at ht
    subst ht
    rw [hret t hexit]
  | removeRangeCheck check comma stmt =>
    refine ⟨_, rfl, ho.keeps_optRemoveRangeCheck _ _ _ _ hinv', ?_⟩
    intro t ht
    have h1 := ho.optRemoveRangeCheck_le s.comp check comma stmt t hinv'
      (hrem check comma stmt hexit).2 ht
    have h2 := ho.next_lt s.comp tree check hinv' (hrem check comma stmt hexit).1
    omega

/-- With fuel above the rank of the node at which it stands, the loop over
the nodes of a statement returns, in a state of the scan order. -/
theorem scanTrees_returns (D : DriverHost) (Inv : Compiler → Prop)
    (rankN : NodeId → Nat) (rankS : StmtId → Nat) (ho : ScanOrder D Inv rankN rankS)
    (stmt : StmtId) :
    ∀ (fuel : Nat) (c : Compiler) (m : LocalNumberToNullCheckTreeMap) (cur : Option NodeId)
      (b : Bool), Inv c → (∀ t, cur = some t → rankN t < fuel) →
      ∃ ts, scanTrees D stmt fuel c m cur b = Except.ok ts ∧ Inv ts.comp := by
  intro fuel
  induction fuel with
  | zero =>
    intro c m cur b hinv hrank
    cases cur with
    | none => exact ⟨_, by unfold scanTrees; rfl, hinv⟩
    | some t => exact absurd (hrank t rfl) (by omega)
  | succ f ih =>
    intro c m cur b hinv hrank
    cases cur with
    | none => exact ⟨_, by unfold scanTrees; rfl, hinv⟩
    | some tree =>
      obtain ⟨r, hr, hinv', hle⟩ := rewriteTree_returns D Inv rankN rankS ho c tree m hinv
      rw [scanTrees_step D stmt f c m tree b r hr]
      have htree := hrank tree rfl
      apply ih
      · unfold afterRewrite
        cases r.tree with
        | none => exact hinv'
        | some rt => exact ho.keeps_gtUpdateSideEffects _ _ _ hinv'
      · intro t ht
        unfold afterRewrite at ht
        cases hrt : r.tree with
        | none =>
          rw [hrt] at ht
          have := ho.next_lt r.comp tree t hinv' ht
          omega
        | some rt =>
          rw [hrt] at ht
          have h1 := ho.next_lt _ rt t (ho.keeps_gtUpdateSideEffects r.comp stmt rt hinv') ht
          have h2 := hle rt hrt
          omega

/-- With fuel above the ranks, the loop over the statements of a block
returns, in a state of the scan order. -/
theorem scanStmts_returns (D : DriverHost) (Inv : Compiler → Prop)
    (rankN : NodeId → Nat) (rankS : StmtId → Nat) (ho : ScanOrder D Inv rankN rankS)
    (treeFuel : Nat) (htrees : ∀ i, rankN i < treeFuel) :
    ∀ (fuel : Nat) (c : Compiler) (m : LocalNumberToNullCheckTreeMap) (cur : Option StmtId)
      (n : Nat), Inv c → (∀ s, cur = some s → rankS s < fuel) →
      ∃ ss, scanStmts D treeFuel fuel c m cur n = Except.ok ss ∧ Inv ss.comp := by
  intro fuel
  induction fuel with
  | zero =>
    intro c m cur n hinv hrank
    cases cur with
    | none => exact ⟨_, by unfold scanStmts; rfl, hinv⟩
    | some s => exact absurd (hrank s rfl) (by omega)
  | succ f ih =>
    intro c m cur n hinv hrank
    cases cur with
    | none => exact ⟨_, by unfold scanStmts; rfl, hinv⟩
    | some stmt =>
      have hnext : ∀ s, (c.stmt stmt).nextStmt = some s → rankS s < f := by
        intro s hs
        have h1 := ho.nextStmt_lt c stmt s hinv hs
        have h2 := hrank stmt rfl
        omega
      cases hscanned : stmtScanned D c stmt with
      | false =>
        rw [scanStmts_skip D treeFuel f c m stmt n hscanned]
        exact ih _ _ _ _ hinv hnext
      | true =>
        obtain ⟨t, ht, hinv'⟩ := scanTrees_returns D Inv rankN rankS ho stmt treeFuel
          { c with compCurStmt := stmt } m (c.stmt stmt).treeList false
          (ho.keeps_compCurStmt _ _ hinv) (fun i _ => htrees i)
        rw [scanStmts_scan D treeFuel f c m stmt n t hscanned ht]
        apply ih _ _ _ _ _ hnext
        unfold afterStmt
        split
        · exact ho.keeps_fgSetStmtSeq _ _ (ho.keeps_gtSetStmtInfo _ _ hinv')
        · exact hinv'

/-- With fuel above the ranks, the loop over the blocks returns. -/
theorem scanBlocks_returns (D : DriverHost) (Inv : Compiler → Prop)
    (rankN : NodeId → Nat) (rankS : StmtId → Nat) (ho : ScanOrder D Inv rankN rankS)
    (treeFuel stmtFuel : Nat) (htrees : ∀ i, rankN i < treeFuel)
    (hstmts : ∀ s, rankS s < stmtFuel) :
    ∀ (blocks : List BlockId) (c : Compiler) (n : Nat), Inv c →
      ∃ p, scanBlocks D treeFuel stmtFuel blocks c n = Except.ok p ∧ Inv p.1 := by
  intro blocks
  induction blocks with
  | nil => intro c n hinv; exact ⟨_, by unfold scanBlocks; rfl, hinv⟩
  | cons block rest ih =>
    intro c n hinv
    obtain ⟨ss, hss, hinv'⟩ := scanStmts_returns D Inv rankN rankS ho treeFuel htrees stmtFuel
      { c with compCurBB := block } (fun _ => none)
      (D.firstStmt { c with compCurBB := block } block) n (ho.keeps_compCurBB _ _ hinv)
      (fun s _ => hstmts s)
    have hblock : scanBlock D treeFuel stmtFuel c block n = Except.ok ss := hss
    unfold scanBlocks
    simp only [hblock]
    exact ih _ _ hinv'

/-- With fuel above the ranks of a scan order, `optEarlyProp` returns. -/
theorem optEarlyProp_returns (D : DriverHost) (Inv : Compiler → Prop)
    (rankN : NodeId → Nat) (rankS : StmtId → Nat) (ho : ScanOrder D Inv rankN rankS)
    (treeFuel stmtFuel : Nat) (htrees : ∀ i, rankN i < treeFuel)
    (hstmts : ∀ s, rankS s < stmtFuel) (optMethodFlags : OptMethodFlags)
    (blocks : List BlockId) (c : Compiler) (hinv : Inv c) :
    ∃ res, optEarlyProp D treeFuel stmtFuel optMethodFlags blocks c = Except.ok res := by
  unfold optEarlyProp
  split
  · exact ⟨_, rfl⟩
  · obtain ⟨p, hp, _⟩ := scanBlocks_returns D Inv rankN rankS ho treeFuel stmtFuel htrees
      hstmts blocks c 0 hinv
    obtain ⟨c1, n1⟩ := p
    simp only [hp]
    exact ⟨_, rfl⟩

/-- The host of the examples keeps the shape of the IR: with it, an order of
the nodes and statements of a state without bounds checks is a scan order for
the states of the same shape. -/
theorem demoDriverHost_scanOrder (c0 : Compiler) (rankN : NodeId → Nat) (rankS : StmtId → Nat)
    (hn : ∀ i j, (c0.node i).gtNext = some j → rankN j < rankN i)
    (hs : ∀ s t, (c0.stmt s).nextStmt = some t → rankS t < rankS s)
    (hroot : ∀ s, (c0.stmt s).rootNode ≠ none)
    (hnocheck : ∀ i, (c0.node i).gtOper ≠ genTreeOps.GT_BOUNDS_CHECK) :
    ScanOrder demoDriverHost (keepsShape c0) rankN rankS where
  next_lt := fun c i j hinv h => hn i j (by rw [← (hinv.1 i).1]; exact h)
  nextStmt_lt := fun c s t hinv h => hs s t (by rw [← hinv.2]; exact h)
  root_some := fun c s hinv => by rw [hinv.2]; exact hroot s
  keeps_setFlags := fun c t f hinv => by
    refine ⟨fun i => ?_, hinv.2⟩
    unfold Compiler.setFlags
    by_cases h : i = t
    · subst h
      simpa using hinv.1 i
    · simpa [h] using hinv.1 i
  keeps_compCurBB := fun c b hinv => hinv
  keeps_compCurStmt := fun c s hinv => hinv
  keeps_fgMorphBlockStmt := fun c b s hinv => hinv
  keeps_optRecordSsaUses := fun c r b hinv => hinv
  keeps_optRemoveRangeCheck := fun c check comma s hinv => hinv
  optRemoveRangeCheck_le := fun c check comma s t hinv hcheck _ =>
    absurd ((hinv.1 check).2 ▸ hcheck) (hnocheck check)
  keeps_gtUpdateSideEffects := fun c s t hinv => hinv
  keeps_gtSetStmtInfo := fun c s hinv => hinv
  keeps_fgSetStmtSeq := fun c s hinv => hinv

/-- In `sameStmtIR`, `gtNext` leads from a node to the node with the next
number, there is no bounds check, and the only statement has no successor. -/
theorem sameStmtIR_order :
    (∀ i j, ((sameStmtIR constEight).node i).gtNext = some j → 100 - j < 100 - i)
    ∧ (∀ s t, ((sameStmtIR constEight).stmt s).nextStmt = some t → (0 : Nat) < 0)
    ∧ (∀ s, ((sameStmtIR constEight).stmt s).rootNode ≠ none)
    ∧ (∀ i, ((sameStmtIR constEight).node i).gtOper ≠ genTreeOps.GT_BOUNDS_CHECK) := by
  refine ⟨?_, ?_, ?_, ?_⟩
  · intro i j h
    simp only [sameStmtIR, demoCompiler, sameStmtNodes] at h
    split at h <;> simp [demoNode] at h <;> (subst h; decide)
  · intro s t h
    simp [sameStmtIR, demoCompiler, demoStmt] at h
  · intro s
    simp [sameStmtIR, demoCompiler, demoStmt]
  · intro i
    simp only [sameStmtIR, demoCompiler, sameStmtNodes]
    split <;> simp [demoNode, constEight]

/-- C25.  `optEarlyProp` returns `MODIFIED_NOTHING` without scanning any block
(the state is the one on entry) when the method has neither `OMF_HAS_ARRAYREF`
nor `OMF_HAS_NULLCHECK` set.  Otherwise it returns `MODIFIED_EVERYTHING` if at
least one statement was rewritten (`optEarlyPropRewriteTree` returned a tree
for some node of a scanned statement) and `MODIFIED_NOTHING` if none was; and
it does return, when the nodes and the statements have an order that the run
keeps and the fuel of the loops is above the ranks of that order. -/
theorem phase_status_reports_rewrites (D : DriverHost) (treeFuel stmtFuel : Nat)
    (optMethodFlags : OptMethodFlags) (blocks : List BlockId) (c : Compiler) :
    (optMethodFlags.OMF_HAS_ARRAYREF = false → optMethodFlags.OMF_HAS_NULLCHECK = false →
      optEarlyProp D treeFuel stmtFuel optMethodFlags blocks c
        = Except.ok { comp := c, status := PhaseStatus.MODIFIED_NOTHING })
    ∧ ((optMethodFlags.OMF_HAS_ARRAYREF = true ∨ optMethodFlags.OMF_HAS_NULLCHECK = true) →
        ∀ res, optEarlyProp D treeFuel stmtFuel optMethodFlags blocks c = Except.ok res →
          (res.status = PhaseStatus.MODIFIED_EVERYTHING
            ↔ phaseRewrites D treeFuel stmtFuel blocks c 0)
          ∧ (res.status = PhaseStatus.MODIFIED_NOTHING
            ↔ ¬ phaseRewrites D treeFuel stmtFuel blocks c 0))
    ∧ (∀ (Inv : Compiler → Prop) (rankN : NodeId → Nat) (rankS : StmtId → Nat),
        ScanOrder D Inv rankN rankS → (∀ i, rankN i < treeFuel) → (∀ s, rankS s < stmtFuel) →
        Inv c →
        ∃ res, optEarlyProp D treeFuel stmtFuel optMethodFlags blocks c = Except.ok res) := by
  refine ⟨?_, ?_, ?_⟩
  · intro h1 h2
    unfold optEarlyProp optDoEarlyPropForFunc
    simp [h1, h2]
  · intro hflags res hres
    have hdo : optDoEarlyPropForFunc optMethodFlags = true := by
      unfold optDoEarlyPropForFunc
      rcases hflags with h | h <;> simp [h]
    unfold optEarlyProp at hres
    simp only [hdo, Bool.not_true, Bool.false_eq_true, if_false] at hres
    cases hs : scanBlocks D treeFuel stmtFuel blocks c 0 with
    | error e => simp [hs] at hres
    | ok p =>
      obtain ⟨c1, n1⟩ := p
      simp only [hs] at hres
      cases Except.ok.inj hres
      obtain ⟨_, hiff⟩ := scanBlocks_changes D treeFuel stmtFuel blocks c 0 c1 n1 hs
      by_cases hn : 0 < n1
      · have hrw := hiff.1 hn
        simp [hn, hrw]
      · have hrw : ¬ phaseRewrites D treeFuel stmtFuel blocks c 0 := fun h => hn (hiff.2 h)
        simp [hn, hrw]
  · intro Inv rankN rankS ho htrees hstmts hinv
    exact optEarlyProp_returns D Inv rankN rankS ho treeFuel stmtFuel htrees hstmts
      optMethodFlags blocks c hinv

/-- C25 (witness): without the two method flags the phase returns
`MODIFIED_NOTHING` and the state on entry; with them, on `sameStmtIR` it
returns, and it returns `MODIFIED_EVERYTHING`, so a call of
`optEarlyPropRewriteTree` returned a tree; on `redefIR` it returns
`MODIFIED_NOTHING`, so none did. -/
theorem phase_status_reports_rewrites_witness :
    optEarlyProp demoDriverHost 101 1 noMethodFlags [0] (sameStmtIR constEight)
      = Except.ok { comp := sameStmtIR constEight, status := PhaseStatus.MODIFIED_NOTHING }
    ∧ (∃ res, optEarlyProp demoDriverHost 101 1 bothFlags [0] (sameStmtIR constEight)
        = Except.ok res)
    ∧ phaseRewrites demoDriverHost 101 1 [0] (sameStmtIR constEight) 0
    ∧ ¬ phaseRewrites demoDriverHost 8 4 [0] redefIR 0 :=
  ⟨(phase_status_reports_rewrites demoDriverHost 101 1 noMethodFlags [0]
      (sameStmtIR constEight)).1 rfl rfl,
   (phase_status_reports_rewrites demoDriverHost 101 1 bothFlags [0]
      (sameStmtIR constEight)).2.2 (keepsShape (sameStmtIR constEight)) (fun i => 100 - i)
      (fun _ => 0)
      (demoDriverHost_scanOrder (sameStmtIR constEight) (fun i => 100 - i) (fun _ => 0)
        sameStmtIR_order.1 sameStmtIR_order.2.1 sameStmtIR_order.2.2.1 sameStmtIR_order.2.2.2)
      (fun i => Nat.lt_succ_of_le (Nat.sub_le 100 i)) (fun _ => Nat.zero_lt_one)
      ⟨fun _ => ⟨rfl, rfl⟩, rfl⟩,
   ((phase_status_reports_rewrites demoDriverHost 101 1 bothFlags [0]
      (sameStmtIR constEight)).2.1 (Or.inl rfl) _ rfl).1.1 rfl,
   ((phase_status_reports_rewrites demoDriverHost 8 4 bothFlags [0] redefIR).2.1 (Or.inl rfl)
      _ rfl).2.1 rfl⟩


/-! ## The secondary pattern on IR in SSA form -/

/-- Every read of a local in `secondaryIR 1` has the SSA number 1. -/
theorem secondaryIR_reads (u : NodeId)
    (h : ((secondaryIR 1).node u).gtOper = genTreeOps.GT_LCL_VAR) :
    ((secondaryIR 1).node u).ssaNum = 1 := by
  unfold secondaryIR demoCompiler secondaryNodes at *
  simp only at *
  split at h <;> first | rfl | (exact absurd h (by simp [demoNode]))

/-- The reads of `secondaryIR 1` are in SSA form. -/
theorem secondaryIR_ssa_form : readsInSsaForm demoHost (secondaryIR 1) := by
  intro u u' between hu hu' _ _ _
  rw [secondaryIR_reads u hu, secondaryIR_reads u' hu']

/-- The only value of the shape `comma(nullcheck(y), add(y', c))` in
`secondaryIR 1` is the node 85, and only the null check 81 stands between its
two reads of `y`. -/
theorem secondaryIR_in_order : nullCheckThenAddInOrder demoHost (secondaryIR 1) := by
  intro v hv
  have hv85 : v = 85 := by
    have h := hv.1
    unfold secondaryIR demoCompiler secondaryNodes at h
    simp only at h
    split at h <;> first | rfl | (exact absurd h (by simp [demoNode]))
  subst hv85
  refine ⟨[81], by decide, ?_⟩
  intro n hn
  have h81 : n = 81 := by simpa using hn
  subst h81
  rintro (h | h) <;> exact absurd h (by decide)

/-- With the SSA number 2 at the second read of `y`, the reads of
`secondaryIR 2` are not in SSA form: no definition of `y` stands between the
read of `y@1` and the read of `y@2`. -/
theorem secondaryIR_two_not_ssa_form : ¬ readsInSsaForm demoHost (secondaryIR 2) := by
  intro h
  have h12 := h 80 82 [81] rfl rfl rfl (by decide) (by
    intro n hn
    have h81 : n = 81 := by simpa using hn
    subst h81
    rintro (h | h) <;> exact absurd h (by decide))
  exact absurd h12 (by decide)

/-- C5.  Whenever `optFindNullCheckToFold` returns a candidate that was not
taken from the map, for an indirection with base `x@v`, the definition of
`x@v` is a whole-variable store (`GT_STORE_LCL_VAR`) to `x` located in the
current basic block, whose value is a `GT_COMMA` with a first operand whose
effective value is a `GT_NULLCHECK` of a `GT_LCL_VAR` `y` and with second
operand `add(y', c)`, where `c` is an integer constant and `y'` is a
`GT_LCL_VAR` that reads the same local as `y` at the same SSA version; the
returned candidate is exactly that null check.  The code compares the local
numbers of `y` and `y'` (lines 474-476); that the SSA versions agree follows
from the form of the IR that the phase runs on: the reads are in SSA form and
the nodes are threaded in evaluation order, so nothing that defines a local
stands between the read of `y` and the read of `y'`. -/
theorem secondary_candidate_same_version (J : JitHost) (c : Compiler) (tree : NodeId)
    (nullCheckMap : LocalNumberToNullCheckTreeMap) (nc : NodeId)
    (hssa : readsInSsaForm J c) (horder : nullCheckThenAddInOrder J c)
    (hfind : optFindNullCheckToFold J c tree nullCheckMap = some nc)
    (hmap : nullCheckFromMap c nullCheckMap (c.node (indirBase J c tree).1).lclNum
              (c.node (indirBase J c tree).1).ssaNum = none) :
    ∃ d, ((c.lvaTable (c.node (indirBase J c tree).1).lclNum).perSsaData
            (c.node (indirBase J c tree).1).ssaNum).defNode = some d
      ∧ ((c.lvaTable (c.node (indirBase J c tree).1).lclNum).perSsaData
            (c.node (indirBase J c tree).1).ssaNum).block = c.compCurBB
      ∧ (c.node d).gtOper = genTreeOps.GT_STORE_LCL_VAR
      ∧ (c.node d).lclNum = (c.node (indirBase J c tree).1).lclNum
      ∧ isNullCheckThenAdd J c (J.Data c d)
      ∧ (c.node (c.node (c.node (J.Data c d)).gtOp2).gtOp1).ssaNum
          = (c.node (c.node (J.gtEffectiveVal c (c.node (J.Data c d)).gtOp1)).gtOp1).ssaNum
      ∧ nc = J.gtEffectiveVal c (c.node (J.Data c d)).gtOp1 := by
  obtain ⟨d, h1, h2, h3, h4, h5, h6⟩ :=
    secondary_candidate_shape J c tree nullCheckMap nc hfind hmap
  obtain ⟨between, hlinked, hnodef⟩ := horder (J.Data c d) h5
  exact ⟨d, h1, h2, h3, h4, h5,
    (hssa _ _ between h5.2.2.1 h5.2.2.2.2.1 h5.2.2.2.2.2.1.symm hlinked hnodef).symm, h6⟩

/-- C5 (witness): `secondaryIR 1`, where `x@1` is defined as
`comma(nullcheck(y@1), add(y@1, 8))` and the map is empty; the candidate for
the indirection 88 is the null check 81. -/
theorem secondary_candidate_same_version_witness :
    readsInSsaForm demoHost (secondaryIR 1)
    ∧ nullCheckThenAddInOrder demoHost (secondaryIR 1)
    ∧ optFindNullCheckToFold demoHost (secondaryIR 1) 88 emptyMap = some 81
    ∧ ∃ d, (((secondaryIR 1).lvaTable
            ((secondaryIR 1).node (indirBase demoHost (secondaryIR 1) 88).1).lclNum).perSsaData
            ((secondaryIR 1).node (indirBase demoHost (secondaryIR 1) 88).1).ssaNum).defNode
          = some d
      ∧ (((secondaryIR 1).lvaTable
            ((secondaryIR 1).node (indirBase demoHost (secondaryIR 1) 88).1).lclNum).perSsaData
            ((secondaryIR 1).node (indirBase demoHost (secondaryIR 1) 88).1).ssaNum).block
          = (secondaryIR 1).compCurBB
      ∧ ((secondaryIR 1).node d).gtOper = genTreeOps.GT_STORE_LCL_VAR
      ∧ ((secondaryIR 1).node d).lclNum
          = ((secondaryIR 1).node (indirBase demoHost (secondaryIR 1) 88).1).lclNum
      ∧ isNullCheckThenAdd demoHost (secondaryIR 1) (demoHost.Data (secondaryIR 1) d)
      ∧ ((secondaryIR 1).node ((secondaryIR 1).node
            ((secondaryIR 1).node (demoHost.Data (secondaryIR 1) d)).gtOp2).gtOp1).ssaNum
          = ((secondaryIR 1).node ((secondaryIR 1).node
              (demoHost.gtEffectiveVal (secondaryIR 1)
                ((secondaryIR 1).node (demoHost.Data (secondaryIR 1) d)).gtOp1)).gtOp1).ssaNum
      ∧ 81 = demoHost.gtEffectiveVal (secondaryIR 1)
              ((secondaryIR 1).node (demoHost.Data (secondaryIR 1) d)).gtOp1 :=
  ⟨secondaryIR_ssa_form, secondaryIR_in_order, rfl,
   secondary_candidate_same_version demoHost (secondaryIR 1) 88 emptyMap 81
    secondaryIR_ssa_form secondaryIR_in_order rfl rfl⟩

/-! ## The null checks of the map during the scan -/

/-- The entries of a map stay `GT_NULLCHECK` nodes in a state that keeps the
`GT_NULLCHECK` nodes of the state. -/
theorem mapHoldsNullChecks_of_keeps (c c1 : Compiler) (m : LocalNumberToNullCheckTreeMap)
    (hk : ∀ t, (c.node t).gtOper = genTreeOps.GT_NULLCHECK →
      (c1.node t).gtOper = genTreeOps.GT_NULLCHECK)
    (h : mapHoldsNullChecks c m) : mapHoldsNullChecks c1 m :=
  fun n t hn => hk t (h n t hn)

/-- The entries of the map without one of its entries are entries of the map. -/
theorem mapHoldsNullChecks_remove (c : Compiler) (m : LocalNumberToNullCheckTreeMap) (key : Nat)
    (h : mapHoldsNullChecks c m) : mapHoldsNullChecks c (m.Remove key) := by
  intro n t hn
  unfold LocalNumberToNullCheckTreeMap.Remove at hn
  split at hn
  · exact absurd hn (by simp)
  · exact h n t hn

/-- Lines 356-360 record a node that is a `GT_NULLCHECK` in the state of the
call. -/
theorem recordNullCheck_holds_null_checks (c : Compiler) (tree : NodeId)
    (m : LocalNumberToNullCheckTreeMap) (folded : Bool) (h : mapHoldsNullChecks c m) :
    mapHoldsNullChecks (recordNullCheck c tree m folded).comp
      (recordNullCheck c tree m folded).nullCheckMap := by
  rw [(recordNullCheck_comp c tree m folded).1]
  by_cases hshape : isNullCheckOfLocal c tree
  · rw [(recordNullCheck_map c tree m folded).1 hshape]
    intro n t hn
    unfold LocalNumberToNullCheckTreeMap.Set at hn
    split at hn
    · cases Option.some.inj hn
      exact hshape.1
    · exact h n t hn
  · rw [(recordNullCheck_map c tree m folded).2 hshape]
    exact h

/-- The re-morph of lines 347-351 keeps the `GT_NULLCHECK` nodes, when the
code that it calls does. -/
theorem remorph_keeps_null_checks (D : DriverHost) (hhost : hostKeepsNullChecks D)
    (c : Compiler) (nullCheckStmt : StmtId) (t : NodeId)
    (h : (c.node t).gtOper = genTreeOps.GT_NULLCHECK) :
    ((remorphNullCheckStmt D.toJitHost c nullCheckStmt).node t).gtOper
      = genTreeOps.GT_NULLCHECK := by
  unfold remorphNullCheckStmt
  exact hhost.2.1 _ _ _ t (hhost.1 c _ _ t h)

/-- A call of `optFoldNullCheck` leaves a map whose entries are `GT_NULLCHECK`
nodes in the state that it leaves, when the entries of the map on entry are
`GT_NULLCHECK` nodes in the state on entry. -/
theorem optFoldNullCheck_holds_null_checks (D : DriverHost) (hhost : hostKeepsNullChecks D)
    (c : Compiler) (tree : NodeId) (m : LocalNumberToNullCheckTreeMap) (res : FoldResult)
    (hres : optFoldNullCheck D.toJitHost c tree m = Except.ok res)
    (h : mapHoldsNullChecks c m) : mapHoldsNullChecks res.comp res.nullCheckMap := by
  rcases optFoldNullCheck_cases D.toJitHost c tree m res hres with hcase | ⟨nct, r, _, hcase⟩
  · subst hcase
    exact recordNullCheck_holds_null_checks c tree m false h
  · subst hcase
    apply recordNullCheck_holds_null_checks
    apply mapHoldsNullChecks_of_keeps c _ _ _ (mapHoldsNullChecks_remove c m _ h)
    intro t ht
    apply remorph_keeps_null_checks D hhost
    rw [(foldFlagUpdates_keeps c tree nct r.nullCheckParent t).1]
    exact ht

/-- A call of `optEarlyPropRewriteTree` leaves a map whose entries are
`GT_NULLCHECK` nodes in the state that it leaves. -/
theorem rewriteTree_holds_null_checks (D : DriverHost) (hhost : hostKeepsNullChecks D)
    (c : Compiler) (tree : NodeId) (m : LocalNumberToNullCheckTreeMap) (r : RewriteResult)
    (hr : optEarlyPropRewriteTree D.toJitHost c tree m = Except.ok r)
    (h : mapHoldsNullChecks c m) : mapHoldsNullChecks r.comp r.nullCheckMap := by
  obtain ⟨s, hs, hmap, hcomp⟩ := rewriteTree_state D.toJitHost c tree m r hr
  have hstep : mapHoldsNullChecks s.comp s.nullCheckMap := by
    rcases rewriteTreeStep_state D.toJitHost c tree m s hs with ⟨hc, hm⟩ | ⟨res, hres, hc, hm⟩
    · rw [hc, hm]; exact h
    · rw [hc, hm]; exact optFoldNullCheck_holds_null_checks D hhost c tree m res hres h
  rw [hmap]
  rcases hcomp with hc | ⟨check, comma, stmt, hc⟩
  · rw [hc]; exact hstep
  · rw [hc]
    exact mapHoldsNullChecks_of_keeps s.comp _ _
      (fun t ht => hhost.2.2.1 s.comp check comma stmt t ht) hstep

/-- At every point of the scan of a block every entry of the map is, in the
state of that point, a `GT_NULLCHECK` node, when the code that the phase calls
turns no `GT_NULLCHECK` node into another node. -/
theorem blockScan_holds_null_checks (D : DriverHost) (hhost : hostKeepsNullChecks D)
    (B : BlockId) (c : Compiler) (m : LocalNumberToNullCheckTreeMap) (visited : List NodeId)
    (h : BlockScan D B c m visited) : mapHoldsNullChecks c m := by
  induction h with
  | start c => intro n t hn; exact absurd hn (by simp)
  | setStmt c m visited stmt _ ih => exact ih
  | rewrite c m visited tree r _ hr ih =>
    exact rewriteTree_holds_null_checks D hhost c tree m r hr ih
  | updateSideEffects c m visited stmt rewrittenTree _ ih =>
    exact mapHoldsNullChecks_of_keeps c _ m (fun t ht => hhost.2.2.2.1 c stmt rewrittenTree t ht) ih
  | setStmtSeq c m visited stmt _ ih =>
    exact mapHoldsNullChecks_of_keeps c _ m
      (fun t ht => hhost.2.2.2.2.2 _ stmt t (hhost.2.2.2.2.1 c stmt t ht)) ih

/-- The host of the examples turns no `GT_NULLCHECK` node into another node. -/
theorem demoDriverHost_keeps_null_checks : hostKeepsNullChecks demoDriverHost :=
  ⟨fun _ _ _ _ h => h, fun _ _ _ _ h => h, fun _ _ _ _ _ h => h, fun _ _ _ _ h => h,
    fun _ _ _ h => h, fun _ _ _ h => h⟩

/-- C30.  Every candidate that `optFindNullCheckToFold` returns during the
scan of a block, by either pattern, is a `GT_NULLCHECK` node whose operand is a
`GT_LCL_VAR`, and it still is one after the flag updates of a fold, where
`optFoldNullCheck` reads the local number of the operand to remove the map
entry (line 345): the read is the read of a local node.  The map invariant
that the map pattern needs, that every entry of the map is a `GT_NULLCHECK`
node in the state of the lookup, holds at every point of the scan, on the
assumption that the code that the phase calls (the re-morph of the fold, the
removal of a bounds check, the updates of the statement) turns no
`GT_NULLCHECK` node into a node of another operator. -/
theorem candidate_is_null_check (D : DriverHost) (B : BlockId) (c : Compiler)
    (nullCheckMap : LocalNumberToNullCheckTreeMap) (visited : List NodeId) (tree nc : NodeId)
    (hhost : hostKeepsNullChecks D)
    (hscan : BlockScan D B c nullCheckMap visited)
    (hfind : optFindNullCheckToFold D.toJitHost c tree nullCheckMap = some nc) :
    mapHoldsNullChecks c nullCheckMap
    ∧ isNullCheckOfLocal c nc
    ∧ ∀ nullCheckParent : Option NodeId,
        isNullCheckOfLocal (foldFlagUpdates c tree nc nullCheckParent) nc :=
  ⟨blockScan_holds_null_checks D hhost B c nullCheckMap visited hscan,
   candidate_of_map_holding_null_checks D.toJitHost c tree nullCheckMap nc
    (blockScan_holds_null_checks D hhost B c nullCheckMap visited hscan) hfind⟩

/-- C30 (witness): in the scan of block 0 of `sameStmtIR`, after the null
check 41 was scanned and recorded, the candidate 41 for the indirection 45
comes from the map; in the scan of block 0 of `secondaryIR 1`, with nothing
scanned yet, the candidate 81 for the indirection 88 comes from the
definition of the base. -/
theorem candidate_is_null_check_witness :
    hostKeepsNullChecks demoDriverHost
    ∧ BlockScan demoDriverHost 0 (sameStmtIR constEight) (emptyMap.Set 0 41) [41]
    ∧ optFindNullCheckToFold demoHost (sameStmtIR constEight) 45 (emptyMap.Set 0 41) = some 41
    ∧ mapHoldsNullChecks (sameStmtIR constEight) (emptyMap.Set 0 41)
    ∧ isNullCheckOfLocal (sameStmtIR constEight) 41
    ∧ isNullCheckOfLocal (foldFlagUpdates (sameStmtIR constEight) 45 41 (some 46)) 41
    ∧ BlockScan demoDriverHost 0 (secondaryIR 1) emptyMap []
    ∧ optFindNullCheckToFold demoHost (secondaryIR 1) 88 emptyMap = some 81
    ∧ isNullCheckOfLocal (secondaryIR 1) 81
    ∧ isNullCheckOfLocal (foldFlagUpdates (secondaryIR 1) 88 81 (some 85)) 81 :=
  have hmapped :=
    candidate_is_null_check demoDriverHost 0 (sameStmtIR constEight) (emptyMap.Set 0 41) [41] 45 41
      demoDriverHost_keeps_null_checks
      (BlockScan.rewrite (sameStmtIR constEight) emptyMap [] 41
        { comp := sameStmtIR constEight, nullCheckMap := emptyMap.Set 0 41, tree := none }
        (BlockScan.start (sameStmtIR constEight)) rfl)
      rfl
  have hdefined :=
    candidate_is_null_check demoDriverHost 0 (secondaryIR 1) emptyMap [] 88 81
      demoDriverHost_keeps_null_checks (BlockScan.start (secondaryIR 1)) rfl
  ⟨demoDriverHost_keeps_null_checks,
   BlockScan.rewrite (sameStmtIR constEight) emptyMap [] 41
      { comp := sameStmtIR constEight, nullCheckMap := emptyMap.Set 0 41, tree := none }
      (BlockScan.start (sameStmtIR constEight)) rfl,
   rfl, hmapped.1, hmapped.2.1, hmapped.2.2 (some 46),
   BlockScan.start (secondaryIR 1), rfl, hdefined.2.1, hdefined.2.2 (some 85)⟩

/-! ## A second run of the phase -/

/-- A state holds the same IR as itself. -/
theorem sameIR_refl (c : Compiler) : sameIR c c := ⟨rfl, rfl, rfl, rfl⟩

/-- Holding the same IR is symmetric. -/
theorem sameIR_symm (c c1 : Compiler) (h : sameIR c c1) : sameIR c1 c :=
  ⟨h.1.symm, h.2.1.symm, h.2.2.1.symm, h.2.2.2.symm⟩

/-- Holding the same IR is transitive. -/
theorem sameIR_trans (c c1 c2 : Compiler) (h : sameIR c c1) (h1 : sameIR c1 c2) : sameIR c c2 :=
  ⟨h1.1.trans h.1, h1.2.1.trans h.2.1, h1.2.2.1.trans h.2.2.1, h1.2.2.2.trans h.2.2.2⟩

/-- Two states with the same IR differ, once `compCurBB` is set, in
`compCurStmt` only. -/
theorem sameIR_set_block (c c1 : Compiler) (b : BlockId) (h : sameIR c c1) :
    ({ c1 with compCurBB := b } : Compiler)
      = { ({ c with compCurBB := b } : Compiler) with compCurStmt := c1.compCurStmt } := by
  obtain ⟨h1, h2, h3, h4⟩ := h
  cases c
  cases c1
  simp only at h1 h2 h3 h4
  subst h1 h2 h3 h4
  rfl

/-- Two states with the same IR and the same `compCurBB` are equal once
`compCurStmt` is set. -/
theorem sameIR_set_stmt (c c1 : Compiler) (s : StmtId) (h : sameIR c c1)
    (hb : c1.compCurBB = c.compCurBB) :
    ({ c1 with compCurStmt := s } : Compiler) = { c with compCurStmt := s } := by
  obtain ⟨h1, h2, h3, h4⟩ := h
  cases c
  cases c1
  simp only at h1 h2 h3 h4 hb
  subst h1 h2 h3 h4 hb
  rfl

/-- A call of `optEarlyPropRewriteTree` that folds no null check and removes
no bounds check leaves the state as it is and returns `nullptr`. -/
theorem rewriteTree_without_rewrite (J : JitHost) (c : Compiler) (tree : NodeId)
    (m : LocalNumberToNullCheckTreeMap) (r : RewriteResult)
    (hr : optEarlyPropRewriteTree J c tree m = Except.ok r)
    (hq : ¬ foldsOrRemoves J c m tree) : r.comp = c ∧ r.tree = none := by
  have htree : r.tree = none := by
    cases ht : r.tree with
    | none => rfl
    | some t => exact absurd (returnsTree_fold_or_removal J c m tree ⟨r, t, hr, ht⟩) hq
  refine ⟨?_, htree⟩
  unfold optEarlyPropRewriteTree at hr
  cases hs : optEarlyPropRewriteTreeStep J c tree m with
  | error e => simp [hs] at hr
  | ok s =>
    simp only [hs] at hr
    cases hexit : s.exit with
    | removeRangeCheck check comma stmt =>
      exact absurd (Or.inr ⟨s, check, comma, stmt, hs, hexit⟩) hq
    | ret t =>
      simp only [hexit] at hr
      cases Except.ok.inj hr
      simp only
      by_cases hind : J.OperIsIndirOrArrMetaData (c.node tree).gtOper = true
      · rcases rewriteTreeStep_state J c tree m s hs with ⟨hc, _⟩ | ⟨res, hres, hc, _⟩
        · exact hc
        · rw [hc]
          rcases optFoldNullCheck_cases J c tree m res hres with hcase | ⟨nct, lr, hfold, _⟩
          · rw [hcase]
            exact (recordNullCheck_comp c tree m false).1
          · exact absurd (Or.inl ⟨hind, nct, lr, hfold⟩) hq
      · unfold optEarlyPropRewriteTreeStep at hs
        rw [if_neg hind] at hs
        cases Except.ok.inj hs
        rfl

/-- The loop over the nodes of a statement leaves the state and
`isRewritten` as they are when none of its calls folds a null check or
removes a bounds check. -/
theorem scanTrees_without_rewrite (D : DriverHost) (stmt : StmtId) :
    ∀ (fuel : Nat) (c : Compiler) (m : LocalNumberToNullCheckTreeMap) (cur : Option NodeId)
      (b : Bool) (t : TreeScan),
      scanTrees D stmt fuel c m cur b = Except.ok t →
      (∀ cv mv tree, TreeVisit D stmt c m cur cv mv tree →
        ¬ foldsOrRemoves D.toJitHost cv mv tree) →
      t.comp = c ∧ t.isRewritten = b := by
  intro fuel
  induction fuel with
  | zero =>
    intro c m cur b t h _
    cases cur with
    | none =>
      unfold scanTrees at h
      cases Except.ok.inj h
      exact ⟨rfl, rfl⟩
    | some tree => simp [scanTrees] at h
  | succ f ih =>
    intro c m cur b t h hq
    cases cur with
    | none =>
      unfold scanTrees at h
      cases Except.ok.inj h
      exact ⟨rfl, rfl⟩
    | some tree =>
      cases hr : optEarlyPropRewriteTree D.toJitHost c tree m with
      | error e =>
        unfold scanTrees at h
        simp [hr] at h
      | ok r =>
        rw [scanTrees_step D stmt f c m tree b r hr] at h
        obtain ⟨hcomp, htree⟩ :=
          rewriteTree_without_rewrite D.toJitHost c tree m r hr
            (hq c m tree (TreeVisit.here c m tree))
        have hafter : (afterRewrite D stmt tree r).1 = c := by
          unfold afterRewrite
          rw [htree]
          exact hcomp
        obtain ⟨h1, h2⟩ := ih _ _ _ _ t h
          (fun cv mv visited hv =>
            hq cv mv visited (TreeVisit.next c m tree r cv mv visited hr hv))
        rw [hafter] at h1
        refine ⟨h1, ?_⟩
        rw [h2, htree]
        simp

/-- The loop over the statements of a block leaves the IR, `compCurBB` and
`numChanges` as they are when none of the calls made for the nodes of its
statements folds a null check or removes a bounds check. -/
theorem scanStmts_without_rewrite (D : DriverHost) (treeFuel : Nat) :
    ∀ (fuel : Nat) (c : Compiler) (m : LocalNumberToNullCheckTreeMap) (cur : Option StmtId)
      (n : Nat) (s : StmtScan),
      scanStmts D treeFuel fuel c m cur n = Except.ok s →
      (∀ cs ms stmt, StmtVisit D treeFuel c m cur cs ms stmt →
        ∀ cv mv tree,
          TreeVisit D stmt { cs with compCurStmt := stmt } ms (cs.stmt stmt).treeList cv mv tree →
          ¬ foldsOrRemoves D.toJitHost cv mv tree) →
      sameIR c s.comp ∧ s.comp.compCurBB = c.compCurBB ∧ s.numChanges = n := by
  intro fuel
  induction fuel with
  | zero =>
    intro c m cur n s h _
    cases cur with
    | none =>
      unfold scanStmts at h
      cases Except.ok.inj h
      exact ⟨sameIR_refl c, rfl, rfl⟩
    | some stmt => simp [scanStmts] at h
  | succ f ih =>
    intro c m cur n s h hq
    cases cur with
    | none =>
      unfold scanStmts at h
      cases Except.ok.inj h
      exact ⟨sameIR_refl c, rfl, rfl⟩
    | some stmt =>
      cases hscanned : stmtScanned D c stmt with
      | false =>
        rw [scanStmts_skip D treeFuel f c m stmt n hscanned] at h
        exact ih _ _ _ _ s h
          (fun cs ms scanned hv =>
            hq cs ms scanned (StmtVisit.skip c m stmt cs ms scanned hscanned hv))
      | true =>
        cases ht : scanTrees D stmt treeFuel { c with compCurStmt := stmt } m
            (c.stmt stmt).treeList false with
        | error e =>
          rw [scanStmts_scan_error D treeFuel f c m stmt n e hscanned ht] at h
          exact absurd h (by simp)
        | ok t =>
          rw [scanStmts_scan D treeFuel f c m stmt n t hscanned ht] at h
          obtain ⟨htc, htb⟩ := scanTrees_without_rewrite D stmt treeFuel _ _ _ false t ht
            (hq c m stmt (StmtVisit.here c m stmt hscanned))
          have hafter : afterStmt D stmt t = { c with compCurStmt := stmt } := by
            unfold afterStmt
            rw [htb]
            simpa using htc
          rw [htb] at h
          simp only [Bool.false_eq_true, if_false] at h
          obtain ⟨h1, h2, h3⟩ := ih _ _ _ _ s h
            (fun cs ms scanned hv =>
              hq cs ms scanned (StmtVisit.next c m stmt t cs ms scanned hscanned ht hv))
          rw [hafter] at h1 h2
          exact ⟨h1, h2, h3⟩

/-- The loop over the blocks leaves the IR and `numChanges` as they are when
none of its calls of `optEarlyPropRewriteTree` folds a null check or removes a
bounds check. -/
theorem scanBlocks_without_rewrite (D : DriverHost) (treeFuel stmtFuel : Nat) :
    ∀ (blocks : List BlockId) (c : Compiler) (n : Nat) (c1 : Compiler) (n1 : Nat),
      scanBlocks D treeFuel stmtFuel blocks c n = Except.ok (c1, n1) →
      (∀ cv mv tree, PhaseVisit D treeFuel stmtFuel blocks c n cv mv tree →
        ¬ foldsOrRemoves D.toJitHost cv mv tree) →
      sameIR c c1 ∧ n1 = n := by
  intro blocks
  induction blocks with
  | nil =>
    intro c n c1 n1 h _
    unfold scanBlocks at h
    cases Except.ok.inj h
    exact ⟨sameIR_refl c, rfl⟩
  | cons block rest ih =>
    intro c n c1 n1 h hq
    unfold scanBlocks at h
    cases hs : scanBlock D treeFuel stmtFuel c block n with
    | error e => simp [hs] at h
    | ok s =>
      simp only [hs] at h
      have hs' := hs
      unfold scanBlock at hs'
      obtain ⟨h1, _, h3⟩ := scanStmts_without_rewrite D treeFuel stmtFuel _ _ _ _ s hs'
        (fun cs ms stmt hv cv mv tree htv =>
          hq cv mv tree ⟨c, block, cs, ms, stmt, BlockVisit.here block rest c n, hv, htv⟩)
      obtain ⟨h4, h5⟩ := ih _ _ _ _ h
        (fun cv mv tree hv => by
          obtain ⟨cb, scanned, cs, ms, stmt, hb, hsv, htv⟩ := hv
          exact hq cv mv tree
            ⟨cb, scanned, cs, ms, stmt, BlockVisit.next block rest c n s cb scanned hs hb, hsv, htv⟩)
      exact ⟨sameIR_trans c s.comp c1 h1 h4, h5.trans h3⟩

/-- The loop over the statements of a block does not depend on the value of
`compCurStmt` on entry: from a state that differs in `compCurStmt` only it
returns the same map and the same `numChanges`, in a state with the same IR. -/
theorem scanStmts_other_stmt (D : DriverHost) (treeFuel : Nat) (s0 : StmtId) :
    ∀ (fuel : Nat) (c : Compiler) (m : LocalNumberToNullCheckTreeMap) (cur : Option StmtId)
      (n : Nat) (r : StmtScan),
      scanStmts D treeFuel fuel c m cur n = Except.ok r →
      ∃ r1, scanStmts D treeFuel fuel { c with compCurStmt := s0 } m cur n = Except.ok r1
        ∧ r1.nullCheckMap = r.nullCheckMap ∧ r1.numChanges = r.numChanges
        ∧ sameIR r.comp r1.comp ∧ r1.comp.compCurBB = r.comp.compCurBB := by
  intro fuel
  induction fuel with
  | zero =>
    intro c m cur n r h
    cases cur with
    | none =>
      unfold scanStmts at h
      cases Except.ok.inj h
      exact ⟨{ comp := { c with compCurStmt := s0 }, nullCheckMap := m, numChanges := n },
        by unfold scanStmts; rfl, rfl, rfl, ⟨rfl, rfl, rfl, rfl⟩, rfl⟩
    | some stmt => simp [scanStmts] at h
  | succ f ih =>
    intro c m cur n r h
    cases cur with
    | none =>
      unfold scanStmts at h
      cases Except.ok.inj h
      exact ⟨{ comp := { c with compCurStmt := s0 }, nullCheckMap := m, numChanges := n },
        by unfold scanStmts; rfl, rfl, rfl, ⟨rfl, rfl, rfl, rfl⟩, rfl⟩
    | some stmt =>
      cases hscanned : stmtScanned D c stmt with
      | false =>
        have hscanned1 : stmtScanned D { c with compCurStmt := s0 } stmt = false := hscanned
        rw [scanStmts_skip D treeFuel f c m stmt n hscanned] at h
        rw [scanStmts_skip D treeFuel f { c with compCurStmt := s0 } m stmt n hscanned1]
        exact ih _ _ _ _ r h
      | true =>
        have hscanned1 : stmtScanned D { c with compCurStmt := s0 } stmt = true := hscanned
        cases ht : scanTrees D stmt treeFuel { c with compCurStmt := stmt } m
            (c.stmt stmt).treeList false with
        | error e =>
          rw [scanStmts_scan_error D treeFuel f c m stmt n e hscanned ht] at h
          exact absurd h (by simp)
        | ok t =>
          rw [scanStmts_scan D treeFuel f c m stmt n t hscanned ht] at h
          rw [scanStmts_scan D treeFuel f { c with compCurStmt := s0 } m stmt n t hscanned1 ht]
          exact ⟨r, h, rfl, rfl, sameIR_refl r.comp, rfl⟩

/-- The scan of a block does not depend on `compCurBB` and `compCurStmt` on
entry: from a state with the same IR it returns the same `numChanges`, in a
state with the same IR. -/
theorem scanBlock_same_ir (D : DriverHost) (hfirst : firstStmtOfBlock D)
    (treeFuel stmtFuel : Nat) (c c1 : Compiler) (block : BlockId) (n : Nat) (s : StmtScan)
    (hsame : sameIR c c1)
    (h : scanBlock D treeFuel stmtFuel c block n = Except.ok s) :
    ∃ s1, scanBlock D treeFuel stmtFuel c1 block n = Except.ok s1
      ∧ s1.numChanges = s.numChanges ∧ sameIR s.comp s1.comp := by
  unfold scanBlock at h ⊢
  simp only at h ⊢
  rw [sameIR_set_block c c1 block hsame, hfirst]
  obtain ⟨r1, hr1, _, hn, hir, _⟩ :=
    scanStmts_other_stmt D treeFuel c1.compCurStmt stmtFuel _ _ _ _ s h
  exact ⟨r1, hr1, hn, hir⟩

/-- The loop over the blocks does not depend on `compCurBB` and `compCurStmt`
on entry. -/
theorem scanBlocks_same_ir (D : DriverHost) (hfirst : firstStmtOfBlock D)
    (treeFuel stmtFuel : Nat) :
    ∀ (blocks : List BlockId) (c c1 : Compiler) (n : Nat) (c2 : Compiler) (n2 : Nat),
      sameIR c c1 →
      scanBlocks D treeFuel stmtFuel blocks c n = Except.ok (c2, n2) →
      ∃ c3, scanBlocks D treeFuel stmtFuel blocks c1 n = Except.ok (c3, n2) ∧ sameIR c2 c3 := by
  intro blocks
  induction blocks with
  | nil =>
    intro c c1 n c2 n2 hsame h
    unfold scanBlocks at h
    cases Except.ok.inj h
    exact ⟨c1, by unfold scanBlocks; rfl, hsame⟩
  | cons block rest ih =>
    intro c c1 n c2 n2 hsame h
    unfold scanBlocks at h
    cases hs : scanBlock D treeFuel stmtFuel c block n with
    | error e => simp [hs] at h
    | ok s =>
      simp only [hs] at h
      obtain ⟨s1, hs1, hn, hir⟩ :=
        scanBlock_same_ir D hfirst treeFuel stmtFuel c c1 block n s hsame hs
      obtain ⟨c3, h3, hir3⟩ := ih s.comp s1.comp s.numChanges c2 n2 hir h
      refine ⟨c3, ?_, hir3⟩
      unfold scanBlocks
      simp only [hs1, hn]
      exact h3

/-- The statements that the loop over the statements scans do not depend on
`compCurStmt` on entry. -/
theorem stmtVisit_other_stmt (D : DriverHost) (treeFuel : Nat) (c0 : Compiler)
    (m : LocalNumberToNullCheckTreeMap) (cur : Option StmtId) (cs1 : Compiler)
    (ms : LocalNumberToNullCheckTreeMap) (stmt : StmtId)
    (h : StmtVisit D treeFuel c0 m cur cs1 ms stmt) :
    ∀ (c : Compiler) (s0 : StmtId), c0 = { c with compCurStmt := s0 } →
      ∃ cs, StmtVisit D treeFuel c m cur cs ms stmt ∧ sameIR cs cs1
        ∧ cs1.compCurBB = cs.compCurBB := by
  induction h with
  | here c0 m stmt hs =>
    intro c s0 hc
    subst hc
    exact ⟨c, StmtVisit.here c m stmt hs, ⟨rfl, rfl, rfl, rfl⟩, rfl⟩
  | skip c0 m stmt cs1 ms scanned hs _ ih =>
    intro c s0 hc
    subst hc
    obtain ⟨cs, hv, hir, hb⟩ := ih c s0 rfl
    exact ⟨cs, StmtVisit.skip c m stmt cs ms scanned hs hv, hir, hb⟩
  | next c0 m stmt t cs1 ms scanned hs ht hv _ =>
    intro c s0 hc
    subst hc
    exact ⟨cs1, StmtVisit.next c m stmt t cs1 ms scanned hs ht hv, sameIR_refl cs1, rfl⟩

/-- The blocks that the loop over the blocks scans, and the IR in which it
scans them, do not depend on `compCurBB` and `compCurStmt` on entry. -/
theorem blockVisit_same_ir (D : DriverHost) (hfirst : firstStmtOfBlock D)
    (treeFuel stmtFuel : Nat) (blocks : List BlockId) (c1 : Compiler) (n : Nat)
    (cb1 : Compiler) (block : BlockId)
    (h : BlockVisit D treeFuel stmtFuel blocks c1 n cb1 block) :
    ∀ c, sameIR c c1 →
      ∃ cb, BlockVisit D treeFuel stmtFuel blocks c n cb block ∧ sameIR cb cb1 := by
  induction h with
  | here block rest c1 n =>
    intro c hsame
    exact ⟨c, BlockVisit.here block rest c n, hsame⟩
  | next block rest c1 n s1 cb1 scanned hs1 _ ih =>
    intro c hsame
    obtain ⟨s, hs, hn, hir⟩ :=
      scanBlock_same_ir D hfirst treeFuel stmtFuel c1 c block n s1 (sameIR_symm c c1 hsame) hs1
    obtain ⟨cb, hb, hcb⟩ := ih s.comp (sameIR_symm s1.comp s.comp hir)
    rw [← hn] at hb
    exact ⟨cb, BlockVisit.next block rest c n s cb scanned hs hb, hcb⟩

/-- The calls of `optEarlyPropRewriteTree` that a run of the loops makes do
not depend on `compCurBB` and `compCurStmt` on entry: a run from a state with
the same IR makes the same calls, in the same states. -/
theorem phaseVisit_same_ir (D : DriverHost) (hfirst : firstStmtOfBlock D)
    (treeFuel stmtFuel : Nat) (blocks : List BlockId) (c c1 : Compiler) (n : Nat)
    (cv : Compiler) (mv : LocalNumberToNullCheckTreeMap) (tree : NodeId)
    (hsame : sameIR c c1)
    (h : PhaseVisit D treeFuel stmtFuel blocks c1 n cv mv tree) :
    PhaseVisit D treeFuel stmtFuel blocks c n cv mv tree := by
  obtain ⟨cb1, block, cs1, ms, stmt, hb, hs, ht⟩ := h
  obtain ⟨cb, hb0, hcb⟩ := blockVisit_same_ir D hfirst treeFuel stmtFuel blocks c1 n cb1 block hb
    c hsame
  rw [sameIR_set_block cb cb1 block hcb, hfirst] at hs
  obtain ⟨cs, hs0, hcs, hbb⟩ :=
    stmtVisit_other_stmt D treeFuel _ _ _ cs1 ms stmt hs { cb with compCurBB := block }
      cb1.compCurStmt rfl
  rw [sameIR_set_stmt cs cs1 stmt hcs hbb, hcs.2.1] at ht
  exact ⟨cb, block, cs, ms, stmt, hb0, hs0, ht⟩

/-- A call of `optEarlyPropRewriteTree` for which the finder has no candidate
and which does not end with `optRemoveRangeCheck` folds no null check and
removes no bounds check. -/
theorem no_rewrite_without_candidate (J : JitHost) (c : Compiler)
    (m : LocalNumberToNullCheckTreeMap) (tree : NodeId) (s : RewriteStep) (t : Option NodeId)
    (hfind : optFindNullCheckToFold J c tree m = none)
    (hstep : optEarlyPropRewriteTreeStep J c tree m = Except.ok s)
    (hexit : s.exit = RewriteExit.ret t) : ¬ foldsOrRemoves J c m tree := by
  rintro (⟨_, nct, lr, hf, _⟩ | ⟨s1, check, comma, stmt, hs1, he⟩)
  · rw [hfind] at hf
    exact absurd hf (by simp)
  · rw [hstep] at hs1
    cases Except.ok.inj hs1
    rw [hexit] at he
    exact absurd he (by simp)

/-- The loop over the nodes of a statement makes no call once it has reached
the end of the statement. -/
theorem treeVisit_all_none (D : DriverHost) (stmt : StmtId)
    (P : Compiler → LocalNumberToNullCheckTreeMap → NodeId → Prop) (c : Compiler)
    (m : LocalNumberToNullCheckTreeMap) :
    ∀ cv mv t, TreeVisit D stmt c m none cv mv t → P cv mv t := by
  intro cv mv t h
  cases h

/-- The calls of the loop over the nodes of a statement, from the node
`tree`: the call for `tree`, and the calls from the node after it. -/
theorem treeVisit_all_some (D : DriverHost) (stmt : StmtId)
    (P : Compiler → LocalNumberToNullCheckTreeMap → NodeId → Prop) (c : Compiler)
    (m : LocalNumberToNullCheckTreeMap) (tree : NodeId) (r : RewriteResult)
    (hr : optEarlyPropRewriteTree D.toJitHost c tree m = Except.ok r)
    (hP : P c m tree)
    (hrest : ∀ cv mv t, TreeVisit D stmt (afterRewrite D stmt tree r).1 r.nullCheckMap
        (afterRewrite D stmt tree r).2 cv mv t → P cv mv t) :
    ∀ cv mv t, TreeVisit D stmt c m (some tree) cv mv t → P cv mv t := by
  intro cv mv t h
  cases h with
  | here => exact hP
  | next _ _ _ r1 _ _ _ hr1 hv =>
    rw [hr] at hr1
    cases Except.ok.inj hr1
    exact hrest cv mv t hv

/-- The loop over the statements of a block scans no statement once it has
reached the end of the block. -/
theorem stmtVisit_all_none (D : DriverHost) (treeFuel : Nat)
    (P : Compiler → LocalNumberToNullCheckTreeMap → StmtId → Prop) (c : Compiler)
    (m : LocalNumberToNullCheckTreeMap) :
    ∀ cs ms s, StmtVisit D treeFuel c m none cs ms s → P cs ms s := by
  intro cs ms s h
  cases h

/-- The statements that the loop over the statements scans, from a statement
that it scans: that statement, and the statements from the next one. -/
theorem stmtVisit_all_scan (D : DriverHost) (treeFuel : Nat)
    (P : Compiler → LocalNumberToNullCheckTreeMap → StmtId → Prop) (c : Compiler)
    (m : LocalNumberToNullCheckTreeMap) (stmt : StmtId) (t : TreeScan)
    (hs : stmtScanned D c stmt = true)
    (ht : scanTrees D stmt treeFuel { c with compCurStmt := stmt } m (c.stmt stmt).treeList false
      = Except.ok t)
    (hP : P c m stmt)
    (hrest : ∀ cs ms s, StmtVisit D treeFuel (afterStmt D stmt t) t.nullCheckMap
        (c.stmt stmt).nextStmt cs ms s → P cs ms s) :
    ∀ cs ms s, StmtVisit D treeFuel c m (some stmt) cs ms s → P cs ms s := by
  intro cs ms s h
  cases h with
  | here _ _ _ _ => exact hP
  | skip _ _ _ _ _ _ hs1 _ => rw [hs] at hs1; exact absurd hs1 (by simp)
  | next _ _ _ t1 _ _ _ _ ht1 hv =>
    rw [ht] at ht1
    cases Except.ok.inj ht1
    exact hrest cs ms s hv

/-- C28 (amended).  When the first run of `optEarlyProp` performs no rewrite
(at no node that it scans a null check is folded or a bounds check removed),
it returns `MODIFIED_NOTHING` and leaves the IR as it was, and a second run,
on the state that the first run left, returns too, performs no rewrite,
returns `MODIFIED_NOTHING` and leaves the IR as it was.  The phase reads
`compCurBB` and `compCurStmt` only after it has set them, and the first
statement of a block does not depend on them. -/
theorem second_run_without_rewrite (D : DriverHost) (treeFuel stmtFuel : Nat)
    (optMethodFlags : OptMethodFlags) (blocks : List BlockId) (c : Compiler) (res1 : PhaseResult)
    (hfirst : firstStmtOfBlock D)
    (hrun : optEarlyProp D treeFuel stmtFuel optMethodFlags blocks c = Except.ok res1)
    (hquiet : runsWithoutRewrite D treeFuel stmtFuel optMethodFlags blocks c) :
    res1.status = PhaseStatus.MODIFIED_NOTHING
    ∧ sameIR c res1.comp
    ∧ ∃ res2, optEarlyProp D treeFuel stmtFuel optMethodFlags blocks res1.comp = Except.ok res2
        ∧ runsWithoutRewrite D treeFuel stmtFuel optMethodFlags blocks res1.comp
        ∧ res2.status = PhaseStatus.MODIFIED_NOTHING
        ∧ sameIR res1.comp res2.comp := by
  unfold optEarlyProp at hrun ⊢
  cases hflag : optDoEarlyPropForFunc optMethodFlags with
  | false =>
    simp only [hflag, Bool.not_false, if_true] at hrun ⊢
    cases Except.ok.inj hrun
    exact ⟨rfl, sameIR_refl c, _, rfl,
      fun h => absurd h (by rw [hflag]; simp), rfl, sameIR_refl c⟩
  | true =>
    simp only [hflag, Bool.not_true, Bool.false_eq_true, if_false] at hrun ⊢
    cases hs : scanBlocks D treeFuel stmtFuel blocks c 0 with
    | error e => simp [hs] at hrun
    | ok p =>
      obtain ⟨c1, n1⟩ := p
      simp only [hs] at hrun
      cases Except.ok.inj hrun
      obtain ⟨hir, hn⟩ := scanBlocks_without_rewrite D treeFuel stmtFuel blocks c 0 c1 n1 hs
        (hquiet hflag)
      subst hn
      obtain ⟨c3, hs3, hir3⟩ :=
        scanBlocks_same_ir D hfirst treeFuel stmtFuel blocks c c1 0 c1 0 hir hs
      refine ⟨by simp, hir, ?_⟩
      simp only [hs3]
      refine ⟨_, rfl, ?_, by simp, hir3⟩
      intro _ cv mv tree hv
      exact hquiet hflag cv mv tree
        (phaseVisit_same_ir D hfirst treeFuel stmtFuel blocks c c1 0 cv mv tree hir hv)

/-- The run of `optEarlyProp` on `redefIR` performs no rewrite: the null check
71 of `x@1` is no candidate for the indirection 76 of `x@2`. -/
theorem redefIR_runs_without_rewrite :
    runsWithoutRewrite demoDriverHost 8 4 bothFlags [0] redefIR := by
  intro _ cv mv tree hv
  obtain ⟨cb, block, cs, ms, stmt, hb, hs, ht⟩ := hv
  have hstmts : ∀ cs ms stmt,
      StmtVisit demoDriverHost 8 { redefIR with compCurBB := 0 } (fun _ => none) (some 1)
        cs ms stmt →
      ∀ cv mv tree,
        TreeVisit demoDriverHost stmt { cs with compCurStmt := stmt } ms (cs.stmt stmt).treeList
          cv mv tree →
        ¬ foldsOrRemoves demoHost cv mv tree := by
    refine stmtVisit_all_scan demoDriverHost 8 _ _ _ 1 _ rfl rfl ?_ ?_
    · refine treeVisit_all_some demoDriverHost 1 _ _ _ 70 _ rfl
        (no_rewrite_without_candidate demoHost _ _ 70 _ _ rfl rfl rfl) ?_
      refine treeVisit_all_some demoDriverHost 1 _ _ _ 71 _ rfl
        (no_rewrite_without_candidate demoHost _ _ 71 _ _ rfl rfl rfl) ?_
      exact treeVisit_all_none demoDriverHost 1 _ _ _
    · refine stmtVisit_all_scan demoDriverHost 8 _ _ _ 2 _ rfl rfl ?_ ?_
      · refine treeVisit_all_some demoDriverHost 2 _ _ _ 73 _ rfl
          (no_rewrite_without_candidate demoHost _ _ 73 _ _ rfl rfl rfl) ?_
        refine treeVisit_all_some demoDriverHost 2 _ _ _ 74 _ rfl
          (no_rewrite_without_candidate demoHost _ _ 74 _ _ rfl rfl rfl) ?_
        exact treeVisit_all_none demoDriverHost 2 _ _ _
      · refine stmtVisit_all_scan demoDriverHost 8 _ _ _ 3 _ rfl rfl ?_ ?_
        · refine treeVisit_all_some demoDriverHost 3 _ _ _ 75 _ rfl
            (no_rewrite_without_candidate demoHost _ _ 75 _ _ rfl rfl rfl) ?_
          refine treeVisit_all_some demoDriverHost 3 _ _ _ 76 _ rfl
            (no_rewrite_without_candidate demoHost _ _ 76 _ _ rfl rfl rfl) ?_
          exact treeVisit_all_none demoDriverHost 3 _ _ _
        · exact stmtVisit_all_none demoDriverHost 8 _ _ _
  cases hb with
  | here => exact hstmts cs ms stmt hs cv mv tree ht
  | next _ _ _ _ s _ _ _ hb1 => cases hb1

/-- The first statement of a block of the examples does not depend on
`compCurStmt`. -/
theorem demoDriverHost_first_stmt : firstStmtOfBlock demoDriverHost := fun _ _ _ => rfl

/-- C28 (witness): on `redefIR`, where the null check of `x@1` cannot be
folded into the indirection of `x@2`, the first run performs no rewrite, and
neither does the second. -/
theorem second_run_without_rewrite_witness :
    firstStmtOfBlock demoDriverHost
    ∧ runsWithoutRewrite demoDriverHost 8 4 bothFlags [0] redefIR
    ∧ ∃ res1, optEarlyProp demoDriverHost 8 4 bothFlags [0] redefIR = Except.ok res1
      ∧ res1.status = PhaseStatus.MODIFIED_NOTHING
      ∧ sameIR redefIR res1.comp
      ∧ ∃ res2, optEarlyProp demoDriverHost 8 4 bothFlags [0] res1.comp = Except.ok res2
          ∧ runsWithoutRewrite demoDriverHost 8 4 bothFlags [0] res1.comp
          ∧ res2.status = PhaseStatus.MODIFIED_NOTHING
          ∧ sameIR res1.comp res2.comp :=
  ⟨demoDriverHost_first_stmt, redefIR_runs_without_rewrite, _, rfl,
   second_run_without_rewrite demoDriverHost 8 4 bothFlags [0] redefIR _
    demoDriverHost_first_stmt rfl redefIR_runs_without_rewrite⟩

/-- The re-morph of `unlinkingHost` turns no `GT_NULLCHECK` node into another
node: it changes links only. -/
theorem unlinkingDriverHost_keeps_null_checks : hostKeepsNullChecks unlinkingDriverHost :=
  ⟨fun _ _ _ _ h => h, fun _ _ _ _ h => h, fun _ _ _ _ _ h => h, fun _ _ _ _ h => h,
    fun _ _ _ h => h, fun _ _ _ h => h⟩

set_option maxRecDepth 100000 in
/-- C28 (counterexample).  On `blockedFoldIR` the first run of `optEarlyProp`
cannot fold the null check 2 of `x` into the indirection 6, because the null
check 4 of `z`, which may throw, stands between them; later in the same scan
it folds the null check 4 into the indirection 8, the re-morph takes the null
check 4 out of the evaluation order, and the run returns
`MODIFIED_EVERYTHING`.  The second run, on the state that the first run left,
finds nothing between the null check 2 and the indirection 6 that blocks the
fold: it folds the null check 2 and returns `MODIFIED_EVERYTHING`.  The same
happens with the host whose re-morph changes nothing, where the null check 4
stays in place, marked as non-faulting. -/
theorem second_run_folds_counterexample :
    (∃ res1 res2 fold1 fold2,
      optEarlyProp unlinkingDriverHost 16 4 bothFlags [0] blockedFoldIR = Except.ok res1
      ∧ res1.status = PhaseStatus.MODIFIED_EVERYTHING
      ∧ optFoldNullCheck unlinkingHost blockedFoldIR 6 ((emptyMap.Set 0 2).Set 1 4)
          = Except.ok fold1
      ∧ fold1.folded = false
      ∧ (res1.comp.node 2).gtFlags.GTF_EXCEPT = true
      ∧ (res1.comp.node 2).gtFlags.GTF_IND_NONFAULTING = false
      ∧ (res1.comp.node 4).gtFlags.GTF_IND_NONFAULTING = true
      ∧ (res1.comp.node 2).gtNext = some 5
      ∧ optEarlyProp unlinkingDriverHost 16 4 bothFlags [0] res1.comp = Except.ok res2
      ∧ res2.status = PhaseStatus.MODIFIED_EVERYTHING
      ∧ optFoldNullCheck unlinkingHost res1.comp 6 (emptyMap.Set 0 2) = Except.ok fold2
      ∧ fold2.folded = true
      ∧ (res2.comp.node 2).gtFlags.GTF_EXCEPT = false
      ∧ (res2.comp.node 2).gtFlags.GTF_IND_NONFAULTING = true)
    ∧ (∃ res1 res2 fold1 fold2,
      optEarlyProp demoDriverHost 16 4 bothFlags [0] blockedFoldIR = Except.ok res1
      ∧ res1.status = PhaseStatus.MODIFIED_EVERYTHING
      ∧ optFoldNullCheck demoHost blockedFoldIR 6 ((emptyMap.Set 0 2).Set 1 4)
          = Except.ok fold1
      ∧ fold1.folded = false
      ∧ (res1.comp.node 2).gtFlags.GTF_EXCEPT = true
      ∧ (res1.comp.node 2).gtFlags.GTF_IND_NONFAULTING = false
      ∧ optEarlyProp demoDriverHost 16 4 bothFlags [0] res1.comp = Except.ok res2
      ∧ res2.status = PhaseStatus.MODIFIED_EVERYTHING
      ∧ optFoldNullCheck demoHost res1.comp 6 ((emptyMap.Set 0 2).Set 1 4) = Except.ok fold2
      ∧ fold2.folded = true
      ∧ (res2.comp.node 2).gtFlags.GTF_EXCEPT = false
      ∧ (res2.comp.node 2).gtFlags.GTF_IND_NONFAULTING = true) :=
  ⟨⟨_, _, _, _, rfl, rfl, rfl, rfl, rfl, rfl, rfl, rfl, rfl, rfl, rfl, rfl, rfl, rfl⟩,
   ⟨_, _, _, _, rfl, rfl, rfl, rfl, rfl, rfl, rfl, rfl, rfl, rfl, rfl, rfl⟩⟩

end EarlyProp
